import Mathlib

/-!
# Branch predictors of `cbp2025_experiment`: a shallow embedding

Each C++ translation unit keeps its predictor in file-level statics.  A unit's statics
become one Lean structure, and each function becomes a function on that structure.

Conventions of the embedding

* `uint8_t`, `uint32_t` values are `Nat`; every operation that can leave the type's range
  is written with an explicit `% 256` or `% 2 ^ 32`.  `int`, `int32_t` values are `Int`.
* A heap array is a `List`; the `NULL` pointer and a zero-length allocation are both the
  empty list (no element of either can be accessed).
* A function returns `Option`.  `none` means that the execution has no defined
  behaviour at that point: an array access outside the allocation, a shift by a negative
  count or by 32 or more, or a signed overflow.  `none` is never an error value returned
  by the code.
* `pc` ranges over `Nat`; the callers pass a `uint32_t`, that is `pc < 2 ^ 32`.
-/

namespace Cbp

/-! ## Integer helpers -/

/-- The expression `(uint32_t)(1 << b)` for an `int b`: defined for `0 ≤ b ≤ 31`. -/
def shl_size (b : Int) : Option Nat :=
  if 0 ≤ b ∧ b ≤ 31 then some (2 ^ b.toNat) else none

/-- The expression `(uint32_t)((1 << b) - 1)` for an `int b`: the shift is defined for
`0 ≤ b ≤ 31`, and the subtraction overflows `int` at `b = 31`. -/
def shl_mask (b : Int) : Option Nat :=
  if 0 ≤ b ∧ b ≤ 30 then some (2 ^ b.toNat - 1) else none

/-- The expression `size - 1` on `uint32_t` (wraps at `size = 0`). -/
def u32_pred (size : Nat) : Nat := (size + (2 ^ 32 - 1)) % 2 ^ 32

/-- Increment of a `uint8_t` stored back into a `uint8_t`. -/
def u8_inc (c : Nat) : Nat := (c + 1) % 256

/-- Decrement of a `uint8_t` stored back into a `uint8_t` (wraps at `c = 0`). -/
def u8_dec (c : Nat) : Nat := (c + 255) % 256

/-! ## onebit_predictor.cc -/

/-- Statics of `onebit_predictor.cc`. -/
structure OneBitState where
  table : List Nat
  mask : Nat
  bits : Int
  deriving DecidableEq, Repr

/-- Values of the statics before any call. -/
def onebit_initial : OneBitState := { table := [], mask := 0, bits := 0 }

/-- `onebit_predictor_init(table_bits)`: every static is overwritten. -/
def onebit_predictor_init (table_bits : Int) : Option OneBitState := do
  let size ← shl_size table_bits
  pure { table := List.replicate size 0, mask := u32_pred size, bits := table_bits }

/-- `onebit_predictor_predict(pc)`. -/
def onebit_predictor_predict (s : OneBitState) (pc : Nat) : Option Nat :=
  let idx := pc &&& s.mask
  s.table[idx]?

/-- `onebit_predictor_train(pc, outcome)`. -/
def onebit_predictor_train (s : OneBitState) (pc outcome : Nat) : Option OneBitState :=
  let idx := pc &&& s.mask
  if idx < s.table.length then
    some { s with table := s.table.set idx (if outcome ≠ 0 then 1 else 0) }
  else none

/-- `onebit_predictor_cleanup()`. -/
def onebit_predictor_cleanup (s : OneBitState) : OneBitState := { s with table := [] }

/-! ## twobit_predictor.cc -/

/-- Statics of `twobit_predictor.cc`. -/
structure TwoBitState where
  table : List Nat
  mask : Nat
  bits : Int
  n_bits : Int
  max_val : Nat
  threshold : Nat
  deriving DecidableEq, Repr

/-- Values of the statics before any call (`n_bits = 2`, `max_val = 3`, `threshold = 2`). -/
def twobit_initial : TwoBitState :=
  { table := [], mask := 0, bits := 0, n_bits := 2, max_val := 3, threshold := 2 }

/-- `twobit_predictor_init(table_bits)`: every static is overwritten.  `n_bits` is set to 2,
so `max_val = (1 << 2) - 1` and `threshold = 1 << 1`. -/
def twobit_predictor_init (table_bits : Int) : Option TwoBitState := do
  let size ← shl_size table_bits
  let max_val ← shl_mask 2
  let threshold ← shl_size (2 - 1)
  pure { table := List.replicate size 1, mask := u32_pred size, bits := table_bits,
         n_bits := 2, max_val := max_val % 256, threshold := threshold % 256 }

/-- `twobit_predictor_predict(pc)`. -/
def twobit_predictor_predict (s : TwoBitState) (pc : Nat) : Option Nat := do
  let idx := pc &&& s.mask
  let counter ← s.table[idx]?
  pure (if counter ≥ s.threshold then 1 else 0)

/-- `twobit_predictor_train(pc, outcome)`. -/
def twobit_predictor_train (s : TwoBitState) (pc outcome : Nat) : Option TwoBitState := do
  let idx := pc &&& s.mask
  let counter ← s.table[idx]?
  if outcome ≠ 0 then
    if counter < s.max_val then pure { s with table := s.table.set idx (u8_inc counter) }
    else pure s
  else
    if counter > 0 then pure { s with table := s.table.set idx (u8_dec counter) }
    else pure s

/-- `twobit_predictor_cleanup()`. -/
def twobit_predictor_cleanup (s : TwoBitState) : TwoBitState := { s with table := [] }

/-- A finite sequence of `twobit_predictor_train(pc, outcome)` calls, in order. -/
def twobit_train_seq (s : TwoBitState) : List (Nat × Nat) → Option TwoBitState
  | [] => some s
  | (pc, outcome) :: rest =>
    (twobit_predictor_train s pc outcome).bind (fun s1 => twobit_train_seq s1 rest)

/-! ## gshare_predictor.cc -/

/-- Statics of `gshare_predictor.cc`. -/
structure GshareState where
  pht : List Nat
  pht_size : Nat
  pht_mask : Nat
  global_history : Nat
  history_mask : Nat
  history_bits : Int
  deriving DecidableEq, Repr

/-- Values of the statics before any call. -/
def gshare_initial : GshareState :=
  { pht := [], pht_size := 0, pht_mask := 0, global_history := 0, history_mask := 0,
    history_bits := 0 }

/-- `gshare_predictor_init(table_bits, hist_bits)`: every static is overwritten. -/
def gshare_predictor_init (table_bits hist_bits : Int) : Option GshareState := do
  let pht_size ← shl_size table_bits
  let history_mask ← shl_mask hist_bits
  pure { pht := List.replicate pht_size 1, pht_size := pht_size, pht_mask := u32_pred pht_size,
         global_history := 0, history_mask := history_mask, history_bits := hist_bits }

/-- `gshare_predictor_predict(pc)`. -/
def gshare_predictor_predict (s : GshareState) (pc : Nat) : Option Nat := do
  let index := (pc ^^^ s.global_history) &&& s.pht_mask
  let counter ← s.pht[index]?
  pure (if counter ≥ 2 then 1 else 0)

/-- `gshare_predictor_train(pc, outcome)`: counter update, then history shift. -/
def gshare_predictor_train (s : GshareState) (pc outcome : Nat) : Option GshareState := do
  let index := (pc ^^^ s.global_history) &&& s.pht_mask
  let counter ← s.pht[index]?
  let pht :=
    if outcome ≠ 0 then
      if counter < 3 then s.pht.set index (u8_inc counter) else s.pht
    else
      if counter > 0 then s.pht.set index (u8_dec counter) else s.pht
  pure { s with pht := pht,
                global_history := (((s.global_history * 2) % 2 ^ 32) ||| outcome) &&& s.history_mask }

/-- `gshare_predictor_cleanup()`. -/
def gshare_predictor_cleanup (_s : GshareState) : GshareState :=
  { pht := [], pht_size := 0, pht_mask := 0, global_history := 0, history_mask := 0,
    history_bits := 0 }

/-! ## tournament_predictor.cc -/

/-- Statics of `tournament_predictor.cc`, together with the statics of the two units whose
functions it calls: `bimodal` is the state of `twobit_predictor.cc` (component P1),
`gshare` the state of `gshare_predictor.cc` (component P2). -/
structure TournamentState where
  selector_table : List Nat
  selector_mask : Nat
  selector_bits : Int
  initialized : Bool
  last_bimodal_pred : Nat
  last_gshare_pred : Nat
  last_pc : Nat
  bimodal : TwoBitState
  gshare : GshareState
  deriving DecidableEq, Repr

/-- Values of the statics before any call. -/
def tournament_initial : TournamentState :=
  { selector_table := [], selector_mask := 0, selector_bits := 0, initialized := false,
    last_bimodal_pred := 0, last_gshare_pred := 0, last_pc := 0,
    bimodal := twobit_initial, gshare := gshare_initial }

/-- `tournament_predictor_cleanup()`. -/
def tournament_predictor_cleanup (s : TournamentState) : TournamentState :=
  { s with selector_table := [],
           bimodal := twobit_predictor_cleanup s.bimodal,
           gshare := gshare_predictor_cleanup s.gshare,
           initialized := false }

/-- `tournament_predictor_init(_selector_bits, bimodal_bits, gshare_table_bits,
gshare_history_bits)`.  The three `last_*` statics are not written. -/
def tournament_predictor_init (s : TournamentState)
    (_selector_bits bimodal_bits gshare_table_bits gshare_history_bits : Int) :
    Option TournamentState := do
  let s := tournament_predictor_cleanup s
  let selector_size ← shl_size _selector_bits
  let bimodal ← twobit_predictor_init bimodal_bits
  let gshare ← gshare_predictor_init gshare_table_bits gshare_history_bits
  pure { s with selector_bits := _selector_bits,
                selector_table := List.replicate selector_size 1,
                selector_mask := u32_pred selector_size,
                bimodal := bimodal, gshare := gshare, initialized := true }

/-- `tournament_predictor_predict(pc)`: the returned value and the state with the
prediction cache (`last_*`) written. -/
def tournament_predictor_predict (s : TournamentState) (pc : Nat) :
    Option (Nat × TournamentState) :=
  if !s.initialized then some (0, s) else do
    let bimodal_pred ← twobit_predictor_predict s.bimodal pc
    let gshare_pred ← gshare_predictor_predict s.gshare pc
    let s := { s with last_bimodal_pred := bimodal_pred, last_gshare_pred := gshare_pred,
                      last_pc := pc }
    let selector_idx := pc &&& s.selector_mask
    let selector ← s.selector_table[selector_idx]?
    if selector ≤ 1 then pure (bimodal_pred, s) else pure (gshare_pred, s)

/-- `tournament_predictor_train(pc, outcome)`. -/
def tournament_predictor_train (s : TournamentState) (pc outcome : Nat) :
    Option TournamentState :=
  if !s.initialized then some s else
  if pc ≠ s.last_pc then do
    let bimodal ← twobit_predictor_train s.bimodal pc outcome
    let gshare ← gshare_predictor_train s.gshare pc outcome
    pure { s with bimodal := bimodal, gshare := gshare }
  else do
    let bimodal ← twobit_predictor_train s.bimodal pc outcome
    let gshare ← gshare_predictor_train s.gshare pc outcome
    let s := { s with bimodal := bimodal, gshare := gshare }
    let selector_idx := pc &&& s.selector_mask
    let selector ← s.selector_table[selector_idx]?
    let bimodal_correct : Bool := s.last_bimodal_pred == outcome
    let gshare_correct : Bool := s.last_gshare_pred == outcome
    if bimodal_correct && !gshare_correct then
      if selector > 0 then
        pure { s with selector_table := s.selector_table.set selector_idx (u8_dec selector) }
      else pure s
    else if gshare_correct && !bimodal_correct then
      if selector < 3 then
        pure { s with selector_table := s.selector_table.set selector_idx (u8_inc selector) }
      else pure s
    else pure s

/-! ## perceptron_predictor.cc -/

/-- Statics of `perceptron_predictor.cc`.  `perceptron_table` is the array of weight
arrays, `global_history` the bipolar history buffer. -/
structure PerceptronState where
  num_perceptrons : Int
  history_len : Int
  weight_bits : Int
  threshold : Int
  table_mask : Nat
  perceptron_table : List (List Int)
  global_history : List Int
  history_index : Int
  max_weight : Int
  min_weight : Int
  deriving DecidableEq, Repr

/-- An `int32_t` result: `none` when the mathematical value overflows. -/
def i32 (x : Int) : Option Int :=
  if -(2 ^ 31) ≤ x ∧ x < 2 ^ 31 then some x else none

/-- `perceptron_predictor_init(table_bits, history_length, weight_bits_param,
threshold_param)`: every static is overwritten.  `table_mask = num_perceptrons - 1` and
`max_weight = (1 << (weight_bits - 1)) - 1` are `int` computations.  A `history_length`
below `-1` makes `memset` write through a failed allocation. -/
def perceptron_predictor_init (table_bits history_length weight_bits_param threshold_param : Int) :
    Option PerceptronState := do
  let table_mask ← shl_mask table_bits
  let max_weight ← shl_mask (weight_bits_param - 1)
  let row_len ← i32 (history_length + 1)
  if row_len < 0 then none else
  pure { num_perceptrons := 2 ^ table_bits.toNat,
         history_len := history_length,
         weight_bits := weight_bits_param,
         threshold := threshold_param,
         table_mask := table_mask,
         perceptron_table := List.replicate (2 ^ table_bits.toNat) (List.replicate row_len.toNat 0),
         global_history := List.replicate history_length.toNat (-1),
         history_index := 0,
         max_weight := (max_weight : Int),
         min_weight := -(2 ^ (weight_bits_param - 1).toNat) }

/-- One iteration of the loop `y += global_history[i] * weights[i + 1]`. -/
def perceptron_dot_step (global_history weights : List Int) (y : Int) (i : Nat) : Option Int := do
  let x ← global_history[i]?
  let w ← weights[i + 1]?
  let p ← i32 (x * w)
  i32 (y + p)

/-- The output `y` computed by `perceptron_predictor_predict` and
`perceptron_predictor_train` for the weight array `weights`. -/
def perceptron_y (s : PerceptronState) (weights : List Int) : Option Int := do
  let y ← weights[0]?
  (List.range s.history_len.toNat).foldlM (perceptron_dot_step s.global_history weights) y

/-- `perceptron_predictor_predict(pc)`. -/
def perceptron_predictor_predict (s : PerceptronState) (pc : Nat) : Option Nat := do
  let perceptron_idx := pc &&& s.table_mask
  let weights ← s.perceptron_table[perceptron_idx]?
  let y ← perceptron_y s weights
  pure (if y ≥ 0 then 1 else 0)

/-- The saturation `if (w > max_weight) w = max_weight; if (w < min_weight) w = min_weight;`
applied to a weight. -/
def perceptron_saturate (s : PerceptronState) (w : Int) : Int :=
  let w1 := if w > s.max_weight then s.max_weight else w
  if w1 < s.min_weight then s.min_weight else w1

/-- One iteration of the loop `weights[i + 1] += target * global_history[i]` with its
saturation. -/
def perceptron_update_step (s : PerceptronState) (target : Int) (weights : List Int) (i : Nat) :
    Option (List Int) := do
  let x ← s.global_history[i]?
  let w ← weights[i + 1]?
  let d ← i32 (target * x)
  let w1 ← i32 (w + d)
  pure (weights.set (i + 1) (perceptron_saturate s w1))

/-- The weight array after the training branch of `perceptron_predictor_train`: bias
update, then the loop over the history weights. -/
def perceptron_update_weights (s : PerceptronState) (target : Int) (weights : List Int) :
    Option (List Int) := do
  let w0 ← weights[0]?
  let w1 ← i32 (w0 + target)
  (List.range s.history_len.toNat).foldlM (perceptron_update_step s target)
    (weights.set 0 (perceptron_saturate s w1))

/-- The test `(y >= 0) ? (y <= threshold) : (-y <= threshold)`. -/
def perceptron_within_threshold (s : PerceptronState) (y : Int) : Option Bool :=
  if y ≥ 0 then some (decide (y ≤ s.threshold))
  else (i32 (-y)).map (fun n => decide (n ≤ s.threshold))

/-- `perceptron_predictor_train(pc, outcome)`. -/
def perceptron_predictor_train (s : PerceptronState) (pc outcome : Nat) :
    Option PerceptronState := do
  let perceptron_idx := pc &&& s.table_mask
  let weights ← s.perceptron_table[perceptron_idx]?
  let y ← perceptron_y s weights
  let target : Int := if outcome = 1 then 1 else -1
  let wrong_prediction : Bool := (if y ≥ 0 then 1 else 0) != outcome
  let within_threshold ← perceptron_within_threshold s y
  if wrong_prediction || within_threshold then do
    let weights1 ← perceptron_update_weights s target weights
    pure { s with perceptron_table := s.perceptron_table.set perceptron_idx weights1 }
  else pure s

/-- `perceptron_predictor_update_history(outcome)`: the write to
`global_history[history_index]`, then `history_index = (history_index + 1) % history_len`
(C++ `%` truncates; a zero `history_len` is a division by zero). -/
def perceptron_predictor_update_history (s : PerceptronState) (outcome : Nat) :
    Option PerceptronState := do
  let bipolar_outcome : Int := if outcome = 1 then 1 else -1
  if s.history_index < 0 ∨ s.global_history.length ≤ s.history_index.toNat then none else
  let next ← i32 (s.history_index + 1)
  if s.history_len = 0 then none else
  pure { s with global_history := s.global_history.set s.history_index.toNat bipolar_outcome,
                history_index := Int.tmod next s.history_len }

/-- One call on the perceptron predictor after its initialisation. -/
inductive PerceptronOp where
  | train (pc outcome : Nat)
  | update_history (outcome : Nat)
  deriving DecidableEq, Repr

/-- The state after one call. -/
def perceptron_step (s : PerceptronState) : PerceptronOp → Option PerceptronState
  | .train pc outcome => perceptron_predictor_train s pc outcome
  | .update_history outcome => perceptron_predictor_update_history s outcome

/-- The state after a sequence of calls, in order. -/
def perceptron_run (s : PerceptronState) : List PerceptronOp → Option PerceptronState
  | [] => some s
  | op :: rest => (perceptron_step s op).bind (fun s1 => perceptron_run s1 rest)

/-- `perceptron_predictor_cleanup()`. -/
def perceptron_predictor_cleanup (s : PerceptronState) : PerceptronState :=
  { s with perceptron_table := [], global_history := [] }

/-! ## correlating_predictor.cc -/

/-- Statics of `correlating_predictor.cc`. -/
structure CorrelatingState where
  table : List Nat
  mask : Nat
  bits : Int
  n_bits : Int
  max_val : Nat
  threshold : Nat
  history_bits : Int
  history : Nat
  deriving DecidableEq, Repr

/-- Values of the statics before any call. -/
def correlating_initial : CorrelatingState :=
  { table := [], mask := 0, bits := 0, n_bits := 2, max_val := 3, threshold := 2,
    history_bits := 0, history := 0 }

/-- `correlating_predictor_init(table_bits, hist_bits, nbits)`: every static is
overwritten.  `max_val` and `threshold` are `uint8_t`. -/
def correlating_predictor_init (table_bits hist_bits nbits : Int) : Option CorrelatingState := do
  let sum ← i32 (table_bits + hist_bits)
  let size ← shl_size sum
  let max_val ← shl_mask nbits
  let threshold ← shl_size (nbits - 1)
  pure { table := List.replicate size 0, mask := u32_pred size, bits := table_bits,
         n_bits := nbits, max_val := max_val % 256, threshold := threshold % 256,
         history_bits := hist_bits, history := 0 }

/-- The index `idx` computed by `correlating_predictor_predict` and
`correlating_predictor_train`: `pc_part | hist_part` with
`pc_part = (pc & pc_mask) << history_bits` on `uint32_t`. -/
def correlating_index (s : CorrelatingState) (pc : Nat) : Option Nat := do
  let pc_mask ← shl_mask s.bits
  let hist_mask ← shl_mask s.history_bits
  let pc_part := ((pc &&& pc_mask) * 2 ^ s.history_bits.toNat) % 2 ^ 32
  let hist_part := s.history &&& hist_mask
  pure (pc_part ||| hist_part)

/-- `correlating_predictor_predict(pc)`. -/
def correlating_predictor_predict (s : CorrelatingState) (pc : Nat) : Option Nat := do
  let idx ← correlating_index s pc
  let counter ← s.table[idx]?
  pure (if counter ≥ s.threshold then 1 else 0)

/-- `correlating_predictor_train(pc, outcome)`: counter update, then history shift. -/
def correlating_predictor_train (s : CorrelatingState) (pc outcome : Nat) :
    Option CorrelatingState := do
  let idx ← correlating_index s pc
  let counter ← s.table[idx]?
  let table :=
    if outcome ≠ 0 then
      if counter < s.max_val then s.table.set idx (u8_inc counter) else s.table
    else
      if counter > 0 then s.table.set idx (u8_dec counter) else s.table
  let hist_mask ← shl_mask s.history_bits
  pure { s with table := table,
                history := (((s.history * 2) % 2 ^ 32) ||| (if outcome ≠ 0 then 1 else 0)) &&&
                  hist_mask }

/-- `correlating_predictor_cleanup()`. -/
def correlating_predictor_cleanup (s : CorrelatingState) : CorrelatingState :=
  { s with table := [] }

/-! ## local_predictor.cc -/

/-- Statics of `local_predictor.cc`: `lht` is the local history table (`uint32_t`
entries), `pht` the pattern history table of 2-bit counters. -/
structure LocalState where
  lht : List Nat
  lht_mask : Nat
  lht_bits : Int
  pht : List Nat
  pht_mask : Nat
  pht_bits : Int
  history_bits : Int
  history_mask : Nat
  deriving DecidableEq, Repr

/-- Values of the statics before any call. -/
def local_initial : LocalState :=
  { lht := [], lht_mask := 0, lht_bits := 0, pht := [], pht_mask := 0, pht_bits := 0,
    history_bits := 0, history_mask := 0 }

/-- `local_predictor_init(_lht_bits, _history_bits, _pht_bits)`: every static is
overwritten. -/
def local_predictor_init (_lht_bits _history_bits _pht_bits : Int) : Option LocalState := do
  let lht_size ← shl_size _lht_bits
  let pht_size ← shl_size _pht_bits
  let history_mask ← shl_mask _history_bits
  pure { lht := List.replicate lht_size 0, lht_mask := u32_pred lht_size, lht_bits := _lht_bits,
         pht := List.replicate pht_size 1, pht_mask := u32_pred pht_size, pht_bits := _pht_bits,
         history_bits := _history_bits, history_mask := history_mask }

/-- `local_predictor_predict(pc)`. -/
def local_predictor_predict (s : LocalState) (pc : Nat) : Option Nat := do
  let lht_idx := pc &&& s.lht_mask
  let entry ← s.lht[lht_idx]?
  let local_history := entry &&& s.history_mask
  let pht_idx := local_history &&& s.pht_mask
  let counter ← s.pht[pht_idx]?
  pure (if counter ≥ 2 then 1 else 0)

/-- `local_predictor_train(pc, outcome)`: counter update, then the shift of the local
history selected by `pc`. -/
def local_predictor_train (s : LocalState) (pc outcome : Nat) : Option LocalState := do
  let lht_idx := pc &&& s.lht_mask
  let entry ← s.lht[lht_idx]?
  let local_history := entry &&& s.history_mask
  let pht_idx := local_history &&& s.pht_mask
  let counter ← s.pht[pht_idx]?
  let pht :=
    if outcome ≠ 0 then
      if counter < 3 then s.pht.set pht_idx (u8_inc counter) else s.pht
    else
      if counter > 0 then s.pht.set pht_idx (u8_dec counter) else s.pht
  pure { s with pht := pht,
                lht := s.lht.set lht_idx
                  ((((local_history * 2) % 2 ^ 32) ||| (if outcome ≠ 0 then 1 else 0)) &&&
                    s.history_mask) }

/-- `local_predictor_cleanup()`. -/
def local_predictor_cleanup (s : LocalState) : LocalState := { s with lht := [], pht := [] }

/-! ## tage_predictor.cc -/

/-- `NHIST`: number of history lengths (tagged banks). -/
def NHIST : Nat := 18
/-- `LOGG`: log size of one bank. -/
def LOGG : Nat := 10
/-- `LOGB`: log size of the bimodal table. -/
def LOGB : Nat := 13
/-- `TBITS`: base tag width. -/
def TBITS : Int := 8
/-- `CWIDTH`: counter width. -/
def CWIDTH : Nat := 3
/-- `UWIDTH`: usefulness counter width. -/
def UWIDTH : Nat := 2
/-- `MINHIST`: minimum history length. -/
def MINHIST : Int := 5
/-- `MAXHIST`: maximum history length. -/
def MAXHIST : Int := 1000
/-- `BORN`: first bank of the high-history group. -/
def BORN : Nat := 9
/-- `NBANKLOW`: banks interleaved in the low table. -/
def NBANKLOW : Nat := 5
/-- `NBANKHIGH`: banks interleaved in the high table. -/
def NBANKHIGH : Nat := 10

/-- A bimodal entry `bentry_t` (`int8_t` fields). -/
structure bentry_t where
  pred : Int
  hyst : Int
  deriving DecidableEq, Repr

/-- A tagged entry `gentry_t` (`int8_t ctr`, `uint32_t tag`, `int8_t u`). -/
structure gentry_t where
  ctr : Int
  tag : Nat
  u : Int
  deriving DecidableEq, Repr

/-- A folded history `folded_history_t` (`uint32_t comp`, `int` lengths). -/
structure folded_history_t where
  comp : Nat
  CLENGTH : Int
  OLENGTH : Int
  OUTPOINT : Int
  deriving DecidableEq, Repr

/-- Statics of `tage_predictor.cc`.  The pointer array `gtable` holds two allocations:
`gtable[1] .. gtable[BORN - 1]` all point to `gtable_low` and
`gtable[BORN] .. gtable[NHIST]` all point to `gtable_high` (`gtable[0]` is `NULL`).  The
arrays `m`, `TB`, `SizeTable`, `NOSKIP`, `ch_i`, `ch_t` have `NHIST + 1` elements. -/
structure TageState where
  btable : List bentry_t
  gtable_low : List gentry_t
  gtable_high : List gentry_t
  ghist : Nat
  m : List Int
  TB : List Int
  SizeTable : List Nat
  NOSKIP : List Bool
  ch_i : List folded_history_t
  ch_t : List folded_history_t
  deriving DecidableEq, Repr

/-- The array `gtable[bank]` points to. -/
def tage_gtable (s : TageState) (bank : Nat) : List gentry_t :=
  if bank = 0 then [] else if bank < BORN then s.gtable_low else s.gtable_high

/-- The state after the write `gtable[bank][index] = e`. -/
def tage_gtable_write (s : TageState) (bank index : Nat) (e : gentry_t) : TageState :=
  if bank = 0 then s
  else if bank < BORN then { s with gtable_low := s.gtable_low.set index e }
  else { s with gtable_high := s.gtable_high.set index e }

/-- An `int8_t` result of `x + 1` or `x - 1` stored back into an `int8_t` (wraps). -/
def i8_wrap (x : Int) : Int := (x + 128) % 256 - 128

/-- The expression `1ULL << n` for an `int n`.  For `0 ≤ n < 64` its value is `2 ^ n`.  For
other counts the language leaves the shift undefined, and the predictor does shift by
`m[BORN] = 71` and by `OLENGTH` up to 1000: `wide n` stands for the 64-bit value the
platform yields there (see `wide_hw`).  The general theorems about the predictor are stated
for all `wide`; the runs evaluated on concrete inputs use `wide_hw`. -/
def shl64 (wide : Int → Nat) (n : Int) : Nat :=
  if 0 ≤ n ∧ n < 64 then 2 ^ n.toNat else wide n % 2 ^ 64

/-- The wide shift of the x86-64 and AArch64 shift instructions: the count is taken
modulo 64. -/
def wide_hw (n : Int) : Nat := 2 ^ (n % 64).toNat

/-- `init_folded_history(fh, original_length, compressed_length)`; `none` for a zero
`compressed_length` (division by zero). -/
def init_folded_history (original_length compressed_length : Int) : Option folded_history_t :=
  if compressed_length = 0 then none
  else some { comp := 0, CLENGTH := compressed_length, OLENGTH := original_length,
              OUTPOINT := Int.tmod original_length compressed_length }

/-- `update_folded_history(fh, h, bit)`. -/
def update_folded_history (wide : Int → Nat) (fh : folded_history_t) (h : Nat) (bit : Bool) :
    Option folded_history_t := do
  let h := h &&& ((shl64 wide fh.OLENGTH + (2 ^ 64 - 1)) % 2 ^ 64)
  let comp := ((fh.comp * 2) % 2 ^ 32) ||| (if bit then 1 else 0)
  if fh.OUTPOINT < 0 ∨ 64 ≤ fh.OUTPOINT then none else
  let comp := comp ^^^ ((h >>> fh.OUTPOINT.toNat) &&& 1)
  let cmask ← shl_mask fh.CLENGTH
  pure { fh with comp := comp &&& cmask }

/-- The history lengths `m[0 .. NHIST]` after `init_histories`: `m[0]` is never written,
`m[1] = MINHIST`, `m[NHIST] = MAXHIST`, and for `2 ≤ i < NHIST` the value of the
floating-point expression
`(int)(((double)MINHIST * pow((double)MAXHIST / (double)MINHIST, (double)(i - 1) / (double)(NHIST - 2))) + 0.5)`,
that is the integer nearest to `5 * 200 ^ ((i - 1) / 16)` (`tage_m_nearest`). -/
def tage_m : List Int :=
  [0, 5, 7, 10, 14, 19, 26, 36, 51, 71, 98, 137, 191, 266, 370, 516, 718, 1000, 1000]

/-- The tag widths `TB[0 .. NHIST]` after `init_histories`:
`TB[i] = TBITS + (i >= BORN ? 4 : 0)`, `TB[0]` is never written. -/
def tage_TB : List Int :=
  (List.range (NHIST + 1)).map (fun i => if i = 0 then 0 else TBITS + (if i ≥ BORN then 4 else 0))

/-- The folded index histories after `init_histories`. -/
def tage_ch_i_init : List folded_history_t :=
  (List.range (NHIST + 1)).map (fun i =>
    if i = 0 then { comp := 0, CLENGTH := 0, OLENGTH := 0, OUTPOINT := 0 }
    else { comp := 0, CLENGTH := LOGG, OLENGTH := tage_m.getD i 0,
           OUTPOINT := Int.tmod (tage_m.getD i 0) LOGG })

/-- The folded tag histories after `init_histories`. -/
def tage_ch_t_init : List folded_history_t :=
  (List.range (NHIST + 1)).map (fun i =>
    if i = 0 then { comp := 0, CLENGTH := 0, OLENGTH := 0, OUTPOINT := 0 }
    else { comp := 0, CLENGTH := tage_TB.getD i 0, OLENGTH := tage_m.getD i 0,
           OUTPOINT := Int.tmod (tage_m.getD i 0) (tage_TB.getD i 0) })

/-- `tage_predictor_init()`, with `init_histories()` inlined.  Every static is overwritten
except the elements 0 of the arrays, which keep their zero initialisation. -/
def tage_predictor_init : TageState :=
  { btable := List.replicate (2 ^ LOGB) { pred := 0, hyst := 1 },
    gtable_low := List.replicate (NBANKLOW * 2 ^ LOGG) { ctr := 0, tag := 0, u := 0 },
    gtable_high := List.replicate (NBANKHIGH * 2 ^ LOGG) { ctr := 0, tag := 0, u := 0 },
    ghist := 0,
    m := tage_m,
    TB := tage_TB,
    SizeTable := (List.range (NHIST + 1)).map (fun i =>
      if i = 0 then 0 else if i < BORN then NBANKLOW * 2 ^ LOGG else NBANKHIGH * 2 ^ LOGG),
    NOSKIP := (List.range (NHIST + 1)).map (fun i => decide (i ≠ 0)),
    ch_i := tage_ch_i_init,
    ch_t := tage_ch_t_init }

/-- `gindex(PC, bank)`. -/
def gindex (wide : Int → Nat) (s : TageState) (PC bank : Nat) : Option Nat := do
  let fh ← s.ch_i[bank]?
  let index := PC ^^^ (PC >>> LOGG) ^^^ fh.comp
  let size ← s.SizeTable[bank]?
  if bank ≥ BORN then
    let mb ← s.m[BORN]?
    let T := (PC ^^^ (s.ghist &&& ((shl64 wide mb + (2 ^ 64 - 1)) % 2 ^ 64))) % NBANKHIGH
    pure (((index + T * 2 ^ LOGG) % 2 ^ 32) &&& u32_pred size)
  else
    let m1 ← s.m[1]?
    let lmask ← shl_mask m1
    let T := (PC ^^^ (s.ghist &&& lmask)) % NBANKLOW
    pure (((index + T * 2 ^ LOGG) % 2 ^ 32) &&& u32_pred size)

/-- `gtag(PC, bank)`. -/
def gtag (s : TageState) (PC bank : Nat) : Option Nat := do
  let fh ← s.ch_t[bank]?
  let tb ← s.TB[bank]?
  let tmask ← shl_mask tb
  pure (((PC ^^^ (PC >>> 2)) ^^^ fh.comp) &&& tmask)

/-- The bimodal index `BI = (PC ^ (PC >> 2)) & ((1 << LOGB) - 1)`. -/
def tage_BI (PC : Nat) : Nat := (PC ^^^ (PC >>> 2)) &&& (2 ^ LOGB - 1)

/-- The loop `for (i = bank; i > 0; i--)` of `tage_predictor_predict`, started with the
current `(HitBank, pred_taken)`: it stops at the first bank whose entry at `gindex` holds
the tag `gtag`. -/
def tage_predict_loop (wide : Int → Nat) (s : TageState) (PC : Nat) (HitBank : Nat)
    (pred_taken : Bool) : Nat → Option (Nat × Bool)
  | 0 => some (HitBank, pred_taken)
  | i + 1 => do
    let noskip ← s.NOSKIP[i + 1]?
    if !noskip then tage_predict_loop wide s PC HitBank pred_taken i else
    let index ← gindex wide s PC (i + 1)
    let tag ← gtag s PC (i + 1)
    let e ← (tage_gtable s (i + 1))[index]?
    if e.tag = tag then pure (i + 1, decide (e.ctr ≥ 0))
    else tage_predict_loop wide s PC HitBank pred_taken i

/-- `tage_predictor_predict(PC)`. -/
def tage_predictor_predict (wide : Int → Nat) (s : TageState) (PC : Nat) : Option Nat := do
  let b ← s.btable[tage_BI PC]?
  let r ← tage_predict_loop wide s PC 0 (decide (b.pred ≥ 0)) NHIST
  pure (if r.2 then 1 else 0)

/-- The loop of `tage_predictor_train` that finds `HitBank` again. -/
def tage_find_hit (wide : Int → Nat) (s : TageState) (PC : Nat) : Nat → Option Nat
  | 0 => some 0
  | i + 1 => do
    let noskip ← s.NOSKIP[i + 1]?
    if !noskip then tage_find_hit wide s PC i else
    let index ← gindex wide s PC (i + 1)
    let tag ← gtag s PC (i + 1)
    let e ← (tage_gtable s (i + 1))[index]?
    if e.tag = tag then pure (i + 1) else tage_find_hit wide s PC i

/-- The counter update `if (taken && c < 3) c++; else if (!taken && c > -4) c--;` on an
`int8_t` (`(1 << (CWIDTH - 1)) - 1 = 3`). -/
def tage_ctr_update (taken : Bool) (c : Int) : Int :=
  if taken ∧ c < 2 ^ (CWIDTH - 1) - 1 then i8_wrap (c + 1)
  else if ¬ taken ∧ c > -(2 ^ (CWIDTH - 1)) then i8_wrap (c - 1)
  else c

/-- The step "update the provider" of `tage_predictor_train`. -/
def tage_update_provider (wide : Int → Nat) (s : TageState) (PC HitBank : Nat) (taken : Bool) :
    Option TageState :=
  if HitBank > 0 then do
    let index ← gindex wide s PC HitBank
    let e ← (tage_gtable s HitBank)[index]?
    pure (tage_gtable_write s HitBank index { e with ctr := tage_ctr_update taken e.ctr })
  else do
    let b ← s.btable[tage_BI PC]?
    pure { s with btable := s.btable.set (tage_BI PC)
                    { b with pred := tage_ctr_update taken b.pred } }

/-- The expression `pred_taken` of `tage_predictor_train`, read after the provider update. -/
def tage_train_pred (wide : Int → Nat) (s : TageState) (PC HitBank : Nat) : Option Bool :=
  if HitBank > 0 then do
    let index ← gindex wide s PC HitBank
    let e ← (tage_gtable s HitBank)[index]?
    pure (decide (e.ctr ≥ 0))
  else do
    let b ← s.btable[tage_BI PC]?
    pure (decide (b.pred ≥ 0))

/-- The allocation loop `for (i = bank; i <= NHIST; i++)` of `tage_predictor_train`, with
`n` banks left to visit. -/
def tage_allocate (wide : Int → Nat) (PC : Nat) (taken : Bool) :
    Nat → Nat → TageState → Option TageState
  | 0, _, s => some s
  | n + 1, i, s => do
    let noskip ← s.NOSKIP[i]?
    if !noskip then tage_allocate wide PC taken n (i + 1) s else
    let index ← gindex wide s PC i
    let e ← (tage_gtable s i)[index]?
    if e.u = 0 then do
      let tag ← gtag s PC i
      pure (tage_gtable_write s i index { ctr := if taken then 0 else -1, tag := tag, u := 0 })
    else if e.u > 0 then
      tage_allocate wide PC taken n (i + 1)
        (tage_gtable_write s i index { e with u := i8_wrap (e.u - 1) })
    else tage_allocate wide PC taken n (i + 1) s

/-- The step "update usefulness" of `tage_predictor_train`. -/
def tage_update_useful (wide : Int → Nat) (s : TageState) (PC HitBank : Nat)
    (pred_taken taken : Bool) : Option TageState :=
  if HitBank > 0 then do
    let index ← gindex wide s PC HitBank
    let e ← (tage_gtable s HitBank)[index]?
    if pred_taken = taken then
      if e.u < 2 ^ UWIDTH - 1 then
        pure (tage_gtable_write s HitBank index { e with u := i8_wrap (e.u + 1) })
      else pure s
    else pure s
  else pure s

/-- The loop `for (i = bank; i <= NHIST; i++)` that updates the folded histories
`ch_i[i]` and `ch_t[i]` with the (unchanged) raw history `ghist`, `n` banks left. -/
def tage_update_folded (wide : Int → Nat) (taken : Bool) :
    Nat → Nat → TageState → Option TageState
  | 0, _, s => some s
  | n + 1, i, s => do
    let noskip ← s.NOSKIP[i]?
    if !noskip then tage_update_folded wide taken n (i + 1) s else
    let fi ← s.ch_i[i]?
    let fi1 ← update_folded_history wide fi s.ghist taken
    let ft ← s.ch_t[i]?
    let ft1 ← update_folded_history wide ft s.ghist taken
    tage_update_folded wide taken n (i + 1)
      { s with ch_i := s.ch_i.set i fi1, ch_t := s.ch_t.set i ft1 }

/-- `tage_predictor_train(PC, outcome)`. -/
def tage_predictor_train (wide : Int → Nat) (s : TageState) (PC outcome : Nat) :
    Option TageState := do
  let taken : Bool := decide (outcome = 1)
  let HitBank ← tage_find_hit wide s PC NHIST
  let s1 ← tage_update_provider wide s PC HitBank taken
  let pred_taken ← tage_train_pred wide s1 PC HitBank
  let s2 ←
    if pred_taken != taken ∧ HitBank < NHIST then
      tage_allocate wide PC taken (NHIST - HitBank) (HitBank + 1) s1
    else pure s1
  let s3 ← tage_update_useful wide s2 PC HitBank pred_taken taken
  let s4 ← tage_update_folded wide taken NHIST 1 s3
  pure { s4 with ghist := ((s4.ghist * 2) % 2 ^ 64) ||| (if taken then 1 else 0) }

/-- A finite sequence of `tage_predictor_train(PC, outcome)` calls, in order. -/
def tage_train_seq (wide : Int → Nat) (s : TageState) : List (Nat × Nat) → Option TageState
  | [] => some s
  | (PC, outcome) :: rest =>
    (tage_predictor_train wide s PC outcome).bind (fun s1 => tage_train_seq wide s1 rest)

/-! ## Configured states -/

/-- A configured 1-bit predictor with `2 ^ b` counters: the table is allocated with
`size = 2 ^ b` entries and `mask = size - 1`. -/
def OneBitConfigured (b : Nat) (s : OneBitState) : Prop :=
  s.table.length = 2 ^ b ∧ s.mask = 2 ^ b - 1

/-- A configured 2-bit predictor with `2 ^ b` counters: the table is allocated with
`size = 2 ^ b` entries, `mask = size - 1`, and the width-2 constants are in place. -/
def TwoBitConfigured (b : Nat) (s : TwoBitState) : Prop :=
  s.table.length = 2 ^ b ∧ s.mask = 2 ^ b - 1 ∧ s.max_val = 3 ∧ s.threshold = 2

/-- An initialised tournament predictor: `initialized` is set, the selector table has
`selector_mask + 1` entries, each one of the four selector states 0..3, and both
components are allocated for their masks with the 2-bit constants in place.  Every state
produced by `tournament_predictor_init` has these properties and `predict` and `train`
keep them (`tournament_init_configured`, `tournament_predict_configured`,
`tournament_train_configured`). -/
def TournamentConfigured (s : TournamentState) : Prop :=
  s.initialized = true ∧
  s.selector_table.length = s.selector_mask + 1 ∧
  (∀ x ∈ s.selector_table, x ≤ 3) ∧
  s.bimodal.table.length = s.bimodal.mask + 1 ∧
  s.bimodal.max_val = 3 ∧ s.bimodal.threshold = 2 ∧
  s.gshare.pht.length = s.gshare.pht_mask + 1

/-- One call of the tournament predictor's interface. -/
inductive TournamentOp where
  | init (selector_bits bimodal_bits gshare_table_bits gshare_history_bits : Int)
  | predict (pc : Nat)
  | train (pc outcome : Nat)
  deriving DecidableEq, Repr

/-- The state after one interface call (the value returned by `predict` is dropped). -/
def tournament_step (s : TournamentState) : TournamentOp → Option TournamentState
  | .init sb bb gtb ghb => tournament_predictor_init s sb bb gtb ghb
  | .predict pc => (tournament_predictor_predict s pc).map Prod.snd
  | .train pc outcome => tournament_predictor_train s pc outcome

/-- The state after a sequence of interface calls, in order. -/
def tournament_run (s : TournamentState) : List TournamentOp → Option TournamentState
  | [] => some s
  | op :: rest => (tournament_step s op).bind (fun s1 => tournament_run s1 rest)

/-- The selector table after `tournament_predictor_train(pc, outcome)`, as a function of
the table before, the selector entry `sel` of `pc` and the cached predictions. -/
def tournament_selector_after (s : TournamentState) (pc outcome sel : Nat) : List Nat :=
  if pc ≠ s.last_pc then s.selector_table
  else if s.last_bimodal_pred = outcome ∧ s.last_gshare_pred ≠ outcome then
    if sel > 0 then s.selector_table.set (pc &&& s.selector_mask) (u8_dec sel)
    else s.selector_table
  else if s.last_gshare_pred = outcome ∧ s.last_bimodal_pred ≠ outcome then
    if sel < 3 then s.selector_table.set (pc &&& s.selector_mask) (u8_inc sel)
    else s.selector_table
  else s.selector_table

/-- A configured perceptron predictor: the table has `table_mask + 1` weight arrays of
`history_len + 1` weights each, and the history buffer has `history_len` slots. -/
def PerceptronConfigured (s : PerceptronState) : Prop :=
  0 ≤ s.history_len ∧
  s.perceptron_table.length = s.table_mask + 1 ∧
  (∀ w ∈ s.perceptron_table, w.length = s.history_len.toNat + 1) ∧
  s.global_history.length = s.history_len.toNat

/-- The `int32_t` computation of `y` cannot overflow: every weight lies in `[-B, B]`,
every history slot holds `+1` or `-1`, and `(history_len + 1) * B < 2 ^ 31`.  With
`B = 2 ^ (weight_bits - 1)` the first two parts hold in the states the predictor reaches
(weights are saturated to `[min_weight, max_weight]`). -/
def PerceptronBounded (s : PerceptronState) (B : Int) : Prop :=
  (∀ w ∈ s.perceptron_table, ∀ x ∈ w, -B ≤ x ∧ x ≤ B) ∧
  (∀ h ∈ s.global_history, h = 1 ∨ h = -1) ∧
  (s.history_len + 1) * B < 2 ^ 31

/-- The saturation bounds of a perceptron predictor initialised with `weight_bits` in
`[1, 31]`: `max_weight = 2 ^ (weight_bits - 1) - 1`, `min_weight = -2 ^ (weight_bits - 1)`,
and every weight lies between them. -/
def PerceptronSaturated (s : PerceptronState) : Prop :=
  1 ≤ s.weight_bits ∧ s.weight_bits ≤ 31 ∧
  s.max_weight = 2 ^ (s.weight_bits - 1).toNat - 1 ∧
  s.min_weight = -(2 ^ (s.weight_bits - 1).toNat) ∧
  ∀ w ∈ s.perceptron_table, ∀ x ∈ w, s.min_weight ≤ x ∧ x ≤ s.max_weight

/-- The history buffer of a perceptron predictor in use: every slot holds `+1` or `-1` and
`history_index` is a valid slot number. -/
def PerceptronHistoryOk (s : PerceptronState) : Prop :=
  (∀ h ∈ s.global_history, h = 1 ∨ h = -1) ∧
  0 ≤ s.history_index ∧ s.history_index < s.history_len

/-- A finite sequence of `gshare_predictor_train(pc, outcome)` calls, in order. -/
def gshare_train_seq (s : GshareState) : List (Nat × Nat) → Option GshareState
  | [] => some s
  | (pc, outcome) :: rest =>
    (gshare_predictor_train s pc outcome).bind (fun s1 => gshare_train_seq s1 rest)

/-- A configured gshare predictor with `2 ^ tb` counters and a history of `hb ≤ 30` bits:
the table is allocated with `pht_size = 2 ^ tb` entries, `pht_mask = pht_size - 1` and
`history_mask = (1 << hb) - 1`. -/
def GshareConfigured (tb hb : Nat) (s : GshareState) : Prop :=
  s.pht.length = 2 ^ tb ∧ s.pht_mask = 2 ^ tb - 1 ∧ s.history_mask = 2 ^ hb - 1 ∧ hb ≤ 30

/-- A configured correlating predictor with `b` PC bits and `hb` history bits
(`b, hb ≤ 30`, `b + hb ≤ 31`, the widths for which `init` and the mask expressions are
defined): the table has `2 ^ (b + hb)` counters and the history is below `2 ^ hb`, as after
`correlating_predictor_init` and any number of trains. -/
def CorrelatingConfigured (b hb : Nat) (s : CorrelatingState) : Prop :=
  s.bits = b ∧ s.history_bits = hb ∧ b ≤ 30 ∧ hb ≤ 30 ∧ b + hb ≤ 31 ∧
  s.table.length = 2 ^ (b + hb) ∧ s.history < 2 ^ hb

/-- A configured local predictor: `2 ^ lb` local histories, `2 ^ pb` counters,
`mask = size - 1` for both tables. -/
def LocalConfigured (lb pb : Nat) (s : LocalState) : Prop :=
  s.lht.length = 2 ^ lb ∧ s.lht_mask = 2 ^ lb - 1 ∧
  s.pht.length = 2 ^ pb ∧ s.pht_mask = 2 ^ pb - 1

/-- The local history `lht[pc & lht_mask] & history_mask` selected by `pc`. -/
def local_history_of (s : LocalState) (pc : Nat) : Option Nat :=
  (s.lht[pc &&& s.lht_mask]?).map (fun entry => entry &&& s.history_mask)

/-- The pattern-table index `pht_idx = local_history & pht_mask` used for `pc`. -/
def local_pht_index (s : LocalState) (pc : Nat) : Option Nat :=
  (local_history_of s pc).map (fun local_history => local_history &&& s.pht_mask)

/-- A configured TAGE predictor: the three tables have the sizes `tage_predictor_init`
allocates, the parameter arrays `m`, `TB`, `SizeTable`, `NOSKIP` hold the values it
writes, and the folded histories differ from the initial ones in their `comp` only.
`tage_predictor_init` is configured and `tage_predictor_train` keeps a state configured
(`tage_init_configured`, `tage_train_configured`). -/
def TageConfigured (s : TageState) : Prop :=
  s.btable.length = 2 ^ LOGB ∧
  s.gtable_low.length = NBANKLOW * 2 ^ LOGG ∧
  s.gtable_high.length = NBANKHIGH * 2 ^ LOGG ∧
  s.m = tage_m ∧ s.TB = tage_TB ∧
  s.SizeTable = tage_predictor_init.SizeTable ∧
  s.NOSKIP = tage_predictor_init.NOSKIP ∧
  s.ch_i.map (fun f => { f with comp := 0 }) = tage_ch_i_init ∧
  s.ch_t.map (fun f => { f with comp := 0 }) = tage_ch_t_init

/-- The entry `gtable[bank][gindex(PC, bank)]` together with the tag `gtag(PC, bank)`
it is compared with. -/
def tage_lookup (wide : Int → Nat) (s : TageState) (PC bank : Nat) :
    Option (gentry_t × Nat) := do
  let index ← gindex wide s PC bank
  let tag ← gtag s PC bank
  let e ← (tage_gtable s bank)[index]?
  pure (e, tag)

/-- Bank `bank` matches `PC`: its entry at `gindex(PC, bank)` is `e` and stores the tag
`gtag(PC, bank)`. -/
def tage_hit (wide : Int → Nat) (s : TageState) (PC bank : Nat) (e : gentry_t) : Prop :=
  ∃ tag, tage_lookup wide s PC bank = some (e, tag) ∧ e.tag = tag

/-- The counters of a TAGE state are within their ranges: every tagged entry has `ctr` in
`[-4, 3]` and `u` in `[0, 3]`, every bimodal entry has `pred` in `[-4, 3]`. -/
def TageSaturated (s : TageState) : Prop :=
  (∀ e ∈ s.gtable_low, -4 ≤ e.ctr ∧ e.ctr ≤ 3 ∧ 0 ≤ e.u ∧ e.u ≤ 3) ∧
  (∀ e ∈ s.gtable_high, -4 ≤ e.ctr ∧ e.ctr ≤ 3 ∧ 0 ≤ e.u ∧ e.u ≤ 3) ∧
  (∀ b ∈ s.btable, -4 ≤ b.pred ∧ b.pred ≤ 3)

/-- Two TAGE states with the same histories and parameters: they differ in the three
tables only. -/
def TageSameHist (s s1 : TageState) : Prop :=
  s1.ghist = s.ghist ∧ s1.m = s.m ∧ s1.TB = s.TB ∧ s1.SizeTable = s.SizeTable ∧
  s1.NOSKIP = s.NOSKIP ∧ s1.ch_i = s.ch_i ∧ s1.ch_t = s.ch_t

/-- The ageing part of the allocation pass in the words of the specification: the banks
of the list are visited in order, and each visit finds an entry of positive usefulness at
`gindex(PC, bank)` and decrements that usefulness by one.  The result is `none` when a
visited entry has no positive usefulness. -/
def tage_age_pass (wide : Int → Nat) (PC : Nat) : List Nat → TageState → Option TageState
  | [], s => some s
  | i :: rest, s => do
    let index ← gindex wide s PC i
    let e ← (tage_gtable s i)[index]?
    if e.u > 0 then tage_age_pass wide PC rest (tage_gtable_write s i index { e with u := e.u - 1 })
    else none

/-- The counter and tag of every tagged entry, in table order. -/
def tage_ctr_tags (s : TageState) : List (Int × Nat) × List (Int × Nat) :=
  (s.gtable_low.map (fun e => (e.ctr, e.tag)), s.gtable_high.map (fun e => (e.ctr, e.tag)))

/-- The states a run of the program can be in: those produced from `tage_predictor_init`
by a finite sequence of `tage_predictor_train` calls. -/
def TageReachable (wide : Int → Nat) (s : TageState) : Prop :=
  ∃ calls, tage_train_seq wide tage_predictor_init calls = some s

/-- The index formula in the words of the specification: the hash
`PC XOR (PC >> LOGG) XOR ch_i[bank].comp` is XORed with the bank-interleave offset
`T << LOGG` and masked with `SizeTable[bank] - 1`, where `T` is the number the code
computes. -/
def gindex_xor_spec (wide : Int → Nat) (s : TageState) (PC bank : Nat) : Option Nat := do
  let fh ← s.ch_i[bank]?
  let index := PC ^^^ (PC >>> LOGG) ^^^ fh.comp
  let size ← s.SizeTable[bank]?
  if bank ≥ BORN then
    let mb ← s.m[BORN]?
    let T := (PC ^^^ (s.ghist &&& ((shl64 wide mb + (2 ^ 64 - 1)) % 2 ^ 64))) % NBANKHIGH
    pure ((index ^^^ (T * 2 ^ LOGG)) &&& u32_pred size)
  else
    let m1 ← s.m[1]?
    let lmask ← shl_mask m1
    let T := (PC ^^^ (s.ghist &&& lmask)) % NBANKLOW
    pure ((index ^^^ (T * 2 ^ LOGG)) &&& u32_pred size)

/-- The folded-history rule in the words of the specification: `comp` becomes
`(((comp << 1) | bit) XOR out)` masked to `CLENGTH` bits, where `out` is the bit at
position `OLENGTH - 1` of the raw history `h`. -/
def update_folded_history_spec (fh : folded_history_t) (h : Nat) (bit : Bool) :
    Option folded_history_t := do
  let comp := ((fh.comp * 2) % 2 ^ 32) ||| (if bit then 1 else 0)
  if fh.OLENGTH < 1 then none else
  let out := (h >>> (fh.OLENGTH - 1).toNat) &&& 1
  let cmask ← shl_mask fh.CLENGTH
  pure { fh with comp := (comp ^^^ out) &&& cmask }

/-- The folded histories of every bank are within their compressed widths. -/
def TageFoldedBounded (s : TageState) : Prop :=
  ∀ i, 1 ≤ i → i ≤ 18 →
    (∀ f, s.ch_i[i]? = some f → f.comp < 2 ^ 10) ∧
    (∀ f, s.ch_t[i]? = some f → f.comp < 2 ^ (if i < 9 then 8 else 12))

/-- Banks 17 and 18 have the same folded histories. -/
def TageTwin (s : TageState) : Prop :=
  s.ch_i[17]? = s.ch_i[18]? ∧ s.ch_t[17]? = s.ch_t[18]?

/-- The indices `gindex` can produce for a bank: below `BORN` those with bits 10 and 11
clear, from `BORN` on those with bits 11 and 12 clear. -/
def TageIndexGood (bank idx : Nat) : Prop :=
  if bank < BORN then idx % 4096 < 1024 else idx % 8192 < 2048

/-- Every tagged entry at an index `gindex` cannot produce holds the value the
initialisation gave it. -/
def TageUntouched (s : TageState) : Prop :=
  ∀ bank j e, 1 ≤ bank → (tage_gtable s bank)[j]? = some e → ¬ TageIndexGood bank j →
    e = { ctr := 0, tag := 0, u := 0 }

/-- A counter moved by one toward the outcome, in the words of the specification: up by
one on a taken outcome unless it is at the bound 3, down by one on a not-taken outcome
unless it is at the bound -4. -/
def tage_ctr_toward (outcome : Nat) (c : Int) : Int :=
  if outcome = 1 then (if c < 3 then c + 1 else c) else (if c > -4 then c - 1 else c)

/-- The value an association list gives to the key `j`: that of the first pair with key
`j`, the default `d` when there is none. -/
def assoc_get {α : Type} (d : α) : List (Nat × α) → Nat → α
  | [], _ => d
  | (k, v) :: rest, j => if k = j then v else assoc_get d rest j

/-- The table of `n` entries an association list of writes stands for. -/
@[irreducible]
def assoc_dense {α : Type} (d : α) (ov : List (Nat × α)) (n : Nat) : List α :=
  (List.range n).map (assoc_get d ov)

/-- A TAGE state whose tables are given by the list of the writes made since the
initialisation, newest first; `core` holds the histories and parameters (its own three
tables are not used). -/
structure TageSparse where
  core : TageState
  bt : List (Nat × bentry_t)
  lo : List (Nat × gentry_t)
  hi : List (Nat × gentry_t)
  deriving DecidableEq, Repr

/-- The state a sparse state stands for: every table entry is the last value written to
it, or the value of the initialisation. -/
def tage_dense (sp : TageSparse) : TageState :=
  { sp.core with
    btable := assoc_dense { pred := 0, hyst := 1 } sp.bt (2 ^ LOGB),
    gtable_low := assoc_dense { ctr := 0, tag := 0, u := 0 } sp.lo (NBANKLOW * 2 ^ LOGG),
    gtable_high := assoc_dense { ctr := 0, tag := 0, u := 0 } sp.hi (NBANKHIGH * 2 ^ LOGG) }

/-- The sparse form of the fresh predictor. -/
def tage_sparse_init : TageSparse :=
  { core := { tage_predictor_init with btable := [], gtable_low := [], gtable_high := [] },
    bt := [], lo := [], hi := [] }

/-- The read `gtable[bank][idx]` on a sparse state. -/
def tage_sparse_read (sp : TageSparse) (bank idx : Nat) : Option gentry_t :=
  if bank = 0 then none
  else if bank < BORN then
    (if idx < NBANKLOW * 2 ^ LOGG then some (assoc_get { ctr := 0, tag := 0, u := 0 } sp.lo idx)
     else none)
  else
    (if idx < NBANKHIGH * 2 ^ LOGG then some (assoc_get { ctr := 0, tag := 0, u := 0 } sp.hi idx)
     else none)

/-- The write `gtable[bank][idx] = e` on a sparse state. -/
def tage_sparse_write (sp : TageSparse) (bank idx : Nat) (e : gentry_t) : TageSparse :=
  if bank = 0 then sp
  else if bank < BORN then { sp with lo := (idx, e) :: sp.lo }
  else { sp with hi := (idx, e) :: sp.hi }

/-- The read `btable[j]` on a sparse state. -/
def tage_sparse_bread (sp : TageSparse) (j : Nat) : Option bentry_t :=
  if j < 2 ^ LOGB then some (assoc_get { pred := 0, hyst := 1 } sp.bt j) else none

/-- The hit search of `tage_predictor_train` on a sparse state. -/
def tage_find_hit_sp (wide : Int → Nat) (sp : TageSparse) (PC : Nat) : Nat → Option Nat
  | 0 => some 0
  | i + 1 => do
    let noskip ← sp.core.NOSKIP[i + 1]?
    if !noskip then tage_find_hit_sp wide sp PC i else
    let index ← gindex wide sp.core PC (i + 1)
    let tag ← gtag sp.core PC (i + 1)
    let e ← tage_sparse_read sp (i + 1) index
    if e.tag = tag then pure (i + 1) else tage_find_hit_sp wide sp PC i

/-- The provider update on a sparse state. -/
def tage_update_provider_sp (wide : Int → Nat) (sp : TageSparse) (PC HitBank : Nat)
    (taken : Bool) : Option TageSparse :=
  if HitBank > 0 then do
    let index ← gindex wide sp.core PC HitBank
    let e ← tage_sparse_read sp HitBank index
    pure (tage_sparse_write sp HitBank index { e with ctr := tage_ctr_update taken e.ctr })
  else do
    let b ← tage_sparse_bread sp (tage_BI PC)
    pure { sp with bt := (tage_BI PC, { b with pred := tage_ctr_update taken b.pred }) :: sp.bt }

/-- The expression `pred_taken` on a sparse state. -/
def tage_train_pred_sp (wide : Int → Nat) (sp : TageSparse) (PC HitBank : Nat) : Option Bool :=
  if HitBank > 0 then do
    let index ← gindex wide sp.core PC HitBank
    let e ← tage_sparse_read sp HitBank index
    pure (decide (e.ctr ≥ 0))
  else do
    let b ← tage_sparse_bread sp (tage_BI PC)
    pure (decide (b.pred ≥ 0))

/-- The allocation loop on a sparse state. -/
def tage_allocate_sp (wide : Int → Nat) (PC : Nat) (taken : Bool) :
    Nat → Nat → TageSparse → Option TageSparse
  | 0, _, sp => some sp
  | n + 1, i, sp => do
    let noskip ← sp.core.NOSKIP[i]?
    if !noskip then tage_allocate_sp wide PC taken n (i + 1) sp else
    let index ← gindex wide sp.core PC i
    let e ← tage_sparse_read sp i index
    if e.u = 0 then do
      let tag ← gtag sp.core PC i
      pure (tage_sparse_write sp i index { ctr := if taken then 0 else -1, tag := tag, u := 0 })
    else if e.u > 0 then
      tage_allocate_sp wide PC taken n (i + 1)
        (tage_sparse_write sp i index { e with u := i8_wrap (e.u - 1) })
    else tage_allocate_sp wide PC taken n (i + 1) sp

/-- The usefulness step on a sparse state. -/
def tage_update_useful_sp (wide : Int → Nat) (sp : TageSparse) (PC HitBank : Nat)
    (pred_taken taken : Bool) : Option TageSparse :=
  if HitBank > 0 then do
    let index ← gindex wide sp.core PC HitBank
    let e ← tage_sparse_read sp HitBank index
    if pred_taken = taken then
      if e.u < 2 ^ UWIDTH - 1 then
        pure (tage_sparse_write sp HitBank index { e with u := i8_wrap (e.u + 1) })
      else pure sp
    else pure sp
  else pure sp

/-- The call `tage_predictor_train(PC, outcome)` on a sparse state. -/
def tage_predictor_train_sp (wide : Int → Nat) (sp : TageSparse) (PC outcome : Nat) :
    Option TageSparse := do
  let taken : Bool := decide (outcome = 1)
  let HitBank ← tage_find_hit_sp wide sp PC NHIST
  let sp1 ← tage_update_provider_sp wide sp PC HitBank taken
  let pred_taken ← tage_train_pred_sp wide sp1 PC HitBank
  let sp2 ←
    if pred_taken != taken ∧ HitBank < NHIST then
      tage_allocate_sp wide PC taken (NHIST - HitBank) (HitBank + 1) sp1
    else pure sp1
  let sp3 ← tage_update_useful_sp wide sp2 PC HitBank pred_taken taken
  let c4 ← tage_update_folded wide taken NHIST 1 sp3.core
  pure { sp3 with
         core := { c4 with ghist := ((c4.ghist * 2) % 2 ^ 64) ||| (if taken then 1 else 0) } }

/-- A sequence of train calls on a sparse state. -/
def tage_train_seq_sp (wide : Int → Nat) (sp : TageSparse) :
    List (Nat × Nat) → Option TageSparse
  | [] => some sp
  | (PC, outcome) :: rest =>
    (tage_predictor_train_sp wide sp PC outcome).bind
      (fun sp1 => tage_train_seq_sp wide sp1 rest)

/-- The first 23 calls of the run in which the allocation pass overwrites the provider's
entry. -/
def tage_alias_setup : List (Nat × Nat) :=
  [(4096, 1), (4096, 0), (4096, 1), (5, 1), (5, 1), (4096, 1), (5, 1), (4096, 1), (4096, 1),
   (5, 1), (5, 1), (5, 1), (4096, 1), (4096, 1), (4096, 1), (5, 1), (4096, 1), (4096, 1),
   (4096, 1), (4096, 1), (4096, 1), (4096, 1), (5, 1)]

/-- The lookup `tage_lookup` on a sparse state. -/
def tage_lookup_sp (wide : Int → Nat) (sp : TageSparse) (PC bank : Nat) :
    Option (gentry_t × Nat) := do
  let index ← gindex wide sp.core PC bank
  let tag ← gtag sp.core PC bank
  let e ← tage_sparse_read sp bank index
  pure (e, tag)

/-- Five train calls on the fresh predictor after which, for `PC = 30`, banks 3, 6, 10 and
13 match and the three predictions disagree: bank 13 says not taken, bank 6 and the
bimodal table say taken. -/
def tage_priority_setup : List (Nat × Nat) :=
  [(4096, 1), (1027, 1), (4096, 0), (1027, 1), (9, 0)]

/-- Twelve train calls on the fresh predictor, the five of `tage_priority_setup` and seven
more: the folded histories of 8 and 10 bits have then been shifted past their width. -/
def tage_history_setup : List (Nat × Nat) :=
  tage_priority_setup ++ [(10, 1), (10, 1), (10, 0), (10, 1), (10, 1), (10, 1), (10, 0)]

/-! ## cond_branch_predictor_interface.cc -/

/-- The enumeration `PredictorType` of `lib/predictor_type.h`. -/
inductive PredictorType where
  | PRED_TAGE_SC_L
  | PRED_SAMPLE
  | PRED_GSHARE
  | PRED_TOURNAMENT
  | PRED_TAGE
  | PRED_ONEBIT
  | PRED_TWOBIT
  | PRED_CORRELATING
  | PRED_LOCAL
  deriving DecidableEq, Repr

/-- Modelled from the spec: the instruction classes `InstClass` of the simulator header
`lib/sim_common_structs.h`, which is not among the sources.  The six branch classes are
the ones `spec_update` names in its `switch`; `otherInstClass` stands for every class that
is not a branch. -/
inductive InstClass where
  | condBranchInstClass
  | uncondDirectBranchInstClass
  | uncondIndirectBranchInstClass
  | callDirectInstClass
  | callIndirectInstClass
  | ReturnInstClass
  | otherInstClass
  deriving DecidableEq, Repr

/-- Modelled from the spec: `is_br(inst_class)` of the simulator header, true of the six
branch classes. -/
def is_br (c : InstClass) : Bool := decide (c ≠ InstClass.otherInstClass)

/-- Modelled from the spec: `is_cond_br(inst_class)` of the simulator header, true of
`condBranchInstClass` only. -/
def is_cond_br (c : InstClass) : Bool := decide (c = InstClass.condBranchInstClass)

/-- The statics the interface functions work on: `selected_predictor` and the statics of
the six backends it dispatches to.  The statics of `twobit_predictor.cc` and
`gshare_predictor.cc` exist once in the program: the tournament predictor calls the
functions of these two units, so they are the components `tournament.bimodal` and
`tournament.gshare`, also when `PRED_TWOBIT` or `PRED_GSHARE` is selected.  The objects
`cbp2016_tage_sc_l` and `cond_predictor_impl` belong to code outside the sources; their
calls touch none of these statics and are left out. -/
structure InterfaceState where
  selected_predictor : PredictorType
  onebit : OneBitState
  correlating : CorrelatingState
  local_state : LocalState
  tournament : TournamentState
  deriving DecidableEq, Repr

/-- The statics before any call: `selected_predictor = PRED_TAGE_SC_L`, no table
allocated. -/
def interface_initial : InterfaceState :=
  { selected_predictor := PredictorType.PRED_TAGE_SC_L,
    onebit := onebit_initial, correlating := correlating_initial,
    local_state := local_initial, tournament := tournament_initial }

/-- `get_cond_dir_prediction(seq_no, piece, pc, pred_cycle)`: the `uint64_t pc` is cast to
`uint32_t`, the `uint8_t` result of the backend is converted to `bool`.  For the other
selections the result comes from the predictors outside the sources and is the parameter
`ext`. -/
def get_cond_dir_prediction (st : InterfaceState) (pc : Nat) (ext : Bool) :
    Option (Bool × InterfaceState) :=
  match st.selected_predictor with
  | .PRED_ONEBIT =>
    (onebit_predictor_predict st.onebit (pc % 2 ^ 32)).map (fun r => (decide (r ≠ 0), st))
  | .PRED_TWOBIT =>
    (twobit_predictor_predict st.tournament.bimodal (pc % 2 ^ 32)).map
      (fun r => (decide (r ≠ 0), st))
  | .PRED_CORRELATING =>
    (correlating_predictor_predict st.correlating (pc % 2 ^ 32)).map
      (fun r => (decide (r ≠ 0), st))
  | .PRED_LOCAL =>
    (local_predictor_predict st.local_state (pc % 2 ^ 32)).map (fun r => (decide (r ≠ 0), st))
  | .PRED_GSHARE =>
    (gshare_predictor_predict st.tournament.gshare (pc % 2 ^ 32)).map
      (fun r => (decide (r ≠ 0), st))
  | .PRED_TOURNAMENT =>
    (tournament_predictor_predict st.tournament (pc % 2 ^ 32)).map
      (fun p => (decide (p.1 ≠ 0), { st with tournament := p.2 }))
  | _ => some (ext, st)

/-- `spec_update(seq_no, piece, pc, inst_class, resolve_dir, pred_dir, next_pc)`; `none`
when `assert(is_br(inst_class))` fails.  `PRED_TOURNAMENT` takes the last `else` branch,
whose calls are outside the sources. -/
def spec_update (st : InterfaceState) (pc : Nat) (inst_class : InstClass)
    (resolve_dir : Bool) : Option InterfaceState :=
  if !is_br inst_class then none
  else if inst_class = InstClass.condBranchInstClass then
    match st.selected_predictor with
    | .PRED_ONEBIT =>
      (onebit_predictor_train st.onebit (pc % 2 ^ 32) (if resolve_dir then 1 else 0)).map
        (fun b => { st with onebit := b })
    | .PRED_TWOBIT =>
      (twobit_predictor_train st.tournament.bimodal (pc % 2 ^ 32)
        (if resolve_dir then 1 else 0)).map
        (fun b => { st with tournament := { st.tournament with bimodal := b } })
    | .PRED_CORRELATING =>
      (correlating_predictor_train st.correlating (pc % 2 ^ 32)
        (if resolve_dir then 1 else 0)).map (fun b => { st with correlating := b })
    | .PRED_LOCAL =>
      (local_predictor_train st.local_state (pc % 2 ^ 32) (if resolve_dir then 1 else 0)).map
        (fun b => { st with local_state := b })
    | .PRED_GSHARE =>
      (gshare_predictor_train st.tournament.gshare (pc % 2 ^ 32) (if resolve_dir then 1 else 0)).map
        (fun b => { st with tournament := { st.tournament with gshare := b } })
    | _ => some st
  else some st

/-- `notify_instr_execute_resolve(seq_no, piece, pc, pred_dir, _exec_info, execute_cycle)`
with `insn_class = _exec_info.dec_info.insn_class` and
`resolve_dir = _exec_info.taken.value()`; `none` when `assert(pred_dir)` fails. -/
def notify_instr_execute_resolve (st : InterfaceState) (pc : Nat) (pred_dir : Bool)
    (insn_class : InstClass) (resolve_dir : Bool) : Option InterfaceState :=
  if is_br insn_class then
    if is_cond_br insn_class then
      match st.selected_predictor with
      | .PRED_ONEBIT =>
        (onebit_predictor_train st.onebit (pc % 2 ^ 32) (if resolve_dir then 1 else 0)).map
          (fun b => { st with onebit := b })
      | .PRED_TWOBIT =>
        (twobit_predictor_train st.tournament.bimodal (pc % 2 ^ 32)
          (if resolve_dir then 1 else 0)).map
          (fun b => { st with tournament := { st.tournament with bimodal := b } })
      | .PRED_CORRELATING =>
        (correlating_predictor_train st.correlating (pc % 2 ^ 32)
          (if resolve_dir then 1 else 0)).map (fun b => { st with correlating := b })
      | .PRED_LOCAL =>
        (local_predictor_train st.local_state (pc % 2 ^ 32)
          (if resolve_dir then 1 else 0)).map (fun b => { st with local_state := b })
      | .PRED_GSHARE =>
        (gshare_predictor_train st.tournament.gshare (pc % 2 ^ 32)
          (if resolve_dir then 1 else 0)).map
          (fun b => { st with tournament := { st.tournament with gshare := b } })
      | .PRED_TOURNAMENT =>
        (tournament_predictor_train st.tournament (pc % 2 ^ 32)
          (if resolve_dir then 1 else 0)).map (fun b => { st with tournament := b })
      | _ => some st
    else if pred_dir then some st else none
  else some st

/-- The callbacks the simulator issues for one conditional branch, in the order the
specification gives: `get_cond_dir_prediction`, then `spec_update`, then
`notify_instr_execute_resolve` with the prediction made. -/
def interface_cond_branch (st : InterfaceState) (pc : Nat) (resolve_dir ext : Bool) :
    Option (Bool × InterfaceState) := do
  let p ← get_cond_dir_prediction st pc ext
  let st1 ← spec_update p.2 pc InstClass.condBranchInstClass resolve_dir
  let st2 ← notify_instr_execute_resolve st1 pc p.1 InstClass.condBranchInstClass resolve_dir
  pure (p.1, st2)

/-! ## The predict functions as calls on the statics -/

theorem shl_size_eq (b : Int) (h0 : 0 ≤ b) (h1 : b ≤ 31) : shl_size b = some (2 ^ b.toNat) := by
  simp [shl_size, h0, h1]

theorem shl_mask_eq (b : Int) (h0 : 0 ≤ b) (h1 : b ≤ 30) :
    shl_mask b = some (2 ^ b.toNat - 1) := by
  simp [shl_mask, h0, h1]

theorem u32_pred_pow (n : Nat) (h : n ≤ 31) : u32_pred (2 ^ n) = 2 ^ n - 1 := by
  have h1 : 1 ≤ 2 ^ n := Nat.one_le_two_pow
  have h2 : 2 ^ n ≤ 2 ^ 31 := Nat.pow_le_pow_right (by decide) h
  unfold u32_pred
  omega

theorem and_mask_lt (pc b : Nat) : pc &&& (2 ^ b - 1) < 2 ^ b := by
  have h1 : 1 ≤ 2 ^ b := Nat.one_le_two_pow
  have h2 : pc &&& (2 ^ b - 1) ≤ 2 ^ b - 1 := Nat.and_le_right
  omega

theorem toNat_le_31 (b : Int) (h1 : b ≤ 31) : b.toNat ≤ 31 := by omega

/-! ### The 2-bit predictor -/

theorem twobit_init_eq (b : Int) (h0 : 0 ≤ b) (h1 : b ≤ 31) :
    twobit_predictor_init b =
      some { table := List.replicate (2 ^ b.toNat) 1, mask := 2 ^ b.toNat - 1, bits := b,
             n_bits := 2, max_val := 3, threshold := 2 } := by
  have hm : shl_mask 2 = some 3 := by decide
  have hs : shl_size 1 = some 2 := by decide
  simp [twobit_predictor_init, shl_size_eq b h0 h1, hm, hs, u32_pred_pow _ (toNat_le_31 b h1)]

theorem twobit_init_configured (b : Int) (h0 : 0 ≤ b) (h1 : b ≤ 31) :
    ∃ s, twobit_predictor_init b = some s ∧ TwoBitConfigured b.toNat s ∧ ∀ x ∈ s.table, x ≤ 3 := by
  refine ⟨_, twobit_init_eq b h0 h1, ⟨by simp, rfl, rfl, rfl⟩, ?_⟩
  intro x hx
  have := List.eq_of_mem_replicate hx
  omega

theorem mem_set_le {t : List Nat} {i v n : Nat} (ht : ∀ x ∈ t, x ≤ n) (hv : v ≤ n) :
    ∀ x ∈ t.set i v, x ≤ n := by
  intro x hx
  rcases List.mem_or_eq_of_mem_set hx with h | h
  · exact ht x h
  · omega

/-- One `twobit_predictor_train` call on a configured state whose counters are at most 3
returns, and the new state is configured with counters at most 3. -/
theorem twobit_train_preserves (b : Nat) (s : TwoBitState) (pc outcome : Nat)
    (hc : TwoBitConfigured b s) (hb : ∀ x ∈ s.table, x ≤ 3) :
    ∃ s1, twobit_predictor_train s pc outcome = some s1 ∧ TwoBitConfigured b s1 ∧
      ∀ x ∈ s1.table, x ≤ 3 := by
  obtain ⟨hlen, hmask, hmax, hthr⟩ := hc
  have hidx : pc &&& s.mask < s.table.length := by
    rw [hmask, hlen]; exact and_mask_lt pc b
  have hget : s.table[pc &&& s.mask]? = some (s.table[pc &&& s.mask]) :=
    List.getElem?_eq_getElem hidx
  have hcb : s.table[pc &&& s.mask] ≤ 3 := hb _ (List.getElem_mem hidx)
  by_cases ho : outcome ≠ 0
  · by_cases h3 : s.table[pc &&& s.mask] < 3
    · refine ⟨{ s with table := s.table.set (pc &&& s.mask) (u8_inc s.table[pc &&& s.mask]) },
        by simp [twobit_predictor_train, hget, hmax, ho, h3],
        ⟨by simpa using hlen, hmask, hmax, hthr⟩, ?_⟩
      exact mem_set_le hb (by unfold u8_inc; omega)
    · exact ⟨s, by simp [twobit_predictor_train, hget, hmax, ho, h3], ⟨hlen, hmask, hmax, hthr⟩, hb⟩
  · by_cases h0 : s.table[pc &&& s.mask] > 0
    · refine ⟨{ s with table := s.table.set (pc &&& s.mask) (u8_dec s.table[pc &&& s.mask]) },
        by simp [twobit_predictor_train, hget, hmax, ho, h0],
        ⟨by simpa using hlen, hmask, hmax, hthr⟩, ?_⟩
      exact mem_set_le hb (by unfold u8_dec; omega)
    · exact ⟨s, by simp [twobit_predictor_train, hget, hmax, ho, h0], ⟨hlen, hmask, hmax, hthr⟩, hb⟩

theorem twobit_train_seq_preserves (b : Nat) (ops : List (Nat × Nat)) :
    ∀ s : TwoBitState, TwoBitConfigured b s → (∀ x ∈ s.table, x ≤ 3) →
      ∃ s1, twobit_train_seq s ops = some s1 ∧ TwoBitConfigured b s1 ∧
        ∀ x ∈ s1.table, x ≤ 3 := by
  induction ops with
  | nil => intro s hc hb; exact ⟨s, rfl, hc, hb⟩
  | cons op rest ih =>
    intro s hc hb
    obtain ⟨pc, outcome⟩ := op
    obtain ⟨s1, h1, hc1, hb1⟩ := twobit_train_preserves b s pc outcome hc hb
    obtain ⟨s2, h2, hc2, hb2⟩ := ih s1 hc1 hb1
    exact ⟨s2, by simp [twobit_train_seq, h1, h2], hc2, hb2⟩

/-- C1. Saturation invariant of the 2-bit predictor: after `twobit_predictor_init(b)`
(`0 ≤ b ≤ 31`, the widths for which the shift `1 << b` is defined) and any finite sequence of
`twobit_predictor_train` calls with arbitrary pcs and outcomes, every call returns and
every one of the `2 ^ b` table entries is at most 3.  Counters are `uint8_t` values, and
the decrement is modelled with its wrap-around, so a counter that dropped below 0 would
show up as 255. -/
theorem twobit_saturation_invariant (b : Int) (h0 : 0 ≤ b) (h1 : b ≤ 31)
    (ops : List (Nat × Nat)) :
    ∃ s0 s, twobit_predictor_init b = some s0 ∧ twobit_train_seq s0 ops = some s ∧
      s.table.length = 2 ^ b.toNat ∧ ∀ x ∈ s.table, 0 ≤ x ∧ x ≤ 3 := by
  obtain ⟨s0, hi, hc, hb⟩ := twobit_init_configured b h0 h1
  obtain ⟨s, hs, hc1, hb1⟩ := twobit_train_seq_preserves b.toNat ops s0 hc hb
  exact ⟨s0, s, hi, hs, hc1.1, fun x hx => ⟨Nat.zero_le x, hb1 x hx⟩⟩

/-- Witness of C1: a table of four counters, five taken trainings of pc 0 followed by two
not-taken trainings of pc 1. -/
theorem twobit_saturation_invariant_witness :
    ∃ s0 s, twobit_predictor_init 2 = some s0 ∧
      twobit_train_seq s0 [(0, 1), (0, 1), (0, 1), (0, 1), (0, 1), (1, 0), (1, 0)] = some s ∧
      s.table.length = 2 ^ (2 : Int).toNat ∧ ∀ x ∈ s.table, 0 ≤ x ∧ x ≤ 3 :=
  twobit_saturation_invariant 2 (by decide) (by decide) _

/-- One taken training of a configured 2-bit predictor whose counter for `pc` is `c ≤ 3`
leaves that counter at `min (c + 1) 3`. -/
theorem twobit_train_taken_step (b : Nat) (s : TwoBitState) (pc c : Nat)
    (hc : TwoBitConfigured b s) (hget : s.table[pc &&& (2 ^ b - 1)]? = some c) (hc3 : c ≤ 3) :
    ∃ s1, twobit_predictor_train s pc 1 = some s1 ∧ TwoBitConfigured b s1 ∧
      s1.table[pc &&& (2 ^ b - 1)]? = some (min (c + 1) 3) := by
  obtain ⟨hlen, hmask, hmax, hthr⟩ := hc
  have hc : TwoBitConfigured b s := ⟨hlen, hmask, hmax, hthr⟩
  rw [← hmask] at hget ⊢
  have hidx : pc &&& s.mask < s.table.length := by
    rw [hmask, hlen]; exact and_mask_lt pc b
  by_cases h3 : c < 3
  · refine ⟨{ s with table := s.table.set (pc &&& s.mask) (u8_inc c) },
      by simp [twobit_predictor_train, hget, hmax, h3],
      ⟨by simpa using hlen, hmask, hmax, hthr⟩, ?_⟩
    have : u8_inc c = min (c + 1) 3 := by unfold u8_inc; omega
    simp [List.getElem?_set_self, hidx, this]
  · refine ⟨s, by simp [twobit_predictor_train, hget, hmax, h3], hc, ?_⟩
    have : min (c + 1) 3 = c := by omega
    rw [this]; exact hget

theorem twobit_train_taken_run (b : Nat) (pc : Nat) (k : Nat) :
    ∀ (s : TwoBitState) (c : Nat), TwoBitConfigured b s →
      s.table[pc &&& (2 ^ b - 1)]? = some c → c ≤ 3 →
      ∃ s1, twobit_train_seq s (List.replicate k (pc, 1)) = some s1 ∧
        s1.table[pc &&& (2 ^ b - 1)]? = some (min (c + k) 3) := by
  induction k with
  | zero =>
    intro s c _ hget hc3
    exact ⟨s, rfl, by simpa [Nat.min_eq_left hc3] using hget⟩
  | succ k ih =>
    intro s c hc hget hc3
    obtain ⟨s1, h1, hc1, hget1⟩ := twobit_train_taken_step b s pc c hc hget hc3
    obtain ⟨s2, h2, hget2⟩ := ih s1 (min (c + 1) 3) hc1 hget1 (Nat.min_le_right _ _)
    refine ⟨s2, by simp [List.replicate_succ, twobit_train_seq, h1, h2], ?_⟩
    have : min (min (c + 1) 3 + k) 3 = min (c + (k + 1)) 3 := by omega
    rw [← this]; exact hget2

/-- C2. Two-bit saturation scenario, generalised: after `twobit_predictor_init(b)`
(`0 ≤ b ≤ 31`), for every pc and every `k`, `k` consecutive
`twobit_predictor_train(pc, 1)` calls all return and leave the counter at index
`pc & (2^b - 1)` equal to `min (1 + k) 3`. -/
theorem twobit_taken_saturates (b : Int) (h0 : 0 ≤ b) (h1 : b ≤ 31) (pc k : Nat) :
    ∃ s0 s, twobit_predictor_init b = some s0 ∧
      twobit_train_seq s0 (List.replicate k (pc, 1)) = some s ∧
      s.table[pc &&& (2 ^ b.toNat - 1)]? = some (min (1 + k) 3) := by
  obtain ⟨s0, hi, hc, _⟩ := twobit_init_configured b h0 h1
  have hget : s0.table[pc &&& (2 ^ b.toNat - 1)]? = some 1 := by
    rw [twobit_init_eq b h0 h1] at hi
    cases hi
    exact List.getElem?_replicate_of_lt (and_mask_lt pc b.toNat)
  obtain ⟨s, hs, hg⟩ := twobit_train_taken_run b.toNat pc k s0 1 hc hget (by decide)
  exact ⟨s0, s, hi, hs, hg⟩

/-- Witness of C2: with 16 counters, three taken trainings of pc 21 leave counter
`21 & 15 = 5` at 3 (the values passed through are 2, 3, 3). -/
theorem twobit_taken_saturates_witness :
    ∃ s0 s, twobit_predictor_init 4 = some s0 ∧
      twobit_train_seq s0 (List.replicate 3 (21, 1)) = some s ∧
      s.table[21 &&& (2 ^ (4 : Int).toNat - 1)]? = some (min (1 + 3) 3) :=
  twobit_taken_saturates 4 (by decide) (by decide) 21 3

/-! ### Prediction rule of the 1-bit and 2-bit predictors -/

/-- C3. In every configured state and for every pc, `onebit_predictor_predict(pc)` returns
a nonzero (taken) value iff the counter at index `pc & (size - 1)` is at least
`2 ^ (1 - 1) = 1`, and `twobit_predictor_predict(pc)` returns a nonzero (taken) value iff
the counter at index `pc & (size - 1)` is at least `2 ^ (2 - 1) = 2`, where
`size = 2 ^ table_bits`; the 2-bit predictor returns 0 or 1. -/
theorem counter_predict_threshold (b1 b2 : Nat) (s1 : OneBitState) (s2 : TwoBitState) (pc : Nat)
    (hc1 : OneBitConfigured b1 s1) (hc2 : TwoBitConfigured b2 s2) :
    (∃ c r, s1.table[pc &&& (2 ^ b1 - 1)]? = some c ∧ onebit_predictor_predict s1 pc = some r ∧
      (r ≠ 0 ↔ c ≥ 2 ^ (1 - 1))) ∧
    (∃ c r, s2.table[pc &&& (2 ^ b2 - 1)]? = some c ∧ twobit_predictor_predict s2 pc = some r ∧
      (r ≠ 0 ↔ c ≥ 2 ^ (2 - 1)) ∧ r ≤ 1) := by
  constructor
  · obtain ⟨hlen, hmask⟩ := hc1
    rw [← hmask]
    have hidx : pc &&& s1.mask < s1.table.length := by
      rw [hmask, hlen]; exact and_mask_lt pc b1
    refine ⟨s1.table[pc &&& s1.mask], s1.table[pc &&& s1.mask],
      List.getElem?_eq_getElem hidx, ?_, ?_⟩
    · simp [onebit_predictor_predict, List.getElem?_eq_getElem hidx]
    · simp; omega
  · obtain ⟨hlen, hmask, _, hthr⟩ := hc2
    rw [← hmask]
    have hidx : pc &&& s2.mask < s2.table.length := by
      rw [hmask, hlen]; exact and_mask_lt pc b2
    refine ⟨s2.table[pc &&& s2.mask],
      if s2.table[pc &&& s2.mask] ≥ 2 then 1 else 0,
      List.getElem?_eq_getElem hidx, ?_, ?_, ?_⟩
    · simp [twobit_predictor_predict, hthr, List.getElem?_eq_getElem hidx]
    · by_cases h : s2.table[pc &&& s2.mask] ≥ 2 <;> simp [h]
    · split <;> omega

/-- Witness of C3: a 1-bit table `[0, 1]` and a 2-bit table `[1, 2, 3, 0]`, pc 5. -/
theorem counter_predict_threshold_witness :
    (∃ c r, ([0, 1] : List Nat)[5 &&& (2 ^ 1 - 1)]? = some c ∧
      onebit_predictor_predict { table := [0, 1], mask := 1, bits := 1 } 5 = some r ∧
      (r ≠ 0 ↔ c ≥ 2 ^ (1 - 1))) ∧
    (∃ c r, ([1, 2, 3, 0] : List Nat)[5 &&& (2 ^ 2 - 1)]? = some c ∧
      twobit_predictor_predict
        { table := [1, 2, 3, 0], mask := 3, bits := 2, n_bits := 2, max_val := 3,
          threshold := 2 } 5 = some r ∧
      (r ≠ 0 ↔ c ≥ 2 ^ (2 - 1)) ∧ r ≤ 1) :=
  counter_predict_threshold 1 2 { table := [0, 1], mask := 1, bits := 1 }
    { table := [1, 2, 3, 0], mask := 3, bits := 2, n_bits := 2, max_val := 3, threshold := 2 } 5
    ⟨by decide, by decide⟩ ⟨by decide, by decide, by decide, by decide⟩

/-! ### The 1-bit predictor -/

theorem onebit_init_eq (b : Int) (h0 : 0 ≤ b) (h1 : b ≤ 31) :
    onebit_predictor_init b =
      some { table := List.replicate (2 ^ b.toNat) 0, mask := 2 ^ b.toNat - 1, bits := b } := by
  simp [onebit_predictor_init, shl_size_eq b h0 h1, u32_pred_pow _ (toNat_le_31 b h1)]

theorem onebit_init_configured (b : Int) (h0 : 0 ≤ b) (h1 : b ≤ 31) :
    ∃ s, onebit_predictor_init b = some s ∧ OneBitConfigured b.toNat s :=
  ⟨_, onebit_init_eq b h0 h1, by simp [OneBitConfigured]⟩

/-- C4. One-bit overwrite and aliasing: for every `table_bits = b ≥ 0`, every configured
state, every pc and every outcome in {0, 1}, `onebit_predictor_train(pc, outcome)` returns,
and afterwards `onebit_predictor_predict(pc1)` returns `outcome` for every `pc1` with
`pc1 & (2^b - 1) = pc & (2^b - 1)`, whatever the counter held before. -/
theorem onebit_overwrite_alias (b : Nat) (s : OneBitState) (pc pc1 outcome : Nat)
    (hc : OneBitConfigured b s) (ho : outcome = 0 ∨ outcome = 1)
    (halias : pc1 &&& (2 ^ b - 1) = pc &&& (2 ^ b - 1)) :
    ∃ s1, onebit_predictor_train s pc outcome = some s1 ∧ OneBitConfigured b s1 ∧
      onebit_predictor_predict s1 pc1 = some outcome := by
  obtain ⟨hlen, hmask⟩ := hc
  rw [← hmask] at halias
  have hidx : pc &&& s.mask < s.table.length := by
    rw [hmask, hlen]; exact and_mask_lt pc b
  refine ⟨{ s with table := s.table.set (pc &&& s.mask) (if outcome ≠ 0 then 1 else 0) },
    by simp [onebit_predictor_train, hidx], ⟨by simpa using hlen, hmask⟩, ?_⟩
  simp only [onebit_predictor_predict, halias]
  rw [List.getElem?_set_self hidx]
  rcases ho with h | h <;> simp [h]

/-- Witness of C4: `table_bits = 2`, `train(0, 1)` on the freshly initialised table, then
`predict(4)`: pc 4 aliases pc 0 (`4 & 3 = 0 & 3`) and is predicted taken. -/
theorem onebit_overwrite_alias_witness :
    ∃ s1, onebit_predictor_train { table := [0, 0, 0, 0], mask := 3, bits := 2 } 0 1 = some s1 ∧
      OneBitConfigured 2 s1 ∧ onebit_predictor_predict s1 4 = some 1 :=
  onebit_overwrite_alias 2 { table := [0, 0, 0, 0], mask := 3, bits := 2 } 0 4 1
    ⟨by decide, by decide⟩ (Or.inr rfl) (by decide)

/-! ### Components of the tournament predictor -/

theorem and_le_mask (pc m : Nat) : pc &&& m < m + 1 :=
  Nat.lt_succ_of_le Nat.and_le_right

theorem twobit_predict_some (s : TwoBitState) (pc : Nat) (hlen : s.table.length = s.mask + 1) :
    ∃ r, twobit_predictor_predict s pc = some r ∧ r ≤ 1 := by
  have hidx : pc &&& s.mask < s.table.length := hlen ▸ and_le_mask pc s.mask
  refine ⟨if s.table[pc &&& s.mask] ≥ s.threshold then 1 else 0, ?_, by split <;> omega⟩
  simp [twobit_predictor_predict, List.getElem?_eq_getElem hidx]

theorem twobit_train_some (s : TwoBitState) (pc outcome : Nat)
    (hlen : s.table.length = s.mask + 1) :
    ∃ s1, twobit_predictor_train s pc outcome = some s1 ∧ s1.table.length = s.table.length ∧
      s1.mask = s.mask ∧ s1.max_val = s.max_val ∧ s1.threshold = s.threshold := by
  have hidx : pc &&& s.mask < s.table.length := hlen ▸ and_le_mask pc s.mask
  simp only [twobit_predictor_train, List.getElem?_eq_getElem hidx, Option.bind_eq_bind,
    Option.some_bind, Option.pure_def]
  split_ifs <;> simp

theorem gshare_predict_some (s : GshareState) (pc : Nat) (hlen : s.pht.length = s.pht_mask + 1) :
    ∃ r, gshare_predictor_predict s pc = some r ∧ r ≤ 1 := by
  have hidx : (pc ^^^ s.global_history) &&& s.pht_mask < s.pht.length :=
    hlen ▸ and_le_mask _ s.pht_mask
  refine ⟨if s.pht[(pc ^^^ s.global_history) &&& s.pht_mask] ≥ 2 then 1 else 0, ?_,
    by split <;> omega⟩
  simp [gshare_predictor_predict, List.getElem?_eq_getElem hidx]

theorem gshare_train_some (s : GshareState) (pc outcome : Nat)
    (hlen : s.pht.length = s.pht_mask + 1) :
    ∃ s1, gshare_predictor_train s pc outcome = some s1 ∧ s1.pht.length = s.pht.length ∧
      s1.pht_mask = s.pht_mask := by
  have hidx : (pc ^^^ s.global_history) &&& s.pht_mask < s.pht.length :=
    hlen ▸ and_le_mask _ s.pht_mask
  simp only [gshare_predictor_train, List.getElem?_eq_getElem hidx, Option.bind_eq_bind,
    Option.some_bind, Option.pure_def]
  refine ⟨_, rfl, ?_, rfl⟩
  split_ifs <;> simp

theorem tournament_selector_some (s : TournamentState) (pc : Nat)
    (hc : TournamentConfigured s) :
    ∃ sel, s.selector_table[pc &&& s.selector_mask]? = some sel ∧ sel ≤ 3 := by
  obtain ⟨_, hlen, hsel, _⟩ := hc
  have hidx : pc &&& s.selector_mask < s.selector_table.length :=
    hlen ▸ and_le_mask pc s.selector_mask
  exact ⟨_, List.getElem?_eq_getElem hidx, hsel _ (List.getElem_mem hidx)⟩

/-- The value and the state `tournament_predictor_predict` returns in an initialised state,
in terms of the component predictions and the selector entry. -/
theorem tournament_predict_eq (s : TournamentState) (pc sel bp gp : Nat)
    (hinit : s.initialized = true)
    (hsel : s.selector_table[pc &&& s.selector_mask]? = some sel)
    (hbp : twobit_predictor_predict s.bimodal pc = some bp)
    (hgp : gshare_predictor_predict s.gshare pc = some gp) :
    tournament_predictor_predict s pc =
      some (if sel ≤ 1 then bp else gp,
            { s with last_bimodal_pred := bp, last_gshare_pred := gp, last_pc := pc }) := by
  simp only [tournament_predictor_predict, hinit, hbp, hgp, hsel, Option.bind_eq_bind,
    Option.some_bind, Option.pure_def, Bool.not_true, Bool.false_eq_true, if_false]
  split_ifs <;> rfl

/-- The state `tournament_predictor_train` returns in an initialised state, in terms of the
trained components and the selector entry. -/
theorem tournament_train_eq (s : TournamentState) (pc outcome sel : Nat)
    (b : TwoBitState) (g : GshareState)
    (hinit : s.initialized = true)
    (hsel : s.selector_table[pc &&& s.selector_mask]? = some sel)
    (hb : twobit_predictor_train s.bimodal pc outcome = some b)
    (hg : gshare_predictor_train s.gshare pc outcome = some g) :
    tournament_predictor_train s pc outcome =
      some { s with bimodal := b, gshare := g,
                    selector_table := tournament_selector_after s pc outcome sel } := by
  simp only [tournament_predictor_train, tournament_selector_after, hinit, hb, hg, hsel,
    Option.bind_eq_bind, Option.some_bind, Option.pure_def, Bool.not_true, Bool.false_eq_true,
    if_false, Bool.and_eq_true, beq_iff_eq, Bool.not_eq_true', beq_eq_false_iff_ne]
  split_ifs <;> rfl

theorem tournament_selector_after_length (s : TournamentState) (pc outcome sel : Nat) :
    (tournament_selector_after s pc outcome sel).length = s.selector_table.length := by
  unfold tournament_selector_after
  split_ifs <;> simp

theorem tournament_selector_after_le (s : TournamentState) (pc outcome sel : Nat)
    (hsel : sel ≤ 3) (hall : ∀ x ∈ s.selector_table, x ≤ 3) :
    ∀ x ∈ tournament_selector_after s pc outcome sel, x ≤ 3 := by
  unfold tournament_selector_after
  split_ifs
  all_goals first
    | exact hall
    | exact mem_set_le hall (by unfold u8_dec; omega)
    | exact mem_set_le hall (by unfold u8_inc; omega)

/-! ### Initialised tournament states -/

theorem tournament_init_configured (s : TournamentState) (sb bb gtb ghb : Int)
    (hsb : 0 ≤ sb ∧ sb ≤ 31) (hbb : 0 ≤ bb ∧ bb ≤ 31) (hgtb : 0 ≤ gtb ∧ gtb ≤ 31)
    (hghb : 0 ≤ ghb ∧ ghb ≤ 30) :
    ∃ s1, tournament_predictor_init s sb bb gtb ghb = some s1 ∧ TournamentConfigured s1 ∧
      s1.selector_table = List.replicate (2 ^ sb.toNat) 1 ∧
      s1.last_pc = s.last_pc ∧ s1.last_bimodal_pred = s.last_bimodal_pred ∧
      s1.last_gshare_pred = s.last_gshare_pred := by
  have h1 : 1 ≤ 2 ^ sb.toNat := Nat.one_le_two_pow
  have h2 : 1 ≤ 2 ^ bb.toNat := Nat.one_le_two_pow
  have h3 : 1 ≤ 2 ^ gtb.toNat := Nat.one_le_two_pow
  refine ⟨{ tournament_predictor_cleanup s with
      selector_bits := sb, selector_table := List.replicate (2 ^ sb.toNat) 1,
      selector_mask := 2 ^ sb.toNat - 1,
      bimodal := { table := List.replicate (2 ^ bb.toNat) 1, mask := 2 ^ bb.toNat - 1,
                   bits := bb, n_bits := 2, max_val := 3, threshold := 2 },
      gshare := { pht := List.replicate (2 ^ gtb.toNat) 1, pht_size := 2 ^ gtb.toNat,
                  pht_mask := 2 ^ gtb.toNat - 1, global_history := 0,
                  history_mask := 2 ^ ghb.toNat - 1, history_bits := ghb },
      initialized := true }, ?_, ⟨rfl, ?_, ?_, ?_, rfl, rfl, ?_⟩, rfl, rfl, rfl, rfl⟩
  · simp only [tournament_predictor_init, tournament_predictor_cleanup,
      shl_size_eq sb hsb.1 hsb.2, twobit_init_eq bb hbb.1 hbb.2, gshare_predictor_init,
      shl_size_eq gtb hgtb.1 hgtb.2, shl_mask_eq ghb hghb.1 hghb.2,
      u32_pred_pow _ (toNat_le_31 sb hsb.2), u32_pred_pow _ (toNat_le_31 gtb hgtb.2),
      Option.bind_eq_bind, Option.some_bind, Option.pure_def]
  · simp; omega
  · intro x hx
    have := List.eq_of_mem_replicate hx
    omega
  · simp; omega
  · simp; omega

theorem tournament_predict_configured (s : TournamentState) (pc : Nat)
    (hc : TournamentConfigured s) :
    ∃ r s1, tournament_predictor_predict s pc = some (r, s1) ∧ TournamentConfigured s1 ∧
      s1.last_pc = pc ∧ s1.selector_table = s.selector_table := by
  obtain ⟨sel, hsel, _⟩ := tournament_selector_some s pc hc
  obtain ⟨hinit, h1, h2, h3, h4, h5, h6⟩ := hc
  obtain ⟨bp, hbp, _⟩ := twobit_predict_some s.bimodal pc h3
  obtain ⟨gp, hgp, _⟩ := gshare_predict_some s.gshare pc h6
  exact ⟨_, _, tournament_predict_eq s pc sel bp gp hinit hsel hbp hgp,
    ⟨hinit, h1, h2, h3, h4, h5, h6⟩, rfl, rfl⟩

theorem tournament_train_configured (s : TournamentState) (pc outcome : Nat)
    (hc : TournamentConfigured s) :
    ∃ s1, tournament_predictor_train s pc outcome = some s1 ∧ TournamentConfigured s1 := by
  obtain ⟨sel, hsel, hsel3⟩ := tournament_selector_some s pc hc
  obtain ⟨hinit, h1, h2, h3, h4, h5, h6⟩ := hc
  obtain ⟨b, hb, hb1, hb2, hb3, hb4⟩ := twobit_train_some s.bimodal pc outcome h3
  obtain ⟨g, hg, hg1, hg2⟩ := gshare_train_some s.gshare pc outcome h6
  refine ⟨_, tournament_train_eq s pc outcome sel b g hinit hsel hb hg,
    hinit, ?_, ?_, ?_, ?_, ?_, ?_⟩
  · simpa [tournament_selector_after_length] using h1
  · exact tournament_selector_after_le s pc outcome sel hsel3 h2
  · show b.table.length = b.mask + 1
    rw [hb1, hb2]; exact h3
  · show b.max_val = 3
    rw [hb3]; exact h4
  · show b.threshold = 2
    rw [hb4]; exact h5
  · show g.pht.length = g.pht_mask + 1
    rw [hg1, hg2]; exact h6

/-! ### Claims on the tournament predictor -/

/-- C5. Tournament selection rule: in every initialised state and for every pc,
`tournament_predictor_predict(pc)` returns, and its value is the prediction
`twobit_predictor_predict(pc)` of the bimodal component (P1) in the current state when the
selector entry at `pc & selector_mask` is 0 or 1, and the prediction
`gshare_predictor_predict(pc)` of the gshare component (P2) in the current state when it is
2 or 3; the entry is one of 0..3. -/
theorem tournament_selection_rule (s : TournamentState) (pc : Nat)
    (hc : TournamentConfigured s) :
    ∃ sel bp gp r s1,
      s.selector_table[pc &&& s.selector_mask]? = some sel ∧
      twobit_predictor_predict s.bimodal pc = some bp ∧
      gshare_predictor_predict s.gshare pc = some gp ∧
      tournament_predictor_predict s pc = some (r, s1) ∧
      sel ≤ 3 ∧ (sel = 0 ∨ sel = 1 → r = bp) ∧ (sel = 2 ∨ sel = 3 → r = gp) := by
  obtain ⟨sel, hsel, hsel3⟩ := tournament_selector_some s pc hc
  obtain ⟨hinit, _, _, h3, _, _, h6⟩ := hc
  obtain ⟨bp, hbp, _⟩ := twobit_predict_some s.bimodal pc h3
  obtain ⟨gp, hgp, _⟩ := gshare_predict_some s.gshare pc h6
  refine ⟨sel, bp, gp, _, _, hsel, hbp, hgp,
    tournament_predict_eq s pc sel bp gp hinit hsel hbp hgp, hsel3, ?_, ?_⟩
  · intro h
    have : sel ≤ 1 := by omega
    simp [this]
  · intro h
    have : ¬ sel ≤ 1 := by omega
    simp [this]

/-- Witness of C5: selector table `[1, 3]`, bimodal counters `[1, 1]` (not taken), gshare
counters `[2, 2]` (taken); pc 1 reads selector entry 3 and gets the gshare prediction. -/
theorem tournament_selection_rule_witness :
    ∃ sel bp gp r s1,
      ([1, 3] : List Nat)[1 &&& 1]? = some sel ∧
      twobit_predictor_predict
        { table := [1, 1], mask := 1, bits := 1, n_bits := 2, max_val := 3, threshold := 2 }
        1 = some bp ∧
      gshare_predictor_predict
        { pht := [2, 2], pht_size := 2, pht_mask := 1, global_history := 0,
          history_mask := 1, history_bits := 1 } 1 = some gp ∧
      tournament_predictor_predict
        { selector_table := [1, 3], selector_mask := 1, selector_bits := 1,
          initialized := true, last_bimodal_pred := 0, last_gshare_pred := 0, last_pc := 0,
          bimodal := { table := [1, 1], mask := 1, bits := 1, n_bits := 2, max_val := 3,
                       threshold := 2 },
          gshare := { pht := [2, 2], pht_size := 2, pht_mask := 1, global_history := 0,
                      history_mask := 1, history_bits := 1 } } 1 = some (r, s1) ∧
      sel ≤ 3 ∧ (sel = 0 ∨ sel = 1 → r = bp) ∧ (sel = 2 ∨ sel = 3 → r = gp) :=
  tournament_selection_rule
    { selector_table := [1, 3], selector_mask := 1, selector_bits := 1,
      initialized := true, last_bimodal_pred := 0, last_gshare_pred := 0, last_pc := 0,
      bimodal := { table := [1, 1], mask := 1, bits := 1, n_bits := 2, max_val := 3,
                   threshold := 2 },
      gshare := { pht := [2, 2], pht_size := 2, pht_mask := 1, global_history := 0,
                  history_mask := 1, history_bits := 1 } } 1
    ⟨rfl, rfl, by decide, rfl, rfl, rfl, rfl⟩

theorem list_set_same (t : List Nat) (i v : Nat) (h : t[i]? = some v) : t.set i v = t := by
  apply List.ext_getElem?
  intro j
  by_cases hij : i = j
  · subst hij
    have hlt : i < t.length := by
      by_contra hge
      rw [List.getElem?_eq_none (by omega)] at h
      cases h
    rw [List.getElem?_set_self hlt, h]
  · rw [List.getElem?_set_ne hij]

/-- C6. Tournament tie rule: for every initialised state, pc and outcome, when
`tournament_predictor_train(pc, outcome)` follows `tournament_predictor_predict(pc)`, both
calls return and the selector entry at `pc & selector_mask` becomes `sel - 1` (clamped at
strong-P1 = 0) if only the cached bimodal prediction equals the outcome, `sel + 1`
(clamped at strong-P2 = 3) if only the cached gshare prediction equals it, and stays `sel`
when both or neither do; the cached predictions are the components' predictions for `pc`
before the train, and no other selector entry changes. -/
theorem tournament_tie_rule (s : TournamentState) (pc outcome : Nat)
    (hc : TournamentConfigured s) :
    ∃ sel bp gp r s1 s2,
      s.selector_table[pc &&& s.selector_mask]? = some sel ∧
      twobit_predictor_predict s.bimodal pc = some bp ∧
      gshare_predictor_predict s.gshare pc = some gp ∧
      tournament_predictor_predict s pc = some (r, s1) ∧
      tournament_predictor_train s1 pc outcome = some s2 ∧
      s2.selector_table.length = s.selector_table.length ∧
      s2.selector_table[pc &&& s.selector_mask]? =
        some (if bp = outcome ∧ gp ≠ outcome then sel - 1
              else if gp = outcome ∧ bp ≠ outcome then min (sel + 1) 3
              else sel) ∧
      ∀ j, j ≠ pc &&& s.selector_mask → s2.selector_table[j]? = s.selector_table[j]? := by
  obtain ⟨sel, hsel, hsel3⟩ := tournament_selector_some s pc hc
  obtain ⟨r, s1, hp, hc1, _, _⟩ := tournament_predict_configured s pc hc
  obtain ⟨hinit, h1, h2, h3, h4, h5, h6⟩ := hc
  obtain ⟨bp, hbp, _⟩ := twobit_predict_some s.bimodal pc h3
  obtain ⟨gp, hgp, _⟩ := gshare_predict_some s.gshare pc h6
  obtain ⟨b, hb, _⟩ := twobit_train_some s.bimodal pc outcome h3
  obtain ⟨g, hg, _⟩ := gshare_train_some s.gshare pc outcome h6
  have hidx : pc &&& s.selector_mask < s.selector_table.length :=
    h1 ▸ and_le_mask pc s.selector_mask
  have hp1 := tournament_predict_eq s pc sel bp gp hinit hsel hbp hgp
  have ht := tournament_train_eq
    { s with last_bimodal_pred := bp, last_gshare_pred := gp, last_pc := pc }
    pc outcome sel b g hinit hsel hb hg
  have htab : tournament_selector_after
      { s with last_bimodal_pred := bp, last_gshare_pred := gp, last_pc := pc } pc outcome sel =
      s.selector_table.set (pc &&& s.selector_mask)
        (if bp = outcome ∧ gp ≠ outcome then sel - 1
         else if gp = outcome ∧ bp ≠ outcome then min (sel + 1) 3
         else sel) := by
    simp only [tournament_selector_after, ne_eq, not_true_eq_false, if_false]
    split_ifs with ha hpos hb2 hlt
    · have : u8_dec sel = sel - 1 := by unfold u8_dec; omega
      rw [this]
    · have : sel - 1 = sel := by omega
      rw [this, list_set_same _ _ _ hsel]
    · have : u8_inc sel = min (sel + 1) 3 := by unfold u8_inc; omega
      rw [this]
    · have : min (sel + 1) 3 = sel := by omega
      rw [this, list_set_same _ _ _ hsel]
    · rw [list_set_same _ _ _ hsel]
  rw [htab] at ht
  refine ⟨sel, bp, gp, _, _, _, hsel, hbp, hgp, hp1, ht, ?_, ?_, ?_⟩
  · simp
  · exact List.getElem?_set_self hidx
  · intro j hj
    exact List.getElem?_set_ne (Ne.symm hj)

/-- Witness of C6: one selector entry at weak-P1 (1), bimodal counter 1 (predicts not
taken), gshare counter 2 (predicts taken), outcome not taken: only P1 is right and the
entry moves to strong-P1 (0). -/
theorem tournament_tie_rule_witness :
    ∃ s1 s2,
      tournament_predictor_predict
        { selector_table := [1], selector_mask := 0, selector_bits := 0, initialized := true,
          last_bimodal_pred := 0, last_gshare_pred := 0, last_pc := 0,
          bimodal := { table := [1], mask := 0, bits := 0, n_bits := 2, max_val := 3,
                       threshold := 2 },
          gshare := { pht := [2], pht_size := 1, pht_mask := 0, global_history := 0,
                      history_mask := 1, history_bits := 1 } } 0 = some (0, s1) ∧
      tournament_predictor_train s1 0 0 = some s2 ∧ s2.selector_table[0]? = some 0 := by
  obtain ⟨sel, bp, gp, r, s1, s2, hsel, hbp, hgp, hp, ht, _, hnew, _⟩ :=
    tournament_tie_rule
      { selector_table := [1], selector_mask := 0, selector_bits := 0, initialized := true,
        last_bimodal_pred := 0, last_gshare_pred := 0, last_pc := 0,
        bimodal := { table := [1], mask := 0, bits := 0, n_bits := 2, max_val := 3,
                     threshold := 2 },
        gshare := { pht := [2], pht_size := 1, pht_mask := 0, global_history := 0,
                    history_mask := 1, history_bits := 1 } } 0 0
      ⟨rfl, rfl, by decide, rfl, rfl, rfl, rfl⟩
  have e1 : sel = 1 := by
    have h : some 1 = some sel := hsel
    cases h; rfl
  have e2 : bp = 0 := by
    have h : some 0 = some bp := hbp
    cases h; rfl
  have e3 : gp = 1 := by
    have h : some 1 = some gp := hgp
    cases h; rfl
  subst e1 e2 e3
  have e4 : r = 0 := by
    have h : some (0, _) = some (r, s1) := hp
    cases h; rfl
  subst e4
  exact ⟨s1, s2, hp, ht, hnew⟩

/-- Counterexample to C7 as stated: from the initial statics, `init(0, 0, 1, 1)`,
`train(0, 1)`, `predict(0)`, `train(0, 0)` reach a state whose last operation is a train (the
prediction cached for pc 0 has been consumed: bimodal 1, gshare 0).  A second consecutive
`train(0, 0)`, with no predict in between, still moves the selector entry from 2 to 3. -/
theorem tournament_stale_cache_counterexample :
    Option.map TournamentState.selector_table
      (tournament_run tournament_initial
        [.init 0 0 1 1, .train 0 1, .predict 0, .train 0 0]) = some [2] ∧
    Option.map TournamentState.selector_table
      (tournament_run tournament_initial
        [.init 0 0 1 1, .train 0 1, .predict 0, .train 0 0, .train 0 0]) = some [3] := by
  decide

/-- C7, amended. `tournament_predictor_train(pc, outcome)` leaves the selector table
completely unchanged (and returns) when the immediately preceding tournament operation was
`tournament_predictor_predict(pc1)` for a different `pc1 ≠ pc`, and also when it is called
right after the first `tournament_predictor_init` of a run (the prediction cache still
holds its initial zeros). -/
theorem tournament_stale_cache_amended (s : TournamentState) (pc pc1 outcome : Nat)
    (sb bb gtb ghb : Int)
    (hc : TournamentConfigured s) (hne : pc1 ≠ pc)
    (hsb : 0 ≤ sb ∧ sb ≤ 31) (hbb : 0 ≤ bb ∧ bb ≤ 31) (hgtb : 0 ≤ gtb ∧ gtb ≤ 31)
    (hghb : 0 ≤ ghb ∧ ghb ≤ 30) :
    (∃ r s1 s2, tournament_predictor_predict s pc1 = some (r, s1) ∧
      tournament_predictor_train s1 pc outcome = some s2 ∧
      s2.selector_table = s.selector_table) ∧
    (∃ s0 s1, tournament_predictor_init tournament_initial sb bb gtb ghb = some s0 ∧
      tournament_predictor_train s0 pc outcome = some s1 ∧
      s1.selector_table = s0.selector_table) := by
  constructor
  · obtain ⟨r, s1, hp, hc1, hlast, htab⟩ := tournament_predict_configured s pc1 hc
    obtain ⟨sel, hsel, _⟩ := tournament_selector_some s1 pc hc1
    obtain ⟨hinit, _, _, h3, _, _, h6⟩ := hc1
    obtain ⟨b, hb, _⟩ := twobit_train_some s1.bimodal pc outcome h3
    obtain ⟨g, hg, _⟩ := gshare_train_some s1.gshare pc outcome h6
    refine ⟨r, s1, _, hp, tournament_train_eq s1 pc outcome sel b g hinit hsel hb hg, ?_⟩
    have hpc : pc ≠ s1.last_pc := by rw [hlast]; exact Ne.symm hne
    simp [tournament_selector_after, hpc, htab]
  · obtain ⟨s0, hi, hc0, _, hlast, hlb, hlg⟩ :=
      tournament_init_configured tournament_initial sb bb gtb ghb hsb hbb hgtb hghb
    obtain ⟨sel, hsel, _⟩ := tournament_selector_some s0 pc hc0
    obtain ⟨hinit, _, _, h3, _, _, h6⟩ := hc0
    obtain ⟨b, hb, _⟩ := twobit_train_some s0.bimodal pc outcome h3
    obtain ⟨g, hg, _⟩ := gshare_train_some s0.gshare pc outcome h6
    refine ⟨s0, _, hi, tournament_train_eq s0 pc outcome sel b g hinit hsel hb hg, ?_⟩
    have e1 : s0.last_bimodal_pred = 0 := hlb
    have e2 : s0.last_gshare_pred = 0 := hlg
    simp only [tournament_selector_after, e1, e2]
    split_ifs <;> first | rfl | (exfalso; omega)

/-- Witness of the amended C7: a state with differing component predictions, `predict(3)`
then `train(2, 1)`; and `init(2, 2, 2, 2)` from the initial statics then `train(2, 1)`. -/
theorem tournament_stale_cache_amended_witness :
    (∃ r s1 s2,
      tournament_predictor_predict
        { selector_table := [1, 1], selector_mask := 1, selector_bits := 1,
          initialized := true, last_bimodal_pred := 0, last_gshare_pred := 0, last_pc := 0,
          bimodal := { table := [1, 1], mask := 1, bits := 1, n_bits := 2, max_val := 3,
                       threshold := 2 },
          gshare := { pht := [2, 2], pht_size := 2, pht_mask := 1, global_history := 0,
                      history_mask := 1, history_bits := 1 } } 3 = some (r, s1) ∧
      tournament_predictor_train s1 2 1 = some s2 ∧ s2.selector_table = [1, 1]) ∧
    (∃ s0 s1, tournament_predictor_init tournament_initial 2 2 2 2 = some s0 ∧
      tournament_predictor_train s0 2 1 = some s1 ∧
      s1.selector_table = s0.selector_table) :=
  tournament_stale_cache_amended
    { selector_table := [1, 1], selector_mask := 1, selector_bits := 1,
      initialized := true, last_bimodal_pred := 0, last_gshare_pred := 0, last_pc := 0,
      bimodal := { table := [1, 1], mask := 1, bits := 1, n_bits := 2, max_val := 3,
                   threshold := 2 },
      gshare := { pht := [2, 2], pht_size := 2, pht_mask := 1, global_history := 0,
                  history_mask := 1, history_bits := 1 } } 2 3 1 2 2 2 2
    ⟨rfl, rfl, by decide, rfl, rfl, rfl, rfl⟩ (by decide)
    (by decide) (by decide) (by decide) (by decide)

/-- C8. Tournament pc-mismatch path: for every initialised state, if
`tournament_predictor_train(pc, outcome)` is called with `pc ≠ last_pc`, the call returns
normally and the selector table (every entry, and its mask) is unchanged. -/
theorem tournament_pc_mismatch (s : TournamentState) (pc outcome : Nat)
    (hc : TournamentConfigured s) (hne : pc ≠ s.last_pc) :
    ∃ s1, tournament_predictor_train s pc outcome = some s1 ∧
      s1.selector_table = s.selector_table ∧ s1.selector_mask = s.selector_mask ∧
      ∀ j : Nat, s1.selector_table[j]? = s.selector_table[j]? := by
  obtain ⟨sel, hsel, _⟩ := tournament_selector_some s pc hc
  obtain ⟨hinit, _, _, h3, _, _, h6⟩ := hc
  obtain ⟨b, hb, _⟩ := twobit_train_some s.bimodal pc outcome h3
  obtain ⟨g, hg, _⟩ := gshare_train_some s.gshare pc outcome h6
  have htab : tournament_selector_after s pc outcome sel = s.selector_table := by
    simp [tournament_selector_after, hne]
  refine ⟨_, tournament_train_eq s pc outcome sel b g hinit hsel hb hg, htab, rfl, ?_⟩
  intro j
  show (tournament_selector_after s pc outcome sel)[j]? = s.selector_table[j]?
  rw [htab]

/-- Witness of C8: the cache holds pc 0 with bimodal 0 and gshare 1 (only gshare would be
right for a taken outcome); `train(1, 1)` for the other pc leaves the selector at `[1, 1]`. -/
theorem tournament_pc_mismatch_witness :
    ∃ s1,
      tournament_predictor_train
        { selector_table := [1, 1], selector_mask := 1, selector_bits := 1,
          initialized := true, last_bimodal_pred := 0, last_gshare_pred := 1, last_pc := 0,
          bimodal := { table := [1, 1], mask := 1, bits := 1, n_bits := 2, max_val := 3,
                       threshold := 2 },
          gshare := { pht := [2, 2], pht_size := 2, pht_mask := 1, global_history := 0,
                      history_mask := 1, history_bits := 1 } } 1 1 = some s1 ∧
      s1.selector_table = [1, 1] ∧ s1.selector_mask = 1 ∧
      ∀ j : Nat, s1.selector_table[j]? = ([1, 1] : List Nat)[j]? :=
  tournament_pc_mismatch
    { selector_table := [1, 1], selector_mask := 1, selector_bits := 1,
      initialized := true, last_bimodal_pred := 0, last_gshare_pred := 1, last_pc := 0,
      bimodal := { table := [1, 1], mask := 1, bits := 1, n_bits := 2, max_val := 3,
                   threshold := 2 },
      gshare := { pht := [2, 2], pht_size := 2, pht_mask := 1, global_history := 0,
                  history_mask := 1, history_bits := 1 } } 1 1
    ⟨rfl, rfl, by decide, rfl, rfl, rfl, rfl⟩ (by decide)

/-- C9. Tournament always trains both components: for every initialised state, pc and
outcome, `tournament_predictor_train(pc, outcome)` returns, and afterwards the bimodal
component's state is `twobit_predictor_train(pc, outcome)` applied to its state before and
the gshare component's state (table and history) is `gshare_predictor_train(pc, outcome)`
applied to its state before, whatever the selector entry is and whether or not `pc`
equals the cached `last_pc`. -/
theorem tournament_trains_both (s : TournamentState) (pc outcome : Nat)
    (hc : TournamentConfigured s) :
    ∃ b g s1, twobit_predictor_train s.bimodal pc outcome = some b ∧
      gshare_predictor_train s.gshare pc outcome = some g ∧
      tournament_predictor_train s pc outcome = some s1 ∧
      s1.bimodal = b ∧ s1.gshare = g := by
  obtain ⟨sel, hsel, _⟩ := tournament_selector_some s pc hc
  obtain ⟨hinit, _, _, h3, _, _, h6⟩ := hc
  obtain ⟨b, hb, _⟩ := twobit_train_some s.bimodal pc outcome h3
  obtain ⟨g, hg, _⟩ := gshare_train_some s.gshare pc outcome h6
  exact ⟨b, g, _, hb, hg, tournament_train_eq s pc outcome sel b g hinit hsel hb hg, rfl, rfl⟩

/-- Witness of C9: selector entry 3 (gshare chosen), cached pc 0; `train(1, 1)` (mismatch
path) trains both components. -/
theorem tournament_trains_both_witness :
    ∃ b g s1,
      twobit_predictor_train
        { table := [1, 1], mask := 1, bits := 1, n_bits := 2, max_val := 3, threshold := 2 }
        1 1 = some b ∧
      gshare_predictor_train
        { pht := [2, 2], pht_size := 2, pht_mask := 1, global_history := 0,
          history_mask := 1, history_bits := 1 } 1 1 = some g ∧
      tournament_predictor_train
        { selector_table := [3, 3], selector_mask := 1, selector_bits := 1,
          initialized := true, last_bimodal_pred := 0, last_gshare_pred := 1, last_pc := 0,
          bimodal := { table := [1, 1], mask := 1, bits := 1, n_bits := 2, max_val := 3,
                       threshold := 2 },
          gshare := { pht := [2, 2], pht_size := 2, pht_mask := 1, global_history := 0,
                      history_mask := 1, history_bits := 1 } } 1 1 = some s1 ∧
      s1.bimodal = b ∧ s1.gshare = g :=
  tournament_trains_both
    { selector_table := [3, 3], selector_mask := 1, selector_bits := 1,
      initialized := true, last_bimodal_pred := 0, last_gshare_pred := 1, last_pc := 0,
      bimodal := { table := [1, 1], mask := 1, bits := 1, n_bits := 2, max_val := 3,
                   threshold := 2 },
      gshare := { pht := [2, 2], pht_size := 2, pht_mask := 1, global_history := 0,
                  history_mask := 1, history_bits := 1 } } 1 1
    ⟨rfl, rfl, by decide, rfl, rfl, rfl, rfl⟩

/-! ### The perceptron predictor -/

theorem i32_eq_some (x : Int) (h1 : -(2 ^ 31) ≤ x) (h2 : x < 2 ^ 31) : i32 x = some x := by
  unfold i32
  rw [if_pos ⟨h1, h2⟩]

theorem i32_some_eq (x y : Int) (h : i32 x = some y) : y = x := by
  unfold i32 at h
  split at h <;> simp_all

theorem list_getD_of_getElem? (l : List Int) (i : Nat) (x : Int) (h : l[i]? = some x) :
    l.getD i 0 = x := by
  simp [List.getD, h]

/-- Whenever one loop iteration is defined, it adds `global_history[i] * weights[i + 1]`. -/
theorem perceptron_dot_step_sound (gh w : List Int) (y y1 : Int) (i : Nat)
    (h : perceptron_dot_step gh w y i = some y1) :
    y1 = y + gh.getD i 0 * w.getD (i + 1) 0 := by
  unfold perceptron_dot_step at h
  cases hx : gh[i]? with
  | none => simp [hx] at h
  | some x =>
    cases hw : w[i + 1]? with
    | none => simp [hx, hw] at h
    | some v =>
      cases hp : i32 (x * v) with
      | none => simp [hx, hw, hp] at h
      | some p =>
        simp only [hx, hw, hp, Option.bind_eq_bind, Option.some_bind] at h
        rw [list_getD_of_getElem? gh i x hx, list_getD_of_getElem? w (i + 1) v hw,
          i32_some_eq _ _ h, i32_some_eq _ _ hp]

/-- Whenever the loop is defined, its result is the mathematical sum. -/
theorem perceptron_fold_sound (gh w : List Int) (y0 : Int) (n : Nat) :
    ∀ y, (List.range n).foldlM (perceptron_dot_step gh w) y0 = some y →
      y = y0 + ∑ i ∈ Finset.range n, gh.getD i 0 * w.getD (i + 1) 0 := by
  induction n with
  | zero =>
    intro y h
    simp at h
    simp [h]
  | succ n ih =>
    intro y h
    rw [List.range_succ, List.foldlM_append] at h
    cases hf : (List.range n).foldlM (perceptron_dot_step gh w) y0 with
    | none => simp [hf] at h
    | some y1 =>
      simp only [hf, Option.bind_eq_bind, Option.some_bind, List.foldlM_cons, List.foldlM_nil] at h
      have hstep : perceptron_dot_step gh w y1 n = some y := by
        cases hs : perceptron_dot_step gh w y1 n with
        | none => simp [hs] at h
        | some y2 => simpa [hs] using h
      rw [perceptron_dot_step_sound gh w y1 y n hstep, ih y1 hf, Finset.sum_range_succ]
      ring

/-- The loop is defined when no `int32_t` overflow can occur, and its partial results stay
within `(k + 1) * B`. -/
theorem perceptron_fold_some (gh w : List Int) (B y0 : Int) (n : Nat)
    (hgh : n ≤ gh.length) (hw : n + 1 ≤ w.length)
    (hwb : ∀ x ∈ w, -B ≤ x ∧ x ≤ B) (hghb : ∀ h ∈ gh, h = 1 ∨ h = -1)
    (hy0 : -B ≤ y0 ∧ y0 ≤ B) (hlim : ((n : Int) + 1) * B < 2 ^ 31) :
    ∀ k, k ≤ n → ∃ y, (List.range k).foldlM (perceptron_dot_step gh w) y0 = some y ∧
      -(((k : Int) + 1) * B) ≤ y ∧ y ≤ ((k : Int) + 1) * B := by
  have hB : 0 ≤ B := by omega
  intro k
  induction k with
  | zero =>
    intro _
    exact ⟨y0, by simp, by simpa using hy0.1, by simpa using hy0.2⟩
  | succ k ih =>
    intro hk
    obtain ⟨y, hy, hlo, hhi⟩ := ih (by omega)
    have hk1 : k < gh.length := by omega
    have hk2 : k + 1 < w.length := by omega
    have hx := hghb _ (List.getElem_mem hk1)
    have hv := hwb _ (List.getElem_mem hk2)
    have hmono : ((k : Int) + 1 + 1) * B ≤ ((n : Int) + 1) * B :=
      Int.mul_le_mul_of_nonneg_right (by omega) hB
    have hB2 : B ≤ ((n : Int) + 1) * B := by nlinarith
    have hp : -B ≤ gh[k] * w[k + 1] ∧ gh[k] * w[k + 1] ≤ B := by
      rcases hx with h | h <;> rw [h] <;> constructor <;> linarith [hv.1, hv.2]
    have hsum : -(((k : Int) + 1 + 1) * B) ≤ y + gh[k] * w[k + 1] ∧
        y + gh[k] * w[k + 1] ≤ ((k : Int) + 1 + 1) * B := by
      constructor <;> nlinarith [hp.1, hp.2]
    refine ⟨y + gh[k] * w[k + 1], ?_, by push_cast; exact hsum.1, by push_cast; exact hsum.2⟩
    rw [List.range_succ, List.foldlM_append, hy]
    simp only [Option.bind_eq_bind, Option.some_bind, List.foldlM_cons, List.foldlM_nil,
      perceptron_dot_step, List.getElem?_eq_getElem hk1, List.getElem?_eq_getElem hk2]
    rw [i32_eq_some _ (by linarith [hp.1]) (by linarith [hp.2])]
    simp only [Option.some_bind]
    rw [i32_eq_some _ (by linarith [hsum.1]) (by linarith [hsum.2])]
    rfl

/-- Whenever `perceptron_predictor_predict(pc)` is defined, it returns 1 iff the
mathematical output of the selected weight array is nonnegative, and 0 otherwise. -/
theorem perceptron_predict_sound (s : PerceptronState) (pc r : Nat)
    (h : perceptron_predictor_predict s pc = some r) :
    ∃ w, s.perceptron_table[pc &&& s.table_mask]? = some w ∧ r ≤ 1 ∧
      (r ≠ 0 ↔ 0 ≤ w.getD 0 0 +
        ∑ i ∈ Finset.range s.history_len.toNat, s.global_history.getD i 0 * w.getD (i + 1) 0) := by
  unfold perceptron_predictor_predict at h
  cases hw : s.perceptron_table[pc &&& s.table_mask]? with
  | none => simp [hw] at h
  | some w =>
    refine ⟨w, rfl, ?_⟩
    cases hy : perceptron_y s w with
    | none => simp [hw, hy] at h
    | some y =>
      simp only [hw, hy, Option.bind_eq_bind, Option.some_bind, Option.pure_def,
        Option.some.injEq] at h
      unfold perceptron_y at hy
      cases h0 : w[0]? with
      | none => simp [h0] at hy
      | some y0 =>
        simp only [h0, Option.bind_eq_bind, Option.some_bind] at hy
        have hsum := perceptron_fold_sound s.global_history w y0 s.history_len.toNat y hy
        rw [list_getD_of_getElem? w 0 y0 h0, ← hsum, ← h]
        by_cases hge : y ≥ 0 <;> simp [hge]

/-- In a configured state whose weights cannot overflow the `int32_t` output,
`perceptron_predictor_predict(pc)` returns. -/
theorem perceptron_predict_some (s : PerceptronState) (pc : Nat) (B : Int)
    (hc : PerceptronConfigured s) (hb : PerceptronBounded s B) :
    ∃ r, perceptron_predictor_predict s pc = some r := by
  obtain ⟨hlen0, htab, hrows, hhist⟩ := hc
  obtain ⟨hwb, hghb, hlim⟩ := hb
  have hidx : pc &&& s.table_mask < s.perceptron_table.length :=
    htab ▸ and_le_mask pc s.table_mask
  have hmem := List.getElem_mem hidx
  have hrow := hrows _ hmem
  have h0 : 0 < (s.perceptron_table[pc &&& s.table_mask]).length := by omega
  have hlim1 : ((s.history_len.toNat : Int) + 1) * B < 2 ^ 31 := by
    rw [Int.toNat_of_nonneg hlen0]; exact hlim
  obtain ⟨y, hy, _⟩ := perceptron_fold_some s.global_history
    (s.perceptron_table[pc &&& s.table_mask]) B
    ((s.perceptron_table[pc &&& s.table_mask])[0]) s.history_len.toNat
    (by omega) (by omega) (hwb _ hmem) hghb (hwb _ hmem _ (List.getElem_mem h0)) hlim1
    s.history_len.toNat (Nat.le_refl _)
  refine ⟨if y ≥ 0 then 1 else 0, ?_⟩
  simp [perceptron_predictor_predict, perceptron_y, List.getElem?_eq_getElem hidx,
    List.getElem?_eq_getElem h0, hy]

theorem perceptron_init_eq (table_bits history_length weight_bits_param threshold_param : Int)
    (htb : 0 ≤ table_bits ∧ table_bits ≤ 30)
    (hhl : 0 ≤ history_length ∧ history_length < 2 ^ 31 - 1)
    (hwb : 1 ≤ weight_bits_param ∧ weight_bits_param ≤ 31) :
    perceptron_predictor_init table_bits history_length weight_bits_param threshold_param =
      some { num_perceptrons := 2 ^ table_bits.toNat,
             history_len := history_length,
             weight_bits := weight_bits_param,
             threshold := threshold_param,
             table_mask := 2 ^ table_bits.toNat - 1,
             perceptron_table := List.replicate (2 ^ table_bits.toNat)
               (List.replicate (history_length + 1).toNat 0),
             global_history := List.replicate history_length.toNat (-1),
             history_index := 0,
             max_weight := ((2 ^ (weight_bits_param - 1).toNat - 1 : Nat) : Int),
             min_weight := -(2 ^ (weight_bits_param - 1).toNat) } := by
  have h1 : i32 (history_length + 1) = some (history_length + 1) :=
    i32_eq_some _ (by omega) (by omega)
  have h2 : ¬ (history_length + 1 < 0) := by omega
  simp only [perceptron_predictor_init, shl_mask_eq table_bits htb.1 htb.2,
    shl_mask_eq (weight_bits_param - 1) (by omega) (by omega), h1, h2,
    Option.bind_eq_bind, Option.some_bind, Option.pure_def, if_false]

/-- A freshly initialised perceptron predictor is configured, all its weights are 0 and
all its history slots are `-1`. -/
theorem perceptron_init_configured
    (table_bits history_length weight_bits_param threshold_param : Int)
    (htb : 0 ≤ table_bits ∧ table_bits ≤ 30)
    (hhl : 0 ≤ history_length ∧ history_length < 2 ^ 31 - 1)
    (hwb : 1 ≤ weight_bits_param ∧ weight_bits_param ≤ 31) :
    ∃ s0, perceptron_predictor_init table_bits history_length weight_bits_param
        threshold_param = some s0 ∧
      s0.table_mask = 2 ^ table_bits.toNat - 1 ∧ s0.history_len = history_length ∧
      PerceptronConfigured s0 ∧
      (∀ w ∈ s0.perceptron_table, ∀ x ∈ w, x = 0) ∧
      (∀ h ∈ s0.global_history, h = -1) := by
  have h1 : 1 ≤ 2 ^ table_bits.toNat := Nat.one_le_two_pow
  refine ⟨_, perceptron_init_eq table_bits history_length weight_bits_param threshold_param
    htb hhl hwb, rfl, rfl, ⟨hhl.1, ?_, ?_, ?_⟩, ?_, ?_⟩
  · simp; omega
  · intro w hw
    rw [List.eq_of_mem_replicate hw]
    simp; omega
  · simp
  · intro w hw x hx
    rw [List.eq_of_mem_replicate hw] at hx
    exact List.eq_of_mem_replicate hx
  · intro h hh
    exact List.eq_of_mem_replicate hh

/-- C10. Perceptron prediction: in every configured state (with weights that cannot
overflow the `int32_t` output) and for every pc, `perceptron_predictor_predict(pc)` returns
a value `r` in {0, 1} with `r = 1` (taken) iff `y ≥ 0`, where
`y = w[0] + Σ_{i < history_len} global_history[i] * w[i + 1]` and `w` is the weight array
at index `pc & table_mask`; and a freshly initialised predictor (all weights 0) predicts
taken for every pc. -/
theorem perceptron_predict_rule (s : PerceptronState) (pc : Nat) (B : Int)
    (table_bits history_length weight_bits_param threshold_param : Int)
    (hc : PerceptronConfigured s) (hb : PerceptronBounded s B)
    (htb : 0 ≤ table_bits ∧ table_bits ≤ 30)
    (hhl : 0 ≤ history_length ∧ history_length < 2 ^ 31 - 1)
    (hwb : 1 ≤ weight_bits_param ∧ weight_bits_param ≤ 31) :
    (∃ w r, s.perceptron_table[pc &&& s.table_mask]? = some w ∧
      perceptron_predictor_predict s pc = some r ∧ r ≤ 1 ∧
      (r = 1 ↔ 0 ≤ w.getD 0 0 +
        ∑ i ∈ Finset.range s.history_len.toNat,
          s.global_history.getD i 0 * w.getD (i + 1) 0)) ∧
    (∃ s0, perceptron_predictor_init table_bits history_length weight_bits_param
        threshold_param = some s0 ∧
      s0.table_mask = 2 ^ table_bits.toNat - 1 ∧
      perceptron_predictor_predict s0 pc = some 1) := by
  have main : ∀ (t : PerceptronState) (C : Int), PerceptronConfigured t →
      PerceptronBounded t C →
      ∃ w r, t.perceptron_table[pc &&& t.table_mask]? = some w ∧
        perceptron_predictor_predict t pc = some r ∧ r ≤ 1 ∧
        (r = 1 ↔ 0 ≤ w.getD 0 0 +
          ∑ i ∈ Finset.range t.history_len.toNat,
            t.global_history.getD i 0 * w.getD (i + 1) 0) := by
    intro t C htc htb
    obtain ⟨r, hr⟩ := perceptron_predict_some t pc C htc htb
    obtain ⟨w, hw, hr1, hiff⟩ := perceptron_predict_sound t pc r hr
    refine ⟨w, r, hw, hr, hr1, ?_⟩
    rw [← hiff]; omega
  refine ⟨main s B hc hb, ?_⟩
  obtain ⟨s0, hi, hmask, _, hc0, hzero, hneg⟩ := perceptron_init_configured table_bits
    history_length weight_bits_param threshold_param htb hhl hwb
  have hb0 : PerceptronBounded s0 0 := by
    refine ⟨?_, ?_, by simp⟩
    · intro w hw x hx
      rw [hzero w hw x hx]
      exact ⟨le_refl _, le_refl _⟩
    · intro h hh
      exact Or.inr (hneg h hh)
  obtain ⟨w, r, hw, hr, _, hiff⟩ := main s0 0 hc0 hb0
  have hw0 : ∀ i, w.getD i 0 = 0 := by
    intro i
    rw [List.getD_eq_getElem?_getD]
    cases hi : w[i]? with
    | none => rfl
    | some v => exact hzero w (List.getElem?_mem hw) v (List.getElem?_mem hi)
  have hr1 : r = 1 := by
    rw [hiff]
    simp only [hw0, mul_zero, Finset.sum_const_zero, add_zero]
    exact le_refl 0
  rw [hr1] at hr
  exact ⟨s0, hi, hmask, hr⟩

/-- Witness of C10: two perceptrons over a history of length 2; pc 3 selects the array
`[1, -2, 4]`, the history is `[1, -1]`, so `y = 1 + (-2) - 4 = -5` and the prediction is
not taken; and `init(1, 2, 8, 10)` predicts taken. -/
theorem perceptron_predict_rule_witness :
    (∃ w r, ([[0, 0, 0], [1, -2, 4]] : List (List Int))[3 &&& 1]? = some w ∧
      perceptron_predictor_predict
        { num_perceptrons := 2, history_len := 2, weight_bits := 8, threshold := 10,
          table_mask := 1, perceptron_table := [[0, 0, 0], [1, -2, 4]],
          global_history := [1, -1], history_index := 0, max_weight := 127,
          min_weight := -128 } 3 = some r ∧ r ≤ 1 ∧
      (r = 1 ↔ 0 ≤ w.getD 0 0 +
        ∑ i ∈ Finset.range (2 : Int).toNat,
          ([1, -1] : List Int).getD i 0 * w.getD (i + 1) 0)) ∧
    (∃ s0, perceptron_predictor_init 1 2 8 10 = some s0 ∧
      s0.table_mask = 2 ^ (1 : Int).toNat - 1 ∧
      perceptron_predictor_predict s0 3 = some 1) :=
  perceptron_predict_rule
    { num_perceptrons := 2, history_len := 2, weight_bits := 8, threshold := 10,
      table_mask := 1, perceptron_table := [[0, 0, 0], [1, -2, 4]],
      global_history := [1, -1], history_index := 0, max_weight := 127,
      min_weight := -128 } 3 128 1 2 8 10
    ⟨by decide, by decide, by decide, by decide⟩ ⟨by decide, by decide, by decide⟩
    (by decide) (by decide) (by decide)

theorem perceptron_predict_example :
    perceptron_predictor_predict
      { num_perceptrons := 2, history_len := 2, weight_bits := 8, threshold := 10,
        table_mask := 1, perceptron_table := [[0, 0, 0], [1, -2, 4]],
        global_history := [1, -1], history_index := 0, max_weight := 127,
        min_weight := -128 } 3 = some 0 := by
  decide

/-! ### Perceptron training -/

theorem perceptron_saturate_eq (s : PerceptronState) (x : Int)
    (hmm : s.min_weight ≤ s.max_weight) :
    perceptron_saturate s x = max s.min_weight (min x s.max_weight) := by
  unfold perceptron_saturate
  simp only
  split_ifs <;> omega

theorem perceptron_saturate_range (s : PerceptronState) (x : Int)
    (hmm : s.min_weight ≤ s.max_weight) :
    s.min_weight ≤ perceptron_saturate s x ∧ perceptron_saturate s x ≤ s.max_weight := by
  rw [perceptron_saturate_eq s x hmm]
  omega

theorem perceptron_update_step_eq (s : PerceptronState) (t : Int) (l : List Int) (i : Nat)
    (lo hi : Int) (hlo : -(2 ^ 31) + 1 ≤ lo) (hhi : hi ≤ 2 ^ 31 - 2)
    (ht : t = 1 ∨ t = -1) (hgh : i < s.global_history.length) (hl : i + 1 < l.length)
    (hghb : ∀ h ∈ s.global_history, h = 1 ∨ h = -1)
    (hlb : lo ≤ l[i + 1] ∧ l[i + 1] ≤ hi) :
    perceptron_update_step s t l i =
      some (l.set (i + 1) (perceptron_saturate s (l[i + 1] + t * s.global_history[i]))) := by
  have hx := hghb _ (List.getElem_mem hgh)
  have hd : -1 ≤ t * s.global_history[i] ∧ t * s.global_history[i] ≤ 1 := by
    rcases ht with h | h <;> rcases hx with h1 | h1 <;> rw [h, h1] <;> decide
  simp only [perceptron_update_step, List.getElem?_eq_getElem hgh, List.getElem?_eq_getElem hl,
    Option.bind_eq_bind, Option.some_bind, Option.pure_def]
  rw [i32_eq_some _ (by omega) (by omega)]
  simp only [Option.some_bind]
  rw [i32_eq_some _ (by omega) (by omega)]
  rfl

/-- The weight-update loop over `k` history positions: defined, length preserved, position 0
and positions above `k` untouched, and position `i + 1` for `i < k` holds the saturated
sum. -/
theorem perceptron_update_fold (s : PerceptronState) (t : Int) (l0 : List Int) (n : Nat)
    (lo hi : Int) (hlo : -(2 ^ 31) + 1 ≤ lo) (hhi : hi ≤ 2 ^ 31 - 2)
    (ht : t = 1 ∨ t = -1) (hgh : n ≤ s.global_history.length) (hl : n + 1 ≤ l0.length)
    (hghb : ∀ h ∈ s.global_history, h = 1 ∨ h = -1)
    (hlb : ∀ x ∈ l0, lo ≤ x ∧ x ≤ hi) :
    ∀ k, k ≤ n → ∃ l, (List.range k).foldlM (perceptron_update_step s t) l0 = some l ∧
      l.length = l0.length ∧
      (∀ j, j = 0 ∨ k < j → l[j]? = l0[j]?) ∧
      (∀ i, i < k → l[i + 1]? =
        some (perceptron_saturate s (l0.getD (i + 1) 0 + t * s.global_history.getD i 0))) := by
  intro k
  induction k with
  | zero =>
    intro _
    exact ⟨l0, by simp, rfl, fun _ _ => rfl, fun i hi => absurd hi (Nat.not_lt_zero i)⟩
  | succ k ih =>
    intro hk
    obtain ⟨l, hf, hlen, hsame, hnew⟩ := ih (by omega)
    have hk1 : k < s.global_history.length := by omega
    have hk2 : k + 1 < l.length := by omega
    have hk3 : k + 1 < l0.length := by omega
    have hget : l[k + 1] = l0[k + 1] := by
      have h1 := hsame (k + 1) (Or.inr (Nat.lt_succ_self k))
      rw [List.getElem?_eq_getElem hk2, List.getElem?_eq_getElem hk3] at h1
      exact Option.some.inj h1
    have hb := hlb _ (List.getElem_mem hk3)
    have hstep := perceptron_update_step_eq s t l k lo hi hlo hhi ht hk1 hk2 hghb
      (by rw [hget]; exact hb)
    refine ⟨l.set (k + 1) (perceptron_saturate s (l[k + 1] + t * s.global_history[k])),
      ?_, ?_, ?_, ?_⟩
    · rw [List.range_succ, List.foldlM_append, hf]
      simp only [Option.bind_eq_bind, Option.some_bind, List.foldlM_cons, List.foldlM_nil, hstep]
      rfl
    · simp [hlen]
    · intro j hj
      have hne : k + 1 ≠ j := by omega
      rw [List.getElem?_set_ne hne]
      exact hsame j (by omega)
    · intro i hi
      by_cases hik : i = k
      · subst hik
        rw [List.getElem?_set_self hk2, hget]
        have e1 : l0.getD (i + 1) 0 = l0[i + 1] := by
          simp [List.getD_eq_getElem?_getD, List.getElem?_eq_getElem hk3]
        have e2 : s.global_history.getD i 0 = s.global_history[i] := by
          simp [List.getD_eq_getElem?_getD, List.getElem?_eq_getElem hk1]
        rw [e1, e2]
      · have hne : k + 1 ≠ i + 1 := by omega
        rw [List.getElem?_set_ne hne]
        exact hnew i (by omega)

theorem perceptron_saturated_bounds (s : PerceptronState) (hsat : PerceptronSaturated s) :
    s.min_weight ≤ s.max_weight ∧ -(2 ^ 30) ≤ s.min_weight ∧ s.max_weight ≤ 2 ^ 30 - 1 ∧
      s.max_weight = -s.min_weight - 1 := by
  obtain ⟨h1, h2, hmax, hmin, _⟩ := hsat
  have hp1 : (1 : Int) ≤ 2 ^ (s.weight_bits - 1).toNat := by
    exact_mod_cast Nat.one_le_two_pow
  have hp2 : (2 : Int) ^ (s.weight_bits - 1).toNat ≤ 2 ^ 30 := by
    have : (s.weight_bits - 1).toNat ≤ 30 := by omega
    exact_mod_cast Nat.pow_le_pow_right (by decide : 0 < 2) this
  rw [hmax, hmin]
  omega

/-- In a configured, saturated state whose output cannot overflow, the output `y` of every
weight array of the table is defined and is the mathematical sum. -/
theorem perceptron_y_some (s : PerceptronState) (w : List Int)
    (hc : PerceptronConfigured s) (hsat : PerceptronSaturated s)
    (hh : ∀ h ∈ s.global_history, h = 1 ∨ h = -1)
    (hlim : (s.history_len + 1) * 2 ^ (s.weight_bits - 1).toNat < 2 ^ 31)
    (hw : w ∈ s.perceptron_table) :
    ∃ y, perceptron_y s w = some y ∧ -(2 ^ 31) < y ∧ y < 2 ^ 31 ∧
      y = w.getD 0 0 +
        ∑ i ∈ Finset.range s.history_len.toNat, s.global_history.getD i 0 * w.getD (i + 1) 0 := by
  obtain ⟨hlen0, _, hrows, hhist⟩ := hc
  obtain ⟨hmm, _, _, hmaxmin⟩ := perceptron_saturated_bounds s hsat
  have hrange := hsat.2.2.2.2 w hw
  have hmin := hsat.2.2.2.1
  have hrow := hrows w hw
  have h0 : 0 < w.length := by omega
  have hwb : ∀ x ∈ w, -(2 ^ (s.weight_bits - 1).toNat : Int) ≤ x ∧
      x ≤ 2 ^ (s.weight_bits - 1).toNat := by
    intro x hx
    have := hrange x hx
    omega
  have hlim1 : ((s.history_len.toNat : Int) + 1) * 2 ^ (s.weight_bits - 1).toNat < 2 ^ 31 := by
    rw [Int.toNat_of_nonneg hlen0]; exact hlim
  obtain ⟨y, hy, hylo, hyhi⟩ := perceptron_fold_some s.global_history w
    (2 ^ (s.weight_bits - 1).toNat) (w[0]) s.history_len.toNat
    (by omega) (by omega) hwb hh (hwb _ (List.getElem_mem h0)) hlim1
    s.history_len.toNat (Nat.le_refl _)
  have hsum := perceptron_fold_sound s.global_history w (w[0]) s.history_len.toNat y hy
  refine ⟨y, ?_, by omega, by omega, ?_⟩
  · simp [perceptron_y, List.getElem?_eq_getElem h0, hy]
  · rw [hsum, list_getD_of_getElem? w 0 _ (List.getElem?_eq_getElem h0)]

theorem perceptron_within_threshold_eq (s : PerceptronState) (y : Int)
    (hlo : -(2 ^ 31) < y) (hhi : y < 2 ^ 31) :
    perceptron_within_threshold s y = some (decide (|y| ≤ s.threshold)) := by
  unfold perceptron_within_threshold
  by_cases hy : y ≥ 0
  · simp [hy, abs_of_nonneg hy]
  · have hneg : y < 0 := by omega
    rw [if_neg hy, i32_eq_some _ (by omega) (by omega)]
    simp [abs_of_neg hneg]

/-- The training branch on a weight array of a configured, saturated state: defined, and
every new weight is the saturated sum the source computes. -/
theorem perceptron_update_weights_some (s : PerceptronState) (t : Int) (w : List Int)
    (hc : PerceptronConfigured s) (hsat : PerceptronSaturated s)
    (hh : ∀ h ∈ s.global_history, h = 1 ∨ h = -1)
    (ht : t = 1 ∨ t = -1) (hw : w ∈ s.perceptron_table) :
    ∃ w1, perceptron_update_weights s t w = some w1 ∧ w1.length = w.length ∧
      w1[0]? = some (perceptron_saturate s (w.getD 0 0 + t)) ∧
      (∀ i, i < s.history_len.toNat → w1[i + 1]? =
        some (perceptron_saturate s (w.getD (i + 1) 0 + t * s.global_history.getD i 0))) ∧
      (∀ x ∈ w1, s.min_weight ≤ x ∧ x ≤ s.max_weight) := by
  obtain ⟨hlen0, _, hrows, hhist⟩ := hc
  obtain ⟨hmm, hminlo, hmaxhi, _⟩ := perceptron_saturated_bounds s hsat
  have hrange := hsat.2.2.2.2 w hw
  have hrow := hrows w hw
  have h0 : 0 < w.length := by omega
  have hb0 := hrange _ (List.getElem_mem h0)
  have hl0 : ∀ x ∈ w.set 0 (perceptron_saturate s (w[0] + t)),
      s.min_weight ≤ x ∧ x ≤ s.max_weight := by
    intro x hx
    rcases List.mem_or_eq_of_mem_set hx with h | h
    · exact hrange x h
    · rw [h]; exact perceptron_saturate_range s _ hmm
  obtain ⟨l, hf, hlen, hsame, hnew⟩ := perceptron_update_fold s t
    (w.set 0 (perceptron_saturate s (w[0] + t))) s.history_len.toNat
    s.min_weight s.max_weight (by omega) (by omega) ht (by omega) (by simp; omega) hh hl0
    s.history_len.toNat (Nat.le_refl _)
  have hw0 : w.getD 0 0 = w[0] := list_getD_of_getElem? w 0 _ (List.getElem?_eq_getElem h0)
  have hlen1 : l.length = w.length := by simpa using hlen
  have hnew1 : ∀ i, i < s.history_len.toNat → l[i + 1]? =
      some (perceptron_saturate s (w.getD (i + 1) 0 + t * s.global_history.getD i 0)) := by
    intro i hi
    have := hnew i hi
    rw [this]
    have e : (w.set 0 (perceptron_saturate s (w[0] + t))).getD (i + 1) 0 = w.getD (i + 1) 0 := by
      rw [List.getD_eq_getElem?_getD, List.getD_eq_getElem?_getD,
        List.getElem?_set_ne (by omega)]
    rw [e]
  have hzero : l[0]? = some (perceptron_saturate s (w.getD 0 0 + t)) := by
    rw [hsame 0 (Or.inl rfl), List.getElem?_set_self h0, hw0]
  refine ⟨l, ?_, hlen1, hzero, hnew1, ?_⟩
  · have hb : -(2 ^ 31) ≤ w[0] + t ∧ w[0] + t < 2 ^ 31 := by
      rcases ht with h | h <;> rw [h] <;> omega
    simp only [perceptron_update_weights, List.getElem?_eq_getElem h0, Option.bind_eq_bind,
      Option.some_bind]
    rw [i32_eq_some _ hb.1 hb.2]
    exact hf
  · intro x hx
    obtain ⟨j, hj, hxj⟩ := List.getElem_of_mem hx
    have hjq : l[j]? = some x := by rw [List.getElem?_eq_getElem hj, hxj]
    rcases Nat.eq_zero_or_pos j with hj0 | hjpos
    · subst hj0
      rw [hzero] at hjq
      rw [← Option.some.inj hjq]
      exact perceptron_saturate_range s _ hmm
    · obtain ⟨i, rfl⟩ : ∃ i, j = i + 1 := ⟨j - 1, by omega⟩
      rw [hnew1 i (by omega)] at hjq
      rw [← Option.some.inj hjq]
      exact perceptron_saturate_range s _ hmm

/-- The state `perceptron_predictor_train` returns in a configured, saturated state whose
output cannot overflow, in terms of the selected weight array, its output and the updated
array. -/
theorem perceptron_train_eq (s : PerceptronState) (pc outcome : Nat)
    (hc : PerceptronConfigured s) (hsat : PerceptronSaturated s)
    (hh : ∀ h ∈ s.global_history, h = 1 ∨ h = -1)
    (hlim : (s.history_len + 1) * 2 ^ (s.weight_bits - 1).toNat < 2 ^ 31) :
    ∃ w y w1, s.perceptron_table[pc &&& s.table_mask]? = some w ∧
      perceptron_y s w = some y ∧
      perceptron_update_weights s (if outcome = 1 then 1 else -1) w = some w1 ∧
      perceptron_predictor_train s pc outcome =
        some (if (if y ≥ 0 then 1 else 0) ≠ outcome ∨ |y| ≤ s.threshold then
                { s with perceptron_table := s.perceptron_table.set (pc &&& s.table_mask) w1 }
              else s) := by
  have hidx : pc &&& s.table_mask < s.perceptron_table.length :=
    hc.2.1 ▸ and_le_mask pc s.table_mask
  have hmem := List.getElem_mem hidx
  obtain ⟨y, hy, hylo, hyhi, _⟩ := perceptron_y_some s _ hc hsat hh hlim hmem
  have ht : (if outcome = 1 then (1 : Int) else -1) = 1 ∨
      (if outcome = 1 then (1 : Int) else -1) = -1 := by
    split <;> simp
  obtain ⟨w1, hw1, _⟩ := perceptron_update_weights_some s _ _ hc hsat hh ht hmem
  refine ⟨_, y, w1, List.getElem?_eq_getElem hidx, hy, hw1, ?_⟩
  simp only [perceptron_predictor_train, List.getElem?_eq_getElem hidx, hy,
    perceptron_within_threshold_eq s y hylo hyhi, hw1, Option.bind_eq_bind, Option.some_bind,
    Option.pure_def, Bool.or_eq_true, bne_iff_ne, decide_eq_true_eq]
  split_ifs <;> rfl

/-- C11. Perceptron training rule: in every configured state whose weights are saturated
and whose output cannot overflow, for every pc and outcome (the callers pass 0 or 1),
`perceptron_predictor_train(pc, outcome)` returns; with `w` the weight array at
`pc & table_mask`, `y` its output and `t = +1` for taken, `-1` for not taken: when the
prediction `(y >= 0)` equals the outcome and `|y| > threshold` the state is unchanged; when
the prediction differs from the outcome or `|y| <= threshold`, the array is replaced by one
of the same length whose bias is `clamp(w[0] + t)` and whose weight `i + 1` is
`clamp(w[i + 1] + t * global_history[i])` for every `i < history_len`, with `clamp`
onto `[-2^(weight_bits-1), 2^(weight_bits-1) - 1]`. -/
theorem perceptron_training_rule (s : PerceptronState) (pc outcome : Nat)
    (hc : PerceptronConfigured s) (hsat : PerceptronSaturated s)
    (hh : ∀ h ∈ s.global_history, h = 1 ∨ h = -1)
    (hlim : (s.history_len + 1) * 2 ^ (s.weight_bits - 1).toNat < 2 ^ 31) :
    ∃ w y s1, s.perceptron_table[pc &&& s.table_mask]? = some w ∧
      y = w.getD 0 0 +
        ∑ i ∈ Finset.range s.history_len.toNat, s.global_history.getD i 0 * w.getD (i + 1) 0 ∧
      perceptron_predictor_train s pc outcome = some s1 ∧
      ((if y ≥ 0 then 1 else 0) = outcome ∧ |y| > s.threshold → s1 = s) ∧
      ((if y ≥ 0 then 1 else 0) ≠ outcome ∨ |y| ≤ s.threshold →
        ∃ w1, s1 = { s with perceptron_table :=
                              s.perceptron_table.set (pc &&& s.table_mask) w1 } ∧
          w1.length = w.length ∧
          w1[0]? = some (max (-(2 ^ (s.weight_bits - 1).toNat))
            (min (w.getD 0 0 + (if outcome = 1 then 1 else -1))
              (2 ^ (s.weight_bits - 1).toNat - 1))) ∧
          ∀ i, i < s.history_len.toNat → w1[i + 1]? =
            some (max (-(2 ^ (s.weight_bits - 1).toNat))
              (min (w.getD (i + 1) 0 +
                  (if outcome = 1 then 1 else -1) * s.global_history.getD i 0)
                (2 ^ (s.weight_bits - 1).toNat - 1)))) := by
  obtain ⟨w, y, w1, hw, hy, hw1, htrain⟩ := perceptron_train_eq s pc outcome hc hsat hh hlim
  have hmem : w ∈ s.perceptron_table := List.getElem?_mem hw
  obtain ⟨y2, hy2, _, _, hsum⟩ := perceptron_y_some s w hc hsat hh hlim hmem
  have hyy : y2 = y := Option.some.inj (hy2.symm.trans hy)
  have ht : (if outcome = 1 then (1 : Int) else -1) = 1 ∨
      (if outcome = 1 then (1 : Int) else -1) = -1 := by
    split <;> simp
  obtain ⟨w2, hw2, hlen, hzero, hnew, _⟩ :=
    perceptron_update_weights_some s _ w hc hsat hh ht hmem
  have hww : w2 = w1 := Option.some.inj (hw2.symm.trans hw1)
  subst hww
  obtain ⟨hmm, _, _, _⟩ := perceptron_saturated_bounds s hsat
  have hmax := hsat.2.2.1
  have hmin := hsat.2.2.2.1
  have hclamp : ∀ x, perceptron_saturate s x =
      max (-(2 ^ (s.weight_bits - 1).toNat)) (min x (2 ^ (s.weight_bits - 1).toNat - 1)) := by
    intro x
    rw [perceptron_saturate_eq s x hmm, hmax, hmin]
  refine ⟨w, y, _, hw, hyy ▸ hsum, htrain, ?_, ?_⟩
  · intro hcond
    have : ¬ ((if y ≥ 0 then 1 else 0) ≠ outcome ∨ |y| ≤ s.threshold) := by
      intro h
      rcases h with h | h
      · exact h hcond.1
      · exact absurd h (not_le.mpr hcond.2)
    rw [if_neg this]
  · intro hcond
    rw [if_pos hcond]
    refine ⟨w2, rfl, hlen, ?_, ?_⟩
    · rw [hzero, hclamp]
    · intro i hi
      rw [hnew i hi, hclamp]

/-- Witness of C11: two perceptrons, history `[1, -1]`, `weight_bits = 3`, threshold 2; pc 3
selects `[3, -2, 1]` with `y = 3 - 2 - 1 = 0`; `train(3, 1)` is within the threshold. -/
theorem perceptron_training_rule_witness :
    ∃ s1, perceptron_predictor_train
        { num_perceptrons := 2, history_len := 2, weight_bits := 3, threshold := 2,
          table_mask := 1, perceptron_table := [[0, 0, 0], [3, -2, 1]],
          global_history := [1, -1], history_index := 0, max_weight := 3,
          min_weight := -4 } 3 1 = some s1 ∧
      s1.perceptron_table = [[0, 0, 0], [3, -1, 0]] := by
  obtain ⟨w, y, s1, hw, hy, htrain, _, _⟩ := perceptron_training_rule
    { num_perceptrons := 2, history_len := 2, weight_bits := 3, threshold := 2,
      table_mask := 1, perceptron_table := [[0, 0, 0], [3, -2, 1]],
      global_history := [1, -1], history_index := 0, max_weight := 3,
      min_weight := -4 } 3 1
    ⟨by decide, by decide, by decide, by decide⟩
    ⟨by decide, by decide, by decide, by decide, by decide⟩
    (by decide) (by decide)
  refine ⟨s1, htrain, ?_⟩
  have h2 : perceptron_predictor_train
      { num_perceptrons := 2, history_len := 2, weight_bits := 3, threshold := 2,
        table_mask := 1, perceptron_table := [[0, 0, 0], [3, -2, 1]],
        global_history := [1, -1], history_index := 0, max_weight := 3,
        min_weight := -4 } 3 1 =
      some
      { num_perceptrons := 2, history_len := 2, weight_bits := 3, threshold := 2,
        table_mask := 1, perceptron_table := [[0, 0, 0], [3, -1, 0]],
        global_history := [1, -1], history_index := 0, max_weight := 3,
        min_weight := -4 } := by decide
  rw [h2] at htrain
  rw [← Option.some.inj htrain]

/-! ### States the perceptron predictor reaches -/

/-- Whenever `perceptron_predictor_train` is defined, the new state is the old one or the
old one with the selected weight array replaced by its updated version. -/
theorem perceptron_train_cases (s s1 : PerceptronState) (pc outcome : Nat)
    (h : perceptron_predictor_train s pc outcome = some s1) :
    s1 = s ∨ ∃ w w1, s.perceptron_table[pc &&& s.table_mask]? = some w ∧
      perceptron_update_weights s (if outcome = 1 then 1 else -1) w = some w1 ∧
      s1 = { s with perceptron_table := s.perceptron_table.set (pc &&& s.table_mask) w1 } := by
  unfold perceptron_predictor_train at h
  cases hw : s.perceptron_table[pc &&& s.table_mask]? with
  | none => simp [hw] at h
  | some w =>
    cases hy : perceptron_y s w with
    | none => simp [hw, hy] at h
    | some y =>
      cases hth : perceptron_within_threshold s y with
      | none => simp [hw, hy, hth] at h
      | some b =>
        simp only [hw, hy, hth, Option.bind_eq_bind, Option.some_bind, Option.pure_def] at h
        generalize ((if y ≥ 0 then 1 else 0) != outcome || b) = c at h
        cases c with
        | true =>
          cases hu : perceptron_update_weights s (if outcome = 1 then 1 else -1) w with
          | none => simp [hu] at h
          | some w1 =>
            simp only [hu, Option.some_bind, if_true, Option.some.injEq] at h
            exact Or.inr ⟨w, w1, rfl, hu, h.symm⟩
        | false =>
          simp only [Bool.false_eq_true, if_false, Option.some.injEq] at h
          exact Or.inl h.symm

/-- Whenever `perceptron_predictor_train` is defined on a configured, saturated state, the
new state is configured and saturated, only the weight array at `pc & table_mask` can
differ, and nothing but the weight table is written. -/
theorem perceptron_train_inv (s s1 : PerceptronState) (pc outcome : Nat)
    (hc : PerceptronConfigured s) (hsat : PerceptronSaturated s)
    (hh : ∀ h ∈ s.global_history, h = 1 ∨ h = -1)
    (h : perceptron_predictor_train s pc outcome = some s1) :
    PerceptronConfigured s1 ∧ PerceptronSaturated s1 ∧
      s1.global_history = s.global_history ∧ s1.history_index = s.history_index ∧
      s1.history_len = s.history_len ∧ s1.weight_bits = s.weight_bits ∧
      s1.table_mask = s.table_mask ∧
      ∀ j, j ≠ pc &&& s.table_mask → s1.perceptron_table[j]? = s.perceptron_table[j]? := by
  rcases perceptron_train_cases s s1 pc outcome h with h1 | ⟨w, w1, hw, hw1, h1⟩
  · subst h1
    exact ⟨hc, hsat, rfl, rfl, rfl, rfl, rfl, fun _ _ => rfl⟩
  · have hmem : w ∈ s.perceptron_table := List.getElem?_mem hw
    have ht : (if outcome = 1 then (1 : Int) else -1) = 1 ∨
        (if outcome = 1 then (1 : Int) else -1) = -1 := by
      split <;> simp
    obtain ⟨w2, hw2, hlen, _, _, hrange⟩ :=
      perceptron_update_weights_some s _ w hc hsat hh ht hmem
    have hww : w2 = w1 := Option.some.inj (hw2.symm.trans hw1)
    subst hww
    subst h1
    obtain ⟨hlen0, htab, hrows, hhist⟩ := hc
    obtain ⟨hb1, hb2, hmax, hmin, hall⟩ := hsat
    refine ⟨⟨hlen0, by simpa using htab, ?_, hhist⟩, ⟨hb1, hb2, hmax, hmin, ?_⟩,
      rfl, rfl, rfl, rfl, rfl, ?_⟩
    · intro v hv
      rcases List.mem_or_eq_of_mem_set hv with hv1 | hv1
      · exact hrows v hv1
      · rw [hv1, hlen]; exact hrows w hmem
    · intro v hv
      rcases List.mem_or_eq_of_mem_set hv with hv1 | hv1
      · exact hall v hv1
      · rw [hv1]; exact hrange
    · intro j hj
      exact List.getElem?_set_ne (Ne.symm hj)

/-- Whenever `perceptron_predictor_update_history` is defined, it writes `+1` or `-1` into
the slot `history_index`, leaves the other slots and the whole weight table unchanged, and
sets `history_index` to `(history_index + 1) % history_len`. -/
theorem perceptron_update_history_cases (s s1 : PerceptronState) (outcome : Nat)
    (h : perceptron_predictor_update_history s outcome = some s1) :
    0 ≤ s.history_index ∧ s.history_index.toNat < s.global_history.length ∧
      s.history_len ≠ 0 ∧
      s1 = { s with global_history := s.global_history.set s.history_index.toNat
                      (if outcome = 1 then 1 else -1),
                    history_index := Int.tmod (s.history_index + 1) s.history_len } := by
  unfold perceptron_predictor_update_history at h
  simp only [Option.bind_eq_bind, Option.pure_def] at h
  split at h
  · cases h
  · rename_i hidx
    cases hn : i32 (s.history_index + 1) with
    | none => simp [hn] at h
    | some n =>
      have hn1 := i32_some_eq _ _ hn
      simp only [hn, Option.some_bind] at h
      split at h
      · cases h
      · rename_i hlen
        subst hn1
        exact ⟨by omega, by omega, hlen, (Option.some.inj h).symm⟩

theorem perceptron_update_history_inv (s s1 : PerceptronState) (outcome : Nat)
    (hc : PerceptronConfigured s) (hsat : PerceptronSaturated s)
    (hh : ∀ h ∈ s.global_history, h = 1 ∨ h = -1)
    (h : perceptron_predictor_update_history s outcome = some s1) :
    PerceptronConfigured s1 ∧ PerceptronSaturated s1 ∧
      (∀ h ∈ s1.global_history, h = 1 ∨ h = -1) ∧
      s1.perceptron_table = s.perceptron_table ∧
      s1.history_len = s.history_len ∧ s1.weight_bits = s.weight_bits ∧
      s1.table_mask = s.table_mask ∧
      0 ≤ s1.history_index ∧ s1.history_index < s1.history_len := by
  obtain ⟨h0, hlt, hne, heq⟩ := perceptron_update_history_cases s s1 outcome h
  subst heq
  obtain ⟨hlen0, htab, hrows, hhist⟩ := hc
  have hpos : 0 < s.history_len := by omega
  refine ⟨⟨hlen0, htab, hrows, by simpa using hhist⟩, hsat, ?_, rfl, rfl, rfl, rfl, ?_, ?_⟩
  · intro x hx
    rcases List.mem_or_eq_of_mem_set hx with hx1 | hx1
    · exact hh x hx1
    · rw [hx1]; split <;> simp
  · show 0 ≤ Int.tmod (s.history_index + 1) s.history_len
    rw [Int.tmod_eq_emod (by omega) (by omega)]
    exact Int.emod_nonneg _ (by omega)
  · show Int.tmod (s.history_index + 1) s.history_len < s.history_len
    rw [Int.tmod_eq_emod (by omega) (by omega)]
    exact Int.emod_lt_of_pos _ hpos

theorem perceptron_step_inv (s s1 : PerceptronState) (op : PerceptronOp)
    (hc : PerceptronConfigured s) (hsat : PerceptronSaturated s)
    (hh : ∀ h ∈ s.global_history, h = 1 ∨ h = -1)
    (h : perceptron_step s op = some s1) :
    PerceptronConfigured s1 ∧ PerceptronSaturated s1 ∧
      (∀ h ∈ s1.global_history, h = 1 ∨ h = -1) ∧
      s1.history_len = s.history_len ∧ s1.weight_bits = s.weight_bits ∧
      s1.table_mask = s.table_mask := by
  cases op with
  | train pc outcome =>
    obtain ⟨h1, h2, h3, _, h5, h6, h7, _⟩ := perceptron_train_inv s s1 pc outcome hc hsat hh h
    exact ⟨h1, h2, by rw [h3]; exact hh, h5, h6, h7⟩
  | update_history outcome =>
    obtain ⟨h1, h2, h3, _, h5, h6, h7, _⟩ :=
      perceptron_update_history_inv s s1 outcome hc hsat hh h
    exact ⟨h1, h2, h3, h5, h6, h7⟩

theorem perceptron_run_inv (ops : List PerceptronOp) :
    ∀ s s1 : PerceptronState, PerceptronConfigured s → PerceptronSaturated s →
      (∀ h ∈ s.global_history, h = 1 ∨ h = -1) → perceptron_run s ops = some s1 →
      PerceptronConfigured s1 ∧ PerceptronSaturated s1 ∧
        (∀ h ∈ s1.global_history, h = 1 ∨ h = -1) ∧
        s1.history_len = s.history_len ∧ s1.weight_bits = s.weight_bits ∧
        s1.table_mask = s.table_mask := by
  induction ops with
  | nil =>
    intro s s1 hc hsat hh h
    cases h
    exact ⟨hc, hsat, hh, rfl, rfl, rfl⟩
  | cons op rest ih =>
    intro s s1 hc hsat hh h
    simp only [perceptron_run] at h
    cases hs : perceptron_step s op with
    | none => simp [hs] at h
    | some s2 =>
      simp only [hs, Option.some_bind] at h
      obtain ⟨a1, a2, a3, a4, a5, a6⟩ := perceptron_step_inv s s2 op hc hsat hh hs
      obtain ⟨b1, b2, b3, b4, b5, b6⟩ := ih s2 s1 a1 a2 a3 h
      exact ⟨b1, b2, b3, b4.trans a4, b5.trans a5, b6.trans a6⟩

/-- One call on a configured, saturated state with a valid history index and an output
that cannot overflow returns, and the history index stays valid. -/
theorem perceptron_step_some (s : PerceptronState) (op : PerceptronOp)
    (hc : PerceptronConfigured s) (hsat : PerceptronSaturated s)
    (hok : PerceptronHistoryOk s)
    (hlim : (s.history_len + 1) * 2 ^ (s.weight_bits - 1).toNat < 2 ^ 31) :
    ∃ s1, perceptron_step s op = some s1 ∧ PerceptronHistoryOk s1 := by
  obtain ⟨hh, hi0, hi1⟩ := hok
  have hp1 : (1 : Int) ≤ 2 ^ (s.weight_bits - 1).toNat := by
    exact_mod_cast Nat.one_le_two_pow
  have hlen : s.history_len + 1 < 2 ^ 31 := by nlinarith
  cases op with
  | train pc outcome =>
    obtain ⟨w, y, w1, _, _, _, ht⟩ := perceptron_train_eq s pc outcome hc hsat hh hlim
    refine ⟨_, ht, ?_⟩
    obtain ⟨_, _, h3, h4, h5, _⟩ := perceptron_train_inv s _ pc outcome hc hsat hh ht
    exact ⟨by rw [h3]; exact hh, by rw [h4]; exact hi0, by rw [h4, h5]; exact hi1⟩
  | update_history outcome =>
    have hlt : ¬ (s.history_index < 0 ∨ s.global_history.length ≤ s.history_index.toNat) := by
      have := hc.2.2.2
      omega
    have hne : ¬ (s.history_len = 0) := by omega
    have hstep : perceptron_predictor_update_history s outcome =
        some { s with global_history := s.global_history.set s.history_index.toNat
                        (if outcome = 1 then 1 else -1),
                      history_index := Int.tmod (s.history_index + 1) s.history_len } := by
      simp only [perceptron_predictor_update_history, hlt, hne, if_false,
        i32_eq_some (s.history_index + 1) (by omega) (by omega), Option.bind_eq_bind,
        Option.some_bind, Option.pure_def]
    refine ⟨_, hstep, ?_⟩
    obtain ⟨_, _, h3, _, _, _, _, h8, h9⟩ :=
      perceptron_update_history_inv s _ outcome hc hsat hh hstep
    exact ⟨h3, h8, h9⟩

theorem perceptron_run_some (ops : List PerceptronOp) :
    ∀ s : PerceptronState, PerceptronConfigured s → PerceptronSaturated s →
      PerceptronHistoryOk s →
      (s.history_len + 1) * 2 ^ (s.weight_bits - 1).toNat < 2 ^ 31 →
      ∃ s1, perceptron_run s ops = some s1 ∧ PerceptronHistoryOk s1 ∧
        PerceptronConfigured s1 := by
  induction ops with
  | nil => intro s hc _ hok _; exact ⟨s, rfl, hok, hc⟩
  | cons op rest ih =>
    intro s hc hsat hok hlim
    obtain ⟨s2, hs, hok2⟩ := perceptron_step_some s op hc hsat hok hlim
    obtain ⟨a1, a2, _, a4, a5, _⟩ := perceptron_step_inv s s2 op hc hsat hok.1 hs
    obtain ⟨s1, h1, hok1, hc1⟩ := ih s2 a1 a2 hok2 (by rw [a4, a5]; exact hlim)
    exact ⟨s1, by simp [perceptron_run, hs, h1], hok1, hc1⟩

theorem perceptron_init_saturated
    (table_bits history_length weight_bits_param threshold_param : Int)
    (htb : 0 ≤ table_bits ∧ table_bits ≤ 30)
    (hhl : 0 ≤ history_length ∧ history_length < 2 ^ 31 - 1)
    (hwb : 1 ≤ weight_bits_param ∧ weight_bits_param ≤ 31) :
    ∃ s0, perceptron_predictor_init table_bits history_length weight_bits_param
        threshold_param = some s0 ∧
      s0.table_mask = 2 ^ table_bits.toNat - 1 ∧ s0.history_len = history_length ∧
      s0.weight_bits = weight_bits_param ∧ s0.history_index = 0 ∧
      PerceptronConfigured s0 ∧ PerceptronSaturated s0 ∧
      (∀ h ∈ s0.global_history, h = 1 ∨ h = -1) := by
  obtain ⟨s0, hi, hmask, hlen, hc, hzero, hneg⟩ := perceptron_init_configured table_bits
    history_length weight_bits_param threshold_param htb hhl hwb
  have heq := perceptron_init_eq table_bits history_length weight_bits_param threshold_param
    htb hhl hwb
  have hs0 := Option.some.inj (hi.symm.trans heq)
  have hp1 : 1 ≤ 2 ^ (weight_bits_param - 1).toNat := Nat.one_le_two_pow
  have hwbits : s0.weight_bits = weight_bits_param := by rw [hs0]
  have hmax : s0.max_weight = 2 ^ (weight_bits_param - 1).toNat - 1 := by
    rw [hs0]
    show ((2 ^ (weight_bits_param - 1).toNat - 1 : Nat) : Int) = _
    push_cast [Nat.cast_sub hp1]
    rfl
  have hmin : s0.min_weight = -(2 ^ (weight_bits_param - 1).toNat) := by rw [hs0]
  have hidx : s0.history_index = 0 := by rw [hs0]
  have hp2 : (1 : Int) ≤ 2 ^ (weight_bits_param - 1).toNat := by exact_mod_cast hp1
  refine ⟨s0, hi, hmask, hlen, hwbits, hidx, hc, ⟨?_, ?_, ?_, ?_, ?_⟩, ?_⟩
  · rw [hwbits]; exact hwb.1
  · rw [hwbits]; exact hwb.2
  · rw [hwbits]; exact hmax
  · rw [hwbits]; exact hmin
  · intro w hw x hx
    rw [hzero w hw x hx, hmax, hmin]
    omega
  · intro h hh
    exact Or.inr (hneg h hh)

/-- C12. Perceptron weight saturation and ownership: for `weight_bits` in `[1, 31]`, in
every state reached from `perceptron_predictor_init` by a sequence of train and
update_history calls, every weight of every perceptron lies in
`[-2^(weight_bits-1), 2^(weight_bits-1) - 1]`; such a state is reached by every sequence
when `history_length ≥ 1` and `(history_length + 1) * 2^(weight_bits-1) < 2^31` (no
`int32_t` overflow); and a further `train(pc, outcome)` changes no weight array other than
the one at index `pc & (2^table_bits - 1)`. -/
theorem perceptron_weights_saturated
    (table_bits history_length weight_bits_param threshold_param : Int)
    (ops : List PerceptronOp)
    (htb : 0 ≤ table_bits ∧ table_bits ≤ 30)
    (hhl : 0 ≤ history_length ∧ history_length < 2 ^ 31 - 1)
    (hwb : 1 ≤ weight_bits_param ∧ weight_bits_param ≤ 31) :
    ∃ s0, perceptron_predictor_init table_bits history_length weight_bits_param
        threshold_param = some s0 ∧
      (∀ s, perceptron_run s0 ops = some s →
        (∀ w ∈ s.perceptron_table, ∀ x ∈ w,
          -(2 ^ (weight_bits_param - 1).toNat) ≤ x ∧
            x ≤ 2 ^ (weight_bits_param - 1).toNat - 1) ∧
        ∀ pc outcome s1, perceptron_predictor_train s pc outcome = some s1 →
          ∀ j, j ≠ pc &&& (2 ^ table_bits.toNat - 1) →
            s1.perceptron_table[j]? = s.perceptron_table[j]?) ∧
      (1 ≤ history_length →
        (history_length + 1) * 2 ^ (weight_bits_param - 1).toNat < 2 ^ 31 →
        ∃ s, perceptron_run s0 ops = some s) := by
  obtain ⟨s0, hi, hmask, hlen, hwbits, hidx, hc, hsat, hh⟩ := perceptron_init_saturated
    table_bits history_length weight_bits_param threshold_param htb hhl hwb
  refine ⟨s0, hi, ?_, ?_⟩
  · intro s hrun
    obtain ⟨hc1, hsat1, hh1, _, hb1, hm1⟩ := perceptron_run_inv ops s0 s hc hsat hh hrun
    constructor
    · intro w hw x hx
      obtain ⟨_, _, hmax, hmin, hall⟩ := hsat1
      have := hall w hw x hx
      rw [hmax, hmin, hb1, hwbits] at this
      exact this
    · intro pc outcome s1 ht j hj
      obtain ⟨_, _, _, _, _, _, _, hframe⟩ :=
        perceptron_train_inv s s1 pc outcome hc1 hsat1 hh1 ht
      apply hframe
      rw [hm1, hmask]
      exact hj
  · intro h1 hlim
    obtain ⟨s, hs, _⟩ := perceptron_run_some ops s0 hc hsat
      ⟨hh, by rw [hidx], by rw [hidx, hlen]; omega⟩ (by rw [hlen, hwbits]; exact hlim)
    exact ⟨s, hs⟩

/-- Witness of C12: `init(1, 3, 3, 2)` (weights in `[-4, 3]`) followed by trainings of pc 1
that drive its weights to the bounds, with history updates in between. -/
theorem perceptron_weights_saturated_witness :
    ∃ s0, perceptron_predictor_init 1 3 3 2 = some s0 ∧
      (∀ s, perceptron_run s0
          [.train 1 1, .update_history 1, .train 1 1, .train 1 1, .train 1 1, .train 1 1,
           .train 1 1, .update_history 0, .train 3 0] = some s →
        (∀ w ∈ s.perceptron_table, ∀ x ∈ w,
          -(2 ^ ((3 : Int) - 1).toNat) ≤ x ∧ x ≤ 2 ^ ((3 : Int) - 1).toNat - 1) ∧
        ∀ pc outcome s1, perceptron_predictor_train s pc outcome = some s1 →
          ∀ j, j ≠ pc &&& (2 ^ (1 : Int).toNat - 1) →
            s1.perceptron_table[j]? = s.perceptron_table[j]?) ∧
      ((1 : Int) ≤ 3 → ((3 : Int) + 1) * 2 ^ ((3 : Int) - 1).toNat < 2 ^ 31 →
        ∃ s, perceptron_run s0
          [.train 1 1, .update_history 1, .train 1 1, .train 1 1, .train 1 1, .train 1 1,
           .train 1 1, .update_history 0, .train 3 0] = some s) :=
  perceptron_weights_saturated 1 3 3 2 _ (by decide) (by decide) (by decide)

/-! ### The gshare history register -/

/-- Bit `i` of the history register after one train, in terms of the register `h` before
and the outcome `o`. -/
theorem gshare_history_testBit (h o hb i : Nat) (hhb : hb ≤ 32) :
    ((((h * 2) % 2 ^ 32) ||| o) &&& (2 ^ hb - 1)).testBit i =
      (decide (i < hb) && ((decide (1 ≤ i) && h.testBit (i - 1)) || o.testBit i)) := by
  have e : h * 2 = h <<< 1 := by rw [Nat.shiftLeft_eq]
  rw [Nat.testBit_and, Nat.testBit_or, Nat.testBit_mod_two_pow, Nat.testBit_two_pow_sub_one, e,
    Nat.testBit_shiftLeft]
  by_cases h1 : i < hb
  · have h2 : i < 32 := by omega
    simp [h1, h2]
  · simp [h1]

theorem gshare_history_eq_shift (h o hb : Nat) (hhb : hb ≤ 32) :
    (((h * 2) % 2 ^ 32) ||| o) &&& (2 ^ hb - 1) = ((h <<< 1) ||| o) &&& (2 ^ hb - 1) := by
  apply Nat.eq_of_testBit_eq
  intro i
  rw [gshare_history_testBit h o hb i hhb, Nat.testBit_and, Nat.testBit_or,
    Nat.testBit_two_pow_sub_one, Nat.testBit_shiftLeft]
  by_cases h1 : i < hb <;> simp [h1, Bool.and_comm]

theorem gshare_history_lt (x hb : Nat) : x &&& (2 ^ hb - 1) < 2 ^ hb :=
  Nat.and_lt_two_pow x (by have : 1 ≤ 2 ^ hb := Nat.one_le_two_pow; omega)

theorem gshare_init_eq (table_bits hist_bits : Int) (htb : 0 ≤ table_bits ∧ table_bits ≤ 31)
    (hhb : 0 ≤ hist_bits ∧ hist_bits ≤ 30) :
    gshare_predictor_init table_bits hist_bits =
      some { pht := List.replicate (2 ^ table_bits.toNat) 1, pht_size := 2 ^ table_bits.toNat,
             pht_mask := 2 ^ table_bits.toNat - 1, global_history := 0,
             history_mask := 2 ^ hist_bits.toNat - 1, history_bits := hist_bits } := by
  simp only [gshare_predictor_init, shl_size_eq table_bits htb.1 htb.2,
    shl_mask_eq hist_bits hhb.1 hhb.2, u32_pred_pow _ (toNat_le_31 table_bits htb.2),
    Option.bind_eq_bind, Option.some_bind, Option.pure_def]

theorem gshare_init_configured (table_bits hist_bits : Int)
    (htb : 0 ≤ table_bits ∧ table_bits ≤ 31) (hhb : 0 ≤ hist_bits ∧ hist_bits ≤ 30) :
    ∃ s, gshare_predictor_init table_bits hist_bits = some s ∧
      GshareConfigured table_bits.toNat hist_bits.toNat s ∧ s.global_history = 0 :=
  ⟨_, gshare_init_eq table_bits hist_bits htb hhb, ⟨by simp, rfl, rfl, by omega⟩, rfl⟩

/-- The state `gshare_predictor_train` returns in a configured state: the counter at the
index computed from the history before the call is updated, then the history is shifted. -/
theorem gshare_train_eq (tb hb : Nat) (s : GshareState) (pc outcome : Nat)
    (hc : GshareConfigured tb hb s) :
    ∃ c, s.pht[(pc ^^^ s.global_history) &&& s.pht_mask]? = some c ∧
      gshare_predictor_train s pc outcome =
        some { s with
          pht := if outcome ≠ 0 then
                   if c < 3 then s.pht.set ((pc ^^^ s.global_history) &&& s.pht_mask) (u8_inc c)
                   else s.pht
                 else
                   if c > 0 then s.pht.set ((pc ^^^ s.global_history) &&& s.pht_mask) (u8_dec c)
                   else s.pht,
          global_history := ((s.global_history <<< 1) ||| outcome) &&& (2 ^ hb - 1) } := by
  obtain ⟨hlen, hmask, hhist, hhb⟩ := hc
  have hidx : (pc ^^^ s.global_history) &&& s.pht_mask < s.pht.length := by
    rw [hlen]
    have := and_le_mask (pc ^^^ s.global_history) s.pht_mask
    have h1 : 1 ≤ 2 ^ tb := Nat.one_le_two_pow
    omega
  refine ⟨_, List.getElem?_eq_getElem hidx, ?_⟩
  simp only [gshare_predictor_train, List.getElem?_eq_getElem hidx, Option.bind_eq_bind,
    Option.some_bind, Option.pure_def, hhist,
    gshare_history_eq_shift s.global_history outcome hb (by omega)]

theorem gshare_train_configured (tb hb : Nat) (s : GshareState) (pc outcome : Nat)
    (hc : GshareConfigured tb hb s) :
    ∃ s1, gshare_predictor_train s pc outcome = some s1 ∧ GshareConfigured tb hb s1 ∧
      s1.global_history = ((s.global_history <<< 1) ||| outcome) &&& (2 ^ hb - 1) := by
  obtain ⟨c, _, ht⟩ := gshare_train_eq tb hb s pc outcome hc
  obtain ⟨hlen, hmask, hhist, hhb⟩ := hc
  refine ⟨_, ht, ⟨?_, hmask, hhist, hhb⟩, rfl⟩
  show (if outcome ≠ 0 then _ else _ : List Nat).length = 2 ^ tb
  split_ifs <;> simp [hlen]

/-- C14. Gshare history update order: for every `table_bits = tb`, `history_bits = hb`,
every configured state with history `h`, every pc, pc1 and outcome `o`,
`gshare_predictor_train(pc, o)` returns and leaves the history
`h1 = ((h << 1) | o) & (2^hb - 1)`, and the `gshare_predictor_predict(pc1)` that follows
reads the counter at index `(pc1 XOR h1) & (2^tb - 1)`, that is with the post-update
history. -/
theorem gshare_history_update_order (tb hb : Nat) (s : GshareState) (pc pc1 outcome : Nat)
    (hc : GshareConfigured tb hb s) :
    ∃ s1 c, gshare_predictor_train s pc outcome = some s1 ∧
      s1.global_history = ((s.global_history <<< 1) ||| outcome) &&& (2 ^ hb - 1) ∧
      s1.pht[(pc1 ^^^ (((s.global_history <<< 1) ||| outcome) &&& (2 ^ hb - 1))) &&&
        (2 ^ tb - 1)]? = some c ∧
      gshare_predictor_predict s1 pc1 = some (if c ≥ 2 then 1 else 0) := by
  obtain ⟨s1, ht, hc1, hh⟩ := gshare_train_configured tb hb s pc outcome hc
  obtain ⟨hlen, hmask, _, _⟩ := hc1
  have hidx : (pc1 ^^^ s1.global_history) &&& s1.pht_mask < s1.pht.length := by
    have := and_le_mask (pc1 ^^^ s1.global_history) s1.pht_mask
    have h1 : 1 ≤ 2 ^ tb := Nat.one_le_two_pow
    omega
  refine ⟨s1, s1.pht[(pc1 ^^^ s1.global_history) &&& s1.pht_mask], ht, hh, ?_, ?_⟩
  · rw [← hh, ← hmask]
    exact List.getElem?_eq_getElem hidx
  · simp [gshare_predictor_predict, List.getElem?_eq_getElem hidx]

/-- Witness of C14: `history_bits = 4`, `table_bits = 6`, the freshly initialised state,
`train(0x10, 1)` then `predict(0x10)`: the history is `0b0001` and the index `0x11`. -/
theorem gshare_history_update_order_witness :
    (∃ s1 c,
      gshare_predictor_train
        { pht := List.replicate 64 1, pht_size := 64, pht_mask := 63, global_history := 0,
          history_mask := 15, history_bits := 4 } 0x10 1 = some s1 ∧
      s1.global_history = ((0 <<< 1) ||| 1) &&& (2 ^ 4 - 1) ∧
      s1.pht[(0x10 ^^^ (((0 <<< 1) ||| 1) &&& (2 ^ 4 - 1))) &&& (2 ^ 6 - 1)]? = some c ∧
      gshare_predictor_predict s1 0x10 = some (if c ≥ 2 then 1 else 0)) ∧
    ((0 <<< 1) ||| 1) &&& (2 ^ 4 - 1) = 0b0001 ∧
    (0x10 ^^^ (((0 <<< 1) ||| 1) &&& (2 ^ 4 - 1))) &&& (2 ^ 6 - 1) = 0x11 :=
  ⟨gshare_history_update_order 6 4
    { pht := List.replicate 64 1, pht_size := 64, pht_mask := 63, global_history := 0,
      history_mask := 15, history_bits := 4 } 0x10 0x10 1
    ⟨by decide, by decide, by decide, by decide⟩, by decide, by decide⟩

theorem gshare_train_seq_append (ops : List (Nat × Nat)) (op : Nat × Nat) :
    ∀ s : GshareState, gshare_train_seq s (ops ++ [op]) =
      (gshare_train_seq s ops).bind (fun s1 => gshare_predictor_train s1 op.1 op.2) := by
  induction ops with
  | nil =>
    intro s
    obtain ⟨pc, o⟩ := op
    simp only [List.nil_append, gshare_train_seq, Option.some_bind]
    cases gshare_predictor_train s pc o <;> rfl
  | cons a rest ih =>
    intro s
    obtain ⟨pc, o⟩ := a
    simp only [List.cons_append, gshare_train_seq]
    cases gshare_predictor_train s pc o with
    | none => rfl
    | some s1 => simp only [Option.some_bind]; exact ih s1

theorem outcome_testBit (o i : Nat) (ho : o = 0 ∨ o = 1) :
    o.testBit i = decide (i = 0 ∧ o = 1) := by
  rcases ho with h | h <;> subst h
  · simp
  · cases i with
    | zero => simp
    | succ n => simp [Nat.testBit_succ]

/-- After any sequence of trains with outcomes in {0, 1} from a configured state with an
empty history, bit `i` of the history is the outcome of the `(i + 1)`-th most recent
train. -/
theorem gshare_run_history (tb hb : Nat) (s0 : GshareState) (hc0 : GshareConfigured tb hb s0)
    (h0 : s0.global_history = 0) (ops : List (Nat × Nat)) :
    (∀ op ∈ ops, op.2 = 0 ∨ op.2 = 1) →
    ∃ s, gshare_train_seq s0 ops = some s ∧ GshareConfigured tb hb s ∧
      s.global_history < 2 ^ hb ∧
      ∀ i, i < hb → s.global_history.testBit i =
        decide ((ops.reverse[i]?).map Prod.snd = some 1) := by
  induction ops using List.reverseRecOn with
  | nil =>
    intro _
    refine ⟨s0, rfl, hc0, by rw [h0]; exact Nat.two_pow_pos hb, ?_⟩
    intro i _
    simp [h0]
  | append_singleton ops op ih =>
    intro hops
    obtain ⟨s, hs, hc, _, hbits⟩ := ih (fun x hx => hops x (List.mem_append_left _ hx))
    obtain ⟨pc, o⟩ := op
    have ho : o = 0 ∨ o = 1 := hops (pc, o) (by simp)
    obtain ⟨s1, ht, hc1, hh⟩ := gshare_train_configured tb hb s pc o hc
    refine ⟨s1, by rw [gshare_train_seq_append, hs]; exact ht, hc1,
      by rw [hh]; exact gshare_history_lt _ hb, ?_⟩
    intro i hi
    rw [hh, Nat.testBit_and, Nat.testBit_or, Nat.testBit_two_pow_sub_one,
      Nat.testBit_shiftLeft, outcome_testBit o i ho, List.reverse_append]
    cases i with
    | zero =>
      rcases ho with h | h <;> simp [hi, h]
    | succ j =>
      have hj : j < hb := by omega
      simp [hi, hbits j hj]

/-- C15. Gshare global history content: in the state reached from
`gshare_predictor_init(table_bits, history_bits)` by any sequence of train calls with
outcomes in {0, 1} (every call returns), `global_history < 2^history_bits`; for every
`i < history_bits`, bit `i` of `global_history` is 1 iff the `(i + 1)`-th most recent
train call had outcome 1 (0 when fewer than `i + 1` trains have happened); and one more
train shifts the register exactly once: it becomes
`((global_history << 1) | outcome) & (2^history_bits - 1)`. -/
theorem gshare_history_content (table_bits hist_bits : Int) (ops : List (Nat × Nat))
    (htb : 0 ≤ table_bits ∧ table_bits ≤ 31) (hhb : 0 ≤ hist_bits ∧ hist_bits ≤ 30)
    (hops : ∀ op ∈ ops, op.2 = 0 ∨ op.2 = 1) :
    ∃ s0 s, gshare_predictor_init table_bits hist_bits = some s0 ∧
      gshare_train_seq s0 ops = some s ∧
      s.global_history < 2 ^ hist_bits.toNat ∧
      (∀ i, i < hist_bits.toNat → s.global_history.testBit i =
        decide ((ops.reverse[i]?).map Prod.snd = some 1)) ∧
      ∀ pc outcome, ∃ s1, gshare_predictor_train s pc outcome = some s1 ∧
        s1.global_history =
          ((s.global_history <<< 1) ||| outcome) &&& (2 ^ hist_bits.toNat - 1) := by
  obtain ⟨s0, hi, hc0, h0⟩ := gshare_init_configured table_bits hist_bits htb hhb
  obtain ⟨s, hs, hc, hlt, hbits⟩ := gshare_run_history _ _ s0 hc0 h0 ops hops
  refine ⟨s0, s, hi, hs, hlt, hbits, ?_⟩
  intro pc outcome
  obtain ⟨s1, ht, _, hh⟩ := gshare_train_configured _ _ s pc outcome hc
  exact ⟨s1, ht, hh⟩

/-- Witness of C15: `init(3, 3)`, trains with outcomes 1, 1, 0, 1: the register holds
`0b101` (most recent outcome in bit 0, the first outcome shifted out). -/
theorem gshare_history_content_witness :
    ∃ s0 s, gshare_predictor_init 3 3 = some s0 ∧
      gshare_train_seq s0 [(5, 1), (2, 1), (7, 0), (5, 1)] = some s ∧
      s.global_history < 2 ^ (3 : Int).toNat ∧
      (∀ i, i < (3 : Int).toNat → s.global_history.testBit i =
        decide ((([(5, 1), (2, 1), (7, 0), (5, 1)] : List (Nat × Nat)).reverse[i]?).map
          Prod.snd = some 1)) ∧
      ∀ pc outcome, ∃ s1, gshare_predictor_train s pc outcome = some s1 ∧
        s1.global_history =
          ((s.global_history <<< 1) ||| outcome) &&& (2 ^ (3 : Int).toNat - 1) :=
  gshare_history_content 3 3 [(5, 1), (2, 1), (7, 0), (5, 1)] (by decide) (by decide)
    (by decide)

/-! ### The correlating predictor -/

/-- The counter index of a configured correlating predictor: the low `b` bits of `pc`
concatenated with the history. -/
theorem correlating_index_eq (b hb : Nat) (s : CorrelatingState) (pc : Nat)
    (hc : CorrelatingConfigured b hb s) :
    correlating_index s pc = some ((pc % 2 ^ b) * 2 ^ hb + s.history) ∧
      (pc % 2 ^ b) * 2 ^ hb + s.history < 2 ^ (b + hb) := by
  obtain ⟨hb1, hb2, hb3, hb4, hb5, _, hh⟩ := hc
  have hx : pc % 2 ^ b < 2 ^ b := Nat.mod_lt _ (Nat.two_pow_pos b)
  have hlt : (pc % 2 ^ b) * 2 ^ hb + s.history < 2 ^ (b + hb) := by
    rw [Nat.pow_add]
    have : (pc % 2 ^ b + 1) * 2 ^ hb ≤ 2 ^ b * 2 ^ hb := Nat.mul_le_mul_right _ hx
    rw [Nat.add_mul] at this
    omega
  have h31 : 2 ^ (b + hb) ≤ 2 ^ 31 := Nat.pow_le_pow_right (by decide) hb5
  refine ⟨?_, hlt⟩
  have hm1 : shl_mask s.bits = some (2 ^ b - 1) := by
    rw [hb1, shl_mask_eq _ (by omega) (by omega)]; rfl
  have hm2 : shl_mask s.history_bits = some (2 ^ hb - 1) := by
    rw [hb2, shl_mask_eq _ (by omega) (by omega)]; rfl
  have e1 : ((pc % 2 ^ b) * 2 ^ hb) % 2 ^ 32 = (pc % 2 ^ b) * 2 ^ hb :=
    Nat.mod_eq_of_lt (by omega)
  have e2 : s.history % 2 ^ hb = s.history := Nat.mod_eq_of_lt hh
  have e3 : (pc % 2 ^ b) * 2 ^ hb ||| s.history = (pc % 2 ^ b) * 2 ^ hb + s.history := by
    rw [Nat.mul_comm, ← Nat.mul_add_lt_is_or hh]
  rw [hb1] at hm1
  rw [hb2] at hm2
  simp only [correlating_index, hb1, hb2, hm1, hm2, Option.bind_eq_bind, Option.some_bind,
    Option.pure_def, Nat.and_pow_two_sub_one_eq_mod, Int.toNat_ofNat, e1, e2, e3]

theorem correlating_init_configured (table_bits hist_bits nbits : Int)
    (htb : 0 ≤ table_bits ∧ table_bits ≤ 30) (hhb : 0 ≤ hist_bits ∧ hist_bits ≤ 30)
    (hsum : table_bits + hist_bits ≤ 31) (hnb : 1 ≤ nbits ∧ nbits ≤ 30) :
    ∃ s, correlating_predictor_init table_bits hist_bits nbits = some s ∧
      CorrelatingConfigured table_bits.toNat hist_bits.toNat s ∧
      s.mask = 2 ^ (table_bits.toNat + hist_bits.toNat) - 1 ∧
      s.table = List.replicate (2 ^ (table_bits.toNat + hist_bits.toNat)) 0 := by
  have hsumN : (table_bits + hist_bits).toNat = table_bits.toNat + hist_bits.toNat := by omega
  have h1 : i32 (table_bits + hist_bits) = some (table_bits + hist_bits) :=
    i32_eq_some _ (by omega) (by omega)
  refine ⟨{ table := List.replicate (2 ^ (table_bits.toNat + hist_bits.toNat)) 0,
            mask := 2 ^ (table_bits.toNat + hist_bits.toNat) - 1, bits := table_bits,
            n_bits := nbits, max_val := (2 ^ nbits.toNat - 1) % 256,
            threshold := 2 ^ (nbits - 1).toNat % 256, history_bits := hist_bits,
            history := 0 }, ?_, ⟨?_, ?_, ?_, ?_, ?_, ?_, ?_⟩, rfl, rfl⟩
  · simp only [correlating_predictor_init, h1, shl_size_eq _ (by omega : 0 ≤ table_bits + hist_bits)
      hsum, shl_mask_eq nbits (by omega) (by omega),
      shl_size_eq (nbits - 1) (by omega) (by omega), hsumN,
      u32_pred_pow _ (by omega : table_bits.toNat + hist_bits.toNat ≤ 31),
      Option.bind_eq_bind, Option.some_bind, Option.pure_def]
  · show table_bits = (table_bits.toNat : Int); omega
  · show hist_bits = (hist_bits.toNat : Int); omega
  · omega
  · omega
  · omega
  · simp
  · exact Nat.two_pow_pos _

/-- The state `correlating_predictor_train` returns in a configured state. -/
theorem correlating_train_eq (b hb : Nat) (s : CorrelatingState) (pc outcome : Nat)
    (hc : CorrelatingConfigured b hb s) :
    ∃ c, s.table[(pc % 2 ^ b) * 2 ^ hb + s.history]? = some c ∧
      correlating_predictor_predict s pc = some (if c ≥ s.threshold then 1 else 0) ∧
      correlating_predictor_train s pc outcome =
        some { s with
          table := if outcome ≠ 0 then
                     if c < s.max_val then
                       s.table.set ((pc % 2 ^ b) * 2 ^ hb + s.history) (u8_inc c)
                     else s.table
                   else
                     if c > 0 then
                       s.table.set ((pc % 2 ^ b) * 2 ^ hb + s.history) (u8_dec c)
                     else s.table,
          history := (((s.history * 2) % 2 ^ 32) ||| (if outcome ≠ 0 then 1 else 0)) &&&
            (2 ^ hb - 1) } := by
  obtain ⟨hidx, hlt⟩ := correlating_index_eq b hb s pc hc
  obtain ⟨hb1, hb2, hb3, hb4, hb5, hlen, hh⟩ := hc
  have hm2 : shl_mask s.history_bits = some (2 ^ hb - 1) := by
    rw [hb2, shl_mask_eq _ (by omega) (by omega)]; rfl
  have hlt2 : (pc % 2 ^ b) * 2 ^ hb + s.history < s.table.length := by
    rw [hlen]; exact hlt
  have hget := List.getElem?_eq_getElem hlt2
  refine ⟨_, hget, ?_, ?_⟩
  · simp only [correlating_predictor_predict, hidx, hget, Option.bind_eq_bind,
      Option.some_bind, Option.pure_def]
  · rw [correlating_predictor_train, hidx]
    simp only [hget, hm2, Option.bind_eq_bind, Option.some_bind, Option.pure_def]

theorem correlating_train_configured (b hb : Nat) (s : CorrelatingState) (pc outcome : Nat)
    (hc : CorrelatingConfigured b hb s) :
    ∃ s1, correlating_predictor_train s pc outcome = some s1 ∧
      CorrelatingConfigured b hb s1 := by
  obtain ⟨c, _, _, ht⟩ := correlating_train_eq b hb s pc outcome hc
  obtain ⟨hb1, hb2, hb3, hb4, hb5, hlen, hh⟩ := hc
  refine ⟨_, ht, hb1, hb2, hb3, hb4, hb5, ?_, gshare_history_lt _ hb⟩
  show (if outcome ≠ 0 then _ else _ : List Nat).length = 2 ^ (b + hb)
  split_ifs <;> simp [hlen]

/-- C21. Correlating index is a concatenation into disjoint fields: for `bits = b` and
`history_bits = hb` (`b, hb ≤ 30`, `b + hb ≤ 31`), in every configured state the counter
index used by `correlating_predictor_predict` and `correlating_predictor_train` for `pc` is
`(pc mod 2^b) * 2^hb + history` with `history < 2^hb`; it is below `2^(b + hb)`; and two
PCs that differ in their low `b` bits never use the same counter, whatever the global
histories are. -/
theorem correlating_index_concatenation (b hb : Nat) (s s1 : CorrelatingState) (pc pc1 : Nat)
    (hc : CorrelatingConfigured b hb s) (hc1 : CorrelatingConfigured b hb s1) :
    correlating_index s pc = some ((pc % 2 ^ b) * 2 ^ hb + s.history) ∧
      s.history < 2 ^ hb ∧ (pc % 2 ^ b) * 2 ^ hb + s.history < 2 ^ (b + hb) ∧
      (∃ c, s.table[(pc % 2 ^ b) * 2 ^ hb + s.history]? = some c ∧
        correlating_predictor_predict s pc = some (if c ≥ s.threshold then 1 else 0)) ∧
      (pc % 2 ^ b ≠ pc1 % 2 ^ b → correlating_index s pc ≠ correlating_index s1 pc1) := by
  obtain ⟨h1, h2⟩ := correlating_index_eq b hb s pc hc
  obtain ⟨h3, _⟩ := correlating_index_eq b hb s1 pc1 hc1
  obtain ⟨c, hget, hp, _⟩ := correlating_train_eq b hb s pc 0 hc
  have hh := hc.2.2.2.2.2.2
  have hh1 := hc1.2.2.2.2.2.2
  refine ⟨h1, hh, h2, ⟨c, hget, hp⟩, ?_⟩
  intro hne heq
  rw [h1, h3] at heq
  have heq1 := Option.some.inj heq
  apply hne
  have hpos : 0 < 2 ^ hb := Nat.two_pow_pos hb
  have e1 : ((pc % 2 ^ b) * 2 ^ hb + s.history) / 2 ^ hb = pc % 2 ^ b := by
    rw [Nat.mul_comm, Nat.mul_add_div hpos, Nat.div_eq_of_lt hh, Nat.add_zero]
  have e2 : ((pc1 % 2 ^ b) * 2 ^ hb + s1.history) / 2 ^ hb = pc1 % 2 ^ b := by
    rw [Nat.mul_comm, Nat.mul_add_div hpos, Nat.div_eq_of_lt hh1, Nat.add_zero]
  rw [← e1, ← e2, heq1]

/-- Witness of C21: `bits = 2`, `history_bits = 2`; pc 6 with history 3 uses counter
`(6 mod 4) * 4 + 3 = 11`, pc 5 with history 1 uses another one. -/
theorem correlating_index_concatenation_witness :
    correlating_index
        { table := List.replicate 16 0, mask := 15, bits := 2, n_bits := 2, max_val := 3,
          threshold := 2, history_bits := 2, history := 3 } 6 = some ((6 % 2 ^ 2) * 2 ^ 2 + 3) ∧
      correlating_index
        { table := List.replicate 16 0, mask := 15, bits := 2, n_bits := 2, max_val := 3,
          threshold := 2, history_bits := 2, history := 3 } 6 ≠
      correlating_index
        { table := List.replicate 16 0, mask := 15, bits := 2, n_bits := 2, max_val := 3,
          threshold := 2, history_bits := 2, history := 1 } 5 := by
  obtain ⟨h1, _, _, _, h5⟩ := correlating_index_concatenation 2 2
    { table := List.replicate 16 0, mask := 15, bits := 2, n_bits := 2, max_val := 3,
      threshold := 2, history_bits := 2, history := 3 }
    { table := List.replicate 16 0, mask := 15, bits := 2, n_bits := 2, max_val := 3,
      threshold := 2, history_bits := 2, history := 1 } 6 5
    ⟨rfl, rfl, by decide, by decide, by decide, by decide, by decide⟩
    ⟨rfl, rfl, by decide, by decide, by decide, by decide, by decide⟩
  exact ⟨h1, h5 (by decide)⟩

/-! ### The local predictor -/

theorem local_init_configured (lb hb pb : Int) (hlb : 0 ≤ lb ∧ lb ≤ 31)
    (hhb : 0 ≤ hb ∧ hb ≤ 30) (hpb : 0 ≤ pb ∧ pb ≤ 31) :
    ∃ s, local_predictor_init lb hb pb = some s ∧ LocalConfigured lb.toNat pb.toNat s ∧
      s.history_mask = 2 ^ hb.toNat - 1 := by
  refine ⟨{ lht := List.replicate (2 ^ lb.toNat) 0, lht_mask := 2 ^ lb.toNat - 1, lht_bits := lb,
            pht := List.replicate (2 ^ pb.toNat) 1, pht_mask := 2 ^ pb.toNat - 1, pht_bits := pb,
            history_bits := hb, history_mask := 2 ^ hb.toNat - 1 }, ?_,
    ⟨by simp, rfl, by simp, rfl⟩, rfl⟩
  simp only [local_predictor_init, shl_size_eq lb hlb.1 hlb.2, shl_size_eq pb hpb.1 hpb.2,
    shl_mask_eq hb hhb.1 hhb.2, u32_pred_pow _ (toNat_le_31 lb hlb.2),
    u32_pred_pow _ (toNat_le_31 pb hpb.2), Option.bind_eq_bind, Option.some_bind,
    Option.pure_def]

/-- The value `local_predictor_predict` and the state `local_predictor_train` return in a
configured state, in terms of the selected local-history entry and the counter it
selects. -/
theorem local_train_eq (lb pb : Nat) (s : LocalState) (pc outcome : Nat)
    (hc : LocalConfigured lb pb s) :
    ∃ entry c, s.lht[pc &&& s.lht_mask]? = some entry ∧
      s.pht[(entry &&& s.history_mask) &&& s.pht_mask]? = some c ∧
      local_predictor_predict s pc = some (if c ≥ 2 then 1 else 0) ∧
      local_predictor_train s pc outcome =
        some { s with
          pht := if outcome ≠ 0 then
                   if c < 3 then
                     s.pht.set ((entry &&& s.history_mask) &&& s.pht_mask) (u8_inc c)
                   else s.pht
                 else
                   if c > 0 then
                     s.pht.set ((entry &&& s.history_mask) &&& s.pht_mask) (u8_dec c)
                   else s.pht,
          lht := s.lht.set (pc &&& s.lht_mask)
            (((((entry &&& s.history_mask) * 2) % 2 ^ 32) |||
              (if outcome ≠ 0 then 1 else 0)) &&& s.history_mask) } := by
  obtain ⟨hl1, hl2, hp1, hp2⟩ := hc
  have h1 : 1 ≤ 2 ^ lb := Nat.one_le_two_pow
  have h2 : 1 ≤ 2 ^ pb := Nat.one_le_two_pow
  have hidx1 : pc &&& s.lht_mask < s.lht.length := by
    have := and_le_mask pc s.lht_mask
    omega
  have hidx2 : ∀ x, x &&& s.pht_mask < s.pht.length := by
    intro x
    have := and_le_mask x s.pht_mask
    omega
  refine ⟨_, _, List.getElem?_eq_getElem hidx1, List.getElem?_eq_getElem (hidx2 _), ?_, ?_⟩
  · simp only [local_predictor_predict, List.getElem?_eq_getElem hidx1,
      List.getElem?_eq_getElem (hidx2 _), Option.bind_eq_bind, Option.some_bind,
      Option.pure_def]
  · simp only [local_predictor_train, List.getElem?_eq_getElem hidx1,
      List.getElem?_eq_getElem (hidx2 _), Option.bind_eq_bind, Option.some_bind,
      Option.pure_def]

theorem local_train_configured (lb pb : Nat) (s : LocalState) (pc outcome : Nat)
    (hc : LocalConfigured lb pb s) :
    ∃ s1, local_predictor_train s pc outcome = some s1 ∧ LocalConfigured lb pb s1 := by
  obtain ⟨entry, c, _, _, _, ht⟩ := local_train_eq lb pb s pc outcome hc
  obtain ⟨hl1, hl2, hp1, hp2⟩ := hc
  refine ⟨_, ht, by simpa using hl1, hl2, ?_, hp2⟩
  show (if outcome ≠ 0 then _ else _ : List Nat).length = 2 ^ pb
  split_ifs <;> simp [hp1]

/-! ### Train updates the counter that predict consulted -/

theorem counter_update_frame (l : List Nat) (i v1 v2 : Nat) (p q r : Prop)
    [Decidable p] [Decidable q] [Decidable r] :
    (if p then (if q then l.set i v1 else l) else (if r then l.set i v2 else l)).length =
        l.length ∧
      ∀ j, j ≠ i →
        (if p then (if q then l.set i v1 else l) else (if r then l.set i v2 else l))[j]? =
          l[j]? := by
  constructor
  · split_ifs <;> simp
  · intro j hj
    split_ifs <;> first | rfl | exact List.getElem?_set_ne (Ne.symm hj)

/-- C20. Train updates the counter that predict consulted: for gshare, correlating and
local, in every configured state and for every pc and outcome, `predict(pc)` returns the
threshold test of the counter at an index `idx` computed from the history as it stands
before the call (`(pc ^ global_history) & pht_mask` for gshare,
`(pc mod 2^b) * 2^hb + history` for correlating,
`(lht[pc & lht_mask] & history_mask) & pht_mask` for local), and `train(pc, outcome)`
returns a state whose counter table has the same length and agrees with the old one at
every index other than `idx`. -/
theorem train_updates_consulted_counter (tb ghb b chb lb pb : Nat)
    (sg : GshareState) (sc : CorrelatingState) (sl : LocalState) (pc outcome : Nat)
    (hg : GshareConfigured tb ghb sg) (hc : CorrelatingConfigured b chb sc)
    (hl : LocalConfigured lb pb sl) :
    (∃ c s1, sg.pht[(pc ^^^ sg.global_history) &&& sg.pht_mask]? = some c ∧
      gshare_predictor_predict sg pc = some (if c ≥ 2 then 1 else 0) ∧
      gshare_predictor_train sg pc outcome = some s1 ∧
      s1.pht.length = sg.pht.length ∧
      ∀ j, j ≠ (pc ^^^ sg.global_history) &&& sg.pht_mask → s1.pht[j]? = sg.pht[j]?) ∧
    (∃ c s1, sc.table[(pc % 2 ^ b) * 2 ^ chb + sc.history]? = some c ∧
      correlating_predictor_predict sc pc = some (if c ≥ sc.threshold then 1 else 0) ∧
      correlating_predictor_train sc pc outcome = some s1 ∧
      s1.table.length = sc.table.length ∧
      ∀ j, j ≠ (pc % 2 ^ b) * 2 ^ chb + sc.history → s1.table[j]? = sc.table[j]?) ∧
    (∃ entry c s1, sl.lht[pc &&& sl.lht_mask]? = some entry ∧
      sl.pht[(entry &&& sl.history_mask) &&& sl.pht_mask]? = some c ∧
      local_predictor_predict sl pc = some (if c ≥ 2 then 1 else 0) ∧
      local_predictor_train sl pc outcome = some s1 ∧
      s1.pht.length = sl.pht.length ∧
      ∀ j, j ≠ (entry &&& sl.history_mask) &&& sl.pht_mask → s1.pht[j]? = sl.pht[j]?) := by
  refine ⟨?_, ?_, ?_⟩
  · obtain ⟨c, hget, ht⟩ := gshare_train_eq tb ghb sg pc outcome hg
    refine ⟨c, _, hget, ?_, ht, ?_⟩
    · simp [gshare_predictor_predict, hget]
    · exact counter_update_frame _ _ _ _ _ _ _
  · obtain ⟨c, hget, hp, ht⟩ := correlating_train_eq b chb sc pc outcome hc
    exact ⟨c, _, hget, hp, ht, counter_update_frame _ _ _ _ _ _ _⟩
  · obtain ⟨entry, c, hget1, hget2, hp, ht⟩ := local_train_eq lb pb sl pc outcome hl
    exact ⟨entry, c, _, hget1, hget2, hp, ht, counter_update_frame _ _ _ _ _ _ _⟩

/-- Witness of C20: small configured states of the three predictors, pc 5, outcome 1. -/
theorem train_updates_consulted_counter_witness :
    (∃ c s1, ([1, 2, 1, 1] : List Nat)[(5 ^^^ 2) &&& 3]? = some c ∧
      gshare_predictor_predict
        { pht := [1, 2, 1, 1], pht_size := 4, pht_mask := 3, global_history := 2,
          history_mask := 3, history_bits := 2 } 5 = some (if c ≥ 2 then 1 else 0) ∧
      gshare_predictor_train
        { pht := [1, 2, 1, 1], pht_size := 4, pht_mask := 3, global_history := 2,
          history_mask := 3, history_bits := 2 } 5 1 = some s1 ∧
      s1.pht.length = ([1, 2, 1, 1] : List Nat).length ∧
      ∀ j, j ≠ (5 ^^^ 2) &&& 3 → s1.pht[j]? = ([1, 2, 1, 1] : List Nat)[j]?) ∧
    (∃ c s1, ([0, 1, 2, 3] : List Nat)[(5 % 2 ^ 1) * 2 ^ 1 + 1]? = some c ∧
      correlating_predictor_predict
        { table := [0, 1, 2, 3], mask := 3, bits := 1, n_bits := 2, max_val := 3,
          threshold := 2, history_bits := 1, history := 1 } 5 =
        some (if c ≥ 2 then 1 else 0) ∧
      correlating_predictor_train
        { table := [0, 1, 2, 3], mask := 3, bits := 1, n_bits := 2, max_val := 3,
          threshold := 2, history_bits := 1, history := 1 } 5 1 = some s1 ∧
      s1.table.length = ([0, 1, 2, 3] : List Nat).length ∧
      ∀ j, j ≠ (5 % 2 ^ 1) * 2 ^ 1 + 1 → s1.table[j]? = ([0, 1, 2, 3] : List Nat)[j]?) ∧
    (∃ entry c s1, ([0, 3] : List Nat)[5 &&& 1]? = some entry ∧
      ([1, 1, 1, 2] : List Nat)[(entry &&& 3) &&& 3]? = some c ∧
      local_predictor_predict
        { lht := [0, 3], lht_mask := 1, lht_bits := 1, pht := [1, 1, 1, 2], pht_mask := 3,
          pht_bits := 2, history_bits := 2, history_mask := 3 } 5 =
        some (if c ≥ 2 then 1 else 0) ∧
      local_predictor_train
        { lht := [0, 3], lht_mask := 1, lht_bits := 1, pht := [1, 1, 1, 2], pht_mask := 3,
          pht_bits := 2, history_bits := 2, history_mask := 3 } 5 1 = some s1 ∧
      s1.pht.length = ([1, 1, 1, 2] : List Nat).length ∧
      ∀ j, j ≠ (entry &&& 3) &&& 3 → s1.pht[j]? = ([1, 1, 1, 2] : List Nat)[j]?) :=
  train_updates_consulted_counter 2 2 1 1 1 2
    { pht := [1, 2, 1, 1], pht_size := 4, pht_mask := 3, global_history := 2,
      history_mask := 3, history_bits := 2 }
    { table := [0, 1, 2, 3], mask := 3, bits := 1, n_bits := 2, max_val := 3,
      threshold := 2, history_bits := 1, history := 1 }
    { lht := [0, 3], lht_mask := 1, lht_bits := 1, pht := [1, 1, 1, 2], pht_mask := 3,
      pht_bits := 2, history_bits := 2, history_mask := 3 } 5 1
    ⟨by decide, by decide, by decide, by decide⟩
    ⟨rfl, rfl, by decide, by decide, by decide, by decide, by decide⟩
    ⟨by decide, by decide, by decide, by decide⟩

/-- Counterexample to C22 as stated (its negation): there are no state and two PCs whose
selected local histories are equal and whose pattern-table indices differ, because the
index is computed from the selected history alone. -/
theorem local_index_pc_bits_counterexample :
    ¬ ∃ (s : LocalState) (pc1 pc2 : Nat),
      local_history_of s pc1 = local_history_of s pc2 ∧
        local_pht_index s pc1 ≠ local_pht_index s pc2 := by
  rintro ⟨s, pc1, pc2, heq, hne⟩
  apply hne
  unfold local_pht_index
  rw [heq]

/-- C22, amended. The pattern-table index used by `local_predictor_predict` and
`local_predictor_train` depends on the selected local history only: it is
`(lht[pc & lht_mask] & history_mask) & pht_mask`, `predict` returns the threshold test of
the counter stored there, and two PCs whose selected local histories are equal use the
same counter and get the same prediction. -/
theorem local_index_history_only (lb pb : Nat) (s : LocalState) (pc pc1 : Nat)
    (hc : LocalConfigured lb pb s) :
    (∃ entry c, s.lht[pc &&& s.lht_mask]? = some entry ∧
      local_history_of s pc = some (entry &&& s.history_mask) ∧
      local_pht_index s pc = some ((entry &&& s.history_mask) &&& s.pht_mask) ∧
      s.pht[(entry &&& s.history_mask) &&& s.pht_mask]? = some c ∧
      local_predictor_predict s pc = some (if c ≥ 2 then 1 else 0)) ∧
    (local_history_of s pc = local_history_of s pc1 →
      local_pht_index s pc = local_pht_index s pc1 ∧
        local_predictor_predict s pc = local_predictor_predict s pc1) := by
  obtain ⟨entry, c, hget1, hget2, hp, _⟩ := local_train_eq lb pb s pc 0 hc
  obtain ⟨entry1, c1, hget3, hget4, hp1, _⟩ := local_train_eq lb pb s pc1 0 hc
  have hh : local_history_of s pc = some (entry &&& s.history_mask) := by
    simp [local_history_of, hget1]
  have hh1 : local_history_of s pc1 = some (entry1 &&& s.history_mask) := by
    simp [local_history_of, hget3]
  refine ⟨⟨entry, c, hget1, hh, by simp [local_pht_index, hh], hget2, hp⟩, ?_⟩
  intro heq
  constructor
  · unfold local_pht_index
    rw [heq]
  · rw [hh, hh1] at heq
    have e := Option.some.inj heq
    rw [e] at hget2
    have ec : c = c1 := Option.some.inj (hget2.symm.trans hget4)
    rw [hp, hp1, ec]

/-- Witness of the amended C22: pcs 0 and 1 select different entries of `lht` that hold
the same history 2; both read counter `pht[2]`. -/
theorem local_index_history_only_witness :
    local_pht_index
        { lht := [2, 2], lht_mask := 1, lht_bits := 1, pht := [1, 1, 3, 1], pht_mask := 3,
          pht_bits := 2, history_bits := 2, history_mask := 3 } 0 =
      local_pht_index
        { lht := [2, 2], lht_mask := 1, lht_bits := 1, pht := [1, 1, 3, 1], pht_mask := 3,
          pht_bits := 2, history_bits := 2, history_mask := 3 } 1 ∧
    local_predictor_predict
        { lht := [2, 2], lht_mask := 1, lht_bits := 1, pht := [1, 1, 3, 1], pht_mask := 3,
          pht_bits := 2, history_bits := 2, history_mask := 3 } 0 =
      local_predictor_predict
        { lht := [2, 2], lht_mask := 1, lht_bits := 1, pht := [1, 1, 3, 1], pht_mask := 3,
          pht_bits := 2, history_bits := 2, history_mask := 3 } 1 :=
  (local_index_history_only 1 2
    { lht := [2, 2], lht_mask := 1, lht_bits := 1, pht := [1, 1, 3, 1], pht_mask := 3,
      pht_bits := 2, history_bits := 2, history_mask := 3 } 0 1
    ⟨by decide, by decide, by decide, by decide⟩).2 (by decide)

/-! ### Perceptron history buffer -/

/-- The state `perceptron_predictor_update_history` returns in a configured state with a
valid history index. -/
theorem perceptron_update_history_eq (s : PerceptronState) (outcome : Nat)
    (hc : PerceptronConfigured s) (hok : PerceptronHistoryOk s)
    (hlen : s.history_len + 1 < 2 ^ 31) :
    perceptron_predictor_update_history s outcome =
      some { s with global_history := s.global_history.set s.history_index.toNat
                      (if outcome = 1 then 1 else -1),
                    history_index := (s.history_index + 1) % s.history_len } ∧
      s.history_index.toNat < s.global_history.length := by
  obtain ⟨_, hi0, hi1⟩ := hok
  have hgl := hc.2.2.2
  have hlt : ¬ (s.history_index < 0 ∨ s.global_history.length ≤ s.history_index.toNat) := by
    omega
  have hne : ¬ (s.history_len = 0) := by omega
  refine ⟨?_, by omega⟩
  simp only [perceptron_predictor_update_history, hlt, hne, if_false,
    i32_eq_some (s.history_index + 1) (by omega) (by omega), Option.bind_eq_bind,
    Option.some_bind, Option.pure_def,
    Int.tmod_eq_emod (by omega : 0 ≤ s.history_index + 1) (by omega : 0 ≤ s.history_len)]

/-- C23. Perceptron history is decoupled from training: in every configured, saturated
state with a valid history buffer (the states reached from init with
`history_length ≥ 1`), `perceptron_predictor_train` returns and changes neither the
history buffer nor `history_index`; `perceptron_predictor_update_history(o)` returns,
changes no weight, writes `+1` (`o = 1`) or `-1` (otherwise) into exactly the slot
`history_index`, leaves the other slots unchanged and sets `history_index` to
`(history_index + 1) mod history_len`; afterwards every slot still holds `+1` or `-1`. -/
theorem perceptron_history_decoupled (s : PerceptronState) (pc outcome : Nat)
    (hc : PerceptronConfigured s) (hsat : PerceptronSaturated s)
    (hok : PerceptronHistoryOk s)
    (hlim : (s.history_len + 1) * 2 ^ (s.weight_bits - 1).toNat < 2 ^ 31) :
    (∃ s1, perceptron_predictor_train s pc outcome = some s1 ∧
      s1.global_history = s.global_history ∧ s1.history_index = s.history_index) ∧
    (∃ s2, perceptron_predictor_update_history s outcome = some s2 ∧
      s2.perceptron_table = s.perceptron_table ∧
      s2.global_history[s.history_index.toNat]? = some (if outcome = 1 then 1 else -1) ∧
      (∀ j, j ≠ s.history_index.toNat → s2.global_history[j]? = s.global_history[j]?) ∧
      s2.history_index = (s.history_index + 1) % s.history_len ∧
      ∀ h ∈ s2.global_history, h = 1 ∨ h = -1) := by
  have hp1 : (1 : Int) ≤ 2 ^ (s.weight_bits - 1).toNat := by
    exact_mod_cast Nat.one_le_two_pow
  have hlen : s.history_len + 1 < 2 ^ 31 := by nlinarith
  constructor
  · obtain ⟨w, y, w1, _, _, _, ht⟩ := perceptron_train_eq s pc outcome hc hsat hok.1 hlim
    obtain ⟨_, _, h3, h4, _⟩ := perceptron_train_inv s _ pc outcome hc hsat hok.1 ht
    exact ⟨_, ht, h3, h4⟩
  · obtain ⟨hu, hidx⟩ := perceptron_update_history_eq s outcome hc hok hlen
    obtain ⟨_, _, h3, _⟩ := perceptron_update_history_inv s _ outcome hc hsat hok.1 hu
    refine ⟨_, hu, rfl, List.getElem?_set_self hidx, ?_, rfl, h3⟩
    intro j hj
    exact List.getElem?_set_ne (Ne.symm hj)

/-- Witness of C23: history `[1, -1, 1]` with `history_index = 2`; `update_history(0)`
writes `-1` into slot 2 and wraps the index to 0. -/
theorem perceptron_history_decoupled_witness :
    ∃ s2, perceptron_predictor_update_history
        { num_perceptrons := 1, history_len := 3, weight_bits := 8, threshold := 10,
          table_mask := 0, perceptron_table := [[0, 1, -1, 2]],
          global_history := [1, -1, 1], history_index := 2, max_weight := 127,
          min_weight := -128 } 0 = some s2 ∧
      s2.global_history[(2 : Int).toNat]? = some (if 0 = 1 then 1 else -1) ∧
      s2.history_index = ((2 : Int) + 1) % 3 := by
  obtain ⟨_, s2, h1, _, h3, _, h5, _⟩ := perceptron_history_decoupled
    { num_perceptrons := 1, history_len := 3, weight_bits := 8, threshold := 10,
      table_mask := 0, perceptron_table := [[0, 1, -1, 2]],
      global_history := [1, -1, 1], history_index := 2, max_weight := 127,
      min_weight := -128 } 0 0
    ⟨by decide, by decide, by decide, by decide⟩
    ⟨by decide, by decide, by decide, by decide, by decide⟩
    ⟨by decide, by decide, by decide⟩ (by decide)
  exact ⟨s2, h1, h3, h5⟩

/-- Counterexample to C24 as stated: `init(0, 2, 8, 0)`, `update_history(1)`,
`update_history(0)`.  The just-recorded outcome is 0 (bipolar `-1`), but position 0 of
the history still holds `+1`, the outcome recorded before it; the `-1` went to slot 1. -/
theorem perceptron_history_position_counterexample :
    Option.map PerceptronState.global_history
      ((perceptron_predictor_init 0 2 8 0).bind
        (fun s => perceptron_run s [.update_history 1, .update_history 0])) =
      some [1, -1] := by
  decide

/-- C24, amended. Right after `perceptron_predictor_update_history(o)` the just-recorded
outcome (`+1` if `o = 1`, else `-1`) is in slot `k` of the history vector read by
predict/train, where `k` is the value of `history_index` before the call; position 0 holds
it when `k = 0` and keeps its previous content otherwise. -/
theorem perceptron_history_slot (s : PerceptronState) (outcome : Nat)
    (hc : PerceptronConfigured s) (hok : PerceptronHistoryOk s)
    (hlen : s.history_len + 1 < 2 ^ 31) :
    ∃ s1, perceptron_predictor_update_history s outcome = some s1 ∧
      s1.global_history[s.history_index.toNat]? = some (if outcome = 1 then 1 else -1) ∧
      (s.history_index = 0 →
        s1.global_history[0]? = some (if outcome = 1 then 1 else -1)) ∧
      (s.history_index ≠ 0 → s1.global_history[0]? = s.global_history[0]?) := by
  obtain ⟨hu, hidx⟩ := perceptron_update_history_eq s outcome hc hok hlen
  refine ⟨_, hu, List.getElem?_set_self hidx, ?_, ?_⟩
  · intro h0
    have e : s.history_index.toNat = 0 := by omega
    have hidx0 : 0 < s.global_history.length := by omega
    show (s.global_history.set s.history_index.toNat _)[0]? = _
    rw [e]
    exact List.getElem?_set_self hidx0
  · intro hne
    have h0 := hok.2.1
    have e : s.history_index.toNat ≠ 0 := by omega
    exact List.getElem?_set_ne e

/-- Witness of the amended C24: history `[1, -1, 1]`, `history_index = 1`;
`update_history(1)` puts `+1` into slot 1 and leaves position 0 as it was. -/
theorem perceptron_history_slot_witness :
    ∃ s1, perceptron_predictor_update_history
        { num_perceptrons := 1, history_len := 3, weight_bits := 8, threshold := 10,
          table_mask := 0, perceptron_table := [[0, 1, -1, 2]],
          global_history := [1, -1, 1], history_index := 1, max_weight := 127,
          min_weight := -128 } 1 = some s1 ∧
      s1.global_history[(1 : Int).toNat]? = some (if 1 = 1 then 1 else -1) ∧
      s1.global_history[0]? = ([1, -1, 1] : List Int)[0]? := by
  obtain ⟨s1, h1, h2, _, h4⟩ := perceptron_history_slot
    { num_perceptrons := 1, history_len := 3, weight_bits := 8, threshold := 10,
      table_mask := 0, perceptron_table := [[0, 1, -1, 2]],
      global_history := [1, -1, 1], history_index := 1, max_weight := 127,
      min_weight := -128 } 1
    ⟨by decide, by decide, by decide, by decide⟩
    ⟨by decide, by decide, by decide⟩ (by decide)
  exact ⟨s1, h1, h2, h4 (by decide)⟩

/-! ### Configuration and missing storage -/

/-- Counterexample to C17 as stated: `onebit_predictor_init(0)` is not rejected; it returns
a predictor with one counter, and `train(7, 1)` then `predict(12345)` work on it. -/
theorem config_zero_bits_counterexample :
    onebit_predictor_init 0 = some { table := [0], mask := 0, bits := 0 } ∧
      onebit_predictor_train { table := [0], mask := 0, bits := 0 } 7 1 =
        some { table := [1], mask := 0, bits := 0 } ∧
      onebit_predictor_predict { table := [1], mask := 0, bits := 0 } 12345 = some 1 := by
  decide

/-- C17, amended. Zero table bits are accepted: with zero table bits (and the other widths
in the range where the shifts are defined) each of `onebit_predictor_init`,
`twobit_predictor_init`, `gshare_predictor_init`, `correlating_predictor_init`,
`local_predictor_init`, `tournament_predictor_init` and `perceptron_predictor_init`
returns a predictor state with a one-entry table, on which `predict` returns a value for
every pc. -/
theorem config_zero_bits_accepted (pc : Nat) (hb nbits hl wb th : Int)
    (hhb : 0 ≤ hb ∧ hb ≤ 30) (hnb : 1 ≤ nbits ∧ nbits ≤ 30)
    (hhl : 0 ≤ hl ∧ hl < 2 ^ 31 - 1) (hwb : 1 ≤ wb ∧ wb ≤ 31) :
    (∃ s r, onebit_predictor_init 0 = some s ∧ s.table.length = 1 ∧
      onebit_predictor_predict s pc = some r) ∧
    (∃ s r, twobit_predictor_init 0 = some s ∧ s.table.length = 1 ∧
      twobit_predictor_predict s pc = some r) ∧
    (∃ s r, gshare_predictor_init 0 hb = some s ∧ s.pht.length = 1 ∧
      gshare_predictor_predict s pc = some r) ∧
    (∃ s r, correlating_predictor_init 0 0 nbits = some s ∧ s.table.length = 1 ∧
      correlating_predictor_predict s pc = some r) ∧
    (∃ s r, local_predictor_init 0 hb 0 = some s ∧ s.lht.length = 1 ∧ s.pht.length = 1 ∧
      local_predictor_predict s pc = some r) ∧
    (∃ s r s1, tournament_predictor_init tournament_initial 0 0 0 hb = some s ∧
      s.selector_table.length = 1 ∧ tournament_predictor_predict s pc = some (r, s1)) ∧
    (∃ s r, perceptron_predictor_init 0 hl wb th = some s ∧ s.perceptron_table.length = 1 ∧
      perceptron_predictor_predict s pc = some r) := by
  refine ⟨?_, ?_, ?_, ?_, ?_, ?_, ?_⟩
  · exact ⟨{ table := [0], mask := 0, bits := 0 }, 0, by decide, rfl, by
      simp [onebit_predictor_predict]⟩
  · obtain ⟨s, hi, hc, _⟩ := twobit_init_configured 0 (by decide) (by decide)
    obtain ⟨hlen, hmask, _, _⟩ := hc
    obtain ⟨r, hr, _⟩ := twobit_predict_some s pc (by rw [hlen, hmask]; rfl)
    exact ⟨s, r, hi, hlen, hr⟩
  · obtain ⟨s, hi, hc, _⟩ := gshare_init_configured 0 hb (by decide) hhb
    obtain ⟨hlen, hmask, _, _⟩ := hc
    obtain ⟨r, hr, _⟩ := gshare_predict_some s pc (by rw [hlen, hmask]; rfl)
    exact ⟨s, r, hi, hlen, hr⟩
  · obtain ⟨s, hi, hc, _, htab⟩ :=
      correlating_init_configured 0 0 nbits (by decide) (by decide) (by decide) hnb
    obtain ⟨c, _, hp, _⟩ := correlating_train_eq _ _ s pc 0 hc
    exact ⟨s, _, hi, by rw [htab]; rfl, hp⟩
  · obtain ⟨s, hi, hc, _⟩ := local_init_configured 0 hb 0 (by decide) hhb (by decide)
    obtain ⟨entry, c, _, _, hp, _⟩ := local_train_eq _ _ s pc 0 hc
    exact ⟨s, _, hi, hc.1, hc.2.2.1, hp⟩
  · obtain ⟨s, hi, hc, htab, _⟩ := tournament_init_configured tournament_initial 0 0 0 hb
      (by decide) (by decide) (by decide) hhb
    obtain ⟨r, s1, hp, _⟩ := tournament_predict_configured s pc hc
    exact ⟨s, r, s1, hi, by rw [htab]; rfl, hp⟩
  · obtain ⟨s, hi, _, _, hc, hzero, hneg⟩ :=
      perceptron_init_configured 0 hl wb th (by decide) hhl hwb
    have hb0 : PerceptronBounded s 0 := by
      refine ⟨?_, ?_, by simp⟩
      · intro w hw x hx
        rw [hzero w hw x hx]
        exact ⟨le_refl _, le_refl _⟩
      · intro h hh
        exact Or.inr (hneg h hh)
    obtain ⟨r, hr⟩ := perceptron_predict_some s pc 0 hc hb0
    have hlen := hc.2.1
    have heq := perceptron_init_eq 0 hl wb th (by decide) hhl hwb
    have hs := Option.some.inj (hi.symm.trans heq)
    exact ⟨s, r, hi, by rw [hs]; rfl, hr⟩

/-- Witness of the amended C17: pc 12345, `history_bits = 4`, `nbits = 2`, perceptron
`history_length = 3`, `weight_bits = 8`, `threshold = 10`. -/
theorem config_zero_bits_accepted_witness :
    (∃ s r, onebit_predictor_init 0 = some s ∧ s.table.length = 1 ∧
      onebit_predictor_predict s 12345 = some r) ∧
    (∃ s r, twobit_predictor_init 0 = some s ∧ s.table.length = 1 ∧
      twobit_predictor_predict s 12345 = some r) ∧
    (∃ s r, gshare_predictor_init 0 4 = some s ∧ s.pht.length = 1 ∧
      gshare_predictor_predict s 12345 = some r) ∧
    (∃ s r, correlating_predictor_init 0 0 2 = some s ∧ s.table.length = 1 ∧
      correlating_predictor_predict s 12345 = some r) ∧
    (∃ s r, local_predictor_init 0 4 0 = some s ∧ s.lht.length = 1 ∧ s.pht.length = 1 ∧
      local_predictor_predict s 12345 = some r) ∧
    (∃ s r s1, tournament_predictor_init tournament_initial 0 0 0 4 = some s ∧
      s.selector_table.length = 1 ∧ tournament_predictor_predict s 12345 = some (r, s1)) ∧
    (∃ s r, perceptron_predictor_init 0 3 8 10 = some s ∧ s.perceptron_table.length = 1 ∧
      perceptron_predictor_predict s 12345 = some r) :=
  config_zero_bits_accepted 12345 4 2 3 8 10 (by decide) (by decide) (by decide) (by decide)

/-- Counterexample to C18 as stated: before any init the tournament predictor has no
storage, and `tournament_predictor_predict(5)` returns the value 0; the same after
`init` followed by `cleanup`. -/
theorem tournament_default_counterexample :
    tournament_predictor_predict tournament_initial 5 = some (0, tournament_initial) ∧
      Option.map (fun s => Option.map Prod.fst
          (tournament_predictor_predict (tournament_predictor_cleanup s) 5))
        (tournament_predictor_init tournament_initial 1 1 1 1) = some (some 0) := by
  decide

/-- C18, amended. A tournament predictor that is not initialised (never initialised, or
cleaned up) returns the default prediction 0 from `tournament_predictor_predict` and
leaves its state unchanged, and `tournament_predictor_train` returns without effect; the
other predictors have no such guard: after their cleanup `predict` reads the freed table
and no value is defined. -/
theorem tournament_default_when_uninitialised (s : TournamentState) (pc outcome : Nat)
    (s1 : OneBitState) (s2 : TwoBitState) (s3 : GshareState) (s4 : CorrelatingState)
    (s5 : LocalState) (s6 : PerceptronState)
    (h : s.initialized = false) :
    tournament_predictor_predict s pc = some (0, s) ∧
      tournament_predictor_train s pc outcome = some s ∧
      (tournament_predictor_cleanup s).initialized = false ∧
      onebit_predictor_predict (onebit_predictor_cleanup s1) pc = none ∧
      twobit_predictor_predict (twobit_predictor_cleanup s2) pc = none ∧
      gshare_predictor_predict (gshare_predictor_cleanup s3) pc = none ∧
      correlating_predictor_predict (correlating_predictor_cleanup s4) pc = none ∧
      local_predictor_predict (local_predictor_cleanup s5) pc = none ∧
      perceptron_predictor_predict (perceptron_predictor_cleanup s6) pc = none := by
  refine ⟨by simp [tournament_predictor_predict, h], by simp [tournament_predictor_train, h],
    rfl, ?_, ?_, ?_, ?_, ?_, ?_⟩
  · simp [onebit_predictor_predict, onebit_predictor_cleanup]
  · simp [twobit_predictor_predict, twobit_predictor_cleanup]
  · simp [gshare_predictor_predict, gshare_predictor_cleanup]
  · unfold correlating_predictor_predict
    cases correlating_index (correlating_predictor_cleanup s4) pc with
    | none => rfl
    | some idx => simp [correlating_predictor_cleanup]
  · simp [local_predictor_predict, local_predictor_cleanup]
  · simp [perceptron_predictor_predict, perceptron_predictor_cleanup]

/-- Witness of the amended C18: the statics before any init, pc 5. -/
theorem tournament_default_when_uninitialised_witness :
    tournament_predictor_predict tournament_initial 5 = some (0, tournament_initial) ∧
      tournament_predictor_train tournament_initial 5 1 = some tournament_initial :=
  ⟨(tournament_default_when_uninitialised tournament_initial 5 1 onebit_initial twobit_initial
      gshare_initial correlating_initial local_initial
      { num_perceptrons := 0, history_len := 0, weight_bits := 0, threshold := 0,
        table_mask := 0, perceptron_table := [], global_history := [], history_index := 0,
        max_weight := 0, min_weight := 0 } rfl).1,
   (tournament_default_when_uninitialised tournament_initial 5 1 onebit_initial twobit_initial
      gshare_initial correlating_initial local_initial
      { num_perceptrons := 0, history_len := 0, weight_bits := 0, threshold := 0,
        table_mask := 0, perceptron_table := [], global_history := [], history_index := 0,
        max_weight := 0, min_weight := 0 } rfl).2.1⟩

/-! ### The TAGE predictor: configured states -/

theorem tage_init_configured : TageConfigured tage_predictor_init := by
  refine ⟨by simp [tage_predictor_init], by simp [tage_predictor_init],
    by simp [tage_predictor_init], rfl, rfl, rfl, rfl, ?_, ?_⟩ <;> decide

theorem tage_noskip_get (s : TageState) (hc : TageConfigured s) (i : Nat) (h1 : 1 ≤ i)
    (h18 : i ≤ 18) : s.NOSKIP[i]? = some true := by
  rw [hc.2.2.2.2.2.2.1]
  have hi : i < 18 + 1 := by omega
  have hne : i ≠ 0 := by omega
  simp [tage_predictor_init, NHIST, List.getElem?_map, List.getElem?_range hi, hne]

theorem tage_init_SizeTable :
    tage_predictor_init.SizeTable =
      (List.range 19).map (fun i => if i = 0 then 0 else if i < 9 then 5120 else 10240) :=
  rfl

theorem tage_size_get (s : TageState) (hc : TageConfigured s) (i : Nat) (h1 : 1 ≤ i)
    (h18 : i ≤ 18) :
    s.SizeTable[i]? = some (tage_gtable s i).length ∧
      ((tage_gtable s i).length = 5120 ∨ (tage_gtable s i).length = 10240) := by
  obtain ⟨_, hlo, hhi, _, _, hsz, _⟩ := hc
  rw [hsz, tage_init_SizeTable]
  have hlo1 : s.gtable_low.length = 5120 := hlo
  have hhi1 : s.gtable_high.length = 10240 := hhi
  have hi : i < 19 := by omega
  have hne : i ≠ 0 := by omega
  rw [List.getElem?_map, List.getElem?_range hi]
  by_cases h9 : i < 9
  · have hg : tage_gtable s i = s.gtable_low := by
      simp only [tage_gtable, BORN, hne, h9, if_true, if_false]
    rw [hg, hlo1]
    simp only [Option.map_some', hne, h9, if_true, if_false, true_or, and_self]
  · have hg : tage_gtable s i = s.gtable_high := by
      simp only [tage_gtable, BORN, hne, h9, if_false]
    rw [hg, hhi1]
    simp only [Option.map_some', hne, h9, if_false, or_true, and_self]

/-- The folded index history of bank `i` in a configured state. -/
theorem tage_ch_i_get (s : TageState) (hc : TageConfigured s) (i : Nat) (h1 : 1 ≤ i)
    (h18 : i ≤ 18) :
    ∃ c, s.ch_i[i]? = some
      { comp := c, CLENGTH := 10, OLENGTH := tage_m.getD i 0,
        OUTPOINT := Int.tmod (tage_m.getD i 0) 10 } := by
  have hmap := hc.2.2.2.2.2.2.2.1
  have hi : i < 18 + 1 := by omega
  have hne : i ≠ 0 := by omega
  have h2 : (s.ch_i.map (fun f => { f with comp := 0 }))[i]? = tage_ch_i_init[i]? := by
    rw [hmap]
  rw [List.getElem?_map] at h2
  have h3 : tage_ch_i_init[i]? = some
      { comp := 0, CLENGTH := 10, OLENGTH := tage_m.getD i 0,
        OUTPOINT := Int.tmod (tage_m.getD i 0) 10 } := by
    simp [tage_ch_i_init, NHIST, LOGG, List.getElem?_map, List.getElem?_range hi, hne]
  rw [h3] at h2
  cases hf : s.ch_i[i]? with
  | none => rw [hf] at h2; cases h2
  | some f =>
    rw [hf] at h2
    simp only [Option.map_some', Option.some.injEq] at h2
    refine ⟨f.comp, ?_⟩
    have e1 : f.CLENGTH = 10 := congrArg folded_history_t.CLENGTH h2
    have e2 : f.OLENGTH = tage_m.getD i 0 := congrArg folded_history_t.OLENGTH h2
    have e3 : f.OUTPOINT = Int.tmod (tage_m.getD i 0) 10 :=
      congrArg folded_history_t.OUTPOINT h2
    cases f
    simp only at e1 e2 e3
    subst e1 e2 e3
    rfl

/-- The folded tag history of bank `i` in a configured state. -/
theorem tage_ch_t_get (s : TageState) (hc : TageConfigured s) (i : Nat) (h1 : 1 ≤ i)
    (h18 : i ≤ 18) :
    ∃ c, s.ch_t[i]? = some
      { comp := c, CLENGTH := tage_TB.getD i 0, OLENGTH := tage_m.getD i 0,
        OUTPOINT := Int.tmod (tage_m.getD i 0) (tage_TB.getD i 0) } := by
  have hmap := hc.2.2.2.2.2.2.2.2
  have hi : i < 18 + 1 := by omega
  have hne : i ≠ 0 := by omega
  have h2 : (s.ch_t.map (fun f => { f with comp := 0 }))[i]? = tage_ch_t_init[i]? := by
    rw [hmap]
  rw [List.getElem?_map] at h2
  have h3 : tage_ch_t_init[i]? = some
      { comp := 0, CLENGTH := tage_TB.getD i 0, OLENGTH := tage_m.getD i 0,
        OUTPOINT := Int.tmod (tage_m.getD i 0) (tage_TB.getD i 0) } := by
    simp [tage_ch_t_init, NHIST, List.getElem?_map, List.getElem?_range hi, hne]
  rw [h3] at h2
  cases hf : s.ch_t[i]? with
  | none => rw [hf] at h2; cases h2
  | some f =>
    rw [hf] at h2
    simp only [Option.map_some', Option.some.injEq] at h2
    refine ⟨f.comp, ?_⟩
    have e1 : f.CLENGTH = tage_TB.getD i 0 := congrArg folded_history_t.CLENGTH h2
    have e2 : f.OLENGTH = tage_m.getD i 0 := congrArg folded_history_t.OLENGTH h2
    have e3 : f.OUTPOINT = Int.tmod (tage_m.getD i 0) (tage_TB.getD i 0) :=
      congrArg folded_history_t.OUTPOINT h2
    cases f
    simp only at e1 e2 e3
    subst e1 e2 e3
    rfl

/-- The tag width of bank `i`: 8 below `BORN`, 12 from `BORN` on. -/
theorem tage_TB_get (i : Nat) (h1 : 1 ≤ i) (h18 : i ≤ 18) :
    tage_TB[i]? = some (if i < 9 then 8 else 12) ∧
      tage_TB.getD i 0 = (if i < 9 then 8 else 12) := by
  have hi : i < 18 + 1 := by omega
  have hne : i ≠ 0 := by omega
  have h : tage_TB[i]? = some (if i < 9 then 8 else 12) := by
    by_cases h9 : i < 9
    · have : ¬ (9 ≤ i) := by omega
      simp [tage_TB, NHIST, BORN, TBITS, List.getElem?_map, List.getElem?_range hi, hne, h9,
        this]
    · have : 9 ≤ i := by omega
      simp [tage_TB, NHIST, BORN, TBITS, List.getElem?_map, List.getElem?_range hi, hne, h9,
        this]
  exact ⟨h, by rw [List.getD_eq_getElem?_getD, h]; rfl⟩

theorem tage_m_get (s : TageState) (hc : TageConfigured s) :
    s.m[BORN]? = some 71 ∧ s.m[1]? = some 5 := by
  rw [hc.2.2.2.1]
  exact ⟨rfl, rfl⟩

/-- In a configured state `gindex(PC, bank)` is defined and below the size of the table of
the bank, for banks 1 to 18. -/
theorem tage_gindex_some (wide : Int → Nat) (s : TageState) (hc : TageConfigured s)
    (PC bank : Nat) (h1 : 1 ≤ bank) (h18 : bank ≤ 18) :
    ∃ idx, gindex wide s PC bank = some idx ∧ idx < (tage_gtable s bank).length := by
  obtain ⟨c, hci⟩ := tage_ch_i_get s hc bank h1 h18
  obtain ⟨hsz, hlen⟩ := tage_size_get s hc bank h1 h18
  obtain ⟨hm9, hm1⟩ := tage_m_get s hc
  have hmask : shl_mask 5 = some 31 := by decide
  have hb : ∀ x, x &&& u32_pred (tage_gtable s bank).length < (tage_gtable s bank).length := by
    intro x
    have h2 : x &&& u32_pred (tage_gtable s bank).length ≤
        u32_pred (tage_gtable s bank).length := Nat.and_le_right
    have e1 : u32_pred 5120 = 5119 := by decide
    have e2 : u32_pred 10240 = 10239 := by decide
    rcases hlen with h | h <;> rw [h] at h2 ⊢
    · rw [e1] at h2 ⊢; omega
    · rw [e2] at h2 ⊢; omega
  unfold gindex
  simp only [hci, hsz, hm9, hm1, hmask, Option.bind_eq_bind, Option.some_bind,
    Option.pure_def]
  split
  · exact ⟨_, rfl, hb _⟩
  · exact ⟨_, rfl, hb _⟩

/-- In a configured state `gtag(PC, bank)` is defined and fits the tag width of the bank. -/
theorem tage_gtag_some (s : TageState) (hc : TageConfigured s) (PC bank : Nat) (h1 : 1 ≤ bank)
    (h18 : bank ≤ 18) :
    ∃ tag, gtag s PC bank = some tag ∧ tag < 2 ^ (if bank < 9 then 8 else 12) := by
  obtain ⟨c, hct⟩ := tage_ch_t_get s hc bank h1 h18
  obtain ⟨htb, _⟩ := tage_TB_get bank h1 h18
  have hTB : s.TB = tage_TB := hc.2.2.2.2.1
  unfold gtag
  rw [hTB, hct, htb]
  by_cases h9 : bank < 9
  · have hm : shl_mask 8 = some (2 ^ 8 - 1) := by decide
    simp only [h9, if_true, hm, Option.bind_eq_bind, Option.some_bind, Option.pure_def]
    exact ⟨_, rfl, and_mask_lt _ 8⟩
  · have hm : shl_mask 12 = some (2 ^ 12 - 1) := by decide
    simp only [h9, if_false, hm, Option.bind_eq_bind, Option.some_bind, Option.pure_def]
    exact ⟨_, rfl, and_mask_lt _ 12⟩

/-- In a configured state every bank has an entry at `gindex(PC, bank)`. -/
theorem tage_lookup_some (wide : Int → Nat) (s : TageState) (hc : TageConfigured s)
    (PC bank : Nat) (h1 : 1 ≤ bank) (h18 : bank ≤ 18) :
    ∃ idx tag e, gindex wide s PC bank = some idx ∧ gtag s PC bank = some tag ∧
      (tage_gtable s bank)[idx]? = some e ∧ idx < (tage_gtable s bank).length ∧
      tage_lookup wide s PC bank = some (e, tag) := by
  obtain ⟨idx, hi, hlt⟩ := tage_gindex_some wide s hc PC bank h1 h18
  obtain ⟨tag, ht, _⟩ := tage_gtag_some s hc PC bank h1 h18
  refine ⟨idx, tag, (tage_gtable s bank)[idx], hi, ht, List.getElem?_eq_getElem hlt, hlt, ?_⟩
  simp only [tage_lookup, hi, ht, List.getElem?_eq_getElem hlt, Option.bind_eq_bind,
    Option.some_bind, Option.pure_def]

theorem tage_hit_unique (wide : Int → Nat) (s : TageState) (PC bank : Nat) (e1 e2 : gentry_t)
    (h1 : tage_hit wide s PC bank e1) (h2 : tage_hit wide s PC bank e2) : e1 = e2 := by
  obtain ⟨t1, hl1, _⟩ := h1
  obtain ⟨t2, hl2, _⟩ := h2
  rw [hl1] at hl2
  cases hl2
  rfl

/-- The bank found by the search loop over banks `n, n-1, .., 1`: the highest bank that
matches, 0 when none matches. -/
theorem tage_find_hit_spec (wide : Int → Nat) (s : TageState) (hc : TageConfigured s)
    (PC : Nat) : ∀ n, n ≤ 18 →
    ∃ h, tage_find_hit wide s PC n = some h ∧ h ≤ n ∧
      (h = 0 → ∀ j e, 1 ≤ j → j ≤ n → ¬ tage_hit wide s PC j e) ∧
      (0 < h → (∃ e, tage_hit wide s PC h e) ∧
        ∀ j e, h < j → j ≤ n → ¬ tage_hit wide s PC j e) := by
  intro n
  induction n with
  | zero =>
    intro _
    refine ⟨0, rfl, le_refl _, ?_, ?_⟩
    · intro _ j e hj1 hj0; omega
    · intro h; omega
  | succ n ih =>
    intro hn
    obtain ⟨idx, tag, e, hi, ht, he, _, hl⟩ := tage_lookup_some wide s hc PC (n + 1) (by omega) hn
    have hns := tage_noskip_get s hc (n + 1) (by omega) hn
    by_cases hm : e.tag = tag
    · refine ⟨n + 1, ?_, le_refl _, by omega, fun _ => ⟨⟨e, tag, hl, hm⟩, ?_⟩⟩
      · simp only [tage_find_hit, hns, hi, ht, he, hm, Option.bind_eq_bind, Option.some_bind,
          Option.pure_def, Bool.not_true, Bool.false_eq_true, if_false, if_true]
      · intro j e1 hj1 hj2; omega
    · obtain ⟨h, hf, hle, h0, hpos⟩ := ih (by omega)
      have hno : ∀ e1, ¬ tage_hit wide s PC (n + 1) e1 := by
        intro e1 ⟨t1, hl1, ht1⟩
        rw [hl] at hl1
        cases hl1
        exact hm ht1
      refine ⟨h, ?_, by omega, ?_, ?_⟩
      · simp only [tage_find_hit, hns, hi, ht, he, hm, Option.bind_eq_bind, Option.some_bind,
          Option.pure_def, Bool.not_true, Bool.false_eq_true, if_false]
        exact hf
      · intro hh j e1 hj1 hj2
        by_cases hj : j = n + 1
        · subst hj; exact hno e1
        · exact h0 hh j e1 hj1 (by omega)
      · intro hh
        refine ⟨(hpos hh).1, ?_⟩
        intro j e1 hj1 hj2
        by_cases hj : j = n + 1
        · subst hj; exact hno e1
        · exact (hpos hh).2 j e1 hj1 (by omega)

/-- The search loop of `predict` returns the bank the search loop of `train` finds, with
the sign of that bank's counter. -/
theorem tage_predict_loop_eq (wide : Int → Nat) (s : TageState) (hc : TageConfigured s)
    (PC : Nat) (pt : Bool) : ∀ n, n ≤ 18 →
    tage_predict_loop wide s PC 0 pt n =
      (tage_find_hit wide s PC n).bind (fun h =>
        if h = 0 then some (0, pt)
        else (tage_lookup wide s PC h).map (fun p => (h, decide (p.1.ctr ≥ 0)))) := by
  intro n
  induction n with
  | zero => intro _; rfl
  | succ n ih =>
    intro hn
    obtain ⟨idx, tag, e, hi, ht, he, _, hl⟩ := tage_lookup_some wide s hc PC (n + 1) (by omega) hn
    have hns := tage_noskip_get s hc (n + 1) (by omega) hn
    by_cases hm : e.tag = tag
    · simp only [tage_find_hit, tage_predict_loop, hns, hi, ht, he, hm, hl, Option.bind_eq_bind,
        Option.some_bind, Option.pure_def, Bool.not_true, Bool.false_eq_true, if_false, if_true,
        Nat.succ_ne_zero, Option.map_some']
    · simp only [tage_find_hit, tage_predict_loop, hns, hi, ht, he, hm, Option.bind_eq_bind,
        Option.some_bind, Option.pure_def, Bool.not_true, Bool.false_eq_true, if_false]
      exact ih (by omega)

theorem tage_BI_lt (PC : Nat) : tage_BI PC < 2 ^ 13 := and_mask_lt _ 13

/-- The value of `tage_predictor_predict` in a configured state, by the bank `train` finds. -/
theorem tage_predict_eq (wide : Int → Nat) (s : TageState) (hc : TageConfigured s) (PC : Nat) :
    ∃ h b, tage_find_hit wide s PC NHIST = some h ∧ h ≤ 18 ∧
      s.btable[tage_BI PC]? = some b ∧
      (h = 0 → tage_predictor_predict wide s PC = some (if b.pred ≥ 0 then 1 else 0)) ∧
      (0 < h → ∃ idx e, gindex wide s PC h = some idx ∧
        (tage_gtable s h)[idx]? = some e ∧ tage_hit wide s PC h e ∧
        tage_predictor_predict wide s PC = some (if e.ctr ≥ 0 then 1 else 0)) := by
  obtain ⟨h, hf, hle, _, hpos⟩ := tage_find_hit_spec wide s hc PC 18 (le_refl _)
  have hlt : tage_BI PC < s.btable.length := by
    rw [hc.1]; exact tage_BI_lt PC
  have hb := List.getElem?_eq_getElem hlt
  have hloop := tage_predict_loop_eq wide s hc PC (decide ((s.btable[tage_BI PC]).pred ≥ 0)) 18
    (le_refl _)
  refine ⟨h, s.btable[tage_BI PC], hf, hle, hb, ?_, ?_⟩
  · intro h0
    subst h0
    simp only [tage_predictor_predict, hb, NHIST, hloop, hf, Option.bind_eq_bind,
      Option.some_bind, Option.pure_def, if_true]
    by_cases hp : (s.btable[tage_BI PC]).pred ≥ 0 <;> simp [hp]
  · intro h0
    obtain ⟨idx, tag, e, hi, ht, he, _, hl⟩ := tage_lookup_some wide s hc PC h (by omega) hle
    obtain ⟨e1, he1⟩ := (hpos h0).1
    have hee : e1 = e := by
      obtain ⟨t1, hl1, _⟩ := he1
      rw [hl] at hl1
      cases hl1
      rfl
    subst hee
    refine ⟨idx, e1, hi, he, he1, ?_⟩
    have hne : h ≠ 0 := by omega
    simp only [tage_predictor_predict, hb, NHIST, hloop, hf, hl, hne, Option.bind_eq_bind,
      Option.some_bind, Option.pure_def, if_false, Option.map_some']
    by_cases hp : e1.ctr ≥ 0 <;> simp [hp]

theorem list_mem_set_of {α : Type} {P : α → Prop} {l : List α} {i : Nat} {v : α}
    (hl : ∀ x ∈ l, P x) (hv : P v) : ∀ x ∈ l.set i v, P x := by
  intro x hx
  rcases List.mem_or_eq_of_mem_set hx with h | h
  · exact hl x h
  · exact h ▸ hv

theorem tage_same_hist_refl (s : TageState) : TageSameHist s s :=
  ⟨rfl, rfl, rfl, rfl, rfl, rfl, rfl⟩

theorem tage_same_hist_trans {s s1 s2 : TageState} (h1 : TageSameHist s s1)
    (h2 : TageSameHist s1 s2) : TageSameHist s s2 := by
  obtain ⟨a1, a2, a3, a4, a5, a6, a7⟩ := h1
  obtain ⟨b1, b2, b3, b4, b5, b6, b7⟩ := h2
  exact ⟨b1.trans a1, b2.trans a2, b3.trans a3, b4.trans a4, b5.trans a5, b6.trans a6,
    b7.trans a7⟩

theorem tage_gindex_same (wide : Int → Nat) {s s1 : TageState} (h : TageSameHist s s1)
    (PC bank : Nat) : gindex wide s1 PC bank = gindex wide s PC bank := by
  obtain ⟨a1, a2, a3, a4, a5, a6, a7⟩ := h
  simp only [gindex, a1, a2, a4, a6]

theorem tage_gtag_same {s s1 : TageState} (h : TageSameHist s s1) (PC bank : Nat) :
    gtag s1 PC bank = gtag s PC bank := by
  obtain ⟨a1, a2, a3, a4, a5, a6, a7⟩ := h
  simp only [gtag, a3, a7]

theorem tage_configured_same {s s1 : TageState} (hc : TageConfigured s)
    (h : TageSameHist s s1) (hb : s1.btable.length = s.btable.length)
    (hl : s1.gtable_low.length = s.gtable_low.length)
    (hh : s1.gtable_high.length = s.gtable_high.length) : TageConfigured s1 := by
  obtain ⟨a1, a2, a3, a4, a5, a6, a7⟩ := h
  obtain ⟨c1, c2, c3, c4, c5, c6, c7, c8, c9⟩ := hc
  exact ⟨hb.trans c1, hl.trans c2, hh.trans c3, a2.trans c4, a3.trans c5, a4.trans c6,
    a5.trans c7, by rw [a6]; exact c8, by rw [a7]; exact c9⟩

theorem tage_write_same (s : TageState) (bank idx : Nat) (e : gentry_t) :
    TageSameHist s (tage_gtable_write s bank idx e) := by
  unfold tage_gtable_write
  split
  · exact tage_same_hist_refl s
  · split <;> exact ⟨rfl, rfl, rfl, rfl, rfl, rfl, rfl⟩

theorem tage_write_btable (s : TageState) (bank idx : Nat) (e : gentry_t) :
    (tage_gtable_write s bank idx e).btable = s.btable := by
  unfold tage_gtable_write
  split
  · rfl
  · split <;> rfl

theorem tage_write_configured (s : TageState) (hc : TageConfigured s) (bank idx : Nat)
    (e : gentry_t) : TageConfigured (tage_gtable_write s bank idx e) := by
  refine tage_configured_same hc (tage_write_same s bank idx e) ?_ ?_ ?_
  · rw [tage_write_btable]
  · unfold tage_gtable_write
    split
    · rfl
    · split
      · exact List.length_set _ _ _
      · rfl
  · unfold tage_gtable_write
    split
    · rfl
    · split
      · rfl
      · exact List.length_set _ _ _

theorem tage_write_saturated (s : TageState) (hs : TageSaturated s) (bank idx : Nat)
    (e : gentry_t) (he : -4 ≤ e.ctr ∧ e.ctr ≤ 3 ∧ 0 ≤ e.u ∧ e.u ≤ 3) :
    TageSaturated (tage_gtable_write s bank idx e) := by
  obtain ⟨h1, h2, h3⟩ := hs
  unfold tage_gtable_write
  split
  · exact ⟨h1, h2, h3⟩
  · split
    · exact ⟨list_mem_set_of h1 he, h2, h3⟩
    · exact ⟨h1, list_mem_set_of h2 he, h3⟩

/-- Reading the tables after the write `gtable[bank][idx] = e`: banks of the same group
(both below `BORN` or both from `BORN` on) see the new entry at `idx`. -/
theorem tage_read_write (s : TageState) (bank idx : Nat) (e : gentry_t) (bank1 j : Nat)
    (hb : 1 ≤ bank) (hb1 : 1 ≤ bank1) (hidx : idx < (tage_gtable s bank).length) :
    (tage_gtable (tage_gtable_write s bank idx e) bank1)[j]? =
      if (decide (bank < BORN) = decide (bank1 < BORN)) ∧ j = idx then some e
      else (tage_gtable s bank1)[j]? := by
  have hne : bank ≠ 0 := by omega
  have hne1 : bank1 ≠ 0 := by omega
  unfold tage_gtable at hidx
  simp only [hne, if_false] at hidx
  unfold tage_gtable tage_gtable_write
  simp only [hne, hne1, if_false]
  by_cases h9 : bank < BORN <;> by_cases h91 : bank1 < BORN <;>
    simp only [h9, h91, if_true, if_false, decide_True, decide_False, true_and, false_and,
      Bool.true_eq_false, Bool.false_eq_true] at hidx ⊢
  · by_cases hj : j = idx
    · subst hj
      simp only [if_true, List.getElem?_set_self hidx]
    · simp only [hj, if_false]
      exact List.getElem?_set_ne (fun h => hj h.symm)
  · by_cases hj : j = idx
    · subst hj
      simp only [if_true, List.getElem?_set_self hidx]
    · simp only [hj, if_false]
      exact List.getElem?_set_ne (fun h => hj h.symm)

theorem tage_read_write_self (s : TageState) (bank idx : Nat) (e : gentry_t)
    (hb : 1 ≤ bank) (hidx : idx < (tage_gtable s bank).length) :
    (tage_gtable (tage_gtable_write s bank idx e) bank)[idx]? = some e := by
  rw [tage_read_write s bank idx e bank idx hb hb hidx]
  simp

theorem tage_entry_saturated (s : TageState) (hs : TageSaturated s) (bank idx : Nat)
    (e : gentry_t) (he : (tage_gtable s bank)[idx]? = some e) :
    -4 ≤ e.ctr ∧ e.ctr ≤ 3 ∧ 0 ≤ e.u ∧ e.u ≤ 3 := by
  unfold tage_gtable at he
  split at he
  · simp at he
  · split at he
    · exact hs.1 e (List.getElem?_mem he)
    · exact hs.2.1 e (List.getElem?_mem he)

/-- The counter update on a counter within `[-4, 3]`: one step toward the outcome, none
at the bound. -/
theorem tage_ctr_update_eq (taken : Bool) (c : Int) (h1 : -4 ≤ c) (h2 : c ≤ 3) :
    tage_ctr_update taken c =
        (if taken then (if c < 3 then c + 1 else c) else (if c > -4 then c - 1 else c)) ∧
      -4 ≤ tage_ctr_update taken c ∧ tage_ctr_update taken c ≤ 3 := by
  have e1 : (2 : Int) ^ (CWIDTH - 1) = 4 := by decide
  unfold tage_ctr_update i8_wrap
  rw [e1]
  cases taken <;> simp <;> split_ifs <;> omega

theorem tage_init_saturated : TageSaturated tage_predictor_init := by
  refine ⟨?_, ?_, ?_⟩
  · intro e he
    have := List.eq_of_mem_replicate he
    subst this
    decide
  · intro e he
    have := List.eq_of_mem_replicate he
    subst this
    decide
  · intro e he
    have := List.eq_of_mem_replicate he
    subst this
    decide

theorem list_set_same_of {α : Type} (t : List α) (i : Nat) (v : α) (h : t[i]? = some v) :
    t.set i v = t := by
  apply List.ext_getElem?
  intro j
  by_cases hij : i = j
  · subst hij
    have hlt : i < t.length := by
      by_contra hge
      rw [List.getElem?_eq_none (by omega)] at h
      cases h
    rw [List.getElem?_set_self hlt, h]
  · rw [List.getElem?_set_ne hij]

theorem tage_m_getD_nonneg (i : Nat) : 0 ≤ tage_m.getD i 0 := by
  have hall : ∀ x ∈ tage_m, (0 : Int) ≤ x := by decide
  rw [List.getD_eq_getElem?_getD]
  cases h : tage_m[i]? with
  | none => simp
  | some x => exact hall x (List.getElem?_mem h)

/-- A folded history whose `CLENGTH` is 8, 10 or 12 and whose `OUTPOINT` is `OLENGTH`
modulo `CLENGTH`, with `OLENGTH ≥ 0`, is updated without undefined behaviour and keeps its
lengths. -/
theorem update_folded_history_some (wide : Int → Nat) (c : Nat) (cl ol : Int)
    (hcl : cl = 8 ∨ cl = 10 ∨ cl = 12) (hol : 0 ≤ ol) (h : Nat) (bit : Bool) :
    ∃ c1, update_folded_history wide
        { comp := c, CLENGTH := cl, OLENGTH := ol, OUTPOINT := Int.tmod ol cl } h bit =
      some { comp := c1, CLENGTH := cl, OLENGTH := ol, OUTPOINT := Int.tmod ol cl } ∧
      c1 < 2 ^ cl.toNat := by
  have hpos : 0 < cl := by omega
  have h0 : 0 ≤ Int.tmod ol cl := Int.tmod_nonneg _ hol
  have h1 : Int.tmod ol cl < cl := Int.tmod_lt_of_pos _ hpos
  have hno : ¬ (Int.tmod ol cl < 0 ∨ 64 ≤ Int.tmod ol cl) := by omega
  have hm : shl_mask cl = some (2 ^ cl.toNat - 1) := shl_mask_eq cl (by omega) (by omega)
  unfold update_folded_history
  simp only [hno, if_false, hm, Option.bind_eq_bind, Option.some_bind, Option.pure_def]
  exact ⟨_, rfl, and_mask_lt _ _⟩

theorem tage_TB_getD_cases (i : Nat) (h1 : 1 ≤ i) (h18 : i ≤ 18) :
    tage_TB.getD i 0 = 8 ∨ tage_TB.getD i 0 = 10 ∨ tage_TB.getD i 0 = 12 := by
  rw [(tage_TB_get i h1 h18).2]
  split
  · exact Or.inl rfl
  · exact Or.inr (Or.inr rfl)

/-- The folded-history loop over banks `i, i+1, .., i+n-1` of a configured state returns;
it changes `ch_i` and `ch_t` only and keeps the state configured. -/
theorem tage_update_folded_some (wide : Int → Nat) (taken : Bool) :
    ∀ n i s, TageConfigured s → 1 ≤ i → i + n ≤ 19 →
    ∃ s1, tage_update_folded wide taken n i s = some s1 ∧ TageConfigured s1 ∧
      s1.btable = s.btable ∧ s1.gtable_low = s.gtable_low ∧
      s1.gtable_high = s.gtable_high ∧ s1.ghist = s.ghist := by
  intro n
  induction n with
  | zero =>
    intro i s hc _ _
    exact ⟨s, rfl, hc, rfl, rfl, rfl, rfl⟩
  | succ n ih =>
    intro i s hc h1 h19
    have h18 : i ≤ 18 := by omega
    obtain ⟨ci, hci⟩ := tage_ch_i_get s hc i h1 h18
    obtain ⟨ct, hct⟩ := tage_ch_t_get s hc i h1 h18
    have hns := tage_noskip_get s hc i h1 h18
    obtain ⟨ci1, hui, _⟩ := update_folded_history_some wide ci 10 (tage_m.getD i 0)
      (Or.inr (Or.inl rfl)) (tage_m_getD_nonneg i) s.ghist taken
    obtain ⟨ct1, hut, _⟩ := update_folded_history_some wide ct (tage_TB.getD i 0)
      (tage_m.getD i 0) (tage_TB_getD_cases i h1 h18) (tage_m_getD_nonneg i) s.ghist taken
    obtain ⟨c1, c2, c3, c4, c5, c6, c7, c8, c9⟩ := hc
    have hc1 : TageConfigured
        { s with
          ch_i := s.ch_i.set i { comp := ci1, CLENGTH := 10, OLENGTH := tage_m.getD i 0,
                                 OUTPOINT := Int.tmod (tage_m.getD i 0) 10 },
          ch_t := s.ch_t.set i { comp := ct1, CLENGTH := tage_TB.getD i 0,
                                 OLENGTH := tage_m.getD i 0,
                                 OUTPOINT := Int.tmod (tage_m.getD i 0) (tage_TB.getD i 0) } } := by
      refine ⟨c1, c2, c3, c4, c5, c6, c7, ?_, ?_⟩
      · show List.map _ (s.ch_i.set i _) = _
        rw [List.map_set, ← c8]
        apply list_set_same_of
        rw [List.getElem?_map, hci]
        rfl
      · show List.map _ (s.ch_t.set i _) = _
        rw [List.map_set, ← c9]
        apply list_set_same_of
        rw [List.getElem?_map, hct]
        rfl
    obtain ⟨s1, hs1, hcs1, e1, e2, e3, e4⟩ := ih (i + 1) _ hc1 (by omega) (by omega)
    refine ⟨s1, ?_, hcs1, e1, e2, e3, e4⟩
    rw [tage_update_folded]
    simp only [hns, hci, hct, hui, hut, Option.bind_eq_bind, Option.some_bind,
      Bool.not_true, Bool.false_eq_true, if_false]
    exact hs1

theorem tage_write_ctr_tags (s : TageState) (bank idx : Nat) (e e1 : gentry_t)
    (he : (tage_gtable s bank)[idx]? = some e) (h1 : e1.ctr = e.ctr) (h2 : e1.tag = e.tag) :
    tage_ctr_tags (tage_gtable_write s bank idx e1) = tage_ctr_tags s := by
  unfold tage_gtable at he
  unfold tage_gtable_write tage_ctr_tags
  split
  · rfl
  · rename_i hne
    simp only [hne, if_false] at he
    split
    · rename_i h9
      simp only [h9, if_true] at he
      simp only [List.map_set]
      rw [list_set_same_of]
      rw [List.getElem?_map, he, h1, h2]
      rfl
    · rename_i h9
      simp only [h9, if_false] at he
      simp only [List.map_set]
      rw [list_set_same_of]
      rw [List.getElem?_map, he, h1, h2]
      rfl

/-- The ageing pass changes usefulness counters only. -/
theorem tage_age_pass_frame (wide : Int → Nat) (PC : Nat) :
    ∀ banks s sm, tage_age_pass wide PC banks s = some sm →
      TageSameHist s sm ∧ sm.btable = s.btable ∧ tage_ctr_tags sm = tage_ctr_tags s := by
  intro banks
  induction banks with
  | nil =>
    intro s sm h
    cases h
    exact ⟨tage_same_hist_refl s, rfl, rfl⟩
  | cons i rest ih =>
    intro s sm h
    rw [tage_age_pass] at h
    cases hi : gindex wide s PC i with
    | none => rw [hi] at h; cases h
    | some idx =>
      cases he : (tage_gtable s i)[idx]? with
      | none => rw [hi] at h; simp [he] at h
      | some e =>
        simp only [hi, he, Option.bind_eq_bind, Option.some_bind] at h
        split at h
        · obtain ⟨a, b, c⟩ := ih _ sm h
          refine ⟨tage_same_hist_trans (tage_write_same s i idx _) a, ?_, ?_⟩
          · rw [b, tage_write_btable]
          · rw [c]
            exact tage_write_ctr_tags s i idx e _ he rfl rfl
        · cases h

theorem i8_wrap_small (x : Int) (h1 : -128 ≤ x) (h2 : x ≤ 127) : i8_wrap x = x := by
  unfold i8_wrap
  omega

/-- The allocation loop over banks `i, .., 18` of a configured state with saturated
counters: the banks `i, .., a - 1` are aged, and if `a ≤ 18` the entry of bank `a` has
usefulness 0 after the ageing and is overwritten. -/
theorem tage_allocate_spec (wide : Int → Nat) (PC : Nat) (taken : Bool) :
    ∀ n i s, TageConfigured s → TageSaturated s → 1 ≤ i → i + n = 19 →
    ∃ s1 a sm, tage_allocate wide PC taken n i s = some s1 ∧ i ≤ a ∧ a ≤ 19 ∧
      tage_age_pass wide PC (List.range' i (a - i)) s = some sm ∧
      (a ≤ 18 → ∃ idx tag e, gindex wide s PC a = some idx ∧ gtag s PC a = some tag ∧
        (tage_gtable sm a)[idx]? = some e ∧ e.u = 0 ∧
        s1 = tage_gtable_write sm a idx
          { ctr := if taken then 0 else -1, tag := tag, u := 0 }) ∧
      (a = 19 → s1 = sm) ∧
      TageConfigured s1 ∧ TageSaturated s1 ∧ TageSameHist s s1 ∧ s1.btable = s.btable := by
  intro n
  induction n with
  | zero =>
    intro i s hc hs h1 h19
    have hi : i = 19 := by omega
    subst hi
    exact ⟨s, 19, s, rfl, le_refl _, le_refl _, rfl, fun h => by omega, fun _ => rfl, hc, hs,
      tage_same_hist_refl s, rfl⟩
  | succ n ih =>
    intro i s hc hs h1 h19
    have h18 : i ≤ 18 := by omega
    obtain ⟨idx, tag, e, hi, ht, he, hlt, _⟩ := tage_lookup_some wide s hc PC i h1 h18
    have hns := tage_noskip_get s hc i h1 h18
    obtain ⟨_, _, hu0, hu3⟩ := tage_entry_saturated s hs i idx e he
    by_cases hz : e.u = 0
    · refine ⟨tage_gtable_write s i idx { ctr := if taken then 0 else -1, tag := tag, u := 0 },
        i, s, ?_, le_refl _, by omega, ?_, ?_, fun h => by omega,
        tage_write_configured s hc _ _ _, ?_, tage_write_same s _ _ _, tage_write_btable s _ _ _⟩
      · rw [tage_allocate]
        simp only [hns, hi, ht, he, hz, Option.bind_eq_bind, Option.some_bind, Option.pure_def,
          Bool.not_true, Bool.false_eq_true, if_false, if_true]
      · simp only [Nat.sub_self, List.range'_zero, tage_age_pass]
      · intro _
        exact ⟨idx, tag, e, hi, ht, he, hz, rfl⟩
      · apply tage_write_saturated s hs
        cases taken <;> simp
    · have hpos : e.u > 0 := by omega
      have hw : i8_wrap (e.u - 1) = e.u - 1 := i8_wrap_small _ (by omega) (by omega)
      have hc1 := tage_write_configured s hc i idx { e with u := e.u - 1 }
      have hs1 : TageSaturated (tage_gtable_write s i idx { e with u := e.u - 1 }) := by
        apply tage_write_saturated s hs
        obtain ⟨x1, x2, _, _⟩ := tage_entry_saturated s hs i idx e he
        exact ⟨x1, x2, by show 0 ≤ e.u - 1; omega, by show e.u - 1 ≤ 3; omega⟩
      have hsame := tage_write_same s i idx { e with u := e.u - 1 }
      obtain ⟨s1, a, sm, hal, hia, ha19, hage, hA, hB, hcs1, hss1, hsh, hbt⟩ :=
        ih (i + 1) _ hc1 hs1 (by omega) (by omega)
      refine ⟨s1, a, sm, ?_, by omega, ha19, ?_, ?_, hB, hcs1, hss1,
        tage_same_hist_trans hsame hsh, by rw [hbt, tage_write_btable]⟩
      · rw [tage_allocate]
        simp only [hns, hi, he, hz, hpos, hw, Option.bind_eq_bind, Option.some_bind,
          Bool.not_true, Bool.false_eq_true, if_false, if_true]
        exact hal
      · have hsplit : a - i = (a - (i + 1)) + 1 := by omega
        rw [hsplit, List.range'_succ, tage_age_pass]
        simp only [hi, he, hpos, Option.bind_eq_bind, Option.some_bind, if_true]
        exact hage
      · intro ha
        obtain ⟨idx1, tag1, e1, g1, g2, g3, g4, g5⟩ := hA ha
        rw [tage_gindex_same wide hsame] at g1
        rw [tage_gtag_same hsame] at g2
        exact ⟨idx1, tag1, e1, g1, g2, g3, g4, g5⟩

/-- The provider update with no hitting bank: the bimodal counter moves, and the value
`pred_taken` read afterwards is the sign of the moved counter. -/
theorem tage_provider_step_bimodal (wide : Int → Nat) (s : TageState) (hc : TageConfigured s)
    (hs : TageSaturated s) (PC : Nat) (taken : Bool) :
    ∃ b, s.btable[tage_BI PC]? = some b ∧
      tage_update_provider wide s PC 0 taken =
        some { s with btable := s.btable.set (tage_BI PC)
                        { b with pred := tage_ctr_update taken b.pred } } ∧
      tage_train_pred wide
          { s with btable := s.btable.set (tage_BI PC)
                     { b with pred := tage_ctr_update taken b.pred } } PC 0 =
        some (decide (tage_ctr_update taken b.pred ≥ 0)) ∧
      TageConfigured
          { s with btable := s.btable.set (tage_BI PC)
                     { b with pred := tage_ctr_update taken b.pred } } ∧
      TageSaturated
          { s with btable := s.btable.set (tage_BI PC)
                     { b with pred := tage_ctr_update taken b.pred } } := by
  have hlt : tage_BI PC < s.btable.length := by
    rw [hc.1]; exact tage_BI_lt PC
  have hb := List.getElem?_eq_getElem hlt
  refine ⟨s.btable[tage_BI PC], hb, ?_, ?_, ?_, ?_⟩
  · simp only [tage_update_provider, hb, gt_iff_lt, Nat.lt_irrefl, if_false,
      Option.bind_eq_bind, Option.some_bind, Option.pure_def]
  · simp only [tage_train_pred, gt_iff_lt, Nat.lt_irrefl, if_false,
      List.getElem?_set_self hlt, Option.bind_eq_bind, Option.some_bind, Option.pure_def]
  · exact tage_configured_same hc ⟨rfl, rfl, rfl, rfl, rfl, rfl, rfl⟩
      (List.length_set _ _ _) rfl rfl
  · obtain ⟨h1, h2, h3⟩ := hs
    refine ⟨h1, h2, list_mem_set_of h3 ?_⟩
    have hmem := h3 _ (List.getElem?_mem hb)
    exact (tage_ctr_update_eq taken _ hmem.1 hmem.2).2

/-- The provider update with hitting bank `h`: the counter of the entry at
`gindex(PC, h)` moves, and the value `pred_taken` read afterwards is the sign of the moved
counter. -/
theorem tage_provider_step_tagged (wide : Int → Nat) (s : TageState) (hc : TageConfigured s)
    (hs : TageSaturated s) (PC h : Nat) (taken : Bool) (h1 : 1 ≤ h) (h18 : h ≤ 18) :
    ∃ idx e, gindex wide s PC h = some idx ∧ (tage_gtable s h)[idx]? = some e ∧
      idx < (tage_gtable s h).length ∧
      tage_update_provider wide s PC h taken =
        some (tage_gtable_write s h idx { e with ctr := tage_ctr_update taken e.ctr }) ∧
      tage_train_pred wide
          (tage_gtable_write s h idx { e with ctr := tage_ctr_update taken e.ctr }) PC h =
        some (decide (tage_ctr_update taken e.ctr ≥ 0)) ∧
      TageConfigured
          (tage_gtable_write s h idx { e with ctr := tage_ctr_update taken e.ctr }) ∧
      TageSaturated
          (tage_gtable_write s h idx { e with ctr := tage_ctr_update taken e.ctr }) := by
  obtain ⟨idx, tag, e, hi, ht, he, hlt, _⟩ := tage_lookup_some wide s hc PC h h1 h18
  have hpos : h > 0 := by omega
  obtain ⟨x1, x2, x3, x4⟩ := tage_entry_saturated s hs h idx e he
  refine ⟨idx, e, hi, he, hlt, ?_, ?_, tage_write_configured s hc _ _ _, ?_⟩
  · simp only [tage_update_provider, hpos, if_true, hi, he, Option.bind_eq_bind,
      Option.some_bind, Option.pure_def]
  · simp only [tage_train_pred, hpos, if_true,
      tage_gindex_same wide (tage_write_same s h idx _), hi,
      tage_read_write_self s h idx _ h1 hlt, Option.bind_eq_bind, Option.some_bind,
      Option.pure_def]
  · apply tage_write_saturated s hs
    exact ⟨(tage_ctr_update_eq taken _ x1 x2).2.1, (tage_ctr_update_eq taken _ x1 x2).2.2,
      x3, x4⟩

/-- The usefulness step: with a hitting bank `h`, the usefulness of the entry at
`gindex(PC, h)` is incremented when `pred_taken = taken` and it is below 3; nothing else
changes. -/
theorem tage_update_useful_spec (wide : Int → Nat) (s : TageState) (hc : TageConfigured s)
    (hs : TageSaturated s) (PC h : Nat) (pt taken : Bool) (h18 : h ≤ 18) :
    ∃ s1, tage_update_useful wide s PC h pt taken = some s1 ∧ TageConfigured s1 ∧
      TageSaturated s1 ∧ TageSameHist s s1 ∧ s1.btable = s.btable ∧
      (h = 0 → s1 = s) ∧
      (0 < h → ∃ idx e, gindex wide s PC h = some idx ∧ (tage_gtable s h)[idx]? = some e ∧
        s1 = if pt = taken ∧ e.u < 3 then tage_gtable_write s h idx { e with u := e.u + 1 }
             else s) := by
  by_cases h0 : h = 0
  · subst h0
    refine ⟨s, ?_, hc, hs, tage_same_hist_refl s, rfl, fun _ => rfl, fun h => by omega⟩
    simp only [tage_update_useful, gt_iff_lt, Nat.lt_irrefl, if_false, Option.pure_def]
  · have h1 : 1 ≤ h := by omega
    have hpos : h > 0 := by omega
    obtain ⟨idx, tag, e, hi, ht, he, hlt, _⟩ := tage_lookup_some wide s hc PC h h1 h18
    obtain ⟨x1, x2, x3, x4⟩ := tage_entry_saturated s hs h idx e he
    have e3 : (2 : Int) ^ UWIDTH - 1 = 3 := by decide
    by_cases hp : pt = taken ∧ e.u < 3
    · have hw : i8_wrap (e.u + 1) = e.u + 1 := i8_wrap_small _ (by omega) (by omega)
      refine ⟨tage_gtable_write s h idx { e with u := e.u + 1 }, ?_,
        tage_write_configured s hc _ _ _, ?_, tage_write_same s _ _ _,
        tage_write_btable s _ _ _, fun h => by omega, fun _ => ⟨idx, e, hi, he, ?_⟩⟩
      · simp only [tage_update_useful, hpos, if_true, hi, he, hp.1, e3, hp.2, hw,
          Option.bind_eq_bind, Option.some_bind, Option.pure_def]
      · apply tage_write_saturated s hs
        exact ⟨x1, x2, by show 0 ≤ e.u + 1; omega, by show e.u + 1 ≤ 3; omega⟩
      · rw [if_pos hp]
    · refine ⟨s, ?_, hc, hs, tage_same_hist_refl s, rfl, fun _ => rfl,
        fun _ => ⟨idx, e, hi, he, ?_⟩⟩
      · simp only [tage_update_useful, hpos, if_true, hi, he, e3, Option.bind_eq_bind,
          Option.some_bind, Option.pure_def]
        by_cases hpt : pt = taken
        · have hu : ¬ e.u < 3 := fun hu => hp ⟨hpt, hu⟩
          simp only [hpt, hu, if_true, if_false]
        · simp only [hpt, if_false]
      · rw [if_neg hp]

/-- The steps of one `tage_predictor_train` call on a configured state with saturated
counters: every step returns, and every intermediate state is configured with saturated
counters. -/
theorem tage_train_spec (wide : Int → Nat) (s : TageState) (hc : TageConfigured s)
    (hs : TageSaturated s) (PC outcome : Nat) :
    ∃ h s1 pt s2 s3 s4,
      tage_find_hit wide s PC NHIST = some h ∧ h ≤ 18 ∧
      tage_update_provider wide s PC h (decide (outcome = 1)) = some s1 ∧
      tage_train_pred wide s1 PC h = some pt ∧
      (if (pt != decide (outcome = 1)) = true ∧ h < NHIST then
          tage_allocate wide PC (decide (outcome = 1)) (NHIST - h) (h + 1) s1
        else some s1) = some s2 ∧
      tage_update_useful wide s2 PC h pt (decide (outcome = 1)) = some s3 ∧
      tage_predictor_train wide s PC outcome = some s4 ∧
      s4.btable = s3.btable ∧ s4.gtable_low = s3.gtable_low ∧
      s4.gtable_high = s3.gtable_high ∧
      s4.ghist = ((s.ghist * 2) % 2 ^ 64) ||| (if outcome = 1 then 1 else 0) ∧
      (TageConfigured s1 ∧ TageSaturated s1 ∧ TageSameHist s s1) ∧
      (TageConfigured s2 ∧ TageSaturated s2 ∧ TageSameHist s s2 ∧ s2.btable = s1.btable) ∧
      (TageConfigured s3 ∧ TageSaturated s3 ∧ TageSameHist s s3 ∧ s3.btable = s1.btable) ∧
      TageConfigured s4 ∧ TageSaturated s4 := by
  obtain ⟨h, hf, h18, _, _⟩ := tage_find_hit_spec wide s hc PC 18 (le_refl _)
  have step1 : ∃ s1 pt, tage_update_provider wide s PC h (decide (outcome = 1)) = some s1 ∧
      tage_train_pred wide s1 PC h = some pt ∧ TageConfigured s1 ∧ TageSaturated s1 ∧
      TageSameHist s s1 := by
    by_cases h0 : h = 0
    · subst h0
      obtain ⟨b, _, hu, hp, hc1, hs1⟩ :=
        tage_provider_step_bimodal wide s hc hs PC (decide (outcome = 1))
      exact ⟨_, _, hu, hp, hc1, hs1, ⟨rfl, rfl, rfl, rfl, rfl, rfl, rfl⟩⟩
    · obtain ⟨idx, e, _, _, _, hu, hp, hc1, hs1⟩ :=
        tage_provider_step_tagged wide s hc hs PC h (decide (outcome = 1)) (by omega) h18
      exact ⟨_, _, hu, hp, hc1, hs1, tage_write_same s _ _ _⟩
  obtain ⟨s1, pt, hu, hp, hc1, hs1, hsh1⟩ := step1
  have step2 : ∃ s2, (if (pt != decide (outcome = 1)) = true ∧ h < NHIST then
          tage_allocate wide PC (decide (outcome = 1)) (NHIST - h) (h + 1) s1
        else some s1) = some s2 ∧ TageConfigured s2 ∧ TageSaturated s2 ∧
        TageSameHist s1 s2 ∧ s2.btable = s1.btable := by
    by_cases hcond : (pt != decide (outcome = 1)) = true ∧ h < NHIST
    · obtain ⟨s2, a, sm, hal, _, _, _, _, _, hc2, hs2, hsh2, hbt⟩ :=
        tage_allocate_spec wide PC (decide (outcome = 1)) (NHIST - h) (h + 1) s1 hc1 hs1
          (by omega) (by have := hcond.2; simp only [NHIST] at this ⊢; omega)
      exact ⟨s2, by rw [if_pos hcond]; exact hal, hc2, hs2, hsh2, hbt⟩
    · exact ⟨s1, by rw [if_neg hcond], hc1, hs1, tage_same_hist_refl s1, rfl⟩
  obtain ⟨s2, hal, hc2, hs2, hsh2, hbt2⟩ := step2
  obtain ⟨s3, huu, hc3, hs3, hsh3, hbt3, _, _⟩ :=
    tage_update_useful_spec wide s2 hc2 hs2 PC h pt (decide (outcome = 1)) h18
  obtain ⟨s4, hfo, hc4, e1, e2, e3, e4⟩ :=
    tage_update_folded_some wide (decide (outcome = 1)) NHIST 1 s3 hc3 (le_refl _)
      (by simp only [NHIST]; omega)
  have hgh : s3.ghist = s.ghist :=
    (tage_same_hist_trans (tage_same_hist_trans hsh1 hsh2) hsh3).1
  refine ⟨h, s1, pt, s2, s3,
    { s4 with ghist := ((s4.ghist * 2) % 2 ^ 64) ||| (if decide (outcome = 1) then 1 else 0) },
    hf, h18, hu, hp, hal, huu, ?_, e1, e2, e3, ?_, ⟨hc1, hs1, hsh1⟩,
    ⟨hc2, hs2, tage_same_hist_trans hsh1 hsh2, hbt2⟩,
    ⟨hc3, hs3, tage_same_hist_trans (tage_same_hist_trans hsh1 hsh2) hsh3,
      hbt3.trans hbt2⟩, ?_, ?_⟩
  · have hf1 : tage_find_hit wide s PC NHIST = some h := hf
    unfold tage_predictor_train
    simp only [hf1, hu, hp, Option.bind_eq_bind, Option.some_bind, Option.pure_def]
    by_cases hcond : (pt != decide (outcome = 1)) = true ∧ h < NHIST
    · rw [if_pos hcond] at hal ⊢
      simp only [hal, huu, hfo, Option.some_bind]
    · rw [if_neg hcond] at hal ⊢
      cases hal
      simp only [huu, hfo, Option.some_bind]
  · show ((s4.ghist * 2) % 2 ^ 64) ||| (if decide (outcome = 1) then 1 else 0) = _
    rw [e4, hgh]
    by_cases ho : outcome = 1 <;> simp [ho]
  · obtain ⟨c1, c2, c3, c4, c5, c6, c7, c8, c9⟩ := hc4
    exact ⟨c1, c2, c3, c4, c5, c6, c7, c8, c9⟩
  · obtain ⟨a1, a2, a3⟩ := hs3
    refine ⟨?_, ?_, ?_⟩
    · show ∀ e ∈ s4.gtable_low, _
      rw [e2]; exact a1
    · show ∀ e ∈ s4.gtable_high, _
      rw [e3]; exact a2
    · show ∀ b ∈ s4.btable, _
      rw [e1]; exact a3

/-- One `tage_predictor_train` call on a configured state with saturated counters returns
a configured state with saturated counters. -/
theorem tage_train_configured (wide : Int → Nat) (s : TageState) (hc : TageConfigured s)
    (hs : TageSaturated s) (PC outcome : Nat) :
    ∃ s1, tage_predictor_train wide s PC outcome = some s1 ∧ TageConfigured s1 ∧
      TageSaturated s1 := by
  obtain ⟨_, _, _, _, _, s4, _, _, _, _, _, _, ht, _, _, _, _, _, _, _, hc4, hs4⟩ :=
    tage_train_spec wide s hc hs PC outcome
  exact ⟨s4, ht, hc4, hs4⟩

theorem tage_train_seq_configured (wide : Int → Nat) :
    ∀ calls s, TageConfigured s → TageSaturated s →
      ∃ s1, tage_train_seq wide s calls = some s1 ∧ TageConfigured s1 ∧ TageSaturated s1 := by
  intro calls
  induction calls with
  | nil => intro s hc hs; exact ⟨s, rfl, hc, hs⟩
  | cons c rest ih =>
    intro s hc hs
    obtain ⟨PC, outcome⟩ := c
    obtain ⟨s1, ht, hc1, hs1⟩ := tage_train_configured wide s hc hs PC outcome
    obtain ⟨s2, hr, hc2, hs2⟩ := ih s1 hc1 hs1
    exact ⟨s2, by simp only [tage_train_seq, ht, Option.some_bind]; exact hr, hc2, hs2⟩

/-- Every reachable state is configured and has saturated counters. -/
theorem tage_reachable_configured (wide : Int → Nat) (s : TageState)
    (hr : TageReachable wide s) : TageConfigured s ∧ TageSaturated s := by
  obtain ⟨calls, hcalls⟩ := hr
  obtain ⟨s1, h1, hc, hs⟩ :=
    tage_train_seq_configured wide calls _ tage_init_configured tage_init_saturated
  rw [hcalls] at h1
  cases h1
  exact ⟨hc, hs⟩

theorem tage_init_ch_i_9 :
    tage_predictor_init.ch_i[9]? =
      some { comp := 0, CLENGTH := 10, OLENGTH := 71, OUTPOINT := 1 } := by
  decide

/-- C13 (TAGE longest-match priority).  In every configured state, hence in every state
reachable from `tage_predictor_init` (`tage_reachable_configured`), and for every `PC`,
`tage_predictor_predict` returns a value.  If bank `i` of 1..18 matches, that is its entry
`e` at `gindex(PC, i)` stores the tag `gtag(PC, i)`, and no higher bank matches, the value
is the sign test `e.ctr ≥ 0` of that entry: with banks 3 and 7 matching and no higher
one, bank 7 decides.  If no bank matches, the value is the bimodal prediction
`pred ≥ 0` at index `(PC XOR PC >> 2) & (2 ^ 13 - 1)`. -/
theorem tage_longest_match (wide : Int → Nat) (s : TageState) (hc : TageConfigured s)
    (PC : Nat) :
    (∃ r, tage_predictor_predict wide s PC = some r) ∧
    (∀ i e, 1 ≤ i → i ≤ NHIST → tage_hit wide s PC i e →
      (∀ j e1, i < j → j ≤ NHIST → ¬ tage_hit wide s PC j e1) →
      tage_predictor_predict wide s PC = some (if e.ctr ≥ 0 then 1 else 0)) ∧
    ((∀ j e1, 1 ≤ j → j ≤ NHIST → ¬ tage_hit wide s PC j e1) →
      ∃ b, s.btable[(PC ^^^ (PC >>> 2)) &&& (2 ^ 13 - 1)]? = some b ∧
        tage_predictor_predict wide s PC = some (if b.pred ≥ 0 then 1 else 0)) := by
  obtain ⟨h, b, hf, h18, hb, h0, hpos⟩ := tage_predict_eq wide s hc PC
  obtain ⟨h2, hf2, _, hnone, hsome⟩ := tage_find_hit_spec wide s hc PC 18 (le_refl _)
  have hf1 : tage_find_hit wide s PC 18 = some h := hf
  rw [hf1] at hf2
  cases hf2
  refine ⟨?_, ?_, ?_⟩
  · by_cases hz : h = 0
    · exact ⟨_, h0 hz⟩
    · obtain ⟨_, _, _, _, _, hp⟩ := hpos (by omega)
      exact ⟨_, hp⟩
  · intro i e hi1 hi18 hit hno
    have hi18a : i ≤ 18 := hi18
    have hhi : h = i := by
      by_cases hz : h = 0
      · exact absurd hit (hnone hz i e hi1 hi18a)
      · have hp : 0 < h := by omega
        obtain ⟨⟨eh, hith⟩, habove⟩ := hsome hp
        by_contra hne
        rcases Nat.lt_or_gt_of_ne hne with hlt | hgt
        · exact habove i e hlt hi18a hit
        · exact hno h eh hgt h18 hith
    subst hhi
    obtain ⟨_, e2, _, _, hit2, hp⟩ := hpos (by omega)
    rw [tage_hit_unique wide s PC h e e2 hit hit2]
    exact hp
  · intro hno
    have hz : h = 0 := by
      by_contra hne
      obtain ⟨⟨eh, hith⟩, _⟩ := hsome (by omega)
      exact hno h eh (by omega) h18 hith
    exact ⟨b, hb, h0 hz⟩

/-- The index of bank 9 for `PC = 1027` in the fresh predictor, by the code and by the XOR
formula, for every value of the out-of-range shift. -/
theorem tage_index_xor_example (wide : Int → Nat) :
    gindex wide tage_predictor_init 1027 9 = some 8194 ∧
      gindex_xor_spec wide tage_predictor_init 1027 9 = some 2 := by
  have hg : tage_predictor_init.ghist = 0 := rfl
  have hs : tage_predictor_init.SizeTable[9]? = some 10240 := by decide
  have hm : tage_predictor_init.m[BORN]? = some 71 := by decide
  have h9 : BORN ≤ 9 := by decide
  constructor
  · simp only [gindex, tage_init_ch_i_9, hs, hm, hg, Nat.zero_and, Option.bind_eq_bind,
      Option.some_bind, Option.pure_def, ge_iff_le, h9, if_true, Nat.xor_zero]
    decide
  · simp only [gindex_xor_spec, tage_init_ch_i_9, hs, hm, hg, Nat.zero_and,
      Option.bind_eq_bind, Option.some_bind, Option.pure_def, ge_iff_le, h9, if_true,
      Nat.xor_zero]
    decide

/-- C25, counterexample.  In the fresh predictor, `PC = 1027` and bank 9: the hash is
`1027 XOR 1 = 1026` and `T = 1027 mod 10 = 7`; the code adds `7 << 10` and returns
`(1026 + 7168) & 10239 = 8194`, while the XOR of the claim gives `(1026 XOR 7168) & 10239
= 2`. -/
theorem tage_index_xor_counterexample :
    gindex wide_hw tage_predictor_init 1027 9 = some 8194 ∧
      gindex_xor_spec wide_hw tage_predictor_init 1027 9 = some 2 :=
  tage_index_xor_example wide_hw

/-- C25, amended (TAGE index formula).  In every configured state, for every `PC` and bank
1..18, `gindex(PC, bank)` is the hash `PC XOR (PC >> 10) XOR ch_i[bank].comp` PLUS the
offset `T << 10` (a 32-bit addition, carries included), masked with
`SizeTable[bank] - 1`, where `T = (PC XOR (ghist & 31)) mod 5` and the size is 5120 for
banks below `BORN`, and `T = (PC XOR (ghist & ((1 << 71) - 1))) mod 10` and the size is
10240 from `BORN` on. -/
theorem tage_index_formula (wide : Int → Nat) (s : TageState) (hc : TageConfigured s)
    (PC bank : Nat) (h1 : 1 ≤ bank) (h18 : bank ≤ NHIST) :
    ∃ fh, s.ch_i[bank]? = some fh ∧
      gindex wide s PC bank =
        some (if bank < BORN then
          (((PC ^^^ (PC >>> 10) ^^^ fh.comp) + ((PC ^^^ (s.ghist &&& 31)) % 5) * 2 ^ 10)
            % 2 ^ 32) &&& (5120 - 1)
        else
          (((PC ^^^ (PC >>> 10) ^^^ fh.comp) +
              ((PC ^^^ (s.ghist &&& ((shl64 wide 71 + (2 ^ 64 - 1)) % 2 ^ 64))) % 10) * 2 ^ 10)
            % 2 ^ 32) &&& (10240 - 1)) := by
  have h18a : bank ≤ 18 := h18
  obtain ⟨c, hci⟩ := tage_ch_i_get s hc bank h1 h18a
  obtain ⟨hsz, _⟩ := tage_size_get s hc bank h1 h18a
  obtain ⟨hm9, hm1⟩ := tage_m_get s hc
  have hmask : shl_mask 5 = some 31 := by decide
  have e1 : u32_pred 5120 = 5120 - 1 := by decide
  have e2 : u32_pred 10240 = 10240 - 1 := by decide
  have hne : bank ≠ 0 := by omega
  refine ⟨_, hci, ?_⟩
  unfold gindex
  by_cases h9 : bank < BORN
  · have hge : ¬ bank ≥ BORN := by omega
    have hlen : (tage_gtable s bank).length = 5120 := by
      simp only [tage_gtable, hne, h9, if_true, if_false]
      exact hc.2.1
    simp only [hci, hsz, hm1, hmask, hge, h9, hlen, e1, if_true, if_false,
      Option.bind_eq_bind, Option.some_bind, Option.pure_def, LOGG, NBANKLOW]
  · have hge : bank ≥ BORN := by omega
    have hlen : (tage_gtable s bank).length = 10240 := by
      simp only [tage_gtable, hne, h9, if_false]
      exact hc.2.2.1
    simp only [hci, hsz, hm9, hge, h9, hlen, e2, if_true, if_false,
      Option.bind_eq_bind, Option.some_bind, Option.pure_def, LOGG, NBANKHIGH]

/-- The fresh predictor, `PC = 1027`, bank 9. -/
theorem tage_index_formula_witness :
    TageConfigured tage_predictor_init ∧ 1 ≤ 9 ∧ 9 ≤ NHIST ∧
      ∃ fh, tage_predictor_init.ch_i[9]? = some fh ∧
        gindex wide_hw tage_predictor_init 1027 9 =
          some (if 9 < BORN then
            (((1027 ^^^ (1027 >>> 10) ^^^ fh.comp) +
                ((1027 ^^^ (tage_predictor_init.ghist &&& 31)) % 5) * 2 ^ 10)
              % 2 ^ 32) &&& (5120 - 1)
          else
            (((1027 ^^^ (1027 >>> 10) ^^^ fh.comp) +
                ((1027 ^^^ (tage_predictor_init.ghist &&&
                  ((shl64 wide_hw 71 + (2 ^ 64 - 1)) % 2 ^ 64))) % 10) * 2 ^ 10)
              % 2 ^ 32) &&& (10240 - 1)) :=
  ⟨tage_init_configured, by decide, by decide,
    tage_index_formula wide_hw tage_predictor_init tage_init_configured 1027 9 (by decide)
      (by decide)⟩

/-- C28 (TAGE allocation pass).  The allocation pass of `tage_predictor_train` for a
provider bank `h < NHIST` (0 when no bank hits), run on a configured state with saturated
counters such as the state after the provider update, returns, and there is a bank `a`
with `h + 1 ≤ a ≤ NHIST + 1` such that: the banks `h + 1, .., a - 1` are visited in
increasing order and each visit finds positive usefulness at `gindex(PC, bank)` and
decrements it by one (`tage_age_pass`), which changes no counter, no tag and no bimodal
entry; if `a ≤ NHIST`, the entry of bank `a` has usefulness 0 when visited and is
overwritten with tag `gtag(PC, a)`, counter 0 if taken else -1 and usefulness 0, and that
write ends the pass, so the banks above `a` are not visited; if `a = NHIST + 1` no entry
is overwritten.  Hence at most one entry has its tag rewritten. -/
theorem tage_allocation_pass (wide : Int → Nat) (s : TageState) (hc : TageConfigured s)
    (hs : TageSaturated s) (PC : Nat) (taken : Bool) (h : Nat) (hh : h < NHIST) :
    ∃ s1 a sm, tage_allocate wide PC taken (NHIST - h) (h + 1) s = some s1 ∧
      h + 1 ≤ a ∧ a ≤ NHIST + 1 ∧
      tage_age_pass wide PC (List.range' (h + 1) (a - (h + 1))) s = some sm ∧
      tage_ctr_tags sm = tage_ctr_tags s ∧ sm.btable = s.btable ∧
      (a ≤ NHIST → ∃ idx tag e, gindex wide s PC a = some idx ∧ gtag s PC a = some tag ∧
        (tage_gtable sm a)[idx]? = some e ∧ e.u = 0 ∧
        s1 = tage_gtable_write sm a idx
          { ctr := if taken then 0 else -1, tag := tag, u := 0 }) ∧
      (a = NHIST + 1 → s1 = sm) := by
  have hh1 : h < 18 := hh
  obtain ⟨s1, a, sm, hal, h1, h2, hage, hA, hB, _, _, _, _⟩ :=
    tage_allocate_spec wide PC taken (NHIST - h) (h + 1) s hc hs (by omega)
      (by simp only [NHIST]; omega)
  obtain ⟨_, hbt, hct⟩ := tage_age_pass_frame wide PC _ s sm hage
  exact ⟨s1, a, sm, hal, h1, h2, hage, hct, hbt, hA, hB⟩

/-- The allocation pass on the fresh predictor with no provider, `PC = 10`, not taken. -/
theorem tage_allocation_pass_witness :
    TageConfigured tage_predictor_init ∧ TageSaturated tage_predictor_init ∧ 0 < NHIST ∧
    ∃ s1 a sm, tage_allocate wide_hw 10 false (NHIST - 0) (0 + 1) tage_predictor_init = some s1 ∧
      0 + 1 ≤ a ∧ a ≤ NHIST + 1 ∧
      tage_age_pass wide_hw 10 (List.range' (0 + 1) (a - (0 + 1))) tage_predictor_init =
        some sm ∧
      tage_ctr_tags sm = tage_ctr_tags tage_predictor_init ∧
      sm.btable = tage_predictor_init.btable ∧
      (a ≤ NHIST → ∃ idx tag e, gindex wide_hw tage_predictor_init 10 a = some idx ∧
        gtag tage_predictor_init 10 a = some tag ∧
        (tage_gtable sm a)[idx]? = some e ∧ e.u = 0 ∧
        s1 = tage_gtable_write sm a idx
          { ctr := if false then 0 else -1, tag := tag, u := 0 }) ∧
      (a = NHIST + 1 → s1 = sm) :=
  ⟨tage_init_configured, tage_init_saturated, by decide,
    tage_allocation_pass wide_hw tage_predictor_init tage_init_configured tage_init_saturated
      10 false 0 (by decide)⟩

/-- The folded-history loop over banks `i, .., i + n - 1`: the folded histories of these
banks are updated with the raw history `ghist` of the state the loop starts in, the other
ones are unchanged. -/
theorem tage_update_folded_entries (wide : Int → Nat) (taken : Bool) :
    ∀ n i s, TageConfigured s → 1 ≤ i → i + n ≤ 19 →
    ∃ s1, tage_update_folded wide taken n i s = some s1 ∧
      ∀ j, (i ≤ j ∧ j < i + n →
          s1.ch_i[j]? = (s.ch_i[j]?).bind (fun f => update_folded_history wide f s.ghist taken) ∧
          s1.ch_t[j]? = (s.ch_t[j]?).bind (fun f => update_folded_history wide f s.ghist taken)) ∧
        (¬ (i ≤ j ∧ j < i + n) → s1.ch_i[j]? = s.ch_i[j]? ∧ s1.ch_t[j]? = s.ch_t[j]?) := by
  intro n
  induction n with
  | zero =>
    intro i s hc _ _
    refine ⟨s, rfl, fun j => ⟨fun h => by omega, fun _ => ⟨rfl, rfl⟩⟩⟩
  | succ n ih =>
    intro i s hc h1 h19
    have h18 : i ≤ 18 := by omega
    obtain ⟨ci, hci⟩ := tage_ch_i_get s hc i h1 h18
    obtain ⟨ct, hct⟩ := tage_ch_t_get s hc i h1 h18
    have hns := tage_noskip_get s hc i h1 h18
    obtain ⟨ci1, hui, _⟩ := update_folded_history_some wide ci 10 (tage_m.getD i 0)
      (Or.inr (Or.inl rfl)) (tage_m_getD_nonneg i) s.ghist taken
    obtain ⟨ct1, hut, _⟩ := update_folded_history_some wide ct (tage_TB.getD i 0)
      (tage_m.getD i 0) (tage_TB_getD_cases i h1 h18) (tage_m_getD_nonneg i) s.ghist taken
    have hli : i < s.ch_i.length := by
      by_contra hge
      rw [List.getElem?_eq_none (by omega)] at hci
      cases hci
    have hlt : i < s.ch_t.length := by
      by_contra hge
      rw [List.getElem?_eq_none (by omega)] at hct
      cases hct
    obtain ⟨c1, c2, c3, c4, c5, c6, c7, c8, c9⟩ := hc
    have hc1 : TageConfigured
        { s with
          ch_i := s.ch_i.set i { comp := ci1, CLENGTH := 10, OLENGTH := tage_m.getD i 0,
                                 OUTPOINT := Int.tmod (tage_m.getD i 0) 10 },
          ch_t := s.ch_t.set i { comp := ct1, CLENGTH := tage_TB.getD i 0,
                                 OLENGTH := tage_m.getD i 0,
                                 OUTPOINT := Int.tmod (tage_m.getD i 0) (tage_TB.getD i 0) } } := by
      refine ⟨c1, c2, c3, c4, c5, c6, c7, ?_, ?_⟩
      · show List.map _ (s.ch_i.set i _) = _
        rw [List.map_set, ← c8]
        apply list_set_same_of
        rw [List.getElem?_map, hci]
        rfl
      · show List.map _ (s.ch_t.set i _) = _
        rw [List.map_set, ← c9]
        apply list_set_same_of
        rw [List.getElem?_map, hct]
        rfl
    obtain ⟨s1, hs1, hent⟩ := ih (i + 1) _ hc1 (by omega) (by omega)
    refine ⟨s1, ?_, ?_⟩
    · rw [tage_update_folded]
      simp only [hns, hci, hct, hui, hut, Option.bind_eq_bind, Option.some_bind,
        Bool.not_true, Bool.false_eq_true, if_false]
      exact hs1
    · intro j
      obtain ⟨hin, hout⟩ := hent j
      constructor
      · intro hj
        by_cases hji : j = i
        · subst hji
          obtain ⟨e1, e2⟩ := hout (by omega)
          rw [e1, e2]
          simp only [List.getElem?_set_self hli, List.getElem?_set_self hlt, hci, hct,
            Option.some_bind, hui, hut, and_self]
        · obtain ⟨e1, e2⟩ := hin (by omega)
          rw [e1, e2]
          have hne : i ≠ j := fun h => hji h.symm
          simp only [List.getElem?_set_ne hne, and_self]
      · intro hj
        obtain ⟨e1, e2⟩ := hout (by omega)
        rw [e1, e2]
        have hne : i ≠ j := by omega
        simp only [List.getElem?_set_ne hne, and_self]

/-- The folded histories after one `tage_predictor_train` call on a configured state with
saturated counters: every bank's `ch_i` and `ch_t` is updated with the raw history as it
stood before the call, and `ghist` is shifted afterwards. -/
theorem tage_train_folded_eq (wide : Int → Nat) (s : TageState) (hc : TageConfigured s)
    (hs : TageSaturated s) (PC outcome : Nat) :
    ∃ s1, tage_predictor_train wide s PC outcome = some s1 ∧
      s1.ghist = ((s.ghist * 2) % 2 ^ 64) ||| (if outcome = 1 then 1 else 0) ∧
      ∀ i, 1 ≤ i → i ≤ NHIST →
        ∃ fi ft, s.ch_i[i]? = some fi ∧ s.ch_t[i]? = some ft ∧
          s1.ch_i[i]? = update_folded_history wide fi s.ghist (decide (outcome = 1)) ∧
          s1.ch_t[i]? = update_folded_history wide ft s.ghist (decide (outcome = 1)) ∧
          fi.OUTPOINT = Int.tmod fi.OLENGTH fi.CLENGTH ∧
          ft.OUTPOINT = Int.tmod ft.OLENGTH ft.CLENGTH ∧
          s1.ch_i[i]? = some { fi with comp :=
            ((((fi.comp * 2) % 2 ^ 32) ||| (if outcome = 1 then 1 else 0)) ^^^
              (((s.ghist &&& ((shl64 wide fi.OLENGTH + (2 ^ 64 - 1)) % 2 ^ 64)) >>>
                fi.OUTPOINT.toNat) &&& 1)) &&& (2 ^ fi.CLENGTH.toNat - 1) } ∧
          s1.ch_t[i]? = some { ft with comp :=
            ((((ft.comp * 2) % 2 ^ 32) ||| (if outcome = 1 then 1 else 0)) ^^^
              (((s.ghist &&& ((shl64 wide ft.OLENGTH + (2 ^ 64 - 1)) % 2 ^ 64)) >>>
                ft.OUTPOINT.toNat) &&& 1)) &&& (2 ^ ft.CLENGTH.toNat - 1) } := by
  obtain ⟨h, s1, pt, s2, s3, s4, hf, h18, hu, hp, hal, huu, ht, _, _, _, hg, ⟨_, _, _⟩,
    ⟨_, _, _, _⟩, ⟨hc3, _, hsh3, _⟩, _, _⟩ := tage_train_spec wide s hc hs PC outcome
  obtain ⟨s5, hfo, hent⟩ :=
    tage_update_folded_entries wide (decide (outcome = 1)) NHIST 1 s3 hc3 (le_refl _)
      (by simp only [NHIST]; omega)
  have hs4 : s4.ch_i = s5.ch_i ∧ s4.ch_t = s5.ch_t := by
    have hf1 : tage_find_hit wide s PC NHIST = some h := hf
    have ht1 := ht
    unfold tage_predictor_train at ht1
    simp only [hf1, hu, hp, Option.bind_eq_bind, Option.some_bind, Option.pure_def] at ht1
    by_cases hcond : (pt != decide (outcome = 1)) = true ∧ h < NHIST
    · rw [if_pos hcond] at hal ht1
      simp only [hal, huu, hfo, Option.some_bind, Option.some.injEq] at ht1
      rw [← ht1]
      exact ⟨rfl, rfl⟩
    · rw [if_neg hcond] at hal ht1
      cases hal
      simp only [huu, hfo, Option.some_bind, Option.some.injEq] at ht1
      rw [← ht1]
      exact ⟨rfl, rfl⟩
  obtain ⟨g1, _, _, _, _, g6, g7⟩ := hsh3
  refine ⟨s4, ht, hg, ?_⟩
  intro i hi1 hi18
  have hi18a : i ≤ 18 := hi18
  obtain ⟨ci, hci⟩ := tage_ch_i_get s hc i hi1 hi18a
  obtain ⟨ct, hct⟩ := tage_ch_t_get s hc i hi1 hi18a
  obtain ⟨e1, e2⟩ := (hent i).1 ⟨hi1, by simp only [NHIST]; omega⟩
  rw [g6, g1, hci] at e1
  rw [g7, g1, hct] at e2
  simp only [Option.some_bind] at e1 e2
  have hno1 : ¬ (Int.tmod (tage_m.getD i 0) 10 < 0 ∨ 64 ≤ Int.tmod (tage_m.getD i 0) 10) := by
    have := Int.tmod_nonneg (10 : Int) (tage_m_getD_nonneg i)
    have := Int.tmod_lt_of_pos (tage_m.getD i 0) (show (0 : Int) < 10 by decide)
    omega
  have hcl := tage_TB_getD_cases i hi1 hi18a
  have hno2 : ¬ (Int.tmod (tage_m.getD i 0) (tage_TB.getD i 0) < 0 ∨
      64 ≤ Int.tmod (tage_m.getD i 0) (tage_TB.getD i 0)) := by
    have := Int.tmod_nonneg (tage_TB.getD i 0) (tage_m_getD_nonneg i)
    have := Int.tmod_lt_of_pos (tage_m.getD i 0) (show (0 : Int) < tage_TB.getD i 0 by omega)
    omega
  have hm1 : shl_mask 10 = some (2 ^ (10 : Int).toNat - 1) := shl_mask_eq 10 (by decide) (by decide)
  have hm2 : shl_mask (tage_TB.getD i 0) = some (2 ^ (tage_TB.getD i 0).toNat - 1) :=
    shl_mask_eq _ (by omega) (by omega)
  refine ⟨_, _, hci, hct, by rw [hs4.1]; exact e1, by rw [hs4.2]; exact e2, rfl, rfl, ?_, ?_⟩
  · rw [hs4.1, e1]
    unfold update_folded_history
    simp only [hno1, if_false, hm1, Option.bind_eq_bind, Option.some_bind, Option.pure_def]
    by_cases ho : outcome = 1 <;> simp [ho]
  · rw [hs4.2, e2]
    unfold update_folded_history
    simp only [hno2, if_false, hm2, Option.bind_eq_bind, Option.some_bind, Option.pure_def]
    by_cases ho : outcome = 1 <;> simp [ho]

/-- C30 (folded-history update rule), what the code does.  On a configured state with
saturated counters `tage_predictor_train` returns; for every bank `i` of 1..18 both
`ch_i[i]` and `ch_t[i]` are replaced by `update_folded_history` applied to the old folded
history, the raw history `ghist` as it stood BEFORE the call, and the outcome bit, and
`ghist` is shifted afterwards.  The new `comp` is `(((comp << 1) | bit) XOR out)` masked to
`CLENGTH` bits, where `out` is bit `OUTPOINT` (that is `OLENGTH mod CLENGTH`) of the raw
history masked to its low `OLENGTH` bits: not the bit at position `OLENGTH - 1`. -/
theorem tage_folded_update_rule (wide : Int → Nat) (s : TageState) (hc : TageConfigured s)
    (hs : TageSaturated s) (PC outcome : Nat) :
    ∃ s1, tage_predictor_train wide s PC outcome = some s1 ∧
      s1.ghist = ((s.ghist * 2) % 2 ^ 64) ||| (if outcome = 1 then 1 else 0) ∧
      ∀ i, 1 ≤ i → i ≤ NHIST →
        ∃ fi ft, s.ch_i[i]? = some fi ∧ s.ch_t[i]? = some ft ∧
          s1.ch_i[i]? = update_folded_history wide fi s.ghist (decide (outcome = 1)) ∧
          s1.ch_t[i]? = update_folded_history wide ft s.ghist (decide (outcome = 1)) ∧
          fi.OUTPOINT = Int.tmod fi.OLENGTH fi.CLENGTH ∧
          ft.OUTPOINT = Int.tmod ft.OLENGTH ft.CLENGTH ∧
          s1.ch_i[i]? = some { fi with comp :=
            ((((fi.comp * 2) % 2 ^ 32) ||| (if outcome = 1 then 1 else 0)) ^^^
              (((s.ghist &&& ((shl64 wide fi.OLENGTH + (2 ^ 64 - 1)) % 2 ^ 64)) >>>
                fi.OUTPOINT.toNat) &&& 1)) &&& (2 ^ fi.CLENGTH.toNat - 1) } ∧
          s1.ch_t[i]? = some { ft with comp :=
            ((((ft.comp * 2) % 2 ^ 32) ||| (if outcome = 1 then 1 else 0)) ^^^
              (((s.ghist &&& ((shl64 wide ft.OLENGTH + (2 ^ 64 - 1)) % 2 ^ 64)) >>>
                ft.OUTPOINT.toNat) &&& 1)) &&& (2 ^ ft.CLENGTH.toNat - 1) } :=
  tage_train_folded_eq wide s hc hs PC outcome

/-- The first call on the fresh predictor. -/
theorem tage_folded_update_rule_witness :
    TageConfigured tage_predictor_init ∧ TageSaturated tage_predictor_init ∧
    ∃ s1, tage_predictor_train wide_hw tage_predictor_init 10 1 = some s1 ∧
      s1.ghist = ((tage_predictor_init.ghist * 2) % 2 ^ 64) ||| (if 1 = 1 then 1 else 0) ∧
      ∀ i, 1 ≤ i → i ≤ NHIST →
        ∃ fi ft, tage_predictor_init.ch_i[i]? = some fi ∧
          tage_predictor_init.ch_t[i]? = some ft ∧
          s1.ch_i[i]? =
            update_folded_history wide_hw fi tage_predictor_init.ghist (decide (1 = 1)) ∧
          s1.ch_t[i]? =
            update_folded_history wide_hw ft tage_predictor_init.ghist (decide (1 = 1)) ∧
          fi.OUTPOINT = Int.tmod fi.OLENGTH fi.CLENGTH ∧
          ft.OUTPOINT = Int.tmod ft.OLENGTH ft.CLENGTH ∧
          s1.ch_i[i]? = some { fi with comp :=
            ((((fi.comp * 2) % 2 ^ 32) ||| (if 1 = 1 then 1 else 0)) ^^^
              (((tage_predictor_init.ghist &&&
                  ((shl64 wide_hw fi.OLENGTH + (2 ^ 64 - 1)) % 2 ^ 64)) >>>
                fi.OUTPOINT.toNat) &&& 1)) &&& (2 ^ fi.CLENGTH.toNat - 1) } ∧
          s1.ch_t[i]? = some { ft with comp :=
            ((((ft.comp * 2) % 2 ^ 32) ||| (if 1 = 1 then 1 else 0)) ^^^
              (((tage_predictor_init.ghist &&&
                  ((shl64 wide_hw ft.OLENGTH + (2 ^ 64 - 1)) % 2 ^ 64)) >>>
                ft.OUTPOINT.toNat) &&& 1)) &&& (2 ^ ft.CLENGTH.toNat - 1) } :=
  ⟨tage_init_configured, tage_init_saturated,
    tage_folded_update_rule wide_hw tage_predictor_init tage_init_configured
      tage_init_saturated 10 1⟩

/-- The folded index history of bank 1 updated with the raw history `0b10000`, by the code
and by the rule in the words of the specification, for every value of the out-of-range
shift. -/
theorem update_folded_history_out_example (wide : Int → Nat) :
    update_folded_history wide { comp := 0, CLENGTH := 10, OLENGTH := 5, OUTPOINT := 5 } 16 false
        = some { comp := 0, CLENGTH := 10, OLENGTH := 5, OUTPOINT := 5 } ∧
      update_folded_history_spec { comp := 0, CLENGTH := 10, OLENGTH := 5, OUTPOINT := 5 } 16
          false
        = some { comp := 1, CLENGTH := 10, OLENGTH := 5, OUTPOINT := 5 } ∧
      tage_predictor_init.ch_i[1]? =
        some { comp := 0, CLENGTH := 10, OLENGTH := 5, OUTPOINT := 5 } := by
  refine ⟨?_, by decide, by decide⟩
  have h5 : shl64 wide 5 = 32 := by simp [shl64]
  have hm : shl_mask 10 = some 1023 := by decide
  simp only [update_folded_history, h5, hm, Option.bind_eq_bind, Option.some_bind,
    Option.pure_def]
  decide

/-- C30, failing input.  The folded index history of bank 1 as `init_histories` sets it up
(`CLENGTH = 10`, `OLENGTH = 5`, `OUTPOINT = 5`), the raw history `0b10000` and the new bit
0: the bit at position `OLENGTH - 1 = 4` of the history is 1, so the rule of the claim
gives `comp = 1`; the code masks the history to 5 bits and reads bit 5 of the result,
which is 0, so `comp` stays 0. -/
theorem update_folded_history_out_counterexample :
    update_folded_history wide_hw { comp := 0, CLENGTH := 10, OLENGTH := 5, OUTPOINT := 5 } 16
          false
        = some { comp := 0, CLENGTH := 10, OLENGTH := 5, OUTPOINT := 5 } ∧
      update_folded_history_spec { comp := 0, CLENGTH := 10, OLENGTH := 5, OUTPOINT := 5 } 16
          false
        = some { comp := 1, CLENGTH := 10, OLENGTH := 5, OUTPOINT := 5 } ∧
      tage_predictor_init.ch_i[1]? =
        some { comp := 0, CLENGTH := 10, OLENGTH := 5, OUTPOINT := 5 } :=
  update_folded_history_out_example wide_hw

theorem tage_gtable_congr (s s1 : TageState) (h1 : s1.gtable_low = s.gtable_low)
    (h2 : s1.gtable_high = s.gtable_high) (bank : Nat) :
    tage_gtable s1 bank = tage_gtable s bank := by
  unfold tage_gtable
  rw [h1, h2]

/-- The counter update at a weak counter: 0 becomes -1 on a not-taken outcome and -1
becomes 0 on a taken one, so the sign read afterwards agrees with the outcome. -/
theorem tage_ctr_update_weak (c : Int) (outcome : Nat)
    (hweak : (c = 0 ∧ outcome = 0) ∨ (c = -1 ∧ outcome = 1)) :
    tage_ctr_update (decide (outcome = 1)) c = (if outcome = 1 then 0 else -1) ∧
      decide (tage_ctr_update (decide (outcome = 1)) c ≥ 0) = decide (outcome = 1) ∧
      (if c ≥ 0 then 1 else 0) ≠ outcome := by
  rcases hweak with ⟨hc, ho⟩ | ⟨hc, ho⟩ <;> subst hc <;> subst ho <;> decide

set_option maxRecDepth 100000 in
/-- The fresh predictor at `PC = 10`: no bank matches (every bank computes index 10 and
tag 8, the stored tags are 0). -/
theorem tage_init_find_hit_10 : tage_find_hit wide_hw tage_predictor_init 10 NHIST = some 0 := by
  decide!

set_option maxRecDepth 100000 in
/-- The fresh predictor at `PC = 0`: bank 18 matches (index 0, tag 0). -/
theorem tage_init_find_hit_0 : tage_find_hit wide_hw tage_predictor_init 0 NHIST = some 18 := by
  decide!

set_option maxRecDepth 100000 in
theorem tage_init_btable_8 :
    tage_predictor_init.btable[tage_BI 10]? = some { pred := 0, hyst := 1 } := by
  decide!

set_option maxRecDepth 100000 in
theorem tage_init_gindex_0_18 : gindex wide_hw tage_predictor_init 0 18 = some 0 := by
  decide!

set_option maxRecDepth 100000 in
theorem tage_init_entry_0_18 :
    (tage_gtable tage_predictor_init 18)[0]? = some { ctr := 0, tag := 0, u := 0 } := by
  decide!

/-- C27 (TAGE allocation on misprediction), what the code does at a weak counter.  In a
configured state with saturated counters where no bank matches `PC` and the bimodal
counter of `PC` is weak against the outcome (0 with a not-taken outcome, or -1 with a
taken one), `tage_predictor_predict(PC)` differs from the outcome, and still
`tage_predictor_train(PC, outcome)` runs no allocation: both tagged tables are unchanged.
The test `pred_taken != taken` reads the counter after the provider update has moved it
across zero. -/
theorem tage_weak_misprediction_no_allocation (wide : Int → Nat) (s : TageState)
    (hc : TageConfigured s) (hs : TageSaturated s) (PC outcome : Nat) (b : bentry_t)
    (hf : tage_find_hit wide s PC NHIST = some 0) (hb : s.btable[tage_BI PC]? = some b)
    (hweak : (b.pred = 0 ∧ outcome = 0) ∨ (b.pred = -1 ∧ outcome = 1)) :
    (∃ r, tage_predictor_predict wide s PC = some r ∧ r ≠ outcome) ∧
    ∃ s1, tage_predictor_train wide s PC outcome = some s1 ∧
      s1.gtable_low = s.gtable_low ∧ s1.gtable_high = s.gtable_high := by
  obtain ⟨hw1, hw2, hw3⟩ := tage_ctr_update_weak b.pred outcome hweak
  constructor
  · obtain ⟨h, b1, hf1, _, hb1, h0, _⟩ := tage_predict_eq wide s hc PC
    rw [hf] at hf1
    cases hf1
    rw [hb] at hb1
    cases hb1
    exact ⟨_, h0 rfl, hw3⟩
  · obtain ⟨h, s1, pt, s2, s3, s4, hf1, _, hu, hp, hal, huu, ht, _, e2, e3, _, _, _, _, _, _⟩ :=
      tage_train_spec wide s hc hs PC outcome
    rw [hf] at hf1
    cases hf1
    obtain ⟨b1, hb1, hu1, hp1, hc1, hs1⟩ :=
      tage_provider_step_bimodal wide s hc hs PC (decide (outcome = 1))
    rw [hb] at hb1
    cases hb1
    rw [hu1] at hu
    cases hu
    rw [hp1] at hp
    cases hp
    have hcond : ¬ ((decide (tage_ctr_update (decide (outcome = 1)) b.pred ≥ 0)
        != decide (outcome = 1)) = true ∧ 0 < NHIST) := by
      rw [hw2]
      simp
    rw [if_neg hcond] at hal
    cases hal
    obtain ⟨s3a, huu1, _, _, _, _, hz, _⟩ :=
      tage_update_useful_spec wide _ hc1 hs1 PC 0
        (decide (tage_ctr_update (decide (outcome = 1)) b.pred ≥ 0)) (decide (outcome = 1))
        (by omega)
    rw [huu1] at huu
    cases huu
    rw [hz rfl] at e2 e3
    exact ⟨s4, ht, e2, e3⟩

/-- The fresh predictor, `PC = 10`, outcome 0: no bank matches and the bimodal counter is
0, so the prediction 1 is wrong, and the train call leaves the tagged tables as they
were. -/
theorem tage_weak_misprediction_no_allocation_witness :
    TageConfigured tage_predictor_init ∧ TageSaturated tage_predictor_init ∧
    tage_find_hit wide_hw tage_predictor_init 10 NHIST = some 0 ∧
    tage_predictor_init.btable[tage_BI 10]? = some { pred := 0, hyst := 1 } ∧
    (∃ r, tage_predictor_predict wide_hw tage_predictor_init 10 = some r ∧ r ≠ 0) ∧
    ∃ s1, tage_predictor_train wide_hw tage_predictor_init 10 0 = some s1 ∧
      s1.gtable_low = tage_predictor_init.gtable_low ∧
      s1.gtable_high = tage_predictor_init.gtable_high :=
  ⟨tage_init_configured, tage_init_saturated, tage_init_find_hit_10, tage_init_btable_8,
    tage_weak_misprediction_no_allocation wide_hw tage_predictor_init tage_init_configured
      tage_init_saturated 10 0 { pred := 0, hyst := 1 } tage_init_find_hit_10
      tage_init_btable_8 (Or.inl ⟨rfl, rfl⟩)⟩

set_option maxRecDepth 100000 in
/-- C27, failing input.  `tage_predictor_init(); tage_predictor_train(10, 0)`: before the
call the prediction is 1, so the outcome 0 is a misprediction with no provider, and bank 1
has usefulness 0 at `gindex(10, 1) = 10`, so that entry should receive the tag
`gtag(10, 1) = 8`; after the call it still holds tag 0 and counter 0. -/
theorem tage_allocation_missed_counterexample :
    tage_predictor_predict wide_hw tage_predictor_init 10 = some 1 ∧
      tage_find_hit wide_hw tage_predictor_init 10 NHIST = some 0 ∧
      gindex wide_hw tage_predictor_init 10 1 = some 10 ∧
      gtag tage_predictor_init 10 1 = some 8 ∧
      tage_predictor_init.gtable_low[10]? = some { ctr := 0, tag := 0, u := 0 } ∧
      (tage_predictor_train wide_hw tage_predictor_init 10 0).bind
          (fun s => s.gtable_low[10]?) = some { ctr := 0, tag := 0, u := 0 } := by
  decide!

/-- C29 (TAGE usefulness update), what the code does at a weak counter.  In a configured
state with saturated counters where bank `h` is the provider for `PC`, its entry `e` at
`gindex(PC, h)` has a counter that is weak against the outcome (0 with a not-taken
outcome, or -1 with a taken one) and usefulness below 3, the value
`tage_predictor_predict(PC)` differs from the outcome, and still
`tage_predictor_train(PC, outcome)` increments the usefulness of the provider entry: the
test `pred_taken == taken` reads the counter after the provider update has moved it
across zero. -/
theorem tage_useful_on_weak_misprediction (wide : Int → Nat) (s : TageState)
    (hc : TageConfigured s) (hs : TageSaturated s) (PC outcome h idx : Nat) (e : gentry_t)
    (hf : tage_find_hit wide s PC NHIST = some h) (hpos : 0 < h)
    (hi : gindex wide s PC h = some idx) (he : (tage_gtable s h)[idx]? = some e)
    (hweak : (e.ctr = 0 ∧ outcome = 0) ∨ (e.ctr = -1 ∧ outcome = 1)) (hu3 : e.u < 3) :
    (∃ r, tage_predictor_predict wide s PC = some r ∧ r ≠ outcome) ∧
    ∃ s1, tage_predictor_train wide s PC outcome = some s1 ∧
      (tage_gtable s1 h)[idx]? =
        some { ctr := if outcome = 1 then 0 else -1, tag := e.tag, u := e.u + 1 } := by
  obtain ⟨hw1, hw2, hw3⟩ := tage_ctr_update_weak e.ctr outcome hweak
  constructor
  · obtain ⟨h1, b1, hf1, _, _, _, hp⟩ := tage_predict_eq wide s hc PC
    rw [hf] at hf1
    cases hf1
    obtain ⟨idx1, e1, hi1, he1, _, hpr⟩ := hp hpos
    rw [hi] at hi1
    cases hi1
    rw [he] at he1
    cases he1
    exact ⟨_, hpr, hw3⟩
  · obtain ⟨h1, s1, pt, s2, s3, s4, hf1, h18, hu, hp, hal, huu, ht, _, e2, e3, _, _, _, _, _, _⟩ :=
      tage_train_spec wide s hc hs PC outcome
    rw [hf] at hf1
    cases hf1
    obtain ⟨idx1, e1, hi1, he1, hlt, hu1, hp1, hc1, hs1⟩ :=
      tage_provider_step_tagged wide s hc hs PC h (decide (outcome = 1)) hpos h18
    rw [hi] at hi1
    cases hi1
    rw [he] at he1
    cases he1
    rw [hu1] at hu
    cases hu
    rw [hp1] at hp
    cases hp
    have hcond : ¬ ((decide (tage_ctr_update (decide (outcome = 1)) e.ctr ≥ 0)
        != decide (outcome = 1)) = true ∧ h < NHIST) := by
      rw [hw2]
      simp
    rw [if_neg hcond] at hal
    cases hal
    have hsame := tage_write_same s h idx
      { e with ctr := tage_ctr_update (decide (outcome = 1)) e.ctr }
    obtain ⟨s3a, huu1, _, _, _, _, _, hw⟩ :=
      tage_update_useful_spec wide _ hc1 hs1 PC h
        (decide (tage_ctr_update (decide (outcome = 1)) e.ctr ≥ 0)) (decide (outcome = 1)) h18
    rw [huu1] at huu
    cases huu
    obtain ⟨idx2, e2a, hi2, he2, hs3⟩ := hw hpos
    rw [tage_gindex_same wide hsame, hi] at hi2
    cases hi2
    rw [tage_read_write_self s h idx _ hpos hlt] at he2
    cases he2
    have hcond2 : decide (tage_ctr_update (decide (outcome = 1)) e.ctr ≥ 0) =
        decide (outcome = 1) ∧ e.u < 3 := ⟨hw2, hu3⟩
    rw [if_pos hcond2] at hs3
    refine ⟨s4, ht, ?_⟩
    rw [tage_gtable_congr _ s4 e2 e3, hs3]
    have hlt2 : idx < (tage_gtable (tage_gtable_write s h idx
        { e with ctr := tage_ctr_update (decide (outcome = 1)) e.ctr }) h).length := by
      obtain ⟨idx3, hi3, hlt3⟩ := tage_gindex_some wide _ hc1 PC h hpos h18
      rw [tage_gindex_same wide hsame, hi] at hi3
      cases hi3
      exact hlt3
    rw [tage_read_write_self _ h idx _ hpos hlt2, hw1]

/-- The fresh predictor, `PC = 0`, outcome 0: bank 18 is the provider with counter 0 and
usefulness 0; the prediction 1 is wrong and the usefulness becomes 1. -/
theorem tage_useful_on_weak_misprediction_witness :
    TageConfigured tage_predictor_init ∧ TageSaturated tage_predictor_init ∧
    tage_find_hit wide_hw tage_predictor_init 0 NHIST = some 18 ∧
    gindex wide_hw tage_predictor_init 0 18 = some 0 ∧
    (tage_gtable tage_predictor_init 18)[0]? = some { ctr := 0, tag := 0, u := 0 } ∧
    (∃ r, tage_predictor_predict wide_hw tage_predictor_init 0 = some r ∧ r ≠ 0) ∧
    ∃ s1, tage_predictor_train wide_hw tage_predictor_init 0 0 = some s1 ∧
      (tage_gtable s1 18)[0]? =
        some { ctr := if 0 = 1 then 0 else -1, tag := 0, u := 0 + 1 } :=
  ⟨tage_init_configured, tage_init_saturated, tage_init_find_hit_0, tage_init_gindex_0_18,
    tage_init_entry_0_18,
    tage_useful_on_weak_misprediction wide_hw tage_predictor_init tage_init_configured
      tage_init_saturated 0 0 18 0 { ctr := 0, tag := 0, u := 0 } tage_init_find_hit_0
      (by decide) tage_init_gindex_0_18 tage_init_entry_0_18 (Or.inl ⟨rfl, rfl⟩) (by decide)⟩

set_option maxRecDepth 100000 in
/-- C29, failing input.  `tage_predictor_init(); tage_predictor_train(0, 0)`: before the
call bank 18 is the provider and the prediction is 1, so the outcome 0 is a misprediction;
after the call the provider entry `gtable[18][0]` has usefulness 1. -/
theorem tage_useful_incremented_counterexample :
    tage_predictor_predict wide_hw tage_predictor_init 0 = some 1 ∧
      tage_find_hit wide_hw tage_predictor_init 0 NHIST = some 18 ∧
      gindex wide_hw tage_predictor_init 0 18 = some 0 ∧
      tage_predictor_init.gtable_high[0]? = some { ctr := 0, tag := 0, u := 0 } ∧
      (tage_predictor_train wide_hw tage_predictor_init 0 0).bind
          (fun s => s.gtable_high[0]?) = some { ctr := -1, tag := 0, u := 1 } := by
  decide!

/-- Induction over the calls that produce a reachable state. -/
theorem tage_train_seq_induction (wide : Int → Nat) (P : TageState → Prop)
    (hstep : ∀ s PC outcome s1, TageConfigured s → TageSaturated s → P s →
      tage_predictor_train wide s PC outcome = some s1 → P s1) :
    ∀ calls s s1, TageConfigured s → TageSaturated s → P s →
      tage_train_seq wide s calls = some s1 → P s1 := by
  intro calls
  induction calls with
  | nil =>
    intro s s1 _ _ hp h
    cases h
    exact hp
  | cons c rest ih =>
    intro s s1 hc hs hp h
    obtain ⟨PC, outcome⟩ := c
    obtain ⟨s2, ht, hc2, hs2⟩ := tage_train_configured wide s hc hs PC outcome
    simp only [tage_train_seq, ht, Option.some_bind] at h
    exact ih s2 s1 hc2 hs2 (hstep s PC outcome s2 hc hs hp ht) h

theorem tage_reachable_induction (wide : Int → Nat) (P : TageState → Prop)
    (h0 : P tage_predictor_init)
    (hstep : ∀ s PC outcome s1, TageConfigured s → TageSaturated s → P s →
      tage_predictor_train wide s PC outcome = some s1 → P s1) :
    ∀ s, TageReachable wide s → P s := by
  intro s ⟨calls, hcalls⟩
  exact tage_train_seq_induction wide P hstep calls _ s tage_init_configured
    tage_init_saturated h0 hcalls

theorem tage_init_folded_bounded : TageFoldedBounded tage_predictor_init := by
  intro i h1 h18
  obtain ⟨c, hci⟩ := tage_ch_i_get _ tage_init_configured i h1 h18
  obtain ⟨ct, hct⟩ := tage_ch_t_get _ tage_init_configured i h1 h18
  have hall : (∀ f ∈ tage_predictor_init.ch_i, f.comp = 0) ∧
      (∀ f ∈ tage_predictor_init.ch_t, f.comp = 0) := by decide
  constructor
  · intro f hf
    rw [hall.1 f (List.getElem?_mem hf)]
    exact Nat.two_pow_pos _
  · intro f hf
    rw [hall.2 f (List.getElem?_mem hf)]
    exact Nat.two_pow_pos _

theorem tage_train_folded_bounded (wide : Int → Nat) (s : TageState) (hc : TageConfigured s)
    (hs : TageSaturated s) (PC outcome : Nat) (s1 : TageState)
    (ht : tage_predictor_train wide s PC outcome = some s1) : TageFoldedBounded s1 := by
  obtain ⟨s2, ht2, _, hall⟩ := tage_train_folded_eq wide s hc hs PC outcome
  rw [ht] at ht2
  cases ht2
  intro i h1 h18
  obtain ⟨fi, ft, hfi, hft, e1, e2, _, _, _, _⟩ := hall i h1 h18
  obtain ⟨ci, hci⟩ := tage_ch_i_get s hc i h1 h18
  obtain ⟨ct, hct⟩ := tage_ch_t_get s hc i h1 h18
  rw [hci] at hfi
  cases hfi
  rw [hct] at hft
  cases hft
  obtain ⟨ci1, hui, hbi⟩ := update_folded_history_some wide ci 10 (tage_m.getD i 0)
    (Or.inr (Or.inl rfl)) (tage_m_getD_nonneg i) s.ghist (decide (outcome = 1))
  obtain ⟨ct1, hut, hbt⟩ := update_folded_history_some wide ct (tage_TB.getD i 0)
    (tage_m.getD i 0) (tage_TB_getD_cases i h1 h18) (tage_m_getD_nonneg i) s.ghist
    (decide (outcome = 1))
  rw [hui] at e1
  rw [hut] at e2
  constructor
  · intro f hf
    rw [e1] at hf
    cases hf
    exact hbi
  · intro f hf
    rw [e2] at hf
    cases hf
    rw [(tage_TB_get i h1 h18).2] at hbt
    by_cases h9 : i < 9
    · simp only [h9, if_true] at hbt ⊢
      exact hbt
    · simp only [h9, if_false] at hbt ⊢
      exact hbt

/-- C31 (folded-history width invariant).  In every state reachable from
`tage_predictor_init` by `tage_predictor_train` calls and for every bank `i` of 1..18,
`ch_i[i].comp < 2 ^ 10` and `ch_t[i].comp < 2 ^ TB[i]`, where `TB[i]` is 8 for `i < 9` and
12 for `i ≥ 9`; and `gtag(PC, i)` is defined and below `2 ^ TB[i]` for every `PC`. -/
theorem tage_folded_width (wide : Int → Nat) (s : TageState) (hr : TageReachable wide s)
    (i : Nat) (h1 : 1 ≤ i) (h18 : i ≤ NHIST) :
    ∃ fi ft, s.ch_i[i]? = some fi ∧ s.ch_t[i]? = some ft ∧
      s.TB[i]? = some (if i < 9 then 8 else 12) ∧
      fi.comp < 2 ^ 10 ∧ ft.comp < 2 ^ (if i < 9 then 8 else 12) ∧
      ∀ PC, ∃ tag, gtag s PC i = some tag ∧ tag < 2 ^ (if i < 9 then 8 else 12) := by
  have h18a : i ≤ 18 := h18
  obtain ⟨hc, _⟩ := tage_reachable_configured wide s hr
  have hb : TageFoldedBounded s :=
    tage_reachable_induction wide TageFoldedBounded tage_init_folded_bounded
      (fun s0 PC outcome s1 hc0 hs0 _ ht => tage_train_folded_bounded wide s0 hc0 hs0 PC outcome s1 ht)
      s hr
  obtain ⟨ci, hci⟩ := tage_ch_i_get s hc i h1 h18a
  obtain ⟨ct, hct⟩ := tage_ch_t_get s hc i h1 h18a
  have hTB : s.TB[i]? = some (if i < 9 then 8 else 12) := by
    rw [hc.2.2.2.2.1]
    exact (tage_TB_get i h1 h18a).1
  exact ⟨_, _, hci, hct, hTB, (hb i h1 h18a).1 _ hci, (hb i h1 h18a).2 _ hct,
    fun PC => tage_gtag_some s hc PC i h1 h18a⟩

theorem tage_init_twin : TageTwin tage_predictor_init := by
  constructor <;> decide

theorem tage_train_twin (wide : Int → Nat) (s : TageState) (hc : TageConfigured s)
    (hs : TageSaturated s) (htw : TageTwin s) (PC outcome : Nat) (s1 : TageState)
    (ht : tage_predictor_train wide s PC outcome = some s1) : TageTwin s1 := by
  obtain ⟨s2, ht2, _, hall⟩ := tage_train_folded_eq wide s hc hs PC outcome
  rw [ht] at ht2
  cases ht2
  obtain ⟨fi, ft, hfi, hft, e1, e2, _⟩ := hall 17 (by decide) (by decide)
  obtain ⟨gi, gt, hgi, hgt, d1, d2, _⟩ := hall 18 (by decide) (by decide)
  rw [htw.1, hgi] at hfi
  cases hfi
  rw [htw.2, hgt] at hft
  cases hft
  exact ⟨e1.trans d1.symm, e2.trans d2.symm⟩

theorem tage_twin_lookup (wide : Int → Nat) (s : TageState) (hc : TageConfigured s)
    (htw : TageTwin s) (PC : Nat) :
    gindex wide s PC 17 = gindex wide s PC 18 ∧ gtag s PC 17 = gtag s PC 18 ∧
      tage_gtable s 17 = tage_gtable s 18 ∧
      tage_lookup wide s PC 17 = tage_lookup wide s PC 18 := by
  have hsz : s.SizeTable[17]? = s.SizeTable[18]? := by
    rw [hc.2.2.2.2.2.1, tage_init_SizeTable]
    decide
  have hTB : s.TB[17]? = s.TB[18]? := by
    rw [hc.2.2.2.2.1]
    decide
  have hg : gindex wide s PC 17 = gindex wide s PC 18 := by
    have h17 : (17 : Nat) ≥ BORN := by decide
    have h18 : (18 : Nat) ≥ BORN := by decide
    simp only [gindex, htw.1, hsz, h17, h18, if_true]
  have ht : gtag s PC 17 = gtag s PC 18 := by
    simp only [gtag, htw.2, hTB]
  have htab : tage_gtable s 17 = tage_gtable s 18 := rfl
  refine ⟨hg, ht, htab, ?_⟩
  simp only [tage_lookup, hg, ht, htab]

/-- The search loop never stops at bank 17 when banks 17 and 18 coincide. -/
theorem tage_twin_find_hit (wide : Int → Nat) (s : TageState) (hc : TageConfigured s)
    (htw : TageTwin s) (PC : Nat) : tage_find_hit wide s PC NHIST ≠ some 17 := by
  intro hf
  obtain ⟨h, hf2, _, _, hpos⟩ := tage_find_hit_spec wide s hc PC 18 (le_refl _)
  have hf1 : tage_find_hit wide s PC 18 = some 17 := hf
  rw [hf1] at hf2
  cases hf2
  obtain ⟨⟨e, tag, hl, htag⟩, hno⟩ := hpos (by decide)
  rw [(tage_twin_lookup wide s hc htw PC).2.2.2] at hl
  exact hno 18 e (by decide) (le_refl _) ⟨tag, hl, htag⟩

/-- C35 (TAGE banks 17 and 18 coincide).  In every state reachable from
`tage_predictor_init` by `tage_predictor_train` calls: `m[17] = m[18] = 1000`,
`TB[17] = TB[18]`, both banks use the table `gtable[BORN]`, `ch_i[17] = ch_i[18]` and
`ch_t[17] = ch_t[18]`; hence for every `PC`, `gindex(PC, 17) = gindex(PC, 18)` and
`gtag(PC, 17) = gtag(PC, 18)`, and neither the search loop of `tage_predictor_train` nor
the one of `tage_predictor_predict` stops at bank 17. -/
theorem tage_banks_17_18_coincide (wide : Int → Nat) (s : TageState)
    (hr : TageReachable wide s) :
    s.m[17]? = some 1000 ∧ s.m[18]? = some 1000 ∧ s.TB[17]? = s.TB[18]? ∧
    tage_gtable s 17 = s.gtable_high ∧ tage_gtable s 18 = s.gtable_high ∧
    s.ch_i[17]? = s.ch_i[18]? ∧ s.ch_t[17]? = s.ch_t[18]? ∧
    ∀ PC, gindex wide s PC 17 = gindex wide s PC 18 ∧ gtag s PC 17 = gtag s PC 18 ∧
      tage_find_hit wide s PC NHIST ≠ some 17 ∧
      ∀ pt r, tage_predict_loop wide s PC 0 pt NHIST = some r → r.1 ≠ 17 := by
  obtain ⟨hc, _⟩ := tage_reachable_configured wide s hr
  have htw : TageTwin s :=
    tage_reachable_induction wide TageTwin tage_init_twin
      (fun s0 PC outcome s1 hc0 hs0 h0 ht => tage_train_twin wide s0 hc0 hs0 h0 PC outcome s1 ht)
      s hr
  have hm : s.m = tage_m := hc.2.2.2.1
  have hTB : s.TB = tage_TB := hc.2.2.2.2.1
  refine ⟨by rw [hm]; rfl, by rw [hm]; rfl, by rw [hTB]; decide, rfl, rfl, htw.1, htw.2, ?_⟩
  intro PC
  obtain ⟨hg, ht, _, _⟩ := tage_twin_lookup wide s hc htw PC
  have hnf := tage_twin_find_hit wide s hc htw PC
  refine ⟨hg, ht, hnf, ?_⟩
  intro pt r hr1 h17
  have hloop := tage_predict_loop_eq wide s hc PC pt 18 (le_refl _)
  have hr2 : tage_predict_loop wide s PC 0 pt 18 = some r := hr1
  rw [hr2] at hloop
  cases hf : tage_find_hit wide s PC 18 with
  | none => rw [hf] at hloop; cases hloop
  | some h =>
    rw [hf] at hloop
    simp only [Option.some_bind] at hloop
    by_cases h0 : h = 0
    · subst h0
      simp only [if_true, Option.some.injEq] at hloop
      rw [hloop] at h17
      cases h17
    · simp only [h0, if_false] at hloop
      cases hl : tage_lookup wide s PC h with
      | none => rw [hl] at hloop; cases hloop
      | some p =>
        rw [hl] at hloop
        simp only [Option.map_some', Option.some.injEq] at hloop
        rw [hloop] at h17
        have : h = 17 := h17
        subst this
        exact hnf hf

/-- In a configured state `gindex(PC, bank)` is a value masked with 5119 below `BORN` and
with 10239 from `BORN` on. -/
theorem tage_gindex_mask (wide : Int → Nat) (s : TageState) (hc : TageConfigured s)
    (PC bank : Nat) (h1 : 1 ≤ bank) (h18 : bank ≤ 18) :
    ∃ x, gindex wide s PC bank = some (x &&& (if bank < BORN then 5119 else 10239)) := by
  obtain ⟨c, hci⟩ := tage_ch_i_get s hc bank h1 h18
  obtain ⟨hsz, _⟩ := tage_size_get s hc bank h1 h18
  obtain ⟨hm9, hm1⟩ := tage_m_get s hc
  have hmask : shl_mask 5 = some 31 := by decide
  have e1 : u32_pred 5120 = 5119 := by decide
  have e2 : u32_pred 10240 = 10239 := by decide
  have hne : bank ≠ 0 := by omega
  unfold gindex
  by_cases h9 : bank < BORN
  · have hge : ¬ bank ≥ BORN := by omega
    have hlen : (tage_gtable s bank).length = 5120 := by
      simp only [tage_gtable, hne, h9, if_true, if_false]
      exact hc.2.1
    simp only [hci, hsz, hm1, hmask, hge, h9, hlen, e1, if_true, if_false,
      Option.bind_eq_bind, Option.some_bind, Option.pure_def]
    exact ⟨_, rfl⟩
  · have hge : bank ≥ BORN := by omega
    have hlen : (tage_gtable s bank).length = 10240 := by
      simp only [tage_gtable, hne, h9, if_false]
      exact hc.2.2.1
    simp only [hci, hsz, hm9, hge, h9, hlen, e2, if_true, if_false,
      Option.bind_eq_bind, Option.some_bind, Option.pure_def]
    exact ⟨_, rfl⟩

theorem and_5119 (x : Nat) :
    (x &&& 5119).testBit 10 = false ∧ (x &&& 5119).testBit 11 = false ∧
      (x &&& 5119) % 4096 < 1024 ∧ x &&& 5119 < 5120 := by
  have h1 : (x &&& 5119) % 4096 = x % 1024 := by
    have e : (4096 : Nat) = 2 ^ 12 := by norm_num
    have e3 : (1024 : Nat) = 2 ^ 10 := by norm_num
    rw [e, ← Nat.and_pow_two_sub_one_eq_mod, Nat.and_assoc, e3,
      ← Nat.and_pow_two_sub_one_eq_mod]
    rfl
  have h2 : x % 1024 < 1024 := Nat.mod_lt _ (by norm_num)
  have h3 : x &&& 5119 ≤ 5119 := Nat.and_le_right
  refine ⟨?_, ?_, by omega, by omega⟩
  · rw [Nat.testBit_and]
    have : (5119 : Nat).testBit 10 = false := by decide
    rw [this, Bool.and_false]
  · rw [Nat.testBit_and]
    have : (5119 : Nat).testBit 11 = false := by decide
    rw [this, Bool.and_false]

theorem and_10239 (x : Nat) :
    (x &&& 10239).testBit 11 = false ∧ (x &&& 10239).testBit 12 = false ∧
      (x &&& 10239) % 8192 < 2048 ∧ x &&& 10239 < 10240 := by
  have h1 : (x &&& 10239) % 8192 = x % 2048 := by
    have e : (8192 : Nat) = 2 ^ 13 := by norm_num
    have e3 : (2048 : Nat) = 2 ^ 11 := by norm_num
    rw [e, ← Nat.and_pow_two_sub_one_eq_mod, Nat.and_assoc, e3,
      ← Nat.and_pow_two_sub_one_eq_mod]
    rfl
  have h2 : x % 2048 < 2048 := Nat.mod_lt _ (by norm_num)
  have h3 : x &&& 10239 ≤ 10239 := Nat.and_le_right
  refine ⟨?_, ?_, by omega, by omega⟩
  · rw [Nat.testBit_and]
    have : (10239 : Nat).testBit 11 = false := by decide
    rw [this, Bool.and_false]
  · rw [Nat.testBit_and]
    have : (10239 : Nat).testBit 12 = false := by decide
    rw [this, Bool.and_false]

theorem tage_gindex_good (wide : Int → Nat) (s : TageState) (hc : TageConfigured s)
    (PC bank idx : Nat) (h1 : 1 ≤ bank) (h18 : bank ≤ 18)
    (hi : gindex wide s PC bank = some idx) : TageIndexGood bank idx := by
  obtain ⟨x, hx⟩ := tage_gindex_mask wide s hc PC bank h1 h18
  rw [hi] at hx
  cases hx
  unfold TageIndexGood
  by_cases h9 : bank < BORN
  · simp only [h9, if_true]
    exact (and_5119 x).2.2.1
  · simp only [h9, if_false]
    exact (and_10239 x).2.2.1

theorem tage_index_good_group (bank bank1 idx : Nat)
    (hg : decide (bank < BORN) = decide (bank1 < BORN)) (h : TageIndexGood bank idx) :
    TageIndexGood bank1 idx := by
  unfold TageIndexGood at h ⊢
  by_cases h9 : bank < BORN <;> by_cases h91 : bank1 < BORN <;>
    simp only [h9, h91, decide_True, decide_False, if_true, if_false] at hg h ⊢
  · exact h
  · cases hg
  · cases hg
  · exact h

theorem tage_write_untouched (wide : Int → Nat) (s : TageState) (hc : TageConfigured s)
    (hu : TageUntouched s) (PC bank idx : Nat) (e : gentry_t) (h1 : 1 ≤ bank)
    (h18 : bank ≤ 18) (hi : gindex wide s PC bank = some idx) :
    TageUntouched (tage_gtable_write s bank idx e) := by
  obtain ⟨idx1, hi1, hlt⟩ := tage_gindex_some wide s hc PC bank h1 h18
  rw [hi] at hi1
  cases hi1
  have hgood := tage_gindex_good wide s hc PC bank idx h1 h18 hi
  intro bank1 j e1 hb1 he1 hbad
  rw [tage_read_write s bank idx e bank1 j h1 hb1 hlt] at he1
  split at he1
  · rename_i hcond
    obtain ⟨hg, hj⟩ := hcond
    subst hj
    exact absurd (tage_index_good_group bank bank1 j hg hgood) hbad
  · exact hu bank1 j e1 hb1 he1 hbad

theorem tage_age_pass_untouched (wide : Int → Nat) (PC : Nat) :
    ∀ banks s sm, TageConfigured s → TageUntouched s → (∀ b ∈ banks, 1 ≤ b ∧ b ≤ 18) →
      tage_age_pass wide PC banks s = some sm → TageUntouched sm ∧ TageConfigured sm := by
  intro banks
  induction banks with
  | nil =>
    intro s sm hc hu _ h
    cases h
    exact ⟨hu, hc⟩
  | cons i rest ih =>
    intro s sm hc hu hb h
    obtain ⟨hb1, hb18⟩ := hb i (List.mem_cons_self _ _)
    rw [tage_age_pass] at h
    cases hi : gindex wide s PC i with
    | none => rw [hi] at h; cases h
    | some idx =>
      cases he : (tage_gtable s i)[idx]? with
      | none => rw [hi] at h; simp [he] at h
      | some e =>
        simp only [hi, he, Option.bind_eq_bind, Option.some_bind] at h
        split at h
        · exact ih _ sm (tage_write_configured s hc _ _ _)
            (tage_write_untouched wide s hc hu PC i idx _ hb1 hb18 hi)
            (fun b hb2 => hb b (List.mem_cons_of_mem _ hb2)) h
        · cases h

theorem tage_init_untouched : TageUntouched tage_predictor_init := by
  intro bank j e _ he _
  unfold tage_gtable at he
  split at he
  · simp at he
  · split at he
    · exact List.eq_of_mem_replicate (List.getElem?_mem he)
    · exact List.eq_of_mem_replicate (List.getElem?_mem he)

theorem tage_untouched_congr (s s1 : TageState) (h1 : s1.gtable_low = s.gtable_low)
    (h2 : s1.gtable_high = s.gtable_high) (hu : TageUntouched s) : TageUntouched s1 := by
  intro bank j e hb he hbad
  rw [tage_gtable_congr s s1 h1 h2] at he
  exact hu bank j e hb he hbad

theorem tage_train_untouched (wide : Int → Nat) (s : TageState) (hc : TageConfigured s)
    (hs : TageSaturated s) (hu : TageUntouched s) (PC outcome : Nat) (s4 : TageState)
    (ht : tage_predictor_train wide s PC outcome = some s4) : TageUntouched s4 := by
  obtain ⟨h, s1, pt, s2, s3, s4a, hf, h18, hup, hp, hal, huu, ht1, _, e2, e3, _,
    ⟨hc1, hs1, hsh1⟩, ⟨hc2, hs2, hsh2, _⟩, _, _, _⟩ := tage_train_spec wide s hc hs PC outcome
  rw [ht] at ht1
  cases ht1
  have hu1 : TageUntouched s1 := by
    by_cases h0 : h = 0
    · subst h0
      obtain ⟨b, _, hu1, _⟩ := tage_provider_step_bimodal wide s hc hs PC (decide (outcome = 1))
      rw [hu1] at hup
      cases hup
      exact tage_untouched_congr s _ rfl rfl hu
    · obtain ⟨idx, e, hi, _, _, hu1, _⟩ :=
        tage_provider_step_tagged wide s hc hs PC h (decide (outcome = 1)) (by omega) h18
      rw [hu1] at hup
      cases hup
      exact tage_write_untouched wide s hc hu PC h idx _ (by omega) h18 hi
  have hu2 : TageUntouched s2 := by
    by_cases hcond : (pt != decide (outcome = 1)) = true ∧ h < NHIST
    · rw [if_pos hcond] at hal
      have hlt : h < 18 := hcond.2
      obtain ⟨s2a, a, sm, hal1, ha1, ha2, hage, hA, hB, _⟩ :=
        tage_allocate_spec wide PC (decide (outcome = 1)) (NHIST - h) (h + 1) s1 hc1 hs1
          (by omega) (by simp only [NHIST]; omega)
      rw [hal] at hal1
      cases hal1
      obtain ⟨hum, hcm⟩ := tage_age_pass_untouched wide PC _ s1 sm hc1 hu1
        (by
          intro b hb
          rw [List.mem_range'_1] at hb
          omega) hage
      obtain ⟨hshm, _, _⟩ := tage_age_pass_frame wide PC _ s1 sm hage
      by_cases ha : a ≤ 18
      · obtain ⟨idx, tag, e, hi, _, _, _, hs2eq⟩ := hA ha
        rw [hs2eq]
        rw [← tage_gindex_same wide hshm] at hi
        exact tage_write_untouched wide sm hcm hum PC a idx _ (by omega) ha hi
      · rw [hB (by omega)]
        exact hum
    · rw [if_neg hcond] at hal
      cases hal
      exact hu1
  have hu3 : TageUntouched s3 := by
    obtain ⟨s3a, huu1, _, _, _, _, hz, hpos⟩ :=
      tage_update_useful_spec wide s2 hc2 hs2 PC h pt (decide (outcome = 1)) h18
    rw [huu] at huu1
    cases huu1
    by_cases h0 : h = 0
    · rw [hz h0]
      exact hu2
    · obtain ⟨idx, e, hi, _, hs3⟩ := hpos (by omega)
      rw [hs3]
      split
      · exact tage_write_untouched wide s2 hc2 hu2 PC h idx _ (by omega) h18 hi
      · exact hu2
  exact tage_untouched_congr s3 s4 e2 e3 hu3

/-- C36 (TAGE table masks are not powers of two).  In every state reachable from
`tage_predictor_init` by `tage_predictor_train` calls, for every `PC` and bank of 1..18,
`gindex(PC, bank)` is defined; for a bank below 9 its bits 10 and 11 are 0 (mask
`5119 = 0x13FF`), so it is `4096 * hi + lo` with `hi < 2` and `lo < 1024`: at most 2048 of
the 5120 entries of the low table; from bank 9 on its bits 11 and 12 are 0 (mask
`10239 = 0x27FF`), so it is `8192 * hi + lo` with `hi < 2` and `lo < 2048`: at most 4096 of
the 10240 entries of the high table.  Every entry of either table at another index still
holds the zero entry of the initialisation: it has never been written. -/
theorem tage_index_unreachable_part (wide : Int → Nat) (s : TageState)
    (hr : TageReachable wide s) :
    (∀ PC bank, 1 ≤ bank → bank ≤ NHIST →
      ∃ idx, gindex wide s PC bank = some idx ∧
        (bank < 9 → idx.testBit 10 = false ∧ idx.testBit 11 = false ∧ idx < 5120 ∧
          ∃ hi lo, hi < 2 ∧ lo < 1024 ∧ idx = 4096 * hi + lo) ∧
        (9 ≤ bank → idx.testBit 11 = false ∧ idx.testBit 12 = false ∧ idx < 10240 ∧
          ∃ hi lo, hi < 2 ∧ lo < 2048 ∧ idx = 8192 * hi + lo)) ∧
    (∀ j e, s.gtable_low[j]? = some e → ¬ j % 4096 < 1024 →
      e = { ctr := 0, tag := 0, u := 0 }) ∧
    (∀ j e, s.gtable_high[j]? = some e → ¬ j % 8192 < 2048 →
      e = { ctr := 0, tag := 0, u := 0 }) := by
  obtain ⟨hc, _⟩ := tage_reachable_configured wide s hr
  have hu : TageUntouched s :=
    tage_reachable_induction wide TageUntouched tage_init_untouched
      (fun s0 PC outcome s1 hc0 hs0 h0 ht =>
        tage_train_untouched wide s0 hc0 hs0 h0 PC outcome s1 ht) s hr
  refine ⟨?_, ?_, ?_⟩
  · intro PC bank h1 h18
    have h18a : bank ≤ 18 := h18
    obtain ⟨x, hx⟩ := tage_gindex_mask wide s hc PC bank h1 h18a
    refine ⟨_, hx, ?_, ?_⟩
    · intro h9
      have h9a : bank < BORN := h9
      simp only [h9a, if_true]
      obtain ⟨b1, b2, b3, b4⟩ := and_5119 x
      refine ⟨b1, b2, b4, (x &&& 5119) / 4096, (x &&& 5119) % 4096, by omega, b3, by omega⟩
    · intro h9
      have h9a : ¬ bank < BORN := by simp only [BORN]; omega
      simp only [h9a, if_false]
      obtain ⟨b1, b2, b3, b4⟩ := and_10239 x
      refine ⟨b1, b2, b4, (x &&& 10239) / 8192, (x &&& 10239) % 8192, by omega, b3, by omega⟩
  · intro j e he hbad
    refine hu 1 j e (le_refl _) he ?_
    simp only [TageIndexGood, BORN]
    exact hbad
  · intro j e he hbad
    refine hu 9 j e (by decide) he ?_
    simp only [TageIndexGood, BORN]
    exact hbad

/-- The entries `m[2 .. 17]` of `tage_m` are the integers the expression of
`init_histories` rounds to: the real value `v = 5 * 200 ^ ((i - 1) / 16)` satisfies
`m - 0.4995 ≤ v < m + 0.4995`, so `v + 0.5` truncates to `m` for every evaluation of `pow`
with an error below `0.0005`.  The bounds are written with 16th powers:
`(2000 m - 999) ^ 16 ≤ 10000 ^ 16 * 200 ^ (i - 1) < (2000 m + 999) ^ 16`. -/
theorem tage_m_nearest :
    ∀ i < 18, 2 ≤ i →
      (2000 * (tage_m.getD i 0).toNat - 999) ^ 16 ≤ 10000 ^ 16 * 200 ^ (i - 1) ∧
        10000 ^ 16 * 200 ^ (i - 1) < (2000 * (tage_m.getD i 0).toNat + 999) ^ 16 := by
  decide

/-- C32 (TAGE history lengths), what the code computes.  After `init_histories`,
`m[1] = MINHIST = 5` and `m[NHIST] = m[18] = MAXHIST = 1000`, and `m[i] < m[i + 1]` for
every `i` with `1 ≤ i < 17`; but `m[17] = 1000 = m[18]`, because the exponent of the
progression is `(i - 1) / (NHIST - 2)`, which is 1 already at `i = NHIST - 1`: the lengths
are not strictly increasing up to bank 18. -/
theorem tage_history_lengths :
    tage_predictor_init.m[1]? = some MINHIST ∧ tage_predictor_init.m[NHIST]? = some MAXHIST ∧
      (∀ i < 17, 1 ≤ i →
        tage_predictor_init.m.getD i 0 < tage_predictor_init.m.getD (i + 1) 0) ∧
      tage_predictor_init.m[17]? = some 1000 ∧ tage_predictor_init.m[18]? = some 1000 ∧
      ¬ (tage_predictor_init.m.getD 17 0 < tage_predictor_init.m.getD 18 0) := by
  decide

/-- C32, failing input.  `tage_predictor_init()`: the claim needs `m[17] < m[18]`, the
code leaves `m[17] = m[18] = 1000`. -/
theorem tage_history_lengths_counterexample :
    tage_predictor_init.m[17]? = some 1000 ∧ tage_predictor_init.m[18]? = some 1000 ∧
      ¬ (tage_predictor_init.m.getD 17 0 < tage_predictor_init.m.getD 18 0) := by
  decide

/-! ### The TAGE predictor: counters -/

theorem tage_ctr_update_toward (outcome : Nat) (c : Int) (h1 : -4 ≤ c) (h2 : c ≤ 3) :
    tage_ctr_update (decide (outcome = 1)) c = tage_ctr_toward outcome c := by
  rw [(tage_ctr_update_eq _ c h1 h2).1]
  unfold tage_ctr_toward
  by_cases ho : outcome = 1 <;> simp [ho]

/-- The steps of one train call as far as the provider's counter is concerned. -/
theorem tage_train_provider_counter (wide : Int → Nat) (s : TageState)
    (hc : TageConfigured s) (hs : TageSaturated s) (PC outcome : Nat) :
    ∃ h s1 s4, tage_find_hit wide s PC NHIST = some h ∧
      tage_update_provider wide s PC h (decide (outcome = 1)) = some s1 ∧
      tage_predictor_train wide s PC outcome = some s4 ∧ TageSaturated s4 ∧
      (h = 0 → ∃ b, s.btable[tage_BI PC]? = some b ∧
        s1.btable[tage_BI PC]? = some { b with pred := tage_ctr_toward outcome b.pred } ∧
        s4.btable[tage_BI PC]? = some { b with pred := tage_ctr_toward outcome b.pred }) ∧
      (0 < h → ∃ idx e, gindex wide s PC h = some idx ∧
        (tage_gtable s h)[idx]? = some e ∧
        (tage_gtable s1 h)[idx]? = some { e with ctr := tage_ctr_toward outcome e.ctr } ∧
        (h = NHIST ∨ decide (tage_ctr_toward outcome e.ctr ≥ 0) = decide (outcome = 1) →
          ∃ e4, (tage_gtable s4 h)[idx]? = some e4 ∧
            e4.ctr = tage_ctr_toward outcome e.ctr ∧ e4.tag = e.tag)) := by
  obtain ⟨h, s1, pt, s2, s3, s4, hf, h18, hup, hp, hal, huu, ht, e1, e2, e3, _,
    ⟨hc1, hs1, hsh1⟩, ⟨hc2, hs2, hsh2, hb2⟩, ⟨_, _, _, hb3⟩, _, hs4⟩ :=
    tage_train_spec wide s hc hs PC outcome
  refine ⟨h, s1, s4, hf, hup, ht, hs4, ?_, ?_⟩
  · intro h0
    subst h0
    obtain ⟨b, hb, hu1, _, _, _⟩ :=
      tage_provider_step_bimodal wide s hc hs PC (decide (outcome = 1))
    rw [hu1] at hup
    cases hup
    have hlt : tage_BI PC < s.btable.length := by
      rw [hc.1]; exact tage_BI_lt PC
    have hmem := hs.2.2 b (List.getElem?_mem hb)
    have hr : (s.btable.set (tage_BI PC)
        { b with pred := tage_ctr_update (decide (outcome = 1)) b.pred })[tage_BI PC]? =
        some { b with pred := tage_ctr_toward outcome b.pred } := by
      rw [List.getElem?_set_self hlt, tage_ctr_update_toward outcome b.pred hmem.1 hmem.2]
    refine ⟨b, hb, hr, ?_⟩
    rw [e1, hb3]
    exact hr
  · intro hpos
    obtain ⟨idx, e, hi, he, hlt, hu1, hp1, _, _⟩ :=
      tage_provider_step_tagged wide s hc hs PC h (decide (outcome = 1)) hpos h18
    rw [hu1] at hup
    cases hup
    rw [hp1] at hp
    cases hp
    obtain ⟨x1, x2, _, _⟩ := tage_entry_saturated s hs h idx e he
    have hto := tage_ctr_update_toward outcome e.ctr x1 x2
    have hr1 := tage_read_write_self s h idx
      { e with ctr := tage_ctr_update (decide (outcome = 1)) e.ctr } hpos hlt
    refine ⟨idx, e, hi, he, ?_, ?_⟩
    · rw [← hto]
      exact hr1
    rw [← hto]
    intro hno
    have hcond : ¬ ((decide (tage_ctr_update (decide (outcome = 1)) e.ctr ≥ 0)
        != decide (outcome = 1)) = true ∧ h < NHIST) := by
      rintro ⟨hne, hlt2⟩
      rcases hno with hh | hh
      · omega
      · rw [hh] at hne
        simp at hne
    rw [if_neg hcond] at hal
    cases hal
    have hsame := tage_write_same s h idx
      { e with ctr := tage_ctr_update (decide (outcome = 1)) e.ctr }
    obtain ⟨s3a, huu1, _, _, _, _, _, hw⟩ :=
      tage_update_useful_spec wide _ hc1 hs1 PC h
        (decide (tage_ctr_update (decide (outcome = 1)) e.ctr ≥ 0)) (decide (outcome = 1)) h18
    rw [huu1] at huu
    cases huu
    obtain ⟨idx2, e2a, hi2, he2, hs3⟩ := hw hpos
    rw [tage_gindex_same wide hsame, hi] at hi2
    cases hi2
    rw [hr1] at he2
    cases he2
    rw [tage_gtable_congr _ s4 e2 e3, hs3]
    have hlt2 : idx < (tage_gtable (tage_gtable_write s h idx
        { e with ctr := tage_ctr_update (decide (outcome = 1)) e.ctr }) h).length := by
      obtain ⟨idx3, hi3, hlt3⟩ := tage_gindex_some wide _ hc1 PC h hpos h18
      rw [tage_gindex_same wide hsame, hi] at hi3
      cases hi3
      exact hlt3
    split
    · rw [tage_read_write_self _ h idx _ hpos hlt2]
      exact ⟨_, rfl, rfl, rfl⟩
    · rw [hr1]
      exact ⟨_, rfl, rfl, rfl⟩

/-- C26, amended (TAGE counters saturate).  In every state reachable from
`tage_predictor_init` by `tage_predictor_train` calls every tagged entry has its counter in
`[-4, 3]` and its usefulness in `[0, 3]` and every bimodal `pred` is in `[-4, 3]`
(`TageSaturated`), and one more train call returns a state with the same property.  The
provider update of the call moves the provider's counter, the bimodal counter when no bank
hits, by exactly one toward the outcome unless it is at that bound (`tage_ctr_toward`).
The bimodal counter keeps this value to the end of the call.  The counter of a tagged
provider entry keeps it to the end of the call when no allocation pass follows, that is
when the provider is bank `NHIST` or the sign of the moved counter agrees with the
outcome; otherwise the allocation pass can overwrite the provider's own entry through a
higher bank that computes the same index of the shared table. -/
theorem tage_counters_saturate (wide : Int → Nat) (s : TageState)
    (hr : TageReachable wide s) (PC outcome : Nat) :
    TageSaturated s ∧
    ∃ h s1 s4, tage_find_hit wide s PC NHIST = some h ∧
      tage_update_provider wide s PC h (decide (outcome = 1)) = some s1 ∧
      tage_predictor_train wide s PC outcome = some s4 ∧ TageSaturated s4 ∧
      (h = 0 → ∃ b, s.btable[tage_BI PC]? = some b ∧
        s1.btable[tage_BI PC]? = some { b with pred := tage_ctr_toward outcome b.pred } ∧
        s4.btable[tage_BI PC]? = some { b with pred := tage_ctr_toward outcome b.pred }) ∧
      (0 < h → ∃ idx e, gindex wide s PC h = some idx ∧
        (tage_gtable s h)[idx]? = some e ∧
        (tage_gtable s1 h)[idx]? = some { e with ctr := tage_ctr_toward outcome e.ctr } ∧
        (h = NHIST ∨ decide (tage_ctr_toward outcome e.ctr ≥ 0) = decide (outcome = 1) →
          ∃ e4, (tage_gtable s4 h)[idx]? = some e4 ∧
            e4.ctr = tage_ctr_toward outcome e.ctr ∧ e4.tag = e.tag)) := by
  obtain ⟨hc, hs⟩ := tage_reachable_configured wide s hr
  exact ⟨hs, tage_train_provider_counter wide s hc hs PC outcome⟩

/-! ### The TAGE predictor: runs evaluated on a sparse representation of the tables -/

theorem assoc_dense_get {α : Type} (d : α) (ov : List (Nat × α)) (n j : Nat) :
    (assoc_dense d ov n)[j]? = if j < n then some (assoc_get d ov j) else none := by
  unfold assoc_dense
  rw [List.getElem?_map]
  by_cases h : j < n
  · rw [List.getElem?_range h, if_pos h]
    rfl
  · rw [List.getElem?_eq_none (by rw [List.length_range]; omega), if_neg h]
    rfl

theorem assoc_dense_length {α : Type} (d : α) (ov : List (Nat × α)) (n : Nat) :
    (assoc_dense d ov n).length = n := by
  unfold assoc_dense
  rw [List.length_map, List.length_range]

theorem assoc_dense_set {α : Type} (d : α) (ov : List (Nat × α)) (n j : Nat) (v : α) :
    (assoc_dense d ov n).set j v = assoc_dense d ((j, v) :: ov) n := by
  apply List.ext_getElem?
  intro k
  rw [assoc_dense_get]
  by_cases hjk : j = k
  · subst hjk
    by_cases hj : j < n
    · rw [List.getElem?_set_self (by rw [assoc_dense_length]; exact hj), if_pos hj]
      simp only [assoc_get, if_true]
    · rw [List.getElem?_eq_none (by rw [List.length_set, assoc_dense_length]; omega),
        if_neg hj]
  · rw [List.getElem?_set_ne hjk, assoc_dense_get]
    by_cases hk : k < n
    · simp only [hk, if_true, assoc_get, hjk, if_false]
    · simp only [hk, if_false]

theorem assoc_dense_nil {α : Type} (d : α) (n : Nat) :
    assoc_dense d [] n = List.replicate n d := by
  apply List.ext_getElem?
  intro k
  rw [assoc_dense_get, List.getElem?_replicate]
  by_cases hk : k < n
  · simp only [hk, if_true, assoc_get]
  · simp only [hk, if_false]

theorem tage_dense_init : tage_dense tage_sparse_init = tage_predictor_init := by
  unfold tage_dense tage_sparse_init tage_predictor_init
  simp only [assoc_dense_nil]

theorem tage_dense_low (sp : TageSparse) :
    (tage_dense sp).gtable_low =
      assoc_dense { ctr := 0, tag := 0, u := 0 } sp.lo (NBANKLOW * 2 ^ LOGG) := rfl

theorem tage_dense_high (sp : TageSparse) :
    (tage_dense sp).gtable_high =
      assoc_dense { ctr := 0, tag := 0, u := 0 } sp.hi (NBANKHIGH * 2 ^ LOGG) := rfl

theorem tage_dense_btable (sp : TageSparse) :
    (tage_dense sp).btable = assoc_dense { pred := 0, hyst := 1 } sp.bt (2 ^ LOGB) := rfl

theorem tage_dense_read (sp : TageSparse) (bank idx : Nat) :
    (tage_gtable (tage_dense sp) bank)[idx]? = tage_sparse_read sp bank idx := by
  unfold tage_gtable tage_sparse_read
  by_cases h0 : bank = 0
  · simp only [h0, if_true]
    rfl
  · by_cases h9 : bank < BORN
    · simp only [h0, h9, if_true, if_false, tage_dense_low, assoc_dense_get]
    · simp only [h0, h9, if_false, tage_dense_high, assoc_dense_get]

theorem tage_dense_write (sp : TageSparse) (bank idx : Nat) (e : gentry_t) :
    tage_gtable_write (tage_dense sp) bank idx e = tage_dense (tage_sparse_write sp bank idx e) := by
  unfold tage_gtable_write tage_sparse_write
  by_cases h0 : bank = 0
  · simp only [h0, if_true]
  · by_cases h9 : bank < BORN
    · simp only [h0, h9, if_true, if_false, tage_dense_low, assoc_dense_set]
      rfl
    · simp only [h0, h9, if_false, tage_dense_high, assoc_dense_set]
      rfl

theorem tage_dense_bread (sp : TageSparse) (j : Nat) :
    (tage_dense sp).btable[j]? = tage_sparse_bread sp j := by
  unfold tage_sparse_bread
  rw [tage_dense_btable, assoc_dense_get]

theorem tage_dense_bwrite (sp : TageSparse) (j : Nat) (b : bentry_t) :
    { tage_dense sp with btable := (tage_dense sp).btable.set j b } =
      tage_dense { sp with bt := (j, b) :: sp.bt } := by
  rw [tage_dense_btable, assoc_dense_set]
  rfl

theorem tage_dense_ch_i (sp : TageSparse) : (tage_dense sp).ch_i = sp.core.ch_i := rfl

theorem tage_dense_ch_t (sp : TageSparse) : (tage_dense sp).ch_t = sp.core.ch_t := rfl

theorem tage_dense_size (sp : TageSparse) : (tage_dense sp).SizeTable = sp.core.SizeTable := rfl

theorem tage_dense_m (sp : TageSparse) : (tage_dense sp).m = sp.core.m := rfl

theorem tage_dense_TB (sp : TageSparse) : (tage_dense sp).TB = sp.core.TB := rfl

theorem tage_dense_ghist (sp : TageSparse) : (tage_dense sp).ghist = sp.core.ghist := rfl

theorem tage_dense_noskip (sp : TageSparse) : (tage_dense sp).NOSKIP = sp.core.NOSKIP := rfl

theorem tage_dense_gindex (wide : Int → Nat) (sp : TageSparse) (PC bank : Nat) :
    gindex wide (tage_dense sp) PC bank = gindex wide sp.core PC bank := by
  simp only [gindex, tage_dense_ch_i, tage_dense_size, tage_dense_m, tage_dense_ghist]

theorem tage_dense_gtag (sp : TageSparse) (PC bank : Nat) :
    gtag (tage_dense sp) PC bank = gtag sp.core PC bank := by
  simp only [gtag, tage_dense_ch_t, tage_dense_TB]

theorem tage_sim_find_hit (wide : Int → Nat) (sp : TageSparse) (PC : Nat) :
    ∀ n, tage_find_hit wide (tage_dense sp) PC n = tage_find_hit_sp wide sp PC n := by
  intro n
  induction n with
  | zero => rfl
  | succ n ih =>
    simp only [tage_find_hit, tage_find_hit_sp, tage_dense_gindex, tage_dense_gtag,
      tage_dense_noskip, tage_dense_read, ih]

theorem tage_sim_update_provider (wide : Int → Nat) (sp : TageSparse) (PC h : Nat)
    (taken : Bool) :
    tage_update_provider wide (tage_dense sp) PC h taken =
      (tage_update_provider_sp wide sp PC h taken).map tage_dense := by
  unfold tage_update_provider tage_update_provider_sp
  by_cases hh : h > 0
  · simp only [hh, if_true, tage_dense_gindex, tage_dense_read, tage_dense_write,
      Option.bind_eq_bind, Option.pure_def]
    cases gindex wide sp.core PC h with
    | none => rfl
    | some idx =>
      simp only [Option.some_bind]
      cases tage_sparse_read sp h idx with
      | none => rfl
      | some e => rfl
  · simp only [hh, if_false, tage_dense_bread, Option.bind_eq_bind, Option.pure_def]
    cases tage_sparse_bread sp (tage_BI PC) with
    | none => rfl
    | some b =>
      simp only [Option.some_bind, Option.map_some', tage_dense_bwrite]

theorem tage_sim_train_pred (wide : Int → Nat) (sp : TageSparse) (PC h : Nat) :
    tage_train_pred wide (tage_dense sp) PC h = tage_train_pred_sp wide sp PC h := by
  unfold tage_train_pred tage_train_pred_sp
  simp only [tage_dense_gindex, tage_dense_read, tage_dense_bread]

theorem tage_sim_allocate (wide : Int → Nat) (PC : Nat) (taken : Bool) :
    ∀ n i sp, tage_allocate wide PC taken n i (tage_dense sp) =
      (tage_allocate_sp wide PC taken n i sp).map tage_dense := by
  intro n
  induction n with
  | zero => intro i sp; rfl
  | succ n ih =>
    intro i sp
    rw [tage_allocate, tage_allocate_sp]
    simp only [tage_dense_gindex, tage_dense_gtag, tage_dense_noskip, tage_dense_read,
      tage_dense_write, ih, Option.bind_eq_bind, Option.pure_def]
    cases sp.core.NOSKIP[i]? with
    | none => rfl
    | some ns =>
      simp only [Option.some_bind]
      cases ns with
      | false => simp
      | true =>
        simp only [Bool.not_true, Bool.false_eq_true, if_false]
        cases gindex wide sp.core PC i with
        | none => rfl
        | some idx =>
          simp only [Option.some_bind]
          cases tage_sparse_read sp i idx with
          | none => rfl
          | some e =>
            simp only [Option.some_bind]
            split
            · cases gtag sp.core PC i with
              | none => rfl
              | some tag => rfl
            · split <;> rfl

theorem tage_sim_update_useful (wide : Int → Nat) (sp : TageSparse) (PC h : Nat)
    (pt taken : Bool) :
    tage_update_useful wide (tage_dense sp) PC h pt taken =
      (tage_update_useful_sp wide sp PC h pt taken).map tage_dense := by
  unfold tage_update_useful tage_update_useful_sp
  by_cases hh : h > 0
  · simp only [hh, if_true, tage_dense_gindex, tage_dense_read, tage_dense_write,
      Option.bind_eq_bind, Option.pure_def]
    cases gindex wide sp.core PC h with
    | none => rfl
    | some idx =>
      simp only [Option.some_bind]
      cases tage_sparse_read sp h idx with
      | none => rfl
      | some e =>
        simp only [Option.some_bind]
        split
        · split <;> rfl
        · rfl
  · simp only [hh, if_false, Option.pure_def, Option.map_some']

theorem tage_sim_update_folded (wide : Int → Nat) (taken : Bool) :
    ∀ n i sp, tage_update_folded wide taken n i (tage_dense sp) =
      (tage_update_folded wide taken n i sp.core).map
        (fun c => tage_dense { sp with core := c }) := by
  intro n
  induction n with
  | zero => intro i sp; rfl
  | succ n ih =>
    intro i sp
    rw [tage_update_folded, tage_update_folded]
    simp only [tage_dense_noskip, tage_dense_ch_i, tage_dense_ch_t, tage_dense_ghist,
      Option.bind_eq_bind]
    cases sp.core.NOSKIP[i]? with
    | none => rfl
    | some ns =>
      simp only [Option.some_bind]
      cases ns with
      | false =>
        simp only [Bool.not_false, if_true]
        exact ih (i + 1) sp
      | true =>
        simp only [Bool.not_true, Bool.false_eq_true, if_false]
        cases sp.core.ch_i[i]? with
        | none => rfl
        | some fi =>
          simp only [Option.some_bind]
          cases update_folded_history wide fi sp.core.ghist taken with
          | none => rfl
          | some fi1 =>
            simp only [Option.some_bind]
            cases sp.core.ch_t[i]? with
            | none => rfl
            | some ft =>
              simp only [Option.some_bind]
              cases update_folded_history wide ft sp.core.ghist taken with
              | none => rfl
              | some ft1 =>
                simp only [Option.some_bind]
                exact ih (i + 1)
                  { sp with core := { sp.core with ch_i := sp.core.ch_i.set i fi1,
                                                   ch_t := sp.core.ch_t.set i ft1 } }

/-- One train call on the state a sparse state stands for is the train call on the sparse
state. -/
theorem tage_sim_train (wide : Int → Nat) (sp : TageSparse) (PC outcome : Nat) :
    tage_predictor_train wide (tage_dense sp) PC outcome =
      (tage_predictor_train_sp wide sp PC outcome).map tage_dense := by
  unfold tage_predictor_train tage_predictor_train_sp
  simp only [tage_sim_find_hit, Option.bind_eq_bind, Option.pure_def]
  cases tage_find_hit_sp wide sp PC NHIST with
  | none => rfl
  | some h =>
    simp only [Option.some_bind, tage_sim_update_provider]
    cases tage_update_provider_sp wide sp PC h (decide (outcome = 1)) with
    | none => rfl
    | some sp1 =>
      simp only [Option.map_some', Option.some_bind, tage_sim_train_pred]
      cases tage_train_pred_sp wide sp1 PC h with
      | none => rfl
      | some pt =>
        simp only [Option.some_bind]
        have key : ∀ sp2 : TageSparse,
            ((tage_update_useful wide (tage_dense sp2) PC h pt (decide (outcome = 1))).bind
              fun s3 => (tage_update_folded wide (decide (outcome = 1)) NHIST 1 s3).bind
                fun s4 => some { s4 with ghist := ((s4.ghist * 2) % 2 ^ 64) |||
                  (if decide (outcome = 1) then 1 else 0) }) =
            Option.map tage_dense
              ((tage_update_useful_sp wide sp2 PC h pt (decide (outcome = 1))).bind
                fun sp3 => (tage_update_folded wide (decide (outcome = 1)) NHIST 1 sp3.core).bind
                  fun c4 => some { sp3 with core := { c4 with ghist :=
                    ((c4.ghist * 2) % 2 ^ 64) ||| (if decide (outcome = 1) then 1 else 0) } }) := by
          intro sp2
          rw [tage_sim_update_useful]
          cases tage_update_useful_sp wide sp2 PC h pt (decide (outcome = 1)) with
          | none => rfl
          | some sp3 =>
            simp only [Option.map_some', Option.some_bind, tage_sim_update_folded]
            cases tage_update_folded wide (decide (outcome = 1)) NHIST 1 sp3.core with
            | none => rfl
            | some c4 => rfl
        by_cases hcond : (pt != decide (outcome = 1)) = true ∧ h < NHIST
        · simp only [hcond, and_self, if_true, tage_sim_allocate]
          cases tage_allocate_sp wide PC (decide (outcome = 1)) (NHIST - h) (h + 1) sp1 with
          | none => rfl
          | some sp2 =>
            simp only [Option.map_some', Option.some_bind]
            exact key sp2
        · simp only [hcond, if_false, Option.some_bind]
          exact key sp1

theorem tage_sim_train_seq (wide : Int → Nat) :
    ∀ calls sp, tage_train_seq wide (tage_dense sp) calls =
      (tage_train_seq_sp wide sp calls).map tage_dense := by
  intro calls
  induction calls with
  | nil => intro sp; rfl
  | cons c rest ih =>
    intro sp
    obtain ⟨PC, outcome⟩ := c
    simp only [tage_train_seq, tage_train_seq_sp, tage_sim_train]
    cases tage_predictor_train_sp wide sp PC outcome with
    | none => rfl
    | some sp1 =>
      simp only [Option.map_some', Option.some_bind]
      exact ih sp1

/-- A run from `tage_predictor_init` is the run from the sparse fresh predictor. -/
theorem tage_run_sparse (wide : Int → Nat) (calls : List (Nat × Nat)) :
    tage_train_seq wide tage_predictor_init calls =
      (tage_train_seq_sp wide tage_sparse_init calls).map tage_dense := by
  rw [← tage_dense_init]
  exact tage_sim_train_seq wide calls tage_sparse_init

theorem option_map_bind {α β γ : Type} (x : Option α) (f : α → β) (g : β → Option γ) :
    (x.map f).bind g = x.bind (fun a => g (f a)) := by
  cases x <;> rfl

set_option maxRecDepth 100000 in
/-- The run `tage_alias_setup` followed by `tage_predictor_train(4096, 0)`, evaluated on the
sparse representation: the provider bank, its index, its entry before the last call and
the entry at the same place after it. -/
theorem tage_alias_sparse_eval :
    (tage_train_seq_sp wide_hw tage_sparse_init tage_alias_setup).bind (fun sp =>
      (tage_find_hit_sp wide_hw sp 4096 NHIST).bind (fun h =>
        (gindex wide_hw sp.core 4096 h).bind (fun idx =>
          (tage_sparse_read sp h idx).bind (fun e =>
            (tage_predictor_train_sp wide_hw sp 4096 0).bind (fun sp1 =>
              (tage_sparse_read sp1 h idx).map (fun e1 => (h, idx, e, e1))))))) =
      some (16, 1028, { ctr := 1, tag := 0, u := 1 }, { ctr := -1, tag := 1024, u := 0 }) := by
  decide!

/-- C26, counterexample.  After the 23 calls of `tage_alias_setup` on the fresh predictor,
bank 16 is the provider for `PC = 4096`, at index 1028 of the high table, with the entry
`(ctr 1, tag 0, u 1)`; banks 17 and 18 compute the same index 1028 with another tag.  The
call `tage_predictor_train(4096, 0)` moves the counter to 0, which still predicts taken,
so the allocation pass runs: bank 17 decrements the usefulness of the entry at index 1028,
the provider's own entry, to 0, and bank 18 overwrites it.  After the call the provider's
entry holds `(ctr -1, tag 1024, u 0)`: the counter went from 1 to -1, not to 0. -/
theorem tage_provider_overwritten_counterexample :
    (tage_train_seq wide_hw tage_predictor_init tage_alias_setup).bind (fun s =>
      (tage_find_hit wide_hw s 4096 NHIST).bind (fun h =>
        (gindex wide_hw s 4096 h).bind (fun idx =>
          ((tage_gtable s h)[idx]?).bind (fun e =>
            (tage_predictor_train wide_hw s 4096 0).bind (fun s1 =>
              ((tage_gtable s1 h)[idx]?).map (fun e1 => (h, idx, e, e1))))))) =
      some (16, 1028, { ctr := 1, tag := 0, u := 1 }, { ctr := -1, tag := 1024, u := 0 }) := by
  rw [tage_run_sparse]
  simp only [option_map_bind, tage_sim_find_hit, tage_dense_gindex, tage_dense_read,
    tage_sim_train]
  exact tage_alias_sparse_eval

/-- The first call on the fresh predictor. -/
theorem tage_counters_saturate_witness :
    TageReachable wide_hw tage_predictor_init ∧
    TageSaturated tage_predictor_init ∧
    ∃ h s1 s4, tage_find_hit wide_hw tage_predictor_init 0 NHIST = some h ∧
      tage_update_provider wide_hw tage_predictor_init 0 h (decide (0 = 1)) = some s1 ∧
      tage_predictor_train wide_hw tage_predictor_init 0 0 = some s4 ∧ TageSaturated s4 ∧
      (h = 0 → ∃ b, tage_predictor_init.btable[tage_BI 0]? = some b ∧
        s1.btable[tage_BI 0]? = some { b with pred := tage_ctr_toward 0 b.pred } ∧
        s4.btable[tage_BI 0]? = some { b with pred := tage_ctr_toward 0 b.pred }) ∧
      (0 < h → ∃ idx e, gindex wide_hw tage_predictor_init 0 h = some idx ∧
        (tage_gtable tage_predictor_init h)[idx]? = some e ∧
        (tage_gtable s1 h)[idx]? = some { e with ctr := tage_ctr_toward 0 e.ctr } ∧
        (h = NHIST ∨ decide (tage_ctr_toward 0 e.ctr ≥ 0) = decide (0 = 1) →
          ∃ e4, (tage_gtable s4 h)[idx]? = some e4 ∧
            e4.ctr = tage_ctr_toward 0 e.ctr ∧ e4.tag = e.tag)) :=
  ⟨⟨[], rfl⟩, tage_counters_saturate wide_hw tage_predictor_init ⟨[], rfl⟩ 0 0⟩

/-! ### The perceptron predictor: the effect of one training step on the output -/

theorem clamp_step (mn mx a d : Int) (hmm : mn ≤ mx) (ha : mn ≤ a ∧ a ≤ mx)
    (hd : d = 1 ∨ d = -1) :
    (max mn (min (a + d) mx) - a = 0 ∨ max mn (min (a + d) mx) - a = d) ∧
      (mn ≤ a + d ∧ a + d ≤ mx → max mn (min (a + d) mx) - a = d) := by
  simp only [max_def, min_def]
  split_ifs <;> omega

theorem pm_one_mul (t x : Int) (ht : t = 1 ∨ t = -1) (hx : x = 1 ∨ x = -1) :
    (t * x = 1 ∨ t * x = -1) ∧ t * t = 1 ∧ x * x = 1 := by
  rcases ht with h | h <;> rcases hx with h1 | h1 <;> subst h <;> subst h1 <;> decide

/-- The output difference of two weight arrays when every weight moved by 0 or by
`t * x`: the difference times `t` lies in `[0, n + 1]`, and is `n + 1` when every weight
moved. -/
theorem perceptron_output_shift (gh w w1 : List Int) (n : Nat) (t : Int)
    (ht : t = 1 ∨ t = -1)
    (hgh : ∀ i, i < n → gh.getD i 0 = 1 ∨ gh.getD i 0 = -1)
    (h0 : w1.getD 0 0 - w.getD 0 0 = 0 ∨ w1.getD 0 0 - w.getD 0 0 = t)
    (hi : ∀ i, i < n → w1.getD (i + 1) 0 - w.getD (i + 1) 0 = 0 ∨
      w1.getD (i + 1) 0 - w.getD (i + 1) 0 = t * gh.getD i 0) :
    (0 ≤ t * ((w1.getD 0 0 + ∑ i ∈ Finset.range n, gh.getD i 0 * w1.getD (i + 1) 0) -
        (w.getD 0 0 + ∑ i ∈ Finset.range n, gh.getD i 0 * w.getD (i + 1) 0)) ∧
      t * ((w1.getD 0 0 + ∑ i ∈ Finset.range n, gh.getD i 0 * w1.getD (i + 1) 0) -
        (w.getD 0 0 + ∑ i ∈ Finset.range n, gh.getD i 0 * w.getD (i + 1) 0)) ≤ (n : Int) + 1) ∧
    (w1.getD 0 0 - w.getD 0 0 = t →
      (∀ i, i < n → w1.getD (i + 1) 0 - w.getD (i + 1) 0 = t * gh.getD i 0) →
      (w1.getD 0 0 + ∑ i ∈ Finset.range n, gh.getD i 0 * w1.getD (i + 1) 0) -
        (w.getD 0 0 + ∑ i ∈ Finset.range n, gh.getD i 0 * w.getD (i + 1) 0) =
        t * ((n : Int) + 1)) := by
  have htt : t * t = 1 := by rcases ht with h | h <;> subst h <;> decide
  have hsum : t * ((w1.getD 0 0 + ∑ i ∈ Finset.range n, gh.getD i 0 * w1.getD (i + 1) 0) -
      (w.getD 0 0 + ∑ i ∈ Finset.range n, gh.getD i 0 * w.getD (i + 1) 0)) =
      t * (w1.getD 0 0 - w.getD 0 0) +
        ∑ i ∈ Finset.range n,
          t * gh.getD i 0 * (w1.getD (i + 1) 0 - w.getD (i + 1) 0) := by
    have e : ∑ i ∈ Finset.range n, t * gh.getD i 0 * (w1.getD (i + 1) 0 - w.getD (i + 1) 0) =
        t * (∑ i ∈ Finset.range n, gh.getD i 0 * w1.getD (i + 1) 0) -
          t * (∑ i ∈ Finset.range n, gh.getD i 0 * w.getD (i + 1) 0) := by
      rw [Finset.mul_sum, Finset.mul_sum, ← Finset.sum_sub_distrib]
      apply Finset.sum_congr rfl
      intro i _
      ring
    rw [e]
    ring
  have hterm : ∀ i ∈ Finset.range n,
      0 ≤ t * gh.getD i 0 * (w1.getD (i + 1) 0 - w.getD (i + 1) 0) ∧
        t * gh.getD i 0 * (w1.getD (i + 1) 0 - w.getD (i + 1) 0) ≤ 1 := by
    intro i hin
    have hlt : i < n := Finset.mem_range.mp hin
    obtain ⟨_, _, hxx⟩ := pm_one_mul t (gh.getD i 0) ht (hgh i hlt)
    rcases hi i hlt with h | h
    · rw [h]; simp
    · rw [h]
      have : t * gh.getD i 0 * (t * gh.getD i 0) = 1 := by
        calc t * gh.getD i 0 * (t * gh.getD i 0)
            = (t * t) * (gh.getD i 0 * gh.getD i 0) := by ring
          _ = 1 := by rw [htt, hxx]; rfl
      rw [this]
      exact ⟨by decide, le_refl _⟩
  have hlo : 0 ≤ ∑ i ∈ Finset.range n,
      t * gh.getD i 0 * (w1.getD (i + 1) 0 - w.getD (i + 1) 0) :=
    Finset.sum_nonneg (fun i hin => (hterm i hin).1)
  have hhi : ∑ i ∈ Finset.range n,
      t * gh.getD i 0 * (w1.getD (i + 1) 0 - w.getD (i + 1) 0) ≤ (n : Int) := by
    have := Finset.sum_le_sum (fun i hin => (hterm i hin).2)
    simpa using this
  have h0' : 0 ≤ t * (w1.getD 0 0 - w.getD 0 0) ∧ t * (w1.getD 0 0 - w.getD 0 0) ≤ 1 := by
    rcases h0 with h | h
    · rw [h]; simp
    · rw [h, htt]; exact ⟨by decide, le_refl _⟩
  refine ⟨⟨by rw [hsum]; omega, by rw [hsum]; omega⟩, ?_⟩
  intro hb hall
  have hall1 : ∑ i ∈ Finset.range n,
      t * gh.getD i 0 * (w1.getD (i + 1) 0 - w.getD (i + 1) 0) = (n : Int) := by
    have : ∀ i ∈ Finset.range n,
        t * gh.getD i 0 * (w1.getD (i + 1) 0 - w.getD (i + 1) 0) = 1 := by
      intro i hin
      have hlt : i < n := Finset.mem_range.mp hin
      obtain ⟨_, _, hxx⟩ := pm_one_mul t (gh.getD i 0) ht (hgh i hlt)
      rw [hall i hlt]
      calc t * gh.getD i 0 * (t * gh.getD i 0)
          = (t * t) * (gh.getD i 0 * gh.getD i 0) := by ring
        _ = 1 := by rw [htt, hxx]; rfl
    rw [Finset.sum_congr rfl this]
    simp
  have hprod : t * ((w1.getD 0 0 + ∑ i ∈ Finset.range n, gh.getD i 0 * w1.getD (i + 1) 0) -
      (w.getD 0 0 + ∑ i ∈ Finset.range n, gh.getD i 0 * w.getD (i + 1) 0)) = (n : Int) + 1 := by
    rw [hsum, hall1, hb, htt]
    ring
  calc (w1.getD 0 0 + ∑ i ∈ Finset.range n, gh.getD i 0 * w1.getD (i + 1) 0) -
        (w.getD 0 0 + ∑ i ∈ Finset.range n, gh.getD i 0 * w.getD (i + 1) 0)
      = (t * t) * ((w1.getD 0 0 + ∑ i ∈ Finset.range n, gh.getD i 0 * w1.getD (i + 1) 0) -
        (w.getD 0 0 + ∑ i ∈ Finset.range n, gh.getD i 0 * w.getD (i + 1) 0)) := by
        rw [htt, one_mul]
    _ = t * (t * ((w1.getD 0 0 + ∑ i ∈ Finset.range n, gh.getD i 0 * w1.getD (i + 1) 0) -
        (w.getD 0 0 + ∑ i ∈ Finset.range n, gh.getD i 0 * w.getD (i + 1) 0))) := by ring
    _ = t * ((n : Int) + 1) := by rw [hprod]

theorem list_getD_mem_bound (w : List Int) (j : Nat) (lo hi : Int) (hj : j < w.length)
    (hb : ∀ x ∈ w, lo ≤ x ∧ x ≤ hi) : lo ≤ w.getD j 0 ∧ w.getD j 0 ≤ hi := by
  have h : w[j]? = some w[j] := List.getElem?_eq_getElem hj
  rw [list_getD_of_getElem? w j _ h]
  exact hb _ (List.getElem_mem hj)

theorem list_getD_pm_one (gh : List Int) (i : Nat) (hi : i < gh.length)
    (hh : ∀ h ∈ gh, h = 1 ∨ h = -1) : gh.getD i 0 = 1 ∨ gh.getD i 0 = -1 := by
  have h : gh[i]? = some gh[i] := List.getElem?_eq_getElem hi
  rw [list_getD_of_getElem? gh i _ h]
  exact hh _ (List.getElem_mem hi)

theorem abs_le_of_pm_mul (t d n : Int) (ht : t = 1 ∨ t = -1) (h0 : 0 ≤ t * d)
    (h1 : t * d ≤ n) : |d| ≤ n := by
  rw [abs_le]
  rcases ht with h | h <;> subst h <;> constructor <;> omega

/-- The outputs before and after one `perceptron_predictor_train` call. -/
theorem perceptron_train_output (s : PerceptronState) (pc outcome : Nat) (t : Int)
    (hc : PerceptronConfigured s) (hsat : PerceptronSaturated s)
    (hh : ∀ h ∈ s.global_history, h = 1 ∨ h = -1)
    (hlim : (s.history_len + 1) * 2 ^ (s.weight_bits - 1).toNat < 2 ^ 31)
    (ht : t = if outcome = 1 then 1 else -1) :
    ∃ w y s1 w1 y1, s.perceptron_table[pc &&& s.table_mask]? = some w ∧
      perceptron_y s w = some y ∧
      perceptron_predictor_train s pc outcome = some s1 ∧
      s1.global_history = s.global_history ∧
      s1.perceptron_table[pc &&& s.table_mask]? = some w1 ∧
      perceptron_y s1 w1 = some y1 ∧
      perceptron_predictor_predict s1 pc = some (if y1 ≥ 0 then 1 else 0) ∧
      ((if y ≥ 0 then 1 else 0) ≠ outcome ∨ |y| ≤ s.threshold →
        (∀ j, j < w.length →
          s.min_weight ≤ w.getD j 0 + t * (if j = 0 then 1 else s.global_history.getD (j - 1) 0) ∧
          w.getD j 0 + t * (if j = 0 then 1 else s.global_history.getD (j - 1) 0) ≤
            s.max_weight) →
        y1 = y + t * (s.history_len + 1)) ∧
      |y1 - y| ≤ s.history_len + 1 ∧ 0 ≤ t * (y1 - y) := by
  have hidx : pc &&& s.table_mask < s.perceptron_table.length :=
    hc.2.1 ▸ and_le_mask pc s.table_mask
  have hmem := List.getElem_mem hidx
  have hget := List.getElem?_eq_getElem hidx
  generalize s.perceptron_table[pc &&& s.table_mask] = w at hget hmem
  have htv : t = 1 ∨ t = -1 := by
    rw [ht]; split <;> simp
  obtain ⟨hmm, _, _, _⟩ := perceptron_saturated_bounds s hsat
  obtain ⟨y, hy, _, _, hysum⟩ := perceptron_y_some s w hc hsat hh hlim hmem
  obtain ⟨w1, hw1, hlen1, hw10, hw1i, _⟩ :=
    perceptron_update_weights_some s t w hc hsat hh htv hmem
  obtain ⟨w', y', w1', hget', hy', hw1', htrain⟩ :=
    perceptron_train_eq s pc outcome hc hsat hh hlim
  rw [hget] at hget'
  cases hget'
  rw [hy] at hy'
  cases hy'
  rw [← ht, hw1] at hw1'
  cases hw1'
  have hn : ((s.history_len.toNat : Nat) : Int) = s.history_len := Int.toNat_of_nonneg hc.1
  have hwlen : w.length = s.history_len.toNat + 1 :=
    hc.2.2.1 _ hmem
  have hwb : ∀ x ∈ w,
      s.min_weight ≤ x ∧ x ≤ s.max_weight := hsat.2.2.2.2 _ hmem
  by_cases hcond : (if y ≥ 0 then 1 else 0) ≠ outcome ∨ |y| ≤ s.threshold
  · rw [if_pos hcond] at htrain
    have hget1 : (s.perceptron_table.set (pc &&& s.table_mask) w1)[pc &&& s.table_mask]? =
        some w1 := List.getElem?_set_self hidx
    obtain ⟨hc1, hsat1, _, _, _, _, _, _⟩ :=
      perceptron_train_inv s _ pc outcome hc hsat hh htrain
    obtain ⟨y1, hy1, _, _, hy1sum⟩ :=
      perceptron_y_some _ w1 hc1 hsat1 hh hlim (List.getElem?_mem hget1)
    have hgh : ∀ i, i < s.history_len.toNat →
        s.global_history.getD i 0 = 1 ∨ s.global_history.getD i 0 = -1 := by
      intro i hi
      exact list_getD_pm_one _ i (by rw [hc.2.2.2]; exact hi) hh
    have e0 : w1.getD 0 0 = max s.min_weight
        (min (w.getD 0 0 + t) s.max_weight) := by
      rw [list_getD_of_getElem? w1 0 _ hw10, perceptron_saturate_eq s _ hmm]
    have ei : ∀ i, i < s.history_len.toNat → w1.getD (i + 1) 0 = max s.min_weight
        (min (w.getD (i + 1) 0 +
          t * s.global_history.getD i 0) s.max_weight) := by
      intro i hi
      rw [list_getD_of_getElem? w1 (i + 1) _ (hw1i i hi), perceptron_saturate_eq s _ hmm]
    have c0 := clamp_step s.min_weight s.max_weight
      (w.getD 0 0) t hmm
      (list_getD_mem_bound _ 0 _ _ (by omega) hwb) htv
    have ci : ∀ i, i < s.history_len.toNat →
        (w1.getD (i + 1) 0 - w.getD (i + 1) 0 = 0 ∨
          w1.getD (i + 1) 0 - w.getD (i + 1) 0 =
            t * s.global_history.getD i 0) ∧
        (s.min_weight ≤ w.getD (i + 1) 0 +
            t * s.global_history.getD i 0 ∧
          w.getD (i + 1) 0 +
            t * s.global_history.getD i 0 ≤ s.max_weight →
          w1.getD (i + 1) 0 - w.getD (i + 1) 0 =
            t * s.global_history.getD i 0) := by
      intro i hi
      rw [ei i hi]
      exact clamp_step s.min_weight s.max_weight _ _ hmm
        (list_getD_mem_bound _ (i + 1) _ _ (by omega) hwb)
        (pm_one_mul t _ htv (hgh i hi)).1
    rw [← e0] at c0
    obtain ⟨⟨hlo, hhi⟩, hfull⟩ := perceptron_output_shift s.global_history
      w w1 s.history_len.toNat t htv hgh c0.1
      (fun i hi => (ci i hi).1)
    have hy1' : y1 = w1.getD 0 0 + ∑ i ∈ Finset.range s.history_len.toNat,
        s.global_history.getD i 0 * w1.getD (i + 1) 0 := hy1sum
    rw [← hy1', ← hysum] at hlo hhi hfull
    rw [hn] at hhi hfull
    refine ⟨w, y, _, w1, y1, hget, hy, htrain, rfl, hget1, hy1, ?_, ?_, ?_, hlo⟩
    · simp only [perceptron_predictor_predict, hget1, hy1, Option.bind_eq_bind,
        Option.some_bind, Option.pure_def]
    · intro _ hnc
      have hb0 := hnc 0 (by rw [hwlen]; exact Nat.succ_pos _)
      rw [if_pos rfl, mul_one] at hb0
      have h1 := c0.2 hb0
      have h2 : ∀ i, i < s.history_len.toNat →
          w1.getD (i + 1) 0 - w.getD (i + 1) 0 = t * s.global_history.getD i 0 := by
        intro i hi
        have hbi := hnc (i + 1) (by rw [hwlen]; exact Nat.succ_lt_succ hi)
        rw [if_neg (Nat.succ_ne_zero i), Nat.add_sub_cancel] at hbi
        exact (ci i hi).2 hbi
      exact eq_add_of_sub_eq' (hfull h1 h2)
    · exact abs_le_of_pm_mul t (y1 - y) _ htv hlo hhi
  · rw [if_neg hcond] at htrain
    refine ⟨w, y, s, w, y, hget, hy, htrain, rfl, hget, hy, ?_, ?_, ?_, ?_⟩
    · simp only [perceptron_predictor_predict, hget, hy, Option.bind_eq_bind,
        Option.some_bind, Option.pure_def]
    · intro h
      exact absurd h hcond
    · simp only [sub_self, abs_zero]
      omega
    · simp

/-- C34 (perceptron training step).  In a configured state with saturated weights, history
slots `+1` or `-1` (the initialisation fills the history with `-1` and every update writes
`+1` or `-1`) and no `int32_t` overflow of the output, `perceptron_predictor_train(pc,
outcome)` returns; with `y` the output of the selected weight array before the call, `y1`
the output recomputed after it for the same `pc` and the unchanged history (the value
`perceptron_predictor_predict` tests), and `t = +1` for taken, `-1` for not taken: if the
call trains (wrong prediction or `|y| ≤ threshold`) and no weight of the array is clamped
by the update, i.e. `w[0] + t` and every `w[i + 1] + t * global_history[i]` lie within
`[min_weight, max_weight]`, then `y1 = y + t * (history_len + 1)`; in every case
`|y1 - y| ≤ history_len + 1` and `y1 - y` is zero or has the sign of `t`. -/
theorem perceptron_training_step (s : PerceptronState) (pc outcome : Nat) (t : Int)
    (hc : PerceptronConfigured s) (hsat : PerceptronSaturated s)
    (hh : ∀ h ∈ s.global_history, h = 1 ∨ h = -1)
    (hlim : (s.history_len + 1) * 2 ^ (s.weight_bits - 1).toNat < 2 ^ 31)
    (ht : t = if outcome = 1 then 1 else -1) :
    ∃ w y s1 w1 y1, s.perceptron_table[pc &&& s.table_mask]? = some w ∧
      perceptron_y s w = some y ∧
      perceptron_predictor_train s pc outcome = some s1 ∧
      s1.global_history = s.global_history ∧
      s1.perceptron_table[pc &&& s.table_mask]? = some w1 ∧
      perceptron_y s1 w1 = some y1 ∧
      perceptron_predictor_predict s1 pc = some (if y1 ≥ 0 then 1 else 0) ∧
      ((if y ≥ 0 then 1 else 0) ≠ outcome ∨ |y| ≤ s.threshold →
        (∀ j, j < w.length →
          s.min_weight ≤ w.getD j 0 + t * (if j = 0 then 1 else s.global_history.getD (j - 1) 0) ∧
          w.getD j 0 + t * (if j = 0 then 1 else s.global_history.getD (j - 1) 0) ≤
            s.max_weight) →
        y1 = y + t * (s.history_len + 1)) ∧
      |y1 - y| ≤ s.history_len + 1 ∧ 0 ≤ t * (y1 - y) :=
  perceptron_train_output s pc outcome t hc hsat hh hlim ht

/-- A training step without clamping: weights `[1, -2, 1]`, history `[1, -1]`, so
`y = -2`; a taken outcome trains the array to `[2, -1, 0]` and the output becomes
`1 = -2 + 3`. -/
theorem perceptron_training_step_witness :
    ∃ y1, Option.map (fun s1 => perceptron_y s1 [2, -1, 0])
        (perceptron_predictor_train
          { num_perceptrons := 2, history_len := 2, weight_bits := 3, threshold := 2,
            table_mask := 1, perceptron_table := [[0, 0, 0], [1, -2, 1]],
            global_history := [1, -1], history_index := 0, max_weight := 3,
            min_weight := -4 } 3 1) = some (some y1) ∧ y1 = -2 + 1 * (2 + 1) := by
  obtain ⟨w, y, s1, w1, y1, hw, hy, htrain, _, hw1, hy1, _, hstep, _, _⟩ :=
    perceptron_training_step
      { num_perceptrons := 2, history_len := 2, weight_bits := 3, threshold := 2,
        table_mask := 1, perceptron_table := [[0, 0, 0], [1, -2, 1]],
        global_history := [1, -1], history_index := 0, max_weight := 3,
        min_weight := -4 } 3 1 1
      ⟨by decide, by decide, by decide, by decide⟩
      ⟨by decide, by decide, by decide, by decide, by decide⟩
      (by decide) (by decide) (by decide)
  have e1 : ([[0, 0, 0], [1, -2, 1]] : List (List Int))[3 &&& 1]? = some [1, -2, 1] := by
    decide
  have hw' : some [1, -2, 1] = some w := e1.symm.trans hw
  cases hw'
  have e2 : perceptron_y
      { num_perceptrons := 2, history_len := 2, weight_bits := 3, threshold := 2,
        table_mask := 1, perceptron_table := [[0, 0, 0], [1, -2, 1]],
        global_history := [1, -1], history_index := 0, max_weight := 3,
        min_weight := -4 } [1, -2, 1] = some (-2) := by decide
  have hy' : some (-2 : Int) = some y := e2.symm.trans hy
  cases hy'
  have e3 : perceptron_predictor_train
      { num_perceptrons := 2, history_len := 2, weight_bits := 3, threshold := 2,
        table_mask := 1, perceptron_table := [[0, 0, 0], [1, -2, 1]],
        global_history := [1, -1], history_index := 0, max_weight := 3,
        min_weight := -4 } 3 1 =
      some
      { num_perceptrons := 2, history_len := 2, weight_bits := 3, threshold := 2,
        table_mask := 1, perceptron_table := [[0, 0, 0], [2, -1, 0]],
        global_history := [1, -1], history_index := 0, max_weight := 3,
        min_weight := -4 } := by decide
  have hs1 := e3.symm.trans htrain
  cases hs1
  have e4 : ([[0, 0, 0], [2, -1, 0]] : List (List Int))[3 &&& 1]? = some [2, -1, 0] := by
    decide
  have hw1' : some [2, -1, 0] = some w1 := e4.symm.trans hw1
  cases hw1'
  refine ⟨y1, ?_, ?_⟩
  · rw [e3]
    simp only [Option.map_some', hy1]
  · exact hstep (Or.inl (by decide)) (by decide)

/-! ### The interface dispatcher -/

/-- C33 (one train per conditional branch), what the code does.  For one conditional
branch the callbacks `get_cond_dir_prediction`, `spec_update`,
`notify_instr_execute_resolve` invoke the predict of the selected backend once, with the
`pc` truncated to 32 bits; for `PRED_ONEBIT`, `PRED_TWOBIT`, `PRED_CORRELATING`,
`PRED_LOCAL` and `PRED_GSHARE` they invoke its train TWICE with the resolved direction,
once in `spec_update` and once more in `notify_instr_execute_resolve`; for
`PRED_TOURNAMENT` train is invoked once.  For the other branch classes neither callback
changes a backend. -/
theorem interface_train_count (st : InterfaceState) (pc : Nat) (resolve_dir ext : Bool) :
    (st.selected_predictor = PredictorType.PRED_ONEBIT →
      interface_cond_branch st pc resolve_dir ext =
        (onebit_predictor_predict st.onebit (pc % 2 ^ 32)).bind (fun r =>
          (onebit_predictor_train st.onebit (pc % 2 ^ 32) (if resolve_dir then 1 else 0)).bind
            (fun b1 =>
              (onebit_predictor_train b1 (pc % 2 ^ 32) (if resolve_dir then 1 else 0)).map
                (fun b2 => (decide (r ≠ 0), { st with onebit := b2 }))))) ∧
    (st.selected_predictor = PredictorType.PRED_TWOBIT →
      interface_cond_branch st pc resolve_dir ext =
        (twobit_predictor_predict st.tournament.bimodal (pc % 2 ^ 32)).bind (fun r =>
          (twobit_predictor_train st.tournament.bimodal (pc % 2 ^ 32)
              (if resolve_dir then 1 else 0)).bind
            (fun b1 =>
              (twobit_predictor_train b1 (pc % 2 ^ 32) (if resolve_dir then 1 else 0)).map
                (fun b2 => (decide (r ≠ 0),
                  { st with tournament := { st.tournament with bimodal := b2 } }))))) ∧
    (st.selected_predictor = PredictorType.PRED_CORRELATING →
      interface_cond_branch st pc resolve_dir ext =
        (correlating_predictor_predict st.correlating (pc % 2 ^ 32)).bind (fun r =>
          (correlating_predictor_train st.correlating (pc % 2 ^ 32)
              (if resolve_dir then 1 else 0)).bind
            (fun b1 =>
              (correlating_predictor_train b1 (pc % 2 ^ 32) (if resolve_dir then 1 else 0)).map
                (fun b2 => (decide (r ≠ 0), { st with correlating := b2 }))))) ∧
    (st.selected_predictor = PredictorType.PRED_LOCAL →
      interface_cond_branch st pc resolve_dir ext =
        (local_predictor_predict st.local_state (pc % 2 ^ 32)).bind (fun r =>
          (local_predictor_train st.local_state (pc % 2 ^ 32)
              (if resolve_dir then 1 else 0)).bind
            (fun b1 =>
              (local_predictor_train b1 (pc % 2 ^ 32) (if resolve_dir then 1 else 0)).map
                (fun b2 => (decide (r ≠ 0), { st with local_state := b2 }))))) ∧
    (st.selected_predictor = PredictorType.PRED_GSHARE →
      interface_cond_branch st pc resolve_dir ext =
        (gshare_predictor_predict st.tournament.gshare (pc % 2 ^ 32)).bind (fun r =>
          (gshare_predictor_train st.tournament.gshare (pc % 2 ^ 32)
              (if resolve_dir then 1 else 0)).bind
            (fun b1 =>
              (gshare_predictor_train b1 (pc % 2 ^ 32) (if resolve_dir then 1 else 0)).map
                (fun b2 => (decide (r ≠ 0),
                  { st with tournament := { st.tournament with gshare := b2 } }))))) ∧
    (st.selected_predictor = PredictorType.PRED_TOURNAMENT →
      interface_cond_branch st pc resolve_dir ext =
        (tournament_predictor_predict st.tournament (pc % 2 ^ 32)).bind (fun p =>
          (tournament_predictor_train p.2 (pc % 2 ^ 32) (if resolve_dir then 1 else 0)).map
            (fun t2 => (decide (p.1 ≠ 0), { st with tournament := t2 })))) ∧
    (∀ c, is_br c = true → c ≠ InstClass.condBranchInstClass →
      spec_update st pc c resolve_dir = some st ∧
        notify_instr_execute_resolve st pc true c resolve_dir = some st) := by
  refine ⟨?_, ?_, ?_, ?_, ?_, ?_, ?_⟩
  · intro h
    simp only [interface_cond_branch, get_cond_dir_prediction, spec_update,
      notify_instr_execute_resolve, h, is_br, is_cond_br, Option.bind_eq_bind, Option.pure_def,
      option_map_bind, ne_eq, decide_not, decide_True, decide_False, Bool.not_false,
      Bool.not_true, Bool.false_eq_true, if_true, if_false, reduceCtorEq, not_false_eq_true]
    cases onebit_predictor_predict st.onebit (pc % 2 ^ 32) with
    | none => rfl
    | some r =>
      simp only [Option.some_bind]
      cases onebit_predictor_train st.onebit (pc % 2 ^ 32) (if resolve_dir then 1 else 0) with
      | none => rfl
      | some b1 =>
        simp only [Option.some_bind]
        cases onebit_predictor_train b1 (pc % 2 ^ 32) (if resolve_dir then 1 else 0) with
        | none => rfl
        | some b2 => rfl
  · intro h
    simp only [interface_cond_branch, get_cond_dir_prediction, spec_update,
      notify_instr_execute_resolve, h, is_br, is_cond_br, Option.bind_eq_bind, Option.pure_def,
      option_map_bind, ne_eq, decide_not, decide_True, decide_False, Bool.not_false,
      Bool.not_true, Bool.false_eq_true, if_true, if_false, reduceCtorEq, not_false_eq_true]
    cases twobit_predictor_predict st.tournament.bimodal (pc % 2 ^ 32) with
    | none => rfl
    | some r =>
      simp only [Option.some_bind]
      cases twobit_predictor_train st.tournament.bimodal (pc % 2 ^ 32)
          (if resolve_dir then 1 else 0) with
      | none => rfl
      | some b1 =>
        simp only [Option.some_bind]
        cases twobit_predictor_train b1 (pc % 2 ^ 32) (if resolve_dir then 1 else 0) with
        | none => rfl
        | some b2 => rfl
  · intro h
    simp only [interface_cond_branch, get_cond_dir_prediction, spec_update,
      notify_instr_execute_resolve, h, is_br, is_cond_br, Option.bind_eq_bind, Option.pure_def,
      option_map_bind, ne_eq, decide_not, decide_True, decide_False, Bool.not_false,
      Bool.not_true, Bool.false_eq_true, if_true, if_false, reduceCtorEq, not_false_eq_true]
    cases correlating_predictor_predict st.correlating (pc % 2 ^ 32) with
    | none => rfl
    | some r =>
      simp only [Option.some_bind]
      cases correlating_predictor_train st.correlating (pc % 2 ^ 32)
          (if resolve_dir then 1 else 0) with
      | none => rfl
      | some b1 =>
        simp only [Option.some_bind]
        cases correlating_predictor_train b1 (pc % 2 ^ 32) (if resolve_dir then 1 else 0) with
        | none => rfl
        | some b2 => rfl
  · intro h
    simp only [interface_cond_branch, get_cond_dir_prediction, spec_update,
      notify_instr_execute_resolve, h, is_br, is_cond_br, Option.bind_eq_bind, Option.pure_def,
      option_map_bind, ne_eq, decide_not, decide_True, decide_False, Bool.not_false,
      Bool.not_true, Bool.false_eq_true, if_true, if_false, reduceCtorEq, not_false_eq_true]
    cases local_predictor_predict st.local_state (pc % 2 ^ 32) with
    | none => rfl
    | some r =>
      simp only [Option.some_bind]
      cases local_predictor_train st.local_state (pc % 2 ^ 32)
          (if resolve_dir then 1 else 0) with
      | none => rfl
      | some b1 =>
        simp only [Option.some_bind]
        cases local_predictor_train b1 (pc % 2 ^ 32) (if resolve_dir then 1 else 0) with
        | none => rfl
        | some b2 => rfl
  · intro h
    simp only [interface_cond_branch, get_cond_dir_prediction, spec_update,
      notify_instr_execute_resolve, h, is_br, is_cond_br, Option.bind_eq_bind, Option.pure_def,
      option_map_bind, ne_eq, decide_not, decide_True, decide_False, Bool.not_false,
      Bool.not_true, Bool.false_eq_true, if_true, if_false, reduceCtorEq, not_false_eq_true]
    cases gshare_predictor_predict st.tournament.gshare (pc % 2 ^ 32) with
    | none => rfl
    | some r =>
      simp only [Option.some_bind]
      cases gshare_predictor_train st.tournament.gshare (pc % 2 ^ 32)
          (if resolve_dir then 1 else 0) with
      | none => rfl
      | some b1 =>
        simp only [Option.some_bind]
        cases gshare_predictor_train b1 (pc % 2 ^ 32) (if resolve_dir then 1 else 0) with
        | none => rfl
        | some b2 => rfl
  · intro h
    simp only [interface_cond_branch, get_cond_dir_prediction, spec_update,
      notify_instr_execute_resolve, h, is_br, is_cond_br, Option.bind_eq_bind, Option.pure_def,
      option_map_bind, ne_eq, decide_not, decide_True, decide_False, Bool.not_false,
      Bool.not_true, Bool.false_eq_true, if_true, if_false, reduceCtorEq, not_false_eq_true]
    cases tournament_predictor_predict st.tournament (pc % 2 ^ 32) with
    | none => rfl
    | some p =>
      simp only [Option.some_bind]
      cases tournament_predictor_train p.2 (pc % 2 ^ 32) (if resolve_dir then 1 else 0) with
      | none => rfl
      | some t2 => rfl
  · intro c hbr hc
    cases c <;> simp [spec_update, notify_instr_execute_resolve, is_br, is_cond_br] at hbr hc ⊢

/-- C33, failing input.  `PRED_GSHARE` selected and initialised with 2 table bits and 4
history bits, then one conditional branch at `pc = 1` resolved taken: the global history
is `0b11 = 3` after the three callbacks, two bits for one branch, and two counters were
incremented: the one at index `1 XOR 0 = 1` by `spec_update` and the one at index
`1 XOR 1 = 0` by `notify_instr_execute_resolve`. -/
theorem interface_double_train_counterexample :
    Option.map (fun p => (p.2.tournament.gshare.global_history, p.2.tournament.gshare.pht))
      ((gshare_predictor_init 2 4).bind (fun g =>
        interface_cond_branch
          { interface_initial with
            selected_predictor := PredictorType.PRED_GSHARE,
            tournament := { tournament_initial with gshare := g } } 1 true false)) =
      some (3, [2, 2, 1, 1]) := by
  decide

/-! ### Predict leaves the training state alone -/

theorem tage_predict_some (wide : Int → Nat) (s : TageState) (hc : TageConfigured s)
    (PC : Nat) : ∃ r, tage_predictor_predict wide s PC = some r := by
  obtain ⟨h, b, _, _, _, h0, hpos⟩ := tage_predict_eq wide s hc PC
  rcases Nat.eq_zero_or_pos h with hz | hz
  · exact ⟨_, h0 hz⟩
  · obtain ⟨idx, e, _, _, _, hpred⟩ := hpos hz
    exact ⟨_, hpred⟩

theorem two_pow_pred_succ (b : Nat) : 2 ^ b - 1 + 1 = 2 ^ b :=
  Nat.sub_add_cancel (Nat.one_le_two_pow)

theorem tage_train_seq_append (wide : Int → Nat) (l1 l2 : List (Nat × Nat)) :
    ∀ s, tage_train_seq wide s (l1 ++ l2) =
      (tage_train_seq wide s l1).bind (fun s1 => tage_train_seq wide s1 l2) := by
  induction l1 with
  | nil => intro s; rfl
  | cons c rest ih =>
    intro s
    obtain ⟨PC, outcome⟩ := c
    simp only [List.cons_append, tage_train_seq]
    cases tage_predictor_train wide s PC outcome with
    | none => rfl
    | some s2 => simp only [Option.some_bind]; exact ih s2

theorem tage_train_reachable (wide : Int → Nat) (s : TageState) (hr : TageReachable wide s)
    (PC outcome : Nat) :
    ∃ s1, tage_predictor_train wide s PC outcome = some s1 ∧ TageReachable wide s1 := by
  obtain ⟨hc, hs⟩ := tage_reachable_configured wide s hr
  obtain ⟨s1, ht, _, _⟩ := tage_train_configured wide s hc hs PC outcome
  obtain ⟨calls, hcalls⟩ := hr
  refine ⟨s1, ht, calls ++ [(PC, outcome)], ?_⟩
  rw [tage_train_seq_append, hcalls]
  simp only [Option.some_bind, tage_train_seq, ht]

theorem onebit_train_configured (b : Nat) (s : OneBitState) (pc outcome : Nat)
    (hc : OneBitConfigured b s) :
    pc &&& s.mask < 2 ^ b ∧ (∃ r, onebit_predictor_predict s pc = some r) ∧
      ∃ s1, onebit_predictor_train s pc outcome = some s1 ∧ OneBitConfigured b s1 := by
  obtain ⟨hlen, hmask⟩ := hc
  have hidx : pc &&& s.mask < s.table.length := by
    rw [hmask, hlen]; exact and_mask_lt pc b
  refine ⟨hlen ▸ hidx, ⟨_, List.getElem?_eq_getElem hidx⟩, ?_⟩
  exact ⟨{ s with table := s.table.set (pc &&& s.mask) (if outcome ≠ 0 then 1 else 0) },
    by simp [onebit_predictor_train, hidx], ⟨by simpa using hlen, hmask⟩⟩

theorem perceptron_history_step (s : PerceptronState) (outcome : Nat)
    (hc : PerceptronConfigured s) (hsat : PerceptronSaturated s) (hok : PerceptronHistoryOk s)
    (hlen : s.history_len + 1 < 2 ^ 31) :
    s.history_index.toNat < s.global_history.length ∧
      ∃ s1, perceptron_predictor_update_history s outcome = some s1 ∧
        PerceptronConfigured s1 ∧ PerceptronSaturated s1 ∧ PerceptronHistoryOk s1 := by
  obtain ⟨heq, hlt⟩ := perceptron_update_history_eq s outcome hc hok hlen
  obtain ⟨a1, a2, a3, _, _, _, _, a8, a9⟩ :=
    perceptron_update_history_inv s _ outcome hc hsat hok.1 heq
  exact ⟨hlt, _, heq, a1, a2, a3, a8, a9⟩

/-- C19. Predict and train are total on configured state.  For every backend, in every
configured state (for TAGE: every state reached from `tage_predictor_init` by trains) and
for every pc and outcome, each table index that `predict` and `train` compute is below the
length of the table it indexes: the index `pc & mask` of onebit and twobit and
`(pc ^ global_history) & pht_mask` of gshare is below `2^table_bits`, the correlating index
below `2^(bits + history_bits)`, the local LHT index below `2^lht_bits` and its PHT index
below `2^pht_bits`, the tournament selector index below `2^selector_bits`, the perceptron
index `pc & table_mask` below `2^table_bits` and the loop indices `i` and `i + 1` within
the history buffer and the weight array, the perceptron `history_index` below
`history_len` before and after `update_history`, the TAGE bimodal index below `2^13` and
`gindex(PC, bank)` below `SizeTable[bank]`, the length of `gtable[bank]`.  `predict` and
`train` return, and `train` returns a state configured (reachable) again; for the
perceptron they return when the `int32_t` sum cannot overflow,
`(history_len + 1) * 2^(weight_bits - 1) < 2^31`. -/
theorem predict_train_index_bounds (b1 b2 tb ghb cb chb lb pb sb ptb : Nat)
    (wide : Int → Nat)
    (s1 : OneBitState) (s2 : TwoBitState) (sg : GshareState) (sc : CorrelatingState)
    (sl : LocalState) (st : TournamentState) (sp : PerceptronState) (sT : TageState)
    (pc outcome : Nat)
    (h1 : OneBitConfigured b1 s1) (h2 : TwoBitConfigured b2 s2)
    (hg : GshareConfigured tb ghb sg) (hc : CorrelatingConfigured cb chb sc)
    (hl : LocalConfigured lb pb sl)
    (ht : TournamentConfigured st) (hsm : st.selector_mask = 2 ^ sb - 1)
    (hp : PerceptronConfigured sp) (hps : PerceptronSaturated sp)
    (hpo : PerceptronHistoryOk sp) (hpm : sp.table_mask = 2 ^ ptb - 1)
    (hpl : sp.history_len + 1 < 2 ^ 31)
    (hT : TageReachable wide sT) :
    (pc &&& s1.mask < 2 ^ b1 ∧ s1.table.length = 2 ^ b1 ∧
      (∃ r, onebit_predictor_predict s1 pc = some r) ∧
      ∃ s, onebit_predictor_train s1 pc outcome = some s ∧ OneBitConfigured b1 s) ∧
    (pc &&& s2.mask < 2 ^ b2 ∧ s2.table.length = 2 ^ b2 ∧
      (∃ r, twobit_predictor_predict s2 pc = some r) ∧
      ∃ s, twobit_predictor_train s2 pc outcome = some s ∧ TwoBitConfigured b2 s) ∧
    ((pc ^^^ sg.global_history) &&& sg.pht_mask < 2 ^ tb ∧ sg.pht.length = 2 ^ tb ∧
      (∃ r, gshare_predictor_predict sg pc = some r) ∧
      ∃ s, gshare_predictor_train sg pc outcome = some s ∧ GshareConfigured tb ghb s) ∧
    ((∃ idx, correlating_index sc pc = some idx ∧ idx < 2 ^ (cb + chb)) ∧
      sc.table.length = 2 ^ (cb + chb) ∧
      (∃ r, correlating_predictor_predict sc pc = some r) ∧
      ∃ s, correlating_predictor_train sc pc outcome = some s ∧
        CorrelatingConfigured cb chb s) ∧
    (pc &&& sl.lht_mask < 2 ^ lb ∧ sl.lht.length = 2 ^ lb ∧
      (∃ idx, local_pht_index sl pc = some idx ∧ idx < 2 ^ pb) ∧ sl.pht.length = 2 ^ pb ∧
      (∃ r, local_predictor_predict sl pc = some r) ∧
      ∃ s, local_predictor_train sl pc outcome = some s ∧ LocalConfigured lb pb s) ∧
    (pc &&& st.selector_mask < 2 ^ sb ∧ st.selector_table.length = 2 ^ sb ∧
      (∃ r s, tournament_predictor_predict st pc = some (r, s) ∧ TournamentConfigured s ∧
        s.selector_mask = st.selector_mask) ∧
      ∃ s, tournament_predictor_train st pc outcome = some s ∧ TournamentConfigured s ∧
        s.selector_mask = st.selector_mask) ∧
    (pc &&& sp.table_mask < 2 ^ ptb ∧ sp.perceptron_table.length = 2 ^ ptb ∧
      (∀ w ∈ sp.perceptron_table, ∀ i, i < sp.history_len.toNat →
        i < sp.global_history.length ∧ i + 1 < w.length) ∧
      sp.history_index.toNat < sp.global_history.length ∧
      (∃ s, perceptron_predictor_update_history sp outcome = some s ∧
        PerceptronConfigured s ∧ PerceptronSaturated s ∧ PerceptronHistoryOk s ∧
        0 ≤ s.history_index ∧ s.history_index < s.history_len) ∧
      ((sp.history_len + 1) * 2 ^ (sp.weight_bits - 1).toNat < 2 ^ 31 →
        (∃ r, perceptron_predictor_predict sp pc = some r) ∧
        ∃ s, perceptron_predictor_train sp pc outcome = some s ∧
          PerceptronConfigured s ∧ PerceptronSaturated s ∧ PerceptronHistoryOk s)) ∧
    (tage_BI pc < 2 ^ 13 ∧ sT.btable.length = 2 ^ 13 ∧
      (∀ bank, 1 ≤ bank → bank ≤ NHIST → ∃ idx size,
        gindex wide sT pc bank = some idx ∧ sT.SizeTable[bank]? = some size ∧
          idx < size ∧ (tage_gtable sT bank).length = size) ∧
      (∃ r, tage_predictor_predict wide sT pc = some r) ∧
      ∃ s, tage_predictor_train wide sT pc outcome = some s ∧ TageReachable wide s) := by
  refine ⟨?_, ?_, ?_, ?_, ?_, ?_, ?_, ?_⟩
  · obtain ⟨a, b, c⟩ := onebit_train_configured b1 s1 pc outcome h1
    exact ⟨a, h1.1, b, c⟩
  · obtain ⟨hlen, hmask, hmax, hthr⟩ := h2
    have hlen1 : s2.table.length = s2.mask + 1 := by rw [hlen, hmask, two_pow_pred_succ]
    obtain ⟨r, hr, _⟩ := twobit_predict_some s2 pc hlen1
    obtain ⟨s, hs, e1, e2, e3, e4⟩ := twobit_train_some s2 pc outcome hlen1
    exact ⟨by rw [hmask]; exact and_mask_lt pc b2, hlen, ⟨r, hr⟩, s, hs,
      by rw [e1]; exact hlen, by rw [e2]; exact hmask, by rw [e3]; exact hmax,
      by rw [e4]; exact hthr⟩
  · have hlen1 : sg.pht.length = sg.pht_mask + 1 := by rw [hg.1, hg.2.1, two_pow_pred_succ]
    obtain ⟨r, hr, _⟩ := gshare_predict_some sg pc hlen1
    obtain ⟨s, hs, hcs, _⟩ := gshare_train_configured tb ghb sg pc outcome hg
    exact ⟨by rw [hg.2.1]; exact and_mask_lt _ tb, hg.1, ⟨r, hr⟩, s, hs, hcs⟩
  · obtain ⟨hi, hlt⟩ := correlating_index_eq cb chb sc pc hc
    obtain ⟨c, _, hpred, _⟩ := correlating_train_eq cb chb sc pc outcome hc
    exact ⟨⟨_, hi, hlt⟩, hc.2.2.2.2.2.1, ⟨_, hpred⟩,
      correlating_train_configured cb chb sc pc outcome hc⟩
  · obtain ⟨entry, c, hget, _, hpred, _⟩ := local_train_eq lb pb sl pc outcome hl
    refine ⟨by rw [hl.2.1]; exact and_mask_lt pc lb, hl.1,
      ⟨(entry &&& sl.history_mask) &&& sl.pht_mask, ?_, ?_⟩, hl.2.2.1, ⟨_, hpred⟩,
      local_train_configured lb pb sl pc outcome hl⟩
    · simp only [local_pht_index, local_history_of, hget, Option.map_some']
    · rw [hl.2.2.2]; exact and_mask_lt _ pb
  · obtain ⟨s, hs, hcs⟩ := tournament_train_configured st pc outcome ht
    obtain ⟨sel, hsel, _⟩ := tournament_selector_some st pc ht
    obtain ⟨hinit, t1, t2, t3, t4, t5, t6⟩ := ht
    obtain ⟨bp, hbp, _⟩ := twobit_predict_some st.bimodal pc t3
    obtain ⟨gp, hgp, _⟩ := gshare_predict_some st.gshare pc t6
    obtain ⟨b, hb, _⟩ := twobit_train_some st.bimodal pc outcome t3
    obtain ⟨g, hgt, _⟩ := gshare_train_some st.gshare pc outcome t6
    have he := Option.some.inj
      (hs.symm.trans (tournament_train_eq st pc outcome sel b g hinit hsel hb hgt))
    refine ⟨by rw [hsm]; exact and_mask_lt pc sb, by rw [t1, hsm, two_pow_pred_succ],
      ⟨_, _, tournament_predict_eq st pc sel bp gp hinit hsel hbp hgp,
        ⟨hinit, t1, t2, t3, t4, t5, t6⟩, rfl⟩, s, hs, hcs, ?_⟩
    rw [he]
  · obtain ⟨hidx, s, hs, a1, a2, a3⟩ := perceptron_history_step sp outcome hp hps hpo hpl
    refine ⟨by rw [hpm]; exact and_mask_lt pc ptb, by rw [hp.2.1, hpm, two_pow_pred_succ],
      ?_, hidx, ⟨s, hs, a1, a2, a3, a3.2.1, a3.2.2⟩, ?_⟩
    · intro w hw i hi
      have e1 := hp.2.2.2
      have e2 := hp.2.2.1 w hw
      omega
    · intro hlim
      obtain ⟨w, y, w1, hw, hy, _, htr⟩ := perceptron_train_eq sp pc outcome hp hps hpo.1 hlim
      obtain ⟨c1, c2, c3, c4, c5, _⟩ :=
        perceptron_train_inv sp _ pc outcome hp hps hpo.1 htr
      refine ⟨⟨if y ≥ 0 then 1 else 0, ?_⟩, _, htr, c1, c2,
        by rw [c3]; exact hpo.1, by rw [c4]; exact hpo.2.1, by rw [c4, c5]; exact hpo.2.2⟩
      simp only [perceptron_predictor_predict, hw, hy, Option.bind_eq_bind, Option.some_bind,
        Option.pure_def]
  · obtain ⟨hcT, _⟩ := tage_reachable_configured wide sT hT
    refine ⟨tage_BI_lt pc, hcT.1, ?_, tage_predict_some wide sT hcT pc,
      tage_train_reachable wide sT hT pc outcome⟩
    intro bank hb1 hb18
    obtain ⟨idx, hi, hlt⟩ := tage_gindex_some wide sT hcT pc bank hb1 hb18
    exact ⟨idx, _, hi, (tage_size_get sT hcT bank hb1 hb18).1, hlt, rfl⟩

/-- Witness of C19: small configured states of the seven table predictors, the fresh TAGE
state, pc 5, outcome 1; the perceptron sum `(2 + 1) * 2^7` is below `2^31`, so its predict
and train return too. -/
theorem predict_train_index_bounds_witness :
    ((5 &&& 3 < 2 ^ 2 ∧ ([0, 1, 0, 0] : List Nat).length = 2 ^ 2 ∧
      (∃ r, onebit_predictor_predict { table := [0, 1, 0, 0], mask := 3, bits := 2 } 5 =
        some r) ∧
      ∃ s, onebit_predictor_train { table := [0, 1, 0, 0], mask := 3, bits := 2 } 5 1 = some s ∧
        OneBitConfigured 2 s) ∧
    (5 &&& 1 < 2 ^ 1 ∧ ([1, 3] : List Nat).length = 2 ^ 1 ∧
      (∃ r, twobit_predictor_predict
        { table := [1, 3], mask := 1, bits := 1, n_bits := 2, max_val := 3, threshold := 2 } 5 =
          some r) ∧
      ∃ s, twobit_predictor_train
        { table := [1, 3], mask := 1, bits := 1, n_bits := 2, max_val := 3, threshold := 2 } 5 1 =
          some s ∧ TwoBitConfigured 1 s) ∧
    ((5 ^^^ 2) &&& 3 < 2 ^ 2 ∧ ([1, 2, 1, 1] : List Nat).length = 2 ^ 2 ∧
      (∃ r, gshare_predictor_predict
        { pht := [1, 2, 1, 1], pht_size := 4, pht_mask := 3, global_history := 2,
          history_mask := 3, history_bits := 2 } 5 = some r) ∧
      ∃ s, gshare_predictor_train
        { pht := [1, 2, 1, 1], pht_size := 4, pht_mask := 3, global_history := 2,
          history_mask := 3, history_bits := 2 } 5 1 = some s ∧
        GshareConfigured 2 2 s) ∧
    ((∃ idx, correlating_index
        { table := [0, 1, 2, 3], mask := 3, bits := 1, n_bits := 2, max_val := 3,
          threshold := 2, history_bits := 1, history := 1 } 5 = some idx ∧
        idx < 2 ^ (1 + 1)) ∧
      ([0, 1, 2, 3] : List Nat).length = 2 ^ (1 + 1) ∧
      (∃ r, correlating_predictor_predict
        { table := [0, 1, 2, 3], mask := 3, bits := 1, n_bits := 2, max_val := 3,
          threshold := 2, history_bits := 1, history := 1 } 5 = some r) ∧
      ∃ s, correlating_predictor_train
        { table := [0, 1, 2, 3], mask := 3, bits := 1, n_bits := 2, max_val := 3,
          threshold := 2, history_bits := 1, history := 1 } 5 1 = some s ∧
        CorrelatingConfigured 1 1 s) ∧
    (5 &&& 1 < 2 ^ 1 ∧ ([0, 3] : List Nat).length = 2 ^ 1 ∧
      (∃ idx, local_pht_index
        { lht := [0, 3], lht_mask := 1, lht_bits := 1, pht := [1, 1, 1, 2], pht_mask := 3,
          pht_bits := 2, history_bits := 2, history_mask := 3 } 5 = some idx ∧
        idx < 2 ^ 2) ∧
      ([1, 1, 1, 2] : List Nat).length = 2 ^ 2 ∧
      (∃ r, local_predictor_predict
        { lht := [0, 3], lht_mask := 1, lht_bits := 1, pht := [1, 1, 1, 2], pht_mask := 3,
          pht_bits := 2, history_bits := 2, history_mask := 3 } 5 = some r) ∧
      ∃ s, local_predictor_train
        { lht := [0, 3], lht_mask := 1, lht_bits := 1, pht := [1, 1, 1, 2], pht_mask := 3,
          pht_bits := 2, history_bits := 2, history_mask := 3 } 5 1 = some s ∧
        LocalConfigured 1 2 s) ∧
    (5 &&& 1 < 2 ^ 1 ∧ ([1, 2] : List Nat).length = 2 ^ 1 ∧
      (∃ r s, tournament_predictor_predict
        { selector_table := [1, 2], selector_mask := 1, selector_bits := 1,
          initialized := true, last_bimodal_pred := 0, last_gshare_pred := 0, last_pc := 0,
          bimodal := { table := [1, 3], mask := 1, bits := 1, n_bits := 2, max_val := 3,
                       threshold := 2 },
          gshare := { pht := [1, 2, 1, 1], pht_size := 4, pht_mask := 3, global_history := 2,
                      history_mask := 3, history_bits := 2 } } 5 =
          some (r, s) ∧ TournamentConfigured s ∧ s.selector_mask = 1) ∧
      ∃ s, tournament_predictor_train
        { selector_table := [1, 2], selector_mask := 1, selector_bits := 1,
          initialized := true, last_bimodal_pred := 0, last_gshare_pred := 0, last_pc := 0,
          bimodal := { table := [1, 3], mask := 1, bits := 1, n_bits := 2, max_val := 3,
                       threshold := 2 },
          gshare := { pht := [1, 2, 1, 1], pht_size := 4, pht_mask := 3, global_history := 2,
                      history_mask := 3, history_bits := 2 } } 5 1 =
          some s ∧ TournamentConfigured s ∧ s.selector_mask = 1) ∧
    (5 &&& 1 < 2 ^ 1 ∧ ([[0, 0, 0], [1, -2, 4]] : List (List Int)).length = 2 ^ 1 ∧
      (∀ w ∈ ([[0, 0, 0], [1, -2, 4]] : List (List Int)), ∀ i, i < (2 : Int).toNat →
        i < ([1, -1] : List Int).length ∧ i + 1 < w.length) ∧
      (0 : Int).toNat < ([1, -1] : List Int).length ∧
      (∃ s, perceptron_predictor_update_history
        { num_perceptrons := 2, history_len := 2, weight_bits := 8, threshold := 10,
          table_mask := 1, perceptron_table := [[0, 0, 0], [1, -2, 4]],
          global_history := [1, -1], history_index := 0, max_weight := 127,
          min_weight := -128 } 1 = some s ∧
        PerceptronConfigured s ∧ PerceptronSaturated s ∧ PerceptronHistoryOk s ∧
        0 ≤ s.history_index ∧ s.history_index < s.history_len) ∧
      (((2 : Int) + 1) * 2 ^ ((8 : Int) - 1).toNat < 2 ^ 31 →
        (∃ r, perceptron_predictor_predict
          { num_perceptrons := 2, history_len := 2, weight_bits := 8, threshold := 10,
            table_mask := 1, perceptron_table := [[0, 0, 0], [1, -2, 4]],
            global_history := [1, -1], history_index := 0, max_weight := 127,
            min_weight := -128 } 5 = some r) ∧
        ∃ s, perceptron_predictor_train
          { num_perceptrons := 2, history_len := 2, weight_bits := 8, threshold := 10,
            table_mask := 1, perceptron_table := [[0, 0, 0], [1, -2, 4]],
            global_history := [1, -1], history_index := 0, max_weight := 127,
            min_weight := -128 } 5 1 = some s ∧
          PerceptronConfigured s ∧ PerceptronSaturated s ∧ PerceptronHistoryOk s)) ∧
    (tage_BI 5 < 2 ^ 13 ∧ tage_predictor_init.btable.length = 2 ^ 13 ∧
      (∀ bank, 1 ≤ bank → bank ≤ NHIST → ∃ idx size,
        gindex wide_hw tage_predictor_init 5 bank = some idx ∧
          tage_predictor_init.SizeTable[bank]? = some size ∧
          idx < size ∧ (tage_gtable tage_predictor_init bank).length = size) ∧
      (∃ r, tage_predictor_predict wide_hw tage_predictor_init 5 = some r) ∧
      ∃ s, tage_predictor_train wide_hw tage_predictor_init 5 1 = some s ∧
        TageReachable wide_hw s)) ∧
    ((∃ r, perceptron_predictor_predict
        { num_perceptrons := 2, history_len := 2, weight_bits := 8, threshold := 10,
          table_mask := 1, perceptron_table := [[0, 0, 0], [1, -2, 4]],
          global_history := [1, -1], history_index := 0, max_weight := 127,
          min_weight := -128 } 5 = some r) ∧
      ∃ s, perceptron_predictor_train
        { num_perceptrons := 2, history_len := 2, weight_bits := 8, threshold := 10,
          table_mask := 1, perceptron_table := [[0, 0, 0], [1, -2, 4]],
          global_history := [1, -1], history_index := 0, max_weight := 127,
          min_weight := -128 } 5 1 = some s ∧
        PerceptronConfigured s ∧ PerceptronSaturated s ∧ PerceptronHistoryOk s) :=
  have h := predict_train_index_bounds 2 1 2 2 1 1 1 2 1 1 wide_hw
    { table := [0, 1, 0, 0], mask := 3, bits := 2 }
    { table := [1, 3], mask := 1, bits := 1, n_bits := 2, max_val := 3, threshold := 2 }
    { pht := [1, 2, 1, 1], pht_size := 4, pht_mask := 3, global_history := 2,
      history_mask := 3, history_bits := 2 }
    { table := [0, 1, 2, 3], mask := 3, bits := 1, n_bits := 2, max_val := 3,
      threshold := 2, history_bits := 1, history := 1 }
    { lht := [0, 3], lht_mask := 1, lht_bits := 1, pht := [1, 1, 1, 2], pht_mask := 3,
      pht_bits := 2, history_bits := 2, history_mask := 3 }
    { selector_table := [1, 2], selector_mask := 1, selector_bits := 1,
      initialized := true, last_bimodal_pred := 0, last_gshare_pred := 0, last_pc := 0,
      bimodal := { table := [1, 3], mask := 1, bits := 1, n_bits := 2, max_val := 3,
                   threshold := 2 },
      gshare := { pht := [1, 2, 1, 1], pht_size := 4, pht_mask := 3, global_history := 2,
                  history_mask := 3, history_bits := 2 } }
    { num_perceptrons := 2, history_len := 2, weight_bits := 8, threshold := 10,
      table_mask := 1, perceptron_table := [[0, 0, 0], [1, -2, 4]],
      global_history := [1, -1], history_index := 0, max_weight := 127,
      min_weight := -128 }
    tage_predictor_init 5 1
    ⟨by decide, by decide⟩ ⟨by decide, by decide, by decide, by decide⟩
    ⟨by decide, by decide, by decide, by decide⟩
    ⟨rfl, rfl, by decide, by decide, by decide, by decide, by decide⟩
    ⟨by decide, by decide, by decide, by decide⟩
    ⟨by decide, by decide, by decide, by decide, by decide, by decide, by decide⟩ (by decide)
    ⟨by decide, by decide, by decide, by decide⟩
    ⟨by decide, by decide, by decide, by decide, by decide⟩
    ⟨by decide, by decide, by decide⟩ (by decide) (by decide)
    ⟨[], rfl⟩
  ⟨h, h.2.2.2.2.2.2.1.2.2.2.2.2 (by decide)⟩

/-! ### The TAGE predictor: trained states -/

theorem tage_sim_lookup (wide : Int → Nat) (sp : TageSparse) (PC bank : Nat) :
    tage_lookup wide (tage_dense sp) PC bank = tage_lookup_sp wide sp PC bank := by
  simp only [tage_lookup, tage_lookup_sp, tage_dense_gindex, tage_dense_gtag, tage_dense_read]

/-- A run evaluated on the sparse representation gives a reachable state. -/
theorem tage_sparse_reachable (wide : Int → Nat) (calls : List (Nat × Nat)) (sp : TageSparse)
    (h : tage_train_seq_sp wide tage_sparse_init calls = some sp) :
    tage_train_seq wide tage_predictor_init calls = some (tage_dense sp) ∧
      TageReachable wide (tage_dense sp) := by
  have e : tage_train_seq wide tage_predictor_init calls = some (tage_dense sp) := by
    rw [tage_run_sparse, h]; rfl
  exact ⟨e, calls, e⟩

set_option maxRecDepth 100000 in
/-- The state after `tage_priority_setup`, evaluated on the sparse representation: the
provider bank for `PC = 30`, the lookups of banks 13 and 6 and the bimodal entry. -/
theorem tage_priority_sparse_eval :
    (tage_train_seq_sp wide_hw tage_sparse_init tage_priority_setup).map (fun sp =>
      (tage_find_hit_sp wide_hw sp 30 NHIST, tage_lookup_sp wide_hw sp 30 13,
        tage_lookup_sp wide_hw sp 30 6, tage_sparse_bread sp (tage_BI 30))) =
      some (some 13, some ({ ctr := -1, tag := 0, u := 1 }, 0),
        some ({ ctr := 1, tag := 0, u := 1 }, 0), some { pred := 0, hyst := 1 }) := by
  decide!

/-- Witness of C13: after the five train calls of `tage_priority_setup`, for `PC = 30` bank
13 matches with counter -1 and no higher bank matches, bank 6 matches too with counter
1, and the bimodal entry has `pred = 0`: the lower bank and the bimodal table both say
taken, and `tage_predictor_predict(30)` returns 0, the sign test of bank 13. -/
theorem tage_longest_match_witness :
    ∃ s, tage_train_seq wide_hw tage_predictor_init tage_priority_setup = some s ∧
      TageConfigured s ∧
      tage_hit wide_hw s 30 13 { ctr := -1, tag := 0, u := 1 } ∧
      tage_hit wide_hw s 30 6 { ctr := 1, tag := 0, u := 1 } ∧
      (∀ j e1, 13 < j → j ≤ NHIST → ¬ tage_hit wide_hw s 30 j e1) ∧
      s.btable[(30 ^^^ (30 >>> 2)) &&& (2 ^ 13 - 1)]? = some { pred := 0, hyst := 1 } ∧
      tage_predictor_predict wide_hw s 30 = some 0 := by
  obtain ⟨sp, hsp, hv⟩ := Option.map_eq_some'.mp tage_priority_sparse_eval
  simp only [Prod.mk.injEq] at hv
  obtain ⟨hf, h13, h6, hb⟩ := hv
  obtain ⟨hrun, hr⟩ := tage_sparse_reachable wide_hw _ sp hsp
  have hc := (tage_reachable_configured wide_hw _ hr).1
  rw [← tage_sim_find_hit] at hf
  rw [← tage_sim_lookup] at h13 h6
  rw [← tage_dense_bread] at hb
  have hit13 : tage_hit wide_hw (tage_dense sp) 30 13 { ctr := -1, tag := 0, u := 1 } :=
    ⟨0, h13, rfl⟩
  have hit6 : tage_hit wide_hw (tage_dense sp) 30 6 { ctr := 1, tag := 0, u := 1 } :=
    ⟨0, h6, rfl⟩
  obtain ⟨h, hf2, _, _, hpos⟩ := tage_find_hit_spec wide_hw _ hc 30 18 (le_refl _)
  have hf1 : tage_find_hit wide_hw (tage_dense sp) 30 18 = some 13 := hf
  rw [hf1] at hf2
  cases hf2
  have hno : ∀ j e1, 13 < j → j ≤ NHIST → ¬ tage_hit wide_hw (tage_dense sp) 30 j e1 :=
    fun j e1 hj hj18 => (hpos (by decide)).2 j e1 hj hj18
  exact ⟨tage_dense sp, hrun, hc, hit13, hit6, hno, hb,
    (tage_longest_match wide_hw (tage_dense sp) hc 30).2.1 13 _ (by decide) (by decide)
      hit13 hno⟩

theorem option_map_some_eq {α β : Type} (x : Option α) (f : α → β) (a : α) (b : β)
    (h1 : x = some a) (h2 : x.map f = some b) : f a = b := by
  rw [h1] at h2
  exact Option.some.inj h2

set_option synthInstance.maxSize 2048 in
set_option maxRecDepth 100000 in
/-- The state after `tage_history_setup`, evaluated on the sparse representation: the
folded histories of banks 1, 9, 17 and 18, and for `PC = 1429166` the provider bank and
the lookups of banks 17 and 18. -/
theorem tage_history_sparse_eval :
    (tage_train_seq_sp wide_hw tage_sparse_init tage_history_setup).map (fun sp =>
      (((sp.core.ch_i[1]?).map (fun f => f.comp), (sp.core.ch_t[1]?).map (fun f => f.comp),
        (sp.core.ch_i[9]?).map (fun f => f.comp), (sp.core.ch_t[9]?).map (fun f => f.comp)),
       ((sp.core.ch_i[17]?).map (fun f => f.comp), (sp.core.ch_t[17]?).map (fun f => f.comp)),
       (tage_find_hit_sp wide_hw sp 1429166 NHIST, gindex wide_hw sp.core 1429166 17,
        tage_lookup_sp wide_hw sp 1429166 17, tage_lookup_sp wide_hw sp 1429166 18))) =
      some ((some 366, some 110, some 565, some 3438), (some 985, some 3333),
        (some 18, some 4, some ({ ctr := -1, tag := 0, u := 1 }, 0),
          some ({ ctr := -1, tag := 0, u := 1 }, 0))) := by
  decide!

/-- Witness of C31: the state after the twelve train calls of `tage_history_setup`, banks
1 and 9.  The folded histories are `ch_i[1].comp = 366`, `ch_t[1].comp = 110`,
`ch_i[9].comp = 565` and `ch_t[9].comp = 3438`; the first three have been shifted twelve
times in a width of 10, 8 and 10 bits, so they are values the mask of
`update_folded_history` left. -/
theorem tage_folded_width_witness :
    ∃ s, tage_train_seq wide_hw tage_predictor_init tage_history_setup = some s ∧
      (∃ fi ft, s.ch_i[1]? = some fi ∧ s.ch_t[1]? = some ft ∧
        fi.comp = 366 ∧ ft.comp = 110 ∧
        s.TB[1]? = some (if 1 < 9 then 8 else 12) ∧
        fi.comp < 2 ^ 10 ∧ ft.comp < 2 ^ (if 1 < 9 then 8 else 12) ∧
        ∀ PC, ∃ tag, gtag s PC 1 = some tag ∧ tag < 2 ^ (if 1 < 9 then 8 else 12)) ∧
      (∃ fi ft, s.ch_i[9]? = some fi ∧ s.ch_t[9]? = some ft ∧
        fi.comp = 565 ∧ ft.comp = 3438 ∧
        s.TB[9]? = some (if 9 < 9 then 8 else 12) ∧
        fi.comp < 2 ^ 10 ∧ ft.comp < 2 ^ (if 9 < 9 then 8 else 12) ∧
        ∀ PC, ∃ tag, gtag s PC 9 = some tag ∧ tag < 2 ^ (if 9 < 9 then 8 else 12)) := by
  obtain ⟨sp, hsp, hv⟩ := Option.map_eq_some'.mp tage_history_sparse_eval
  simp only [Prod.mk.injEq] at hv
  obtain ⟨⟨hi1, ht1, hi9, ht9⟩, _, _⟩ := hv
  obtain ⟨hrun, hr⟩ := tage_sparse_reachable wide_hw _ sp hsp
  obtain ⟨fi1, ft1, a1, a2, a3, a4, a5, a6⟩ :=
    tage_folded_width wide_hw (tage_dense sp) hr 1 (by decide) (by decide)
  obtain ⟨fi9, ft9, b1, b2, b3, b4, b5, b6⟩ :=
    tage_folded_width wide_hw (tage_dense sp) hr 9 (by decide) (by decide)
  rw [tage_dense_ch_i] at a1 b1
  rw [tage_dense_ch_t] at a2 b2
  exact ⟨tage_dense sp, hrun,
    ⟨fi1, ft1, a1, a2, option_map_some_eq _ _ _ _ a1 hi1, option_map_some_eq _ _ _ _ a2 ht1,
      a3, a4, a5, a6⟩,
    ⟨fi9, ft9, b1, b2, option_map_some_eq _ _ _ _ b1 hi9, option_map_some_eq _ _ _ _ b2 ht9,
      b3, b4, b5, b6⟩⟩

/-- Witness of C35: the state after the twelve train calls of `tage_history_setup`.  Banks
17 and 18 have the same folded histories, `comp = 985` for the index and `comp = 3333` for
the tag; for `PC = 1429166` both compute index 4 of the high table and both match the
entry `(ctr -1, tag 0, u 1)` written there by an earlier call, and the search returns bank
18, not 17. -/
theorem tage_banks_17_18_coincide_witness :
    ∃ s, tage_train_seq wide_hw tage_predictor_init tage_history_setup = some s ∧
      s.ch_i[17]? = s.ch_i[18]? ∧ s.ch_t[17]? = s.ch_t[18]? ∧
      (s.ch_i[17]?).map (fun f => f.comp) = some 985 ∧
      (s.ch_t[17]?).map (fun f => f.comp) = some 3333 ∧
      gindex wide_hw s 1429166 17 = some 4 ∧ gindex wide_hw s 1429166 18 = some 4 ∧
      gtag s 1429166 17 = gtag s 1429166 18 ∧
      tage_hit wide_hw s 1429166 17 { ctr := -1, tag := 0, u := 1 } ∧
      tage_hit wide_hw s 1429166 18 { ctr := -1, tag := 0, u := 1 } ∧
      tage_find_hit wide_hw s 1429166 NHIST = some 18 ∧
      ∀ PC, tage_find_hit wide_hw s PC NHIST ≠ some 17 := by
  obtain ⟨sp, hsp, hv⟩ := Option.map_eq_some'.mp tage_history_sparse_eval
  simp only [Prod.mk.injEq] at hv
  obtain ⟨_, ⟨hi17, ht17⟩, hf, hg, h17, h18⟩ := hv
  obtain ⟨hrun, hr⟩ := tage_sparse_reachable wide_hw _ sp hsp
  rw [← tage_sim_find_hit] at hf
  rw [← tage_dense_gindex] at hg
  rw [← tage_sim_lookup] at h17 h18
  rw [← tage_dense_ch_i] at hi17
  rw [← tage_dense_ch_t] at ht17
  obtain ⟨_, _, _, _, _, c1, c2, c3⟩ := tage_banks_17_18_coincide wide_hw (tage_dense sp) hr
  obtain ⟨g1, g2, _, _⟩ := c3 1429166
  exact ⟨tage_dense sp, hrun, c1, c2, hi17, ht17, hg, g1 ▸ hg, g2, ⟨0, h17, rfl⟩,
    ⟨0, h18, rfl⟩, hf, fun PC => (c3 PC).2.2.1⟩

set_option synthInstance.maxSize 2048 in
set_option maxRecDepth 100000 in
/-- The state after `tage_priority_setup`, evaluated on the sparse representation: the
global history, the folded index histories of banks 3 and 12, two indices, two entries
written by the run and the presence of entries at indices 3089 and 5151. -/
theorem tage_index_sparse_eval :
    (tage_train_seq_sp wide_hw tage_sparse_init tage_priority_setup).map (fun sp =>
      ((sp.core.ghist, (sp.core.ch_i[3]?).map (fun f => f.comp),
        (sp.core.ch_i[12]?).map (fun f => f.comp)),
       (gindex wide_hw sp.core 6 3, gindex wide_hw sp.core 3 12),
       (tage_sparse_read sp 1 4100, tage_sparse_read sp 9 4),
       ((tage_sparse_read sp 1 3089).isSome, (tage_sparse_read sp 9 5151).isSome))) =
      some ((26, some 23, some 28), (some 17, some 1055),
        (some { ctr := 1, tag := 0, u := 1 }, some { ctr := -1, tag := 0, u := 1 }),
        (true, true)) := by
  decide!

/-- Witness of C36: the state after the five train calls of `tage_priority_setup`, with
`ghist = 26`, `ch_i[3].comp = 23` and `ch_i[12].comp = 28`.  For `PC = 6` and bank 3 the
hash is `6 XOR 23 = 17` and `T = (6 XOR 26) mod 5 = 3`, so the sum is `17 + 3072 = 3089`
with bits 10 and 11 set, and the mask 5119 leaves index 17.  For `PC = 3` and bank 12 the
hash is `3 XOR 28 = 31` and `T = (3 XOR 26) mod 10 = 5`, so the sum is `31 + 5120 = 5151`
with bit 12 set, and the mask 10239 leaves index 1055.  The run has written the entries at
index 4100 of the low table and at index 4 of the high table, and the entries at the
indices 3089 and 5151, which no `gindex` value reaches, still hold the zero entry. -/
theorem tage_index_unreachable_part_witness :
    ∃ s, tage_train_seq wide_hw tage_predictor_init tage_priority_setup = some s ∧
      s.ghist = 26 ∧ (s.ch_i[3]?).map (fun f => f.comp) = some 23 ∧
      (s.ch_i[12]?).map (fun f => f.comp) = some 28 ∧
      (gindex wide_hw s 6 3 = some 17 ∧
        (17 : Nat).testBit 10 = false ∧ (17 : Nat).testBit 11 = false ∧ 17 < 5120 ∧
        ∃ hi lo, hi < 2 ∧ lo < 1024 ∧ 17 = 4096 * hi + lo) ∧
      (gindex wide_hw s 3 12 = some 1055 ∧
        (1055 : Nat).testBit 11 = false ∧ (1055 : Nat).testBit 12 = false ∧ 1055 < 10240 ∧
        ∃ hi lo, hi < 2 ∧ lo < 2048 ∧ 1055 = 8192 * hi + lo) ∧
      s.gtable_low[4100]? = some { ctr := 1, tag := 0, u := 1 } ∧
      s.gtable_high[4]? = some { ctr := -1, tag := 0, u := 1 } ∧
      s.gtable_low[3089]? = some { ctr := 0, tag := 0, u := 0 } ∧
      s.gtable_high[5151]? = some { ctr := 0, tag := 0, u := 0 } := by
  obtain ⟨sp, hsp, hv⟩ := Option.map_eq_some'.mp tage_index_sparse_eval
  simp only [Prod.mk.injEq] at hv
  obtain ⟨⟨hgh, hc3, hc12⟩, ⟨hg3, hg12⟩, ⟨hw1, hw2⟩, ⟨hs1, hs2⟩⟩ := hv
  obtain ⟨hrun, hr⟩ := tage_sparse_reachable wide_hw _ sp hsp
  rw [← tage_dense_gindex] at hg3 hg12
  rw [← tage_dense_read] at hw1 hw2 hs1 hs2
  obtain ⟨t1, t2, t3⟩ := tage_index_unreachable_part wide_hw (tage_dense sp) hr
  obtain ⟨i3, e3, p3, _⟩ := t1 6 3 (by decide) (by decide)
  obtain ⟨i12, e12, _, p12⟩ := t1 3 12 (by decide) (by decide)
  rw [hg3] at e3
  rw [hg12] at e12
  cases e3
  cases e12
  obtain ⟨z1, hz1⟩ := Option.isSome_iff_exists.mp hs1
  obtain ⟨z2, hz2⟩ := Option.isSome_iff_exists.mp hs2
  have hz1a : (tage_dense sp).gtable_low[3089]? = some z1 := hz1
  have hz2a : (tage_dense sp).gtable_high[5151]? = some z2 := hz2
  have q1 := t2 3089 z1 hz1a (by decide)
  have q2 := t3 5151 z2 hz2a (by decide)
  rw [q1] at hz1a
  rw [q2] at hz2a
  exact ⟨tage_dense sp, hrun, hgh, hc3, hc12, ⟨hg3, p3 (by decide)⟩, ⟨hg12, p12 (by decide)⟩,
    hw1, hw2, hz1a, hz2a⟩

end Cbp
